import Mathlib

/-!
# ycmd.c: the authenticated completion-server client of nano

A shallow embedding of `src/ycmd.c`.

* C strings are lists of byte values (`Nat`, each below 256).  A list stands
  for the memory a `char *` addresses, and a NUL terminator follows its last
  byte; `strlen`, `strcmp` and `strstr` stop at the first NUL as in C.
* Functions that change the globals or call the host or the operating system
  take the state `World` and return the state after the call; what they do
  to their surroundings is appended to `World.trace`.
* Calls into libraries that are not part of the repository (the crypto
  libraries, neon, nxjson, libc) are parameters (`Env`) or outcomes supplied
  by the environment (`Response`, `StartOutcomes`).  Macros of the missing
  headers are fields of `Env`.
* A result of `none` is a call that does not return: a dereferenced NULL
  pointer, a loop that does not end, or the child side of `fork`.
* Allocation is taken to succeed except where the source tests for it.

Definitions come first, then the theorems.
-/

namespace Ycmd

/-! ## C strings -/

/-- Bytes of an ASCII string literal of the source. -/
def ascii (s : String) : List Nat := s.toList.map Char.toNat

/-- The predicate that a buffer holds no NUL byte. -/
def NulFree (s : List Nat) : Prop := ∀ b ∈ s, b ≠ 0

instance (s : List Nat) : Decidable (NulFree s) := by
  unfold NulFree; infer_instance

/-- `strlen`: the number of bytes before the first NUL. -/
def strlen : List Nat → Nat
  | [] => 0
  | b :: rest => if b = 0 then 0 else strlen rest + 1

/-- The text of a buffer: its first `strlen` bytes. -/
def cstr (s : List Nat) : List Nat := s.take (strlen s)

/-- `strcmp`, bytes compared as `unsigned char`, the terminator included. -/
def strcmp : List Nat → List Nat → Int
  | [], [] => 0
  | [], b :: _ => 0 - (b : Int)
  | a :: _, [] => (a : Int)
  | a :: as, b :: bs =>
    if a ≠ b then (a : Int) - (b : Int) else if a = 0 then 0 else strcmp as bs

/-! ## The crypto libraries (external) -/

/-- The operations the source takes from nettle, openssl or libgcrypt:
HMAC-SHA256 of a message under a key, and unwrapped base64. -/
structure CryptoLib where
  hmac_sha256 : List Nat → List Nat → List Nat
  base64 : List Nat → List Nat

/-- The contract of the library: a digest has 32 bytes, and base64 text has
no NUL byte. -/
def CryptoLib.WellFormed (L : CryptoLib) : Prop :=
  (∀ k m, (L.hmac_sha256 k m).length = 32) ∧ (∀ d, NulFree (L.base64 d))

/-- The crypto library chosen at build time (`USE_NETTLE`, `USE_OPENSSL`,
`USE_LIBGCRYPT`). -/
inductive SslLib where
  | nettle
  | openssl
  | libgcrypt
  deriving DecidableEq, Repr

/-- Modelled from the spec: `HMAC_SIZE` of the missing ycmd.h; the joined
input of three digests is 96 bytes. -/
def HMAC_SIZE : Nat := 32

/-- Modelled from the spec: `SECRET_KEY_LENGTH` of the missing ycmd.h; the
secret is 16 raw bytes. -/
def SECRET_KEY_LENGTH : Nat := 16

/-- The nettle context `struct hmac_sha256_ctx`: the key and the message
bytes fed so far. -/
structure hmac_sha256_ctx where
  key : List Nat
  data : List Nat

def hmac_sha256_set_key (length : Nat) (key : List Nat) : hmac_sha256_ctx :=
  { key := key.take length, data := [] }

def hmac_sha256_update (ctx : hmac_sha256_ctx) (length : Nat) (data : List Nat) :
    hmac_sha256_ctx :=
  { ctx with data := ctx.data ++ data.take length }

/-- The nettle digest call writes `length` bytes of the digest and resets the
context for a new message under the same key. -/
def hmac_sha256_digest (L : CryptoLib) (ctx : hmac_sha256_ctx) (length : Nat) :
    hmac_sha256_ctx × List Nat :=
  ({ ctx with data := [] }, (L.hmac_sha256 ctx.key ctx.data).take length)

/-- The libgcrypt handle `gcry_mac_hd_t`. -/
structure gcry_mac_hd where
  key : List Nat
  data : List Nat

def gcry_mac_open : gcry_mac_hd := { key := [], data := [] }

def gcry_mac_setkey (hd : gcry_mac_hd) (key : List Nat) (keylen : Nat) : gcry_mac_hd :=
  { hd with key := key.take keylen }

def gcry_mac_write (hd : gcry_mac_hd) (buf : List Nat) (buflen : Nat) : gcry_mac_hd :=
  { hd with data := hd.data ++ buf.take buflen }

def gcry_mac_read (L : CryptoLib) (hd : gcry_mac_hd) (length : Nat) : List Nat :=
  (L.hmac_sha256 hd.key hd.data).take length

def gcry_mac_reset (hd : gcry_mac_hd) : gcry_mac_hd := { hd with data := [] }

/-- The openssl one-shot `HMAC(EVP_sha256(), key, key_len, d, n, md, NULL)`. -/
def HMAC (L : CryptoLib) (key : List Nat) (key_len : Nat) (d : List Nat) (n : Nat) : List Nat :=
  L.hmac_sha256 (key.take key_len) (d.take n)

/-- `ycmd_compute_request` under nettle. -/
def ycmd_compute_request_nettle (L : CryptoLib) (secret_key_raw method path body : List Nat) :
    List Nat :=
  let hmac_ctx := hmac_sha256_set_key SECRET_KEY_LENGTH secret_key_raw
  let hmac_ctx := hmac_sha256_update hmac_ctx (strlen method) method
  let (hmac_ctx, j0) := hmac_sha256_digest L hmac_ctx HMAC_SIZE
  let hmac_ctx := hmac_sha256_update hmac_ctx (strlen path) path
  let (hmac_ctx, j1) := hmac_sha256_digest L hmac_ctx HMAC_SIZE
  let hmac_ctx := hmac_sha256_update hmac_ctx (strlen body) body
  let (hmac_ctx, j2) := hmac_sha256_digest L hmac_ctx HMAC_SIZE
  let join := j0 ++ j1 ++ j2
  let hmac_ctx := hmac_sha256_update hmac_ctx (HMAC_SIZE * 3) join
  let (_, hmac_request) := hmac_sha256_digest L hmac_ctx HMAC_SIZE
  L.base64 (hmac_request.take HMAC_SIZE)

/-- `ycmd_compute_request` under openssl. -/
def ycmd_compute_request_openssl (L : CryptoLib) (secret_key_raw method path body : List Nat) :
    List Nat :=
  let j0 := HMAC L secret_key_raw SECRET_KEY_LENGTH method (strlen method)
  let j1 := HMAC L secret_key_raw SECRET_KEY_LENGTH path (strlen path)
  let j2 := HMAC L secret_key_raw SECRET_KEY_LENGTH body (strlen body)
  let join := j0 ++ j1 ++ j2
  let digest_join := HMAC L secret_key_raw SECRET_KEY_LENGTH join (HMAC_SIZE * 3)
  L.base64 (digest_join.take HMAC_SIZE)

/-- `ycmd_compute_request` under libgcrypt; the result is copied by `strcpy`. -/
def ycmd_compute_request_libgcrypt (L : CryptoLib) (secret_key_raw method path body : List Nat) :
    List Nat :=
  let hd := gcry_mac_open
  let hd := gcry_mac_setkey hd secret_key_raw SECRET_KEY_LENGTH
  let hd := gcry_mac_write hd method (strlen method)
  let j0 := gcry_mac_read L hd HMAC_SIZE
  let hd := gcry_mac_reset hd
  let hd := gcry_mac_write hd path (strlen path)
  let j1 := gcry_mac_read L hd HMAC_SIZE
  let hd := gcry_mac_reset hd
  let hd := gcry_mac_write hd body (strlen body)
  let j2 := gcry_mac_read L hd HMAC_SIZE
  let hd := gcry_mac_reset hd
  let join := j0 ++ j1 ++ j2
  let hd := gcry_mac_write hd join (HMAC_SIZE * 3)
  let digest_join := gcry_mac_read L hd HMAC_SIZE
  cstr (L.base64 (digest_join.take HMAC_SIZE))

/-- `ycmd_compute_request`: the base64 request digest for the build's library. -/
def ycmd_compute_request (L : CryptoLib) (v : SslLib) (secret_key_raw method path body : List Nat) :
    List Nat :=
  match v with
  | .nettle => ycmd_compute_request_nettle L secret_key_raw method path body
  | .openssl => ycmd_compute_request_openssl L secret_key_raw method path body
  | .libgcrypt => ycmd_compute_request_libgcrypt L secret_key_raw method path body

/-- `ycmd_compute_response`: base64 of the HMAC of the first `strlen` bytes of
the response body, for the build's library. -/
def ycmd_compute_response (L : CryptoLib) (v : SslLib) (secret_key_raw response_body : List Nat) :
    List Nat :=
  match v with
  | .nettle =>
    let hmac_ctx := hmac_sha256_set_key SECRET_KEY_LENGTH secret_key_raw
    let hmac_ctx := hmac_sha256_update hmac_ctx (strlen response_body) response_body
    let (_, hmac_response) := hmac_sha256_digest L hmac_ctx HMAC_SIZE
    L.base64 (hmac_response.take HMAC_SIZE)
  | .openssl =>
    let response_digest :=
      HMAC L secret_key_raw SECRET_KEY_LENGTH response_body (strlen response_body)
    L.base64 (response_digest.take HMAC_SIZE)
  | .libgcrypt =>
    let hd := gcry_mac_open
    let hd := gcry_mac_setkey hd secret_key_raw SECRET_KEY_LENGTH
    let hd := gcry_mac_write hd response_body (strlen response_body)
    let response_digest := gcry_mac_read L hd HMAC_SIZE
    cstr (L.base64 (response_digest.take HMAC_SIZE))

/-- `ycmd_compare_hmac`: 1 is valid, 0 is invalid; a NULL remote value is a
fault in `strcmp`. -/
def ycmd_compare_hmac (remote_hmac : Option (List Nat)) (local_hmac : List Nat) : Option Int :=
  match remote_hmac with
  | none => none
  | some r => if strcmp r local_hmac = 0 then some 1 else some 0

/-! ## String helpers of the source -/

/-- The test that `needle` occurs at the head of `hay`. -/
def starts_with : List Nat → List Nat → Bool
  | _, [] => true
  | [], _ :: _ => false
  | h :: hs, n :: ns => h == n && starts_with hs ns

/-- The test that `needle` occurs somewhere in `hay`. -/
def occurs_in : List Nat → List Nat → Bool
  | [], needle => starts_with [] needle
  | h :: hs, needle => starts_with (h :: hs) needle || occurs_in hs needle

/-- `strstr(haystack, needle) != NULL`. -/
def strstr (haystack needle : List Nat) : Bool :=
  occurs_in (cstr haystack) (cstr needle)

/-- `strdup`: a copy of the text of the buffer. -/
def strdup (s : List Nat) : List Nat := cstr s

/-- The inner loop of `string_replace_gpl3`: starting from `j`, the number of
positions `j < lenf`, `i + j < lenb` with `p[i+j] == find[j]`, added to `cf`.
The first argument bounds the remaining iterations (`lenf - j`). -/
def count_cf (p find : List Nat) (lenb lenf i : Nat) : Nat → Nat → Nat → Nat
  | 0, _, cf => cf
  | n + 1, j, cf =>
    if j < lenf ∧ i + j < lenb then
      count_cf p find lenb lenf i n (j + 1)
        (if p.getD (i + j) 0 = find.getD j 0 then cf + 1 else cf)
    else cf

/-- The outer loop of `string_replace_gpl3`, from scan index `i` with output
`out`; `none` when the iterations allowed by the first argument run out. -/
def string_replace_loop (p find replace : List Nat) (lenb lenf lenr : Nat) :
    Nat → Nat → List Nat → Option (List Nat)
  | 0, _, _ => none
  | fuel + 1, i, out =>
    if i < lenb then
      if count_cf p find lenb lenf i lenf 0 0 = lenf then
        string_replace_loop p find replace lenb lenf lenr fuel (i + lenf)
          (out ++ replace.take lenr)
      else
        string_replace_loop p find replace lenb lenf lenr fuel (i + 1)
          (out ++ [p.getD i 0])
    else some out

/-- `string_replace_gpl3` run for at most `fuel` iterations of its outer loop. -/
def string_replace_gpl3_fuel (fuel : Nat) (buffer find replace : List Nat) :
    Option (List Nat) :=
  string_replace_loop buffer find replace (strlen buffer) (strlen find) (strlen replace)
    fuel 0 []

/-- `string_replace_gpl3`: every iteration on a non-empty `find` advances the
scan index, so `strlen buffer + 1` iterations decide the loop; `none` is a
loop that does not end. -/
def string_replace_gpl3 (buffer find replace : List Nat) : Option (List Nat) :=
  string_replace_gpl3_fuel (strlen buffer + 1) buffer find replace

/-- `string_replace_w`: replaces `*buffer` by the result; a NULL `replace`
faults in `strlen`. -/
def string_replace_w (buffer find : List Nat) (replace : Option (List Nat)) :
    Option (List Nat) :=
  match replace with
  | none => none
  | some r => string_replace_gpl3 buffer find r

/-- `snprintf(buf, size, "%d", n)`: the decimal text of `n`, cut to `size - 1`
bytes. -/
def snprintf_d (size : Nat) (n : Int) : List Nat :=
  (ascii (toString n)).take (size - 1)

/-! ## escape_json -/

/-- The `switch` of `escape_json`: the bytes appended for the byte `c`. -/
def escape_json_case (c : Nat) : List Nat :=
  match c with
  | 0x5c => ascii "\\\\"
  | 0x08 => ascii "\\b"
  | 0x09 => ascii "\\t"
  | 0x0a => ascii "\\n"
  | 0x0b => ascii "\\v"
  | 0x0c => ascii "\\f"
  | 0x0d => ascii "\\r"
  | 0x22 => ascii "\\\""
  | 0x2f => ascii "\\/"
  | 0x01 => ascii "\\u0001"
  | 0x02 => ascii "\\u0002"
  | 0x03 => ascii "\\u0003"
  | 0x04 => ascii "\\u0004"
  | 0x05 => ascii "\\u0005"
  | 0x06 => ascii "\\u0006"
  | 0x07 => ascii "\\u0007"
  | 0x0e => ascii "\\u000e"
  | 0x0f => ascii "\\u000f"
  | 0x10 => ascii "\\u0010"
  | 0x11 => ascii "\\u0011"
  | 0x12 => ascii "\\u0012"
  | 0x13 => ascii "\\u0013"
  | 0x14 => ascii "\\u0014"
  | 0x15 => ascii "\\u0015"
  | 0x16 => ascii "\\u0016"
  | 0x17 => ascii "\\u0017"
  | 0x18 => ascii "\\u0018"
  | 0x19 => ascii "\\u0019"
  | 0x1a => ascii "\\u001a"
  | 0x1b => ascii "\\u001b"
  | 0x1c => ascii "\\u001c"
  | 0x1d => ascii "\\u001d"
  | 0x1e => ascii "\\u001e"
  | 0x1f => ascii "\\u001f"
  | c => [c]

/-- The loop of `escape_json` over `p[0..len)`, appending to `out`. -/
def escape_json_loop : List Nat → List Nat → List Nat
  | [], out => out
  | c :: rest, out => escape_json_loop rest (out ++ escape_json_case c)

/-- `escape_json`: the new value of `*buffer` (allocation is taken to
succeed). -/
def escape_json (buffer : List Nat) : List Nat :=
  escape_json_loop (buffer.take (strlen buffer)) []

/-- A lowercase hexadecimal digit. -/
def hex_digit (n : Nat) : Nat := if n < 10 then 48 + n else 87 + n

/-- The per-byte image in the words of the specification: backslash, double
quote and forward slash take a backslash in front; backspace, tab, newline,
vertical tab, form feed and carriage return become `\b \t \n \v \f \r`; any
other byte in 0x01..0x1F becomes `\u00XX`; every other byte is copied. -/
def escape_image (c : Nat) : List Nat :=
  if c = 0x5c ∨ c = 0x22 ∨ c = 0x2f then [0x5c, c]
  else if c = 0x08 then [0x5c, 98]
  else if c = 0x09 then [0x5c, 116]
  else if c = 0x0a then [0x5c, 110]
  else if c = 0x0b then [0x5c, 118]
  else if c = 0x0c then [0x5c, 102]
  else if c = 0x0d then [0x5c, 114]
  else if 0x01 ≤ c ∧ c ≤ 0x1f then [0x5c, 117, 48, 48, hex_digit (c / 16), hex_digit (c % 16)]
  else [c]

/-! ## The JSON string grammar (RFC 8259, section 7) -/

/-- The value of a hexadecimal digit. -/
def hex_value (c : Nat) : Option Nat :=
  if 48 ≤ c ∧ c ≤ 57 then some (c - 48)
  else if 97 ≤ c ∧ c ≤ 102 then some (c - 87)
  else if 65 ≤ c ∧ c ≤ 70 then some (c - 55)
  else none

/-- UTF-8 bytes of a code point of the basic plane. -/
def utf8_bytes (n : Nat) : List Nat :=
  if n < 0x80 then [n]
  else if n < 0x800 then [0xc0 + n / 64, 0x80 + n % 64]
  else [0xe0 + n / 4096, 0x80 + n / 64 % 64, 0x80 + n % 64]

/-- The bytes denoted by the escape letter `e` of a two-character escape. -/
def json_escape_letter (e : Nat) : Option Nat :=
  if e = 0x22 then some 0x22
  else if e = 0x5c then some 0x5c
  else if e = 0x2f then some 0x2f
  else if e = 98 then some 0x08
  else if e = 102 then some 0x0c
  else if e = 110 then some 0x0a
  else if e = 114 then some 0x0d
  else if e = 116 then some 0x09
  else none

/-- Decoding of the characters of a JSON string after its opening quote: the
text must end with the closing quote; `none` when it is not a string of the
grammar.  The first argument bounds the number of characters. -/
def json_chars_decode : Nat → List Nat → Option (List Nat)
  | 0, _ => none
  | _ + 1, [] => none
  | n + 1, c :: rest =>
    if c = 0x22 then (if rest = [] then some [] else none)
    else if c = 0x5c then
      match rest with
      | [] => none
      | e :: rest1 =>
        if e = 117 then
          match rest1 with
          | h1 :: h2 :: h3 :: h4 :: rest2 =>
            match hex_value h1, hex_value h2, hex_value h3, hex_value h4 with
            | some a, some b, some c1, some d =>
              (json_chars_decode n rest2).map
                (fun t => utf8_bytes (a * 4096 + b * 256 + c1 * 16 + d) ++ t)
            | _, _, _, _ => none
          | _ => none
        else
          match json_escape_letter e with
          | some b => (json_chars_decode n rest1).map (fun t => b :: t)
          | none => none
    else if c < 0x20 then none
    else (json_chars_decode n rest).map (fun t => c :: t)

/-- Decoding of a JSON string literal, quotes included. -/
def json_string_decode (lit : List Nat) : Option (List Nat) :=
  match lit with
  | [] => none
  | q :: rest => if q = 0x22 then json_chars_decode (rest.length + 1) rest else none

/-- The JSON string literal built from escaped text. -/
def json_quote (escaped : List Nat) : List Nat := [0x22] ++ escaped ++ [0x22]

/-! ## neon requests and responses (external) -/

/-- A request handed to neon: what `ne_request_create`, the header and body
calls and `ne_begin_request` have fixed by the time it is dispatched. -/
structure Request where
  method : List Nat
  path : List Nat
  idempotent : Int
  headers : List (List Nat × List Nat)
  body : Option (List Nat)
  deriving DecidableEq, Repr

/-- One outcome of `ne_read_response_block`: bytes stored in the buffer (none
for a return of 0) together with the outcome of the `realloc` that follows,
or an error return. -/
inductive ReadResult where
  | block (bytes : List Nat) (realloc_ok : Bool)
  | error
  deriving DecidableEq, Repr

/-- What the environment answers to one dispatched request.  Modelled from
the platform: `ne_begin_request` returns `NE_OK`, which is 0, or one of the
positive `NE_*` codes, never a negative value.  `heap_after` is what the heap
holds right after the bytes read (see `response_body_memory`). -/
structure Response where
  begin_ret : Nat
  code : Int
  klass : Int
  reads : List ReadResult
  hmac_header : Option (List Nat)
  heap_after : List Nat
  deriving DecidableEq, Repr

/-- The loop of `_ne_read_response_body_full`: `acc` is the first `nread`
bytes of `response_body`; a read stores at most `chunksize` = 512 bytes; when
the outcomes are used up the next read returns 0. -/
def read_response_loop (klass : Int) : List ReadResult → List Nat → List Nat
  | [], acc => acc
  | r :: rest, acc =>
    if klass = 2 then
      match r with
      | .error => acc
      | .block bytes realloc_ok =>
        if ((bytes.take 512).length : Int) ≤ 0 then acc
        else if realloc_ok then read_response_loop klass rest (acc ++ bytes.take 512)
        else acc ++ bytes.take 512
    else acc

/-- `_ne_read_response_body_full`: the bytes accumulated in the returned
buffer, `nread` of them.  No statement stores a terminator after them. -/
def _ne_read_response_body_full (resp : Response) : List Nat :=
  read_response_loop resp.klass resp.reads []

/-- The bytes in memory from the pointer `_ne_read_response_body_full` returns
on, which is what its callers read with `strlen`, `strstr` and the JSON
parser.  The first block of 512 bytes is zeroed by
`memset(response_body,0,chunksize)` and `realloc` zeroes nothing: when fewer
than 512 bytes were accumulated a NUL follows them (the list ends there), and
from 512 bytes on they are followed by what the heap holds. -/
def response_body_memory (resp : Response) : List Nat :=
  if (_ne_read_response_body_full resp).length < 512 then _ne_read_response_body_full resp
  else _ne_read_response_body_full resp ++ resp.heap_after

/-! ## nxjson values (external) -/

inductive NxType where
  | null
  | object
  | array
  | string
  | integer
  | double
  | bool
  deriving DecidableEq, Repr

/-- A node `nx_json`: its type, key, text and integer value, and children. -/
inductive NxJson where
  | node (type : NxType) (key : Option (List Nat)) (text_value : Option (List Nat))
      (int_value : Int) (children : List NxJson)

def NxJson.key : NxJson → Option (List Nat)
  | .node _ k _ _ _ => k

def NxJson.text_value : NxJson → Option (List Nat)
  | .node _ _ t _ _ => t

def NxJson.int_value : NxJson → Int
  | .node _ _ _ i _ => i

def NxJson.children : NxJson → List NxJson
  | .node _ _ _ _ c => c

/-- The field `length` of a node: the number of its children. -/
def NxJson.length (j : NxJson) : Int := (j.children.length : Int)

/-- The node nxjson returns instead of NULL. -/
def NxJson.dummy : NxJson := .node .null none none 0 []

/-- `nx_json_get`: the child with the given key, the dummy node when there is
none or when `json` is NULL. -/
def nx_json_get (json : Option NxJson) (key : List Nat) : NxJson :=
  match json with
  | none => NxJson.dummy
  | some j =>
    match j.children.find? (fun c => decide (c.key = some key)) with
    | some c => c
    | none => NxJson.dummy

/-- `nx_json_item`: the child at index `idx`, the dummy node when there is
none. -/
def nx_json_item (json : NxJson) (idx : Nat) : NxJson :=
  json.children.getD idx NxJson.dummy

/-! ## Configuration and state -/

/-- What the source takes from headers and libraries outside the repository:
the crypto library and its build switch, the JSON parser, and the macros of
ycmd.h, config.h and nano.h. -/
structure Env where
  crypto : CryptoLib
  ssl : SslLib
  nx_json_parse_utf8 : List Nat → Option NxJson
  DIGITS_MAX : Nat
  MAIN_VISIBLE : Int
  MCODECOMPLETION : Nat
  MMAIN : Nat
  HTTP_HEADER_YCM_HMAC : List Nat
  IDLE_SUICIDE_SECONDS : Int
  GOCODE_PATH : List Nat
  GODEF_PATH : List Nat
  RUST_SRC_PATH : List Nat
  RACERD_PATH : List Nat
  PYTHON_PATH : List Nat
  YCMD_PATH : List Nat

/-- `SIGKILL`. -/
def SIGKILL : Nat := 9

/-- An entry `struct subnfunc` of the host's function list: the menus it
belongs to and its description, NULL or a string. -/
structure subnfunc where
  menus : Nat
  desc : Option (List Nat)
  deriving DecidableEq, Repr

/-- A neon session `ne_session`. -/
structure ne_session where
  scheme : List Nat
  hostname : List Nat
  port : Int
  read_timeout : Int
  deriving DecidableEq, Repr

/-- The global `ycmd_globals`. -/
structure YCMD_GLOBALS where
  session : Option ne_session
  scheme : List Nat
  hostname : List Nat
  port : Int
  child_pid : Int
  tcp_socket : Int
  secret_key_raw : List Nat
  secret_key_base64 : Option (List Nat)
  json : Option (List Nat)
  tmp_options_filename : List Nat
  running : Int
  connected : Int
  apply_column : Int
  clang_completer : Int
  deriving DecidableEq, Repr

/-- An effect of the client on its surroundings, in call order. -/
inductive Event where
  | request (r : Request)
  | kill (pid : Int) (sig : Nat)
  | unlink (path : List Nat)
  | close (fd : Int)
  | ne_close_connection
  | ne_session_destroy
  | fork (pid : Int) (argv : List (List Nat))
  | usleep (usec : Nat)
  | system (command : List Nat)
  | ycm_generate (filepath : List Nat) (content : Option (List Nat))
  | statusline (msg : List Nat)
  | blank_statusbar
  | bottombars (menu : Nat)
  | do_backspace
  | do_output (text : List Nat) (len : Nat)
  deriving DecidableEq, Repr

/-- The state the client works on: its globals, the host's function list
`allfuncs`, the cursor column `openfile->current_x`, the files that exist with
their contents, the working directory, and the effects so far. -/
structure World where
  ycmd_globals : YCMD_GLOBALS
  allfuncs : List subnfunc
  current_x : Int
  files : List (List Nat × List Nat)
  cwd : List Nat
  trace : List Event
  deriving DecidableEq, Repr

/-- Appends an effect to the trace. -/
def World.emit (w : World) (e : Event) : World := { w with trace := w.trace ++ [e] }

/-! ## Payload construction -/

/-- The literal `_json` of `ycmd_create_default_json`, one source line per line. -/
def default_json_template : List Nat := ascii (
  "\x7b" ++
  "  \"filepath_completion_use_working_dir\": 0," ++
  "  \"auto_trigger\": 1," ++
  "  \"min_num_of_chars_for_completion\": 2," ++
  "  \"min_num_identifier_candidate_chars\": 0," ++
  "  \"semantic_triggers\": \x7b\x7d," ++
  "  \"filetype_specific_completion_to_disable\": \x7b" ++
  "    \"gitcommit\": 1" ++
  "  \x7d," ++
  "  \"seed_identifiers_with_syntax\": 0," ++
  "  \"collect_identifiers_from_comments_and_strings\": 0," ++
  "  \"collect_identifiers_from_tags_files\": 0," ++
  "  \"max_num_identifier_candidates\": 10," ++
  "  \"extra_conf_globlist\": []," ++
  "  \"global_ycm_extra_conf\": \"\"," ++
  "  \"confirm_extra_conf\": 1," ++
  "  \"complete_in_comments\": 0," ++
  "  \"complete_in_strings\": 1," ++
  "  \"max_diagnostics_to_display\": 30," ++
  "  \"filetype_whitelist\": \x7b" ++
  "    \"*\": 1" ++
  "  \x7d," ++
  "  \"filetype_blacklist\": \x7b" ++
  "    \"tagbar\": 1," ++
  "    \"qf\": 1," ++
  "    \"notes\": 1," ++
  "    \"markdown\": 1," ++
  "    \"netrw\": 1," ++
  "    \"unite\": 1," ++
  "    \"text\": 1," ++
  "    \"vimwiki\": 1," ++
  "    \"pandoc\": 1," ++
  "    \"infolog\": 1," ++
  "    \"mail\": 1" ++
  "  \x7d," ++
  "  \"auto_start_csharp_server\": 1," ++
  "  \"auto_stop_csharp_server\": 1," ++
  "  \"use_ultisnips_completer\": 1," ++
  "  \"csharp_server_port\": 0," ++
  "  \"hmac_secret\": \"HMAC_SECRET\"," ++
  "  \"server_keep_logfiles\": 0," ++
  "  \"gocode_binary_path\": \"GOCODE_PATH\"," ++
  "  \"godef_binary_path\": \"GODEF_PATH\"," ++
  "  \"rust_src_path\": \"RUST_SRC_PATH\"," ++
  "  \"racerd_binary_path\": \"RACERD_PATH\"," ++
  "  \"python_binary_path\": \"PYTHON_PATH\"" ++
  "\x7d")

/-- The literal `_json` of `ycmd_json_event_notification`. -/
def event_notification_template : List Nat := ascii (
  "\x7b" ++
  "        \"column_num\": COLUMN_NUM," ++
  "        \"event_name\": \"EVENT_NAME\"," ++
  "        \"file_data\": \x7b" ++
  "\t\t\"FILEPATH\": \x7b" ++
  "                \"contents\": \"CONTENTS\"," ++
  "                \"filetypes\": [\"FILETYPES\"]" ++
  "        \t\x7d" ++
  "\t \x7d," ++
  "        \"filepath\": \"FILEPATH\"," ++
  "        \"line_num\": LINE_NUM" ++
  "\x7d")

/-- The literal `_json` of `ycmd_req_completions_suggestions`. -/
def completions_template : List Nat := ascii (
  "\x7b" ++
  "        \"line_num\": LINE_NUM," ++
  "        \"column_num\": COLUMN_NUM," ++
  "        \"filepath\": \"FILEPATH\"," ++
  "        \"file_data\": \x7b" ++
  "\t\t\"FILEPATH\": \x7b" ++
  "                \"contents\": \"CONTENTS\"," ++
  "                \"filetypes\": [\"FILETYPES\"]" ++
  "        \t\x7d" ++
  "\t \x7d," ++
  "        \"completer_target\": \"COMPLETER_TARGET\"" ++
  "\x7d")

/-- The literal `_json` of `_ycmd_req_simple_request`. -/
def simple_request_template : List Nat := ascii (
  "\x7b" ++
  "        \"line_num\": LINE_NUM," ++
  "        \"column_num\": COLUMN_NUM," ++
  "        \"filepath\": \"FILEPATH\"," ++
  "        \"file_data\": \x7b" ++
  "\t\t\"FILEPATH\": \x7b" ++
  "                \"contents\": \"CONTENTS\"," ++
  "                \"filetypes\": [\"FILETYPES\"]" ++
  "        \t\x7d" ++
  "\t \x7d" ++
  "\x7d")

/-- `_ycmd_get_filetype`: the tag written to the static buffer `type`; a NULL
`content` faults where it is searched. -/
def _ycmd_get_filetype (filepath : List Nat) (content : Option (List Nat)) :
    Option (List Nat) :=
  if strstr filepath (ascii ".cs") then some (ascii "cs")
  else if strstr filepath (ascii ".go") then some (ascii "go")
  else if strstr filepath (ascii ".rs") then some (ascii "rust")
  else if strstr filepath (ascii ".mm") then some (ascii "objcpp")
  else if strstr filepath (ascii ".m") then some (ascii "objc")
  else if strstr filepath (ascii ".cpp") || strstr filepath (ascii ".C")
      || strstr filepath (ascii ".cxx") then some (ascii "cpp")
  else if strstr filepath (ascii ".c") then some (ascii "c")
  else if strstr filepath (ascii ".hpp") then some (ascii "cpp")
  else if strstr filepath (ascii ".h") then
    match content with
    | none => none
    | some c =>
      if strstr c (ascii "using namespace") || strstr c (ascii "iostream")
          || strstr c (ascii "\tclass ") || strstr c (ascii " class ")
          || strstr c (ascii "private:") || strstr c (ascii "public:")
          || strstr c (ascii "protected:") then some (ascii "cpp")
      else some (ascii "c")
  else if strstr filepath (ascii ".js") then some (ascii "javascript")
  else if strstr filepath (ascii ".py") then some (ascii "python")
  else if strstr filepath (ascii ".ts") then some (ascii "typescript")
  else some []

/-- The text put in place of `FILEPATH` by `_ycmd_json_replace_file_data`:
`abs_filepath`, built from what `getcwd` returns, when `filepath[0] != '/'`,
and `filepath` otherwise. -/
def file_data_filepath (cwd filepath : List Nat) : List Nat :=
  if filepath.getD 0 0 ≠ 47 then cstr cwd ++ ascii "/" ++ cstr filepath else filepath

/-- `_ycmd_json_replace_file_data`: the new value of `*json`; `cwd` is what
`getcwd` returns. -/
def _ycmd_json_replace_file_data (cwd json filepath : List Nat) (content : Option (List Nat)) :
    Option (List Nat) := do
  let json ← string_replace_w json (ascii "FILEPATH") (some (file_data_filepath cwd filepath))
  let ft ← _ycmd_get_filetype filepath content
  let json ← string_replace_w json (ascii "FILETYPES") (some ft)
  string_replace_w json (ascii "CONTENTS") content

/-- The value of `columnnum+(ycmd_globals.clang_completer?0:1)`. -/
def column_sent (g : YCMD_GLOBALS) (columnnum : Int) : Int :=
  columnnum + (if g.clang_completer ≠ 0 then 0 else 1)

/-- The C value of a comparison. -/
def c_bool (p : Prop) [Decidable p] : Int := if p then 1 else 0

/-- The request the three POST builders create: not idempotent, with the
header `content-type: application/json`, the digest header computed by
`ycmd_compute_request(method, path, json)`, and the first `strlen(json)`
bytes of `json` as body. -/
def post_request (E : Env) (w : World) (method path json : List Nat) : Request :=
  { method := cstr method, path := cstr path, idempotent := 0,
    headers := [(ascii "content-type", ascii "application/json"),
      (E.HTTP_HEADER_YCM_HMAC,
        cstr (ycmd_compute_request E.crypto E.ssl w.ycmd_globals.secret_key_raw
          method path json))],
    body := some (json.take (strlen json)) }

/-- The body `json` built by `ycmd_json_event_notification` (lines 482-508). -/
def event_notification_body (E : Env) (w : World) (columnnum linenum : Int)
    (filepath eventname : List Nat) (content : Option (List Nat)) : Option (List Nat) := do
  let json := strdup event_notification_template
  let line_num := snprintf_d E.DIGITS_MAX linenum
  let column_num := snprintf_d E.DIGITS_MAX (column_sent w.ycmd_globals columnnum)
  let json ← string_replace_w json (ascii "COLUMN_NUM") (some column_num)
  let json ← string_replace_w json (ascii "EVENT_NAME") (some eventname)
  let json ← string_replace_w json (ascii "LINE_NUM") (some line_num)
  _ycmd_json_replace_file_data w.cwd json filepath content

/-- `ycmd_json_event_notification`: the world after the call and the value
returned. -/
def ycmd_json_event_notification (E : Env) (resp : Response) (columnnum linenum : Int)
    (filepath eventname : List Nat) (content : Option (List Nat)) (w : World) :
    Option (World × Int) := do
  let method := ascii "POST"
  let path := ascii "/event_notification"
  let json ← event_notification_body E w columnnum linenum filepath eventname content
  let w := w.emit (.request (post_request E w method path json))
  let status_code := resp.code
  some (w, c_bool (status_code = 200))

/-- `ycmd_rsp_is_healthy_simple`. -/
def ycmd_rsp_is_healthy_simple (E : Env) (resp : Response) (w : World) : World × Int :=
  let method := ascii "GET"
  let path := ascii "/healthy"
  let ycmd_b64_hmac :=
    ycmd_compute_request E.crypto E.ssl w.ycmd_globals.secret_key_raw method path []
  let request : Request :=
    { method := method, path := path, idempotent := 1,
      headers := [(E.HTTP_HEADER_YCM_HMAC, cstr ycmd_b64_hmac)],
      body := none }
  let w := w.emit (.request request)
  let status_code := resp.code
  (w, c_bool (status_code = 200))

/-- `ycmd_rsp_is_server_ready`: a response without the digest header faults
in the comparison. -/
def ycmd_rsp_is_server_ready (E : Env) (resp : Response) (filetype : List Nat) (w : World) :
    Option (World × Int) := do
  let method := ascii "GET"
  let path := strdup (ascii "/ready")
  let body := strdup (ascii "subserver=FILE_TYPE")
  let body ← string_replace_w body (ascii "FILE_TYPE") (some filetype)
  let ycmd_b64_hmac :=
    ycmd_compute_request E.crypto E.ssl w.ycmd_globals.secret_key_raw method path body
  let request : Request :=
    { method := method, path := path, idempotent := 1,
      headers := [(E.HTTP_HEADER_YCM_HMAC, cstr ycmd_b64_hmac)],
      body := some (body.take (strlen body)) }
  let w := w.emit (.request request)
  let not_compromised ←
    if resp.begin_ret ≥ 0 then
      let response_body := response_body_memory resp
      let hmac_local :=
        ycmd_compute_response E.crypto E.ssl w.ycmd_globals.secret_key_raw response_body
      ycmd_compare_hmac resp.hmac_header hmac_local
    else some 1
  let status_code := resp.code
  some (w, c_bool (status_code = 200 ∧ not_compromised ≠ 0))

/-- The body `json` built by `_ycmd_req_simple_request` (lines 954-977). -/
def simple_request_body (E : Env) (w : World) (linenum columnnum : Int) (filepath : List Nat)
    (content : Option (List Nat)) : Option (List Nat) := do
  let json := strdup simple_request_template
  let line_num := snprintf_d E.DIGITS_MAX linenum
  let column_num := snprintf_d E.DIGITS_MAX (column_sent w.ycmd_globals columnnum)
  let json ← string_replace_w json (ascii "LINE_NUM") (some line_num)
  let json ← string_replace_w json (ascii "COLUMN_NUM") (some column_num)
  _ycmd_json_replace_file_data w.cwd json filepath content

/-- `_ycmd_req_simple_request`. -/
def _ycmd_req_simple_request (E : Env) (resp : Response) (method path : List Nat)
    (linenum columnnum : Int) (filepath : List Nat) (content : Option (List Nat)) (w : World) :
    Option (World × Int) := do
  let json ← simple_request_body E w linenum columnnum filepath content
  let request : Request :=
    if strcmp method (ascii "POST") = 0 then post_request E w method path json
    else
      { method := cstr method, path := cstr path, idempotent := 1,
        headers := [(ascii "content-type", ascii "application/json")],
        body := some (json.take (strlen json)) }
  let w := w.emit (.request request)
  let status_code := resp.code
  some (w, c_bool (status_code = 200))

/-- `ycmd_req_load_extra_conf_file`. -/
def ycmd_req_load_extra_conf_file (E : Env) (resp : Response) (filepath : List Nat) (w : World) :
    Option World :=
  (_ycmd_req_simple_request E resp (ascii "POST") (ascii "/load_extra_conf_file") 0 0
    filepath (some []) w).map Prod.fst

/-- `ycmd_req_ignore_extra_conf_file`. -/
def ycmd_req_ignore_extra_conf_file (E : Env) (resp : Response) (filepath : List Nat) (w : World) :
    Option World :=
  (_ycmd_req_simple_request E resp (ascii "POST") (ascii "/ignore_extra_conf_file") 0 0
    filepath (some []) w).map Prod.fst

/-! ## Completion suggestions -/

/-- The walk `while(func)` to the first entry of the completion menu: the
entries passed over, and the entries from `func` on (empty when `func` ends
as NULL). -/
def find_menu_func (mask : Nat) : List subnfunc → List subnfunc × List subnfunc
  | [] => ([], [])
  | f :: fs =>
    if f.menus &&& mask ≠ 0 then ([], f :: fs)
    else ((f :: (find_menu_func mask fs).1), (find_menu_func mask fs).2)

/-- The first loop over the candidates, entered with `i = j`: the value of
`j` at its end, the entries written, and the entries from `func` on; a
candidate without text faults in `strdup`. -/
def fill_candidates (completions : NxJson) (maxlist : Int) :
    Nat → List subnfunc → Option (Nat × List subnfunc × List subnfunc)
  | j, [] => some (j, [], [])
  | j, f :: fs =>
    if (j : Int) < completions.length ∧ (j : Int) < maxlist ∧ j < 26 then
      match (nx_json_get (some (nx_json_item completions j)) (ascii "insertion_text")).text_value with
      | none => none
      | some t =>
        match fill_candidates completions maxlist (j + 1) fs with
        | none => none
        | some (j1, done, rest) => some (j1, { f with desc := some (strdup t) } :: done, rest)
    else some (j, [], f :: fs)

/-- The second loop, from `i`: the unused entries are given the empty text. -/
def clear_unused (maxlist : Int) : Nat → List subnfunc → List subnfunc
  | _, [] => []
  | i, f :: fs =>
    if (i : Int) < maxlist ∧ i < 26 then
      { f with desc := some [] } :: clear_unused maxlist (i + 1) fs
    else f :: fs

/-- The body `json` built by `ycmd_req_completions_suggestions` (lines
644-670). -/
def completions_body (E : Env) (w : World) (linenum columnnum : Int) (filepath : List Nat)
    (content : Option (List Nat)) (completertarget : List Nat) : Option (List Nat) := do
  let json := strdup completions_template
  let line_num := snprintf_d E.DIGITS_MAX linenum
  let column_num := snprintf_d E.DIGITS_MAX (column_sent w.ycmd_globals columnnum)
  let json ← string_replace_w json (ascii "LINE_NUM") (some line_num)
  let json ← string_replace_w json (ascii "COLUMN_NUM") (some column_num)
  let json ← string_replace_w json (ascii "COMPLETER_TARGET") (some completertarget)
  _ycmd_json_replace_file_data w.cwd json filepath content

/-- `ycmd_req_completions_suggestions`: the world after the call and the
value returned. -/
def ycmd_req_completions_suggestions (E : Env) (resp : Response) (linenum columnnum : Int)
    (filepath : List Nat) (content : Option (List Nat)) (completertarget : List Nat)
    (w : World) : Option (World × Int) := do
  let method := ascii "POST"
  let path := ascii "/completions"
  let json ← completions_body E w linenum columnnum filepath content completertarget
  let (before, func) := find_menu_func E.MCODECOMPLETION w.allfuncs
  let w := w.emit (.request (post_request E w method path json))
  let response_body : Option (List Nat) :=
    if resp.begin_ret ≥ 0 then some (response_body_memory resp) else none
  let verified ←
    match response_body with
    | some body =>
      ycmd_compare_hmac resp.hmac_header
        (ycmd_compute_response E.crypto E.ssl w.ycmd_globals.secret_key_raw body)
    | none => some 1
  if verified = 0 then
    -- goto compromised_exit: status_code is still 0
    some (w, c_bool ((0 : Int) = 200))
  else
    let status_code := resp.code
    match response_body with
    | none => some (w, c_bool (status_code = 200))
    | some body =>
      if strstr body (ascii "completion_start_column") then
        let pjson := E.nx_json_parse_utf8 (cstr body)
        let completions := nx_json_get pjson (ascii "completions")
        let maxlist := E.MAIN_VISIBLE
        let (j, done, rest) ← fill_candidates completions maxlist 0 func
        let found_cc_entry := decide (0 < j)
        let rest := clear_unused maxlist j rest
        let apply_column := (nx_json_get pjson (ascii "completion_start_column")).int_value
        let w := { w with
          allfuncs := before ++ done ++ rest,
          ycmd_globals := { w.ycmd_globals with apply_column := apply_column } }
        let w :=
          if found_cc_entry then
            (w.emit (.bottombars E.MCODECOMPLETION)).emit
              (.statusline (ascii "Code completion triggered"))
          else w
        some (w, c_bool (status_code = 200))
      else some (w, c_bool (status_code = 200))

/-! ## Events -/

/-- The loop of `get_all_content` over the lines after the first. -/
def join_lines : List (List Nat) → List Nat → List Nat
  | [], buffer => buffer
  | data :: rest, buffer => join_lines rest (cstr buffer ++ ascii "\n" ++ cstr data)

/-- `get_all_content`: the lines of the document joined by newlines and
escaped; NULL for an empty list of lines. -/
def get_all_content (fileage : List (List Nat)) : Option (List Nat) :=
  match fileage with
  | [] => none
  | data :: rest => some (escape_json (join_lines rest (cstr data)))

/-- `ycmd_gen_extra_conf`: `find_ret` is the value `system` returns for the
`find` command; the project generators `ycm_generate` and `bear_generate`
are recorded as one effect. -/
def ycmd_gen_extra_conf (find_ret : Int) (filepath : List Nat) (content : Option (List Nat))
    (w : World) : World :=
  let command := ascii "find " ++ cstr w.cwd ++ ascii (
    " -name \"*.mm\" -o -name \"*.m\" -o -name \"*.cpp\" -o -name \"*.C\" -o -name \"*.cxx\"" ++
    " -o -name \"*.c\" -o -name \"*.hpp\" -o -name \"*.h\" | egrep \"*\" > /dev/null")
  let w := w.emit (.system command)
  if find_ret = 0 then
    let w := w.emit (.ycm_generate filepath content)
    { w with ycmd_globals := { w.ycmd_globals with clang_completer := 1 } }
  else
    { w with ycmd_globals := { w.ycmd_globals with clang_completer := 0 } }

/-- The answers of the environment during `ycmd_event_file_ready_to_parse`. -/
structure ParseOutcomes where
  ready : Response
  find_ret : Int
  load : Response
  notify : Response
  completions : Response
  ignore : Response

/-- `ycmd_event_file_ready_to_parse`. -/
def ycmd_event_file_ready_to_parse (E : Env) (o : ParseOutcomes) (columnnum linenum : Int)
    (filepath : List Nat) (fileage : List (List Nat)) (w : World) : Option World :=
  if w.ycmd_globals.connected = 0 then some w
  else do
    let content := get_all_content fileage
    let ft ← _ycmd_get_filetype filepath content
    let (w, ready) ← ycmd_rsp_is_server_ready E o.ready ft w
    if w.ycmd_globals.running ≠ 0 ∧ ready ≠ 0 then
      let w := ycmd_gen_extra_conf o.find_ret filepath content w
      let w ← ycmd_req_load_extra_conf_file E o.load filepath w
      let (w, _) ← ycmd_json_event_notification E o.notify columnnum linenum filepath
        (ascii "FileReadyToParse") content w
      let (w, _) ← ycmd_req_completions_suggestions E o.completions linenum columnnum filepath
        content (ascii "filetype_default") w
      ycmd_req_ignore_extra_conf_file E o.ignore filepath w
    else some w

/-- The common body of the three notifications that send one event. -/
def ycmd_event_notify (E : Env) (ready notify : Response) (eventname : List Nat)
    (columnnum linenum : Int) (filepath : List Nat) (fileage : List (List Nat)) (w : World) :
    Option World :=
  if w.ycmd_globals.connected = 0 then some w
  else do
    let content := get_all_content fileage
    let ft ← _ycmd_get_filetype filepath content
    let (w, is_ready) ← ycmd_rsp_is_server_ready E ready ft w
    if w.ycmd_globals.running ≠ 0 ∧ is_ready ≠ 0 then
      let (w, _) ← ycmd_json_event_notification E notify columnnum linenum filepath
        eventname content w
      some w
    else some w

/-- `ycmd_event_buffer_unload`. -/
def ycmd_event_buffer_unload (E : Env) (ready notify : Response) (columnnum linenum : Int)
    (filepath : List Nat) (fileage : List (List Nat)) (w : World) : Option World :=
  ycmd_event_notify E ready notify (ascii "BufferUnload") columnnum linenum filepath fileage w

/-- `ycmd_event_buffer_visit`. -/
def ycmd_event_buffer_visit (E : Env) (ready notify : Response) (columnnum linenum : Int)
    (filepath : List Nat) (fileage : List (List Nat)) (w : World) : Option World :=
  ycmd_event_notify E ready notify (ascii "BufferVisit") columnnum linenum filepath fileage w

/-- `ycmd_event_current_identifier_finished`. -/
def ycmd_event_current_identifier_finished (E : Env) (ready notify : Response)
    (columnnum linenum : Int) (filepath : List Nat) (fileage : List (List Nat)) (w : World) :
    Option World :=
  ycmd_event_notify E ready notify (ascii "CurrentIdentifierFinished") columnnum linenum
    filepath fileage w

/-! ## Accepting a completion -/

/-- `nbackspaces--` on the 32-bit `int` of the source: decrementing
`INT_MIN` gives `INT_MAX`, as the compiled code does (the C standard leaves
this overflow undefined). -/
def int_decrement (n : Int) : Int :=
  if n - 1 < -2147483648 then n - 1 + 4294967296 else n - 1

/-- The loop `while(nbackspaces)` of `do_code_completion`, for a counter in
the range of `int`; `none` when the iterations allowed by the first argument
run out. -/
def backspace_loop : Nat → Int → World → Option World
  | 0, _, _ => none
  | fuel + 1, nbackspaces, w =>
    if nbackspaces ≠ 0 then backspace_loop fuel (int_decrement nbackspaces) (w.emit .do_backspace)
    else some w

/-- The loop of `do_code_completion` over the letters from `'A' + j`: the
entries from `func` on after the loop, and the world; an entry whose
description is NULL faults in `strcmp`. -/
def code_completion_loop (E : Env) (fuel : Nat) (letter nbackspaces : Int) :
    Nat → List subnfunc → World → Option (List subnfunc × World)
  | _, [], w => some ([], w)
  | j, f :: fs, w =>
    if (j : Int) < E.MAIN_VISIBLE ∧ 65 + (j : Int) ≤ 90 then
      if 65 + (j : Int) = letter then
        match f.desc with
        | none => none
        | some desc =>
          if strcmp desc [] = 0 then some (f :: fs, w)
          else
            match backspace_loop fuel nbackspaces w with
            | none => none
            | some w =>
              let w := { w with current_x := w.ycmd_globals.apply_column - 1 }
              let w := w.emit (.do_output (cstr desc) (strlen desc))
              let w := w.emit .blank_statusbar
              some ({ f with desc := some (strdup []) } :: fs, w)
      else
        match code_completion_loop E fuel letter nbackspaces (j + 1) fs w with
        | none => none
        | some (fs1, w1) => some (f :: fs1, w1)
    else some (f :: fs, w)

/-- `do_code_completion`, the backspace loop allowed `fuel` iterations.  The
initial value of `nbackspaces` is taken to be in the range of `int`. -/
def do_code_completion (E : Env) (fuel : Nat) (letter : Int) (w : World) : Option World :=
  if w.ycmd_globals.connected = 0 then some w
  else
    let (before, func) := find_menu_func E.MCODECOMPLETION w.allfuncs
    let nbackspaces := w.current_x - (w.ycmd_globals.apply_column - 1)
    match code_completion_loop E fuel letter nbackspaces 0 func w with
    | none => none
    | some (func1, w1) =>
      some (({ w1 with allfuncs := before ++ func1 }).emit (.bottombars E.MMAIN))

/-! ## The server process -/

/-- The test `access(path, F_OK) == 0`. -/
def file_exists (w : World) (path : List Nat) : Bool :=
  w.files.any (fun f => decide (f.1 = cstr path))

/-- The effect of `unlink(path)`. -/
def unlink (w : World) (path : List Nat) : World :=
  { w with files := w.files.filter (fun f => decide (f.1 ≠ cstr path)),
           trace := w.trace ++ [.unlink (cstr path)] }

/-- `ycmd_stop_server`, as far as the globals, the files and the calls made
are concerned, for a call that returns.  Whether the call returns depends on
the session and the block of `json` being alive, which
`ycmd_stop_server_checked` follows. -/
def ycmd_stop_server (w : World) : World :=
  let w := w.emit .ne_close_connection
  let w := w.emit .ne_session_destroy
  let w := w.emit (.close w.ycmd_globals.tcp_socket)
  let w :=
    if file_exists w w.ycmd_globals.tmp_options_filename then
      unlink w w.ycmd_globals.tmp_options_filename
    else w
  let w :=
    if w.ycmd_globals.child_pid ≠ -1 then w.emit (.kill w.ycmd_globals.child_pid SIGKILL)
    else w
  { w with ycmd_globals :=
      { w.ycmd_globals with child_pid := -1, running := 0, connected := 0 } }

/-- The answers of the environment during `ycmd_start_server`: the returns of
`socket`, `bind` and `getsockname`, the field `sin_port` read back, the name
`mkstemp` creates, the returns of `fork` and `waitpid`, and the response to
each health check. -/
structure StartOutcomes where
  socket_ret : Int
  bind_ret : Int
  getsockname_ret : Int
  sin_port : Int
  mkstemp_name : List Nat
  fork_ret : Int
  waitpid_ret : Int
  health : Nat → Response

/-- `find_unused_localhost_port`. -/
def find_unused_localhost_port (o : StartOutcomes) (w : World) : World × Int :=
  let w := { w with ycmd_globals := { w.ycmd_globals with tcp_socket := o.socket_ret } }
  if w.ycmd_globals.tcp_socket = -1 then (w, -1)
  else if o.bind_ret = 0 then
    if o.getsockname_ret = -1 then (w.emit (.close w.ycmd_globals.tcp_socket), -1)
    else
      let port := o.sin_port
      (w.emit (.close w.ycmd_globals.tcp_socket), port)
  else (w.emit (.close w.ycmd_globals.tcp_socket), -1)

/-- The health loop of `ycmd_start_server`, at try `i` with `n` tries left. -/
def health_loop (E : Env) (health : Nat → Response) : Nat → Nat → World → World
  | 0, _, w => w
  | n + 1, i, w =>
    if w.ycmd_globals.connected = 0 then
      let (w, healthy) := ycmd_rsp_is_healthy_simple E (health i) w
      if healthy ≠ 0 then
        let w := w.emit (.statusline (ascii "Connected..."))
        health_loop E health n (i + 1)
          { w with ycmd_globals := { w.ycmd_globals with connected := 1 } }
      else
        let w := w.emit (.statusline (ascii "Connect failed..."))
        let w := { w with ycmd_globals := { w.ycmd_globals with connected := 0 } }
        health_loop E health n (i + 1) (w.emit (.usleep 1000000))
    else w

/-- The startup configuration `ycmd_start_server` writes: the default JSON
with the secret text and the tool paths put in place (lines 1139-1146). -/
def options_file_json (E : Env) (secret_key_base64 : Option (List Nat)) :
    Option (List Nat) := do
  let json := strdup default_json_template
  let json ← string_replace_w json (ascii "HMAC_SECRET") secret_key_base64
  let json ← string_replace_w json (ascii "GOCODE_PATH") (some E.GOCODE_PATH)
  let json ← string_replace_w json (ascii "GODEF_PATH") (some E.GODEF_PATH)
  let json ← string_replace_w json (ascii "RUST_SRC_PATH") (some E.RUST_SRC_PATH)
  let json ← string_replace_w json (ascii "RACERD_PATH") (some E.RACERD_PATH)
  string_replace_w json (ascii "PYTHON_PATH") (some E.PYTHON_PATH)

/-- The arguments the child passes to `execl`. -/
def server_argv (E : Env) (w : World) : List (List Nat) :=
  [cstr E.PYTHON_PATH, cstr E.YCMD_PATH, ascii "--port",
    snprintf_d E.DIGITS_MAX w.ycmd_globals.port, ascii "--options_file",
    cstr w.ycmd_globals.tmp_options_filename, ascii "--idle_suicide_seconds",
    snprintf_d E.DIGITS_MAX E.IDLE_SUICIDE_SECONDS, ascii "--stdout", ascii "/dev/null",
    ascii "--stderr", ascii "/dev/null"]

/-- `ycmd_start_server` from the return of `fork` on, in the parent, `pid`
being the value returned (lines 1216-1274). -/
def start_server_parent (E : Env) (o : StartOutcomes) (pid : Int) (w : World) : World :=
  let w := w.emit (.fork pid (server_argv E w))
  let session : ne_session :=
    { scheme := w.ycmd_globals.scheme, hostname := w.ycmd_globals.hostname,
      port := w.ycmd_globals.port, read_timeout := 1 }
  let w := { w with ycmd_globals :=
    { w.ycmd_globals with child_pid := pid, session := some session } }
  if o.waitpid_ret = 0 then
    let w := w.emit (.statusline (ascii "Server just ran..."))
    let w := { w with ycmd_globals := { w.ycmd_globals with running := 1 } }
    let w := w.emit (.statusline (ascii "Letting the server initialize.  Wait..."))
    let w := w.emit (.usleep 5000000)
    let w := w.emit (.statusline (ascii "Checking server health..."))
    health_loop E o.health 5 0 w
  else
    let w := w.emit (.statusline (ascii "Server didn't ran..."))
    let w := { w with ycmd_globals := { w.ycmd_globals with running := 0 } }
    ycmd_stop_server w

/-- `ycmd_start_server`, followed in the calling process: `none` when `fork`
returns 0, where the child replaces its image or exits, and when the secret
text is NULL.  The temp file is taken to be created, under the name the
environment gives. -/
def ycmd_start_server (E : Env) (o : StartOutcomes) (w : World) : Option World := do
  let (w, port) := find_unused_localhost_port o w
  let w := { w with ycmd_globals := { w.ycmd_globals with port := port } }
  if w.ycmd_globals.port = -1 then some w
  else
    let json ← options_file_json E w.ycmd_globals.secret_key_base64
    let w := { w with
      ycmd_globals := { w.ycmd_globals with
        json := some json, tmp_options_filename := o.mkstemp_name },
      files := (cstr o.mkstemp_name, cstr json) :: w.files }
    let pid := o.fork_ret
    if pid = 0 then none
    else some (start_server_parent E o pid w)

/-- `ycmd_restart_server`. -/
def ycmd_restart_server (E : Env) (o : StartOutcomes) (w : World) : Option World :=
  let w := if w.ycmd_globals.running ≠ 0 then ycmd_stop_server w else w
  ycmd_start_server E o w

/-- A call of the supervisor made by the host. -/
inductive SupervisorCall where
  | restart (o : StartOutcomes)
  | stop

/-- A sequence of supervisor calls, in order. -/
def run_calls (E : Env) : List SupervisorCall → World → Option World
  | [], w => some w
  | .restart o :: rest, w =>
    match ycmd_restart_server E o w with
    | none => none
    | some w1 => run_calls E rest w1
  | .stop :: rest, w => run_calls E rest (ycmd_stop_server w)

/-- The pids `fork` has returned to the client for a child it created. -/
def forked_pids : List Event → List Int
  | [] => []
  | .fork pid _ :: rest => if 0 < pid then pid :: forked_pids rest else forked_pids rest
  | _ :: rest => forked_pids rest

/-- The pids the client has sent `SIGKILL`. -/
def killed_pids : List Event → List Int
  | [] => []
  | .kill pid sig :: rest => if sig = SIGKILL then pid :: killed_pids rest else killed_pids rest
  | _ :: rest => killed_pids rest

/-! ## A reference crypto library

The operations taken from the crypto library, written out from their
standards (FIPS 180-4, RFC 2104, RFC 4648); it instantiates `CryptoLib`. -/

/-- Addition of 32-bit words. -/
def add32 (a b : Nat) : Nat := (a + b) % 4294967296

/-- Rotation of a 32-bit word to the right. -/
def rotr32 (x n : Nat) : Nat := ((x >>> n) ||| (x <<< (32 - n))) % 4294967296

/-- The round constants of SHA-256. -/
def sha256_k : List Nat :=
  [1116352408, 1899447441, 3049323471, 3921009573, 961987163, 1508970993,
   2453635748, 2870763221, 3624381080, 310598401, 607225278, 1426881987,
   1925078388, 2162078206, 2614888103, 3248222580, 3835390401, 4022224774,
   264347078, 604807628, 770255983, 1249150122, 1555081692, 1996064986,
   2554220882, 2821834349, 2952996808, 3210313671, 3336571891, 3584528711,
   113926993, 338241895, 666307205, 773529912, 1294757372, 1396182291,
   1695183700, 1986661051, 2177026350, 2456956037, 2730485921, 2820302411,
   3259730800, 3345764771, 3516065817, 3600352804, 4094571909, 275423344,
   430227734, 506948616, 659060556, 883997877, 958139571, 1322822218,
   1537002063, 1747873779, 1955562222, 2024104815, 2227730452, 2361852424,
   2428436474, 2756734187, 3204031479, 3329325298]

/-- The eight working words of SHA-256. -/
structure Sha256State where
  a : Nat
  b : Nat
  c : Nat
  d : Nat
  e : Nat
  f : Nat
  g : Nat
  h : Nat
  deriving DecidableEq

/-- The initial hash value of SHA-256. -/
def sha256_init : Sha256State :=
  { a := 1779033703, b := 3144134277, c := 1013904242, d := 2773480762,
    e := 1359893119, f := 2600822924, g := 528734635, h := 1541459225 }

/-- The padded message: a bit 1, zero bytes up to 56 modulo 64, and the bit
length in 8 bytes, most significant first. -/
def sha256_pad (m : List Nat) : List Nat :=
  let bits := 8 * m.length
  m ++ [128] ++ List.replicate ((119 - m.length % 64) % 64) 0 ++
    (List.range 8).map (fun i => bits / 256 ^ (7 - i) % 256)

/-- The big-endian word at byte offset `4 * t` of a block. -/
def block_word (block : List Nat) (t : Nat) : Nat :=
  block.getD (4 * t) 0 * 16777216 + block.getD (4 * t + 1) 0 * 65536
    + block.getD (4 * t + 2) 0 * 256 + block.getD (4 * t + 3) 0

/-- The message schedule, extended by `n` words. -/
def sha256_schedule : Nat → List Nat → List Nat
  | 0, ws => ws
  | n + 1, ws =>
    let t := ws.length
    let w2 := ws.getD (t - 2) 0
    let w15 := ws.getD (t - 15) 0
    let s0 := rotr32 w15 7 ^^^ rotr32 w15 18 ^^^ (w15 >>> 3)
    let s1 := rotr32 w2 17 ^^^ rotr32 w2 19 ^^^ (w2 >>> 10)
    sha256_schedule n (ws ++ [add32 (add32 s1 (ws.getD (t - 7) 0)) (add32 s0 (ws.getD (t - 16) 0))])

/-- One round of the compression function. -/
def sha256_round (s : Sha256State) (kw : Nat × Nat) : Sha256State :=
  let bigS1 := rotr32 s.e 6 ^^^ rotr32 s.e 11 ^^^ rotr32 s.e 25
  let ch := (s.e &&& s.f) ^^^ ((s.e ^^^ 4294967295) &&& s.g)
  let t1 := add32 (add32 (add32 s.h bigS1) (add32 ch kw.1)) kw.2
  let bigS0 := rotr32 s.a 2 ^^^ rotr32 s.a 13 ^^^ rotr32 s.a 22
  let maj := (s.a &&& s.b) ^^^ (s.a &&& s.c) ^^^ (s.b &&& s.c)
  let t2 := add32 bigS0 maj
  { a := add32 t1 t2, b := s.a, c := s.b, d := s.c, e := add32 s.d t1,
    f := s.e, g := s.f, h := s.g }

/-- The compression of one 64-byte block into the hash value. -/
def sha256_block (hv : Sha256State) (block : List Nat) : Sha256State :=
  let ws := sha256_schedule 48 ((List.range 16).map (block_word block))
  let s := (sha256_k.zip ws).foldl sha256_round hv
  { a := add32 hv.a s.a, b := add32 hv.b s.b, c := add32 hv.c s.c, d := add32 hv.d s.d,
    e := add32 hv.e s.e, f := add32 hv.f s.f, g := add32 hv.g s.g, h := add32 hv.h s.h }

/-- The hash value after `n` blocks of the padded message. -/
def sha256_blocks : Nat → Sha256State → List Nat → Sha256State
  | 0, hv, _ => hv
  | n + 1, hv, bytes => sha256_blocks n (sha256_block hv (bytes.take 64)) (bytes.drop 64)

/-- The four bytes of a word, most significant first. -/
def be32 (x : Nat) : List Nat :=
  [x / 16777216 % 256, x / 65536 % 256, x / 256 % 256, x % 256]

/-- SHA-256 of a message. -/
def ref_sha256 (m : List Nat) : List Nat :=
  let p := sha256_pad m
  let s := sha256_blocks (p.length / 64) sha256_init p
  be32 s.a ++ be32 s.b ++ be32 s.c ++ be32 s.d ++ be32 s.e ++ be32 s.f ++ be32 s.g ++ be32 s.h

/-- HMAC-SHA256 of a message under a key (RFC 2104). -/
def ref_hmac_sha256 (key m : List Nat) : List Nat :=
  let k0 := if key.length > 64 then ref_sha256 key else key
  let k := k0 ++ List.replicate (64 - k0.length) 0
  ref_sha256 (k.map (fun b => b ^^^ 92) ++ ref_sha256 (k.map (fun b => b ^^^ 54) ++ m))

/-- The base64 character of a 6-bit value. -/
def base64_char (n : Nat) : Nat :=
  if n < 26 then 65 + n
  else if n < 52 then 71 + n
  else if n < 62 then n - 4
  else if n = 62 then 43
  else 47

/-- Base64 without line breaks (RFC 4648, section 4). -/
def ref_base64 : List Nat → List Nat
  | [] => []
  | [a] => [base64_char (a / 4), base64_char (a % 4 * 16), 61, 61]
  | [a, b] =>
    [base64_char (a / 4), base64_char (a % 4 * 16 + b / 16), base64_char (b % 16 * 4), 61]
  | a :: b :: c :: rest =>
    [base64_char (a / 4), base64_char (a % 4 * 16 + b / 16),
      base64_char (b % 16 * 4 + c / 64), base64_char (c % 64)] ++ ref_base64 rest

/-- The reference library. -/
def refLib : CryptoLib := { hmac_sha256 := ref_hmac_sha256, base64 := ref_base64 }

/-! ## Response verification -/

/-- The check made on a response (lines 705-706 and 923-930 of the source):
`ycmd_compare_hmac` on the header value and `ycmd_compute_response` of the
body read. -/
def response_verified (L : CryptoLib) (v : SslLib) (secret_key_raw : List Nat)
    (hmac_remote : Option (List Nat)) (response_body : List Nat) : Option Int :=
  ycmd_compare_hmac hmac_remote (ycmd_compute_response L v secret_key_raw response_body)

/-- The buffer `body` with bit `bit` of the byte at index `i` flipped. -/
def flip_bit (body : List Nat) (i bit : Nat) : List Nat :=
  body.set i (body.getD i 0 ^^^ 2 ^ bit)

/-! ## A reference JSON parser

A parser of JSON text into nxjson nodes, standing in for the external
`nx_json_parse_utf8` where a concrete parser is needed. -/

/-- The text without leading white space. -/
def json_skip_ws : List Nat → List Nat
  | [] => []
  | c :: rest => if c = 32 ∨ c = 9 ∨ c = 10 ∨ c = 13 then json_skip_ws rest else c :: rest

/-- The text of a string up to its closing quote, escapes resolved, and what
follows the quote. -/
def json_parse_text : List Nat → List Nat → Option (List Nat × List Nat)
  | [], _ => none
  | [c], acc => if c = 34 then some (acc, []) else none
  | c :: e :: rest, acc =>
    if c = 34 then some (acc, e :: rest)
    else if c = 92 then
      match json_escape_letter e with
      | some b => json_parse_text rest (acc ++ [b])
      | none => none
    else json_parse_text (e :: rest) (acc ++ [c])

/-- The digits at the head of the text, as a number, and what follows. -/
def json_parse_digits : List Nat → Nat → Nat × List Nat
  | [], acc => (acc, [])
  | c :: rest, acc =>
    if 48 ≤ c ∧ c ≤ 57 then json_parse_digits rest (acc * 10 + (c - 48)) else (acc, c :: rest)

/-- The shapes the parser reads: a value, the members of an object after its
opening brace or a comma, the elements of an array likewise. -/
inductive JsonShape where
  | value
  | members
  | elements

/-- The nodes read for the shape and what follows them; `key` is the key the
value is stored under; the first argument bounds the nesting and the number
of members. -/
def json_parse : Nat → JsonShape → Option (List Nat) → List Nat →
    Option (List NxJson × List Nat)
  | 0, _, _, _ => none
  | fuel + 1, .value, key, text =>
    match json_skip_ws text with
    | [] => none
    | c :: rest =>
      if c = 123 then
        match json_skip_ws rest with
        | 125 :: rest1 => some ([.node .object key none 0 []], rest1)
        | _ =>
          match json_parse fuel .members none rest with
          | some (children, rest1) => some ([.node .object key none 0 children], rest1)
          | none => none
      else if c = 91 then
        match json_skip_ws rest with
        | 93 :: rest1 => some ([.node .array key none 0 []], rest1)
        | _ =>
          match json_parse fuel .elements none rest with
          | some (children, rest1) => some ([.node .array key none 0 children], rest1)
          | none => none
      else if c = 34 then
        match json_parse_text rest [] with
        | some (t, rest1) => some ([.node .string key (some t) 0 []], rest1)
        | none => none
      else if 48 ≤ c ∧ c ≤ 57 then
        let (n, rest1) := json_parse_digits (c :: rest) 0
        some ([.node .integer key none (n : Int) []], rest1)
      else if c = 45 then
        let (n, rest1) := json_parse_digits rest 0
        some ([.node .integer key none (-(n : Int)) []], rest1)
      else none
  | fuel + 1, .members, _, text =>
    match json_skip_ws text with
    | 34 :: rest =>
      match json_parse_text rest [] with
      | none => none
      | some (k, rest1) =>
        match json_skip_ws rest1 with
        | 58 :: rest2 =>
          match json_parse fuel .value (some k) rest2 with
          | none => none
          | some (v, rest3) =>
            match json_skip_ws rest3 with
            | 44 :: rest4 =>
              match json_parse fuel .members none rest4 with
              | some (more, rest5) => some (v ++ more, rest5)
              | none => none
            | 125 :: rest4 => some (v, rest4)
            | _ => none
        | _ => none
    | _ => none
  | fuel + 1, .elements, _, text =>
    match json_parse fuel .value none text with
    | none => none
    | some (v, rest1) =>
      match json_skip_ws rest1 with
      | 44 :: rest2 =>
        match json_parse fuel .elements none rest2 with
        | some (more, rest3) => some (v ++ more, rest3)
        | none => none
      | 93 :: rest2 => some (v, rest2)
      | _ => none

/-- The root node of a JSON text, NULL when the text does not parse. -/
def ref_json_parse (text : List Nat) : Option NxJson :=
  match json_parse (text.length + 1) .value none text with
  | some ([root], _) => some root
  | _ => none

/-! ## Sample configuration and state -/

/-- A configuration for the examples: the reference libraries, an 80-column
terminal (`MAIN_VISIBLE` = 12) and the completion menu on bit 14. -/
def sample_env : Env :=
  { crypto := refLib, ssl := .nettle, nx_json_parse_utf8 := ref_json_parse,
    DIGITS_MAX := 11, MAIN_VISIBLE := 12, MCODECOMPLETION := 16384, MMAIN := 1,
    HTTP_HEADER_YCM_HMAC := ascii "X-Ycm-Hmac", IDLE_SUICIDE_SECONDS := 10800,
    GOCODE_PATH := ascii "/usr/bin/gocode", GODEF_PATH := ascii "/usr/bin/godef",
    RUST_SRC_PATH := ascii "/usr/share/rust/src", RACERD_PATH := ascii "/usr/bin/racerd",
    PYTHON_PATH := ascii "/usr/bin/python", YCMD_PATH := ascii "/usr/lib/ycmd/ycmd" }

/-- The globals after `ycmd_init` has set its fields, before a server is
started, with the secret 0..15. -/
def sample_globals : YCMD_GLOBALS :=
  { session := none, scheme := ascii "http", hostname := ascii "127.0.0.1", port := 0,
    child_pid := -1, tcp_socket := 0, secret_key_raw := List.range 16,
    secret_key_base64 := some (ref_base64 (List.range 16)), json := none,
    tmp_options_filename := [], running := 0, connected := 0, apply_column := 0,
    clang_completer := 0 }

/-- A state with a running, connected server, one entry of the main menu
followed by three entries of the completion menu, the first two of which hold
the candidates `old` and `older` of an earlier completion, and the cursor in
column 7. -/
def sample_world : World :=
  { ycmd_globals := { sample_globals with
      child_pid := 4242, port := 40000, running := 1, connected := 1, apply_column := 3 },
    allfuncs := [{ menus := 1, desc := some (ascii "Exit") },
      { menus := 16384, desc := some (ascii "old") },
      { menus := 16384, desc := some (ascii "older") },
      { menus := 16384, desc := some [] }],
    current_x := 7, files := [], cwd := ascii "/home/user", trace := [] }

/-- The body of the sample completions response. -/
def sample_body : List Nat :=
  ascii "\x7b\"completions\":[\x7b\"insertion_text\":\"foo\"\x7d],\"completion_start_column\":5\x7d"

/-- A response with status 200 and the sample body, read in one block, whose
digest header is the given text. -/
def sample_response (hmac_header : List Nat) : Response :=
  { begin_ret := 0, code := 200, klass := 2, reads := [.block sample_body true],
    hmac_header := some hmac_header, heap_after := [] }

/-- The entries from the first one of the completion menu on, as the
specification words them: entry `i` takes the text of candidate `i` while
`i` is below the number of candidates, `MAIN_VISIBLE` and 26; any further
entry with `i` below `MAIN_VISIBLE` and 26 takes the empty text; the others
are left as they are. -/
def expected_slots (texts : List (List Nat)) (maxlist : Int) : Nat → List subnfunc → List subnfunc
  | _, [] => []
  | i, f :: fs =>
    (if i < texts.length ∧ (i : Int) < maxlist ∧ i < 26 then
        { f with desc := some (strdup (texts.getD i [])) }
      else if (i : Int) < maxlist ∧ i < 26 then { f with desc := some [] }
      else f) :: expected_slots texts maxlist (i + 1) fs

/-- The sample state before a server is started: not running, not
connected. -/
def sample_idle_world : World := { sample_world with ycmd_globals := sample_globals }

/-- One step of the children alive: a child is added when `fork` returns its
pid, and removed when that pid is sent `SIGKILL`. -/
def live_step (live : List Int) (e : Event) : List Int :=
  match e with
  | .fork pid _ => if 0 < pid then live ++ [pid] else live
  | .kill pid sig => if sig = SIGKILL then live.filter (fun p => decide (p ≠ pid)) else live
  | _ => live

/-- The spawned children that have not been sent `SIGKILL`, after the effects
of the trace in order. -/
def live_children (trace : List Event) : List Int := trace.foldl live_step []

/-- The effects `ycmd_stop_server` adds to the trace, in order. -/
def stop_effects (w : World) : List Event :=
  [.ne_close_connection, .ne_session_destroy, .close w.ycmd_globals.tcp_socket] ++
    (if file_exists w w.ycmd_globals.tmp_options_filename then
      [.unlink (cstr w.ycmd_globals.tmp_options_filename)] else []) ++
    (if w.ycmd_globals.child_pid ≠ -1 then [.kill w.ycmd_globals.child_pid SIGKILL] else [])

/-- The state of the supervisor as far as children are concerned: no spawned
child is alive and every pid `fork` returned has been sent `SIGKILL`. -/
def AllKilled (w : World) : Prop :=
  live_children w.trace = [] ∧ ∀ p ∈ forked_pids w.trace, p ∈ killed_pids w.trace

/-- The invariant of the supervisor: the secret text is set, the children
alive are at most the tracked one, every other pid `fork` returned has been
sent `SIGKILL`, and a server that is not running has no child left. -/
def SupervisorInv (w : World) : Prop :=
  w.ycmd_globals.secret_key_base64 ≠ none ∧
  (live_children w.trace = [] ∨
    (live_children w.trace = [w.ycmd_globals.child_pid] ∧ 0 < w.ycmd_globals.child_pid)) ∧
  (∀ p ∈ forked_pids w.trace, p = w.ycmd_globals.child_pid ∨ p ∈ killed_pids w.trace) ∧
  (w.ycmd_globals.running = 0 → AllKilled w)


/-- The relation of a state to a later one that no `fork` and no `kill`
separates and that keeps `child_pid`, `running` and the secret text. -/
def Quiet (w w1 : World) : Prop :=
  forked_pids w1.trace = forked_pids w.trace ∧
  killed_pids w1.trace = killed_pids w.trace ∧
  live_children w1.trace = live_children w.trace ∧
  w1.ycmd_globals.child_pid = w.ycmd_globals.child_pid ∧
  w1.ycmd_globals.running = w.ycmd_globals.running ∧
  w1.ycmd_globals.secret_key_base64 = w.ycmd_globals.secret_key_base64

/-- The state `ycmd_init` leaves before it starts a server: no child is
tracked, the server is neither running nor connected, the secret text is
set, and nothing has happened yet. -/
def Initialised (w : World) : Prop :=
  w.ycmd_globals.child_pid = -1 ∧ w.ycmd_globals.running = 0 ∧
  w.ycmd_globals.connected = 0 ∧ w.ycmd_globals.secret_key_base64 ≠ none ∧ w.trace = []

/-- The calls are made in the parent: no `fork` of the sequence returns 0. -/
def ParentSide : List SupervisorCall → Prop
  | [] => True
  | .restart o :: rest => o.fork_ret ≠ 0 ∧ ParentSide rest
  | .stop :: rest => ParentSide rest

/-- Outcomes of one start for the examples: the port probe succeeds, `fork`
returns `pid`, `waitpid` returns `waitpid_ret`, and no health check is
answered. -/
def sample_start (pid waitpid_ret : Int) : StartOutcomes :=
  { socket_ret := 3, bind_ret := 0, getsockname_ret := 0, sin_port := 40000,
    mkstemp_name := ascii "/tmp/nanoAbCdEf", fork_ret := pid, waitpid_ret := waitpid_ret,
    health := fun _ =>
      { begin_ret := 1, code := 0, klass := 0, reads := [], hmac_header := none,
        heap_after := [] } }

/-! ## The reference reader -/

/-- The test that a read returned a positive count. -/
def positive_read : ReadResult → Bool
  | .block bytes _ => decide (0 < bytes.length)
  | .error => false

/-- The bytes a read stored. -/
def read_bytes : ReadResult → List Nat
  | .block bytes _ => bytes
  | .error => []

/-- The reference reader, in the words of the specification: nothing for a
status class other than 2; otherwise the bytes, in order, of the reads
before the first one that did not return a positive count. -/
def reference_reader (klass : Int) (reads : List ReadResult) : List Nat :=
  if klass = 2 then (reads.takeWhile positive_read).flatMap read_bytes else []

/-- The reads store at most 512 bytes each and no `realloc` fails. -/
def ReadsWithinChunk (reads : List ReadResult) : Prop :=
  ∀ bytes ok, ReadResult.block bytes ok ∈ reads → bytes.length ≤ 512 ∧ ok = true

/-- A response read in two blocks of data, then an end of body, with a
further block that is never asked for. -/
def sample_chunked_response : Response :=
  { begin_ret := 0, code := 200, klass := 2,
    reads := [.block [116, 114] true, .block [117, 101] true, .block [] true,
      .block [33] true],
    hmac_header := none, heap_after := [] }

/-! ## Port numbers -/

/-- The value a host reads from the 16 bit field `sin_port` when the socket
is bound to `port`: the field holds the port in network byte order, high byte
first, so a little-endian host reads the two bytes swapped.  Modelled from
the platform: the socket address layout is not part of the repository. -/
def sin_port_read (little_endian : Bool) (port : Nat) : Int :=
  if little_endian then (((port % 256) * 256 + (port / 256) % 256 : Nat) : Int)
  else ((port % 65536 : Nat) : Int)

/-- The outcomes of a port probe in which `socket`, `bind` and `getsockname`
succeed and the system assigns `port`. -/
def probe_assigns (little_endian : Bool) (port : Nat) : StartOutcomes :=
  { sample_start 100 0 with sin_port := sin_port_read little_endian port }

/-! ## The health poll -/

/-- The number of requests for `/healthy` among the effects. -/
def healthy_requests : List Event → Nat
  | [] => 0
  | .request r :: rest =>
    (if r.path = ascii "/healthy" then 1 else 0) + healthy_requests rest
  | _ :: rest => healthy_requests rest

/-- The number of health checks made out of at most `n`, the first of them
answered by `health i`: the checks up to and including the first one answered
with status 200, or all `n`. -/
def tries_used (health : Nat → Response) : Nat → Nat → Nat
  | 0, _ => 0
  | n + 1, i => if (health i).code = 200 then 1 else 1 + tries_used health n (i + 1)

/-- The relation of a state to a later one that `Quiet` relates and that has
the same `connected` and as many requests for `/healthy`. -/
def Still (w w1 : World) : Prop :=
  Quiet w w1 ∧ w1.ycmd_globals.connected = w.ycmd_globals.connected ∧
  healthy_requests w1.trace = healthy_requests w.trace

/-- The invariant of the supervisor on its flags: the secret text is set and
a server that is not running is not connected. -/
def FlagsInv (w : World) : Prop :=
  w.ycmd_globals.secret_key_base64 ≠ none ∧
  (w.ycmd_globals.running = 0 → w.ycmd_globals.connected = 0)

/-- The tracked child of a running server is a child that was created: when
`running` is set, `child_pid` is above 0 and is a pid `fork` returned. -/
def RunningHasChild (w : World) : Prop :=
  w.ycmd_globals.running ≠ 0 →
    0 < w.ycmd_globals.child_pid ∧ w.ycmd_globals.child_pid ∈ forked_pids w.trace

/-- A health check of the start with outcomes `o` was made and answered with
status 200. -/
def HealthyAnswer (o : StartOutcomes) : Prop :=
  ∃ k, k < tries_used o.health 5 0 ∧ (o.health k).code = 200

/-- Every `fork` of the sequence creates a child: it returns a pid above 0 to
the caller. -/
def ForksSucceed : List SupervisorCall → Prop
  | [] => True
  | .restart o :: rest => 0 < o.fork_ret ∧ ForksSucceed rest
  | .stop :: rest => ForksSucceed rest

/-- Outcomes of one start for the examples: as `sample_start 100 0`, with the
third health check the first one answered with status 200. -/
def sample_healthy_start : StartOutcomes :=
  { sample_start 100 0 with
    health := fun k =>
      { begin_ret := 0, code := if k = 2 then 200 else 503, klass := if k = 2 then 2 else 5,
        reads := [], hmac_header := none, heap_after := [] } }

/-! ## Responses for the readiness check -/

/-- A response with status 200, an empty body and no digest header. -/
def headerless_response : Response :=
  { begin_ret := 0, code := 200, klass := 2, reads := [], hmac_header := none,
    heap_after := [] }

/-! ## Signed requests -/

/-- A request is a signed POST under the key `k`: its method is `POST`, it
has the header `content-type: application/json`, it has a body, and it has
the digest header with the text of `ycmd_compute_request` of `POST`, the path
of the request and the body of the request. -/
def SignedPost (E : Env) (k : List Nat) (r : Request) : Prop :=
  r.method = ascii "POST" ∧
  (ascii "content-type", ascii "application/json") ∈ r.headers ∧
  ∃ body, r.body = some body ∧
    (E.HTTP_HEADER_YCM_HMAC,
      cstr (ycmd_compute_request E.crypto E.ssl k (ascii "POST") r.path body)) ∈ r.headers

/-- The events are no requests. -/
def NoRequest (events : List Event) : Prop := ∀ r, Event.request r ∉ events

/-! ## Signed responses for the examples -/

/-- A response with status 200 whose body is read in one block and whose
digest header is the digest of that body under the sample secret. -/
def signed_response (body : List Nat) : Response :=
  { begin_ret := 0, code := 200, klass := 2, reads := [.block body true],
    hmac_header := some (ycmd_compute_response refLib .nettle (List.range 16) body),
    heap_after := [] }

/-- A response with status 200 whose body, 512 bytes `A` read in one block,
carries the digest of that body under the sample secret, and after whose
bytes the heap holds `heap`. -/
def long_signed_response (heap : List Nat) : Response :=
  { begin_ret := 0, code := 200, klass := 2, reads := [.block (List.replicate 512 65) true],
    hmac_header :=
      some (ycmd_compute_response refLib .nettle (List.range 16) (List.replicate 512 65)),
    heap_after := heap }

/-- A response body with a start column and no completions array. -/
def body_without_completions : List Nat := ascii "\x7b\"completion_start_column\":5\x7d"

/-- A response body with a candidate that has no `insertion_text`. -/
def body_without_insertion_text : List Nat :=
  ascii "\x7b\"completions\":[\x7b\"menu_text\":\"foo\"\x7d],\"completion_start_column\":5\x7d"

/-- A response body without a start column. -/
def body_without_start_column : List Nat :=
  ascii "\x7b\"completions\":[\x7b\"insertion_text\":\"foo\"\x7d]\x7d"

/-! ## A reference for `string_replace_gpl3` -/

/-- The reference replacement, in words: scanning the text from the left, an
occurrence of `find` at the scan position is replaced by `repl` and the scan
goes on after the occurrence; any other byte is copied.  The first argument
is the number of bytes of an occurrence still to be passed over. -/
def replace_from (find repl : List Nat) : Nat → List Nat → List Nat
  | _, [] => []
  | skip + 1, _ :: rest => replace_from find repl skip rest
  | 0, c :: rest =>
    if starts_with (c :: rest) find then repl ++ replace_from find repl (find.length - 1) rest
    else c :: replace_from find repl 0 rest

/-- Every occurrence of `find` met by a scan from the left replaced by `repl`. -/
def replace_all (find repl s : List Nat) : List Nat := replace_from find repl 0 s

/-- Segments of a text, each followed by one delimiter byte, and a last
segment. -/
def pieces_join : List (List Nat × Nat) → List Nat → List Nat
  | [], last => last
  | (s, d) :: rest, last => s ++ d :: pieces_join rest last

/-- The replacements of a payload build, in order: each text of `finds`
replaced by the text of `repls` at the same position. -/
def substitute : List (List Nat) → List (List Nat) → List Nat → List Nat
  | f :: fs, r :: rs, s => substitute fs rs (replace_all f r s)
  | _, _, s => s

/-- The tags `_ycmd_get_filetype` can return. -/
def filetype_tags : List (List Nat) :=
  [ascii "cs", ascii "go", ascii "rust", ascii "objcpp", ascii "objc", ascii "cpp", ascii "c",
    ascii "javascript", ascii "python", ascii "typescript", []]

/-- The bytes of a decimal number text: the minus sign and the digits. -/
def DecimalText (s : List Nat) : Prop := ∀ b ∈ s, b = 45 ∨ (48 ≤ b ∧ b ≤ 57)

/-- The payload of an event notification, in the words of the specification:
the fixed text with the six values in place. -/
def event_notification_expected (column_num event_name filepath contents filetype line_num :
    List Nat) : List Nat :=
  ascii "\x7b        \"column_num\": " ++ column_num ++
  ascii ",        \"event_name\": \"" ++ event_name ++
  ascii "\",        \"file_data\": \x7b\t\t\"" ++ filepath ++
  ascii "\": \x7b                \"contents\": \"" ++ contents ++
  ascii "\",                \"filetypes\": [\"" ++ filetype ++
  ascii "\"]        \t\x7d\t \x7d,        \"filepath\": \"" ++ filepath ++
  ascii "\",        \"line_num\": " ++ line_num ++ ascii "\x7d"

/-- The payload of a completions request, in the words of the specification. -/
def completions_expected (line_num column_num filepath contents filetype completer_target :
    List Nat) : List Nat :=
  ascii "\x7b        \"line_num\": " ++ line_num ++
  ascii ",        \"column_num\": " ++ column_num ++
  ascii ",        \"filepath\": \"" ++ filepath ++
  ascii "\",        \"file_data\": \x7b\t\t\"" ++ filepath ++
  ascii "\": \x7b                \"contents\": \"" ++ contents ++
  ascii "\",                \"filetypes\": [\"" ++ filetype ++
  ascii "\"]        \t\x7d\t \x7d,        \"completer_target\": \"" ++ completer_target ++
  ascii "\"\x7d"

/-- The payload of a simple request, in the words of the specification. -/
def simple_request_expected (line_num column_num filepath contents filetype : List Nat) :
    List Nat :=
  ascii "\x7b        \"line_num\": " ++ line_num ++
  ascii ",        \"column_num\": " ++ column_num ++
  ascii ",        \"filepath\": \"" ++ filepath ++
  ascii "\",        \"file_data\": \x7b\t\t\"" ++ filepath ++
  ascii "\": \x7b                \"contents\": \"" ++ contents ++
  ascii "\",                \"filetypes\": [\"" ++ filetype ++
  ascii "\"]        \t\x7d\t \x7d\x7d"

/-- The segments of `event_notification_expected`, each with the byte that
follows it: a space, a comma, a quote or the closing brace. -/
def event_notification_pieces (column_num event_name filepath contents filetype line_num :
    List Nat) : List (List Nat × Nat) :=
  [(ascii "\x7b        \"column_num\":", 32), (column_num, 44),
    (ascii "        \"event_name\": ", 34), (event_name, 34),
    (ascii ",        \"file_data\": \x7b\t\t", 34), (filepath, 34),
    (ascii ": \x7b                \"contents\": ", 34), (contents, 34),
    (ascii ",                \"filetypes\": [", 34), (filetype, 34),
    (ascii "]        \t\x7d\t \x7d,        \"filepath\": ", 34), (filepath, 34),
    (ascii ",        \"line_num\":", 32), (line_num, 125)]

/-- The segments of `completions_expected` before its closing brace. -/
def completions_pieces (line_num column_num filepath contents filetype completer_target :
    List Nat) : List (List Nat × Nat) :=
  [(ascii "\x7b        \"line_num\":", 32), (line_num, 44),
    (ascii "        \"column_num\":", 32), (column_num, 44),
    (ascii "        \"filepath\": ", 34), (filepath, 34),
    (ascii ",        \"file_data\": \x7b\t\t", 34), (filepath, 34),
    (ascii ": \x7b                \"contents\": ", 34), (contents, 34),
    (ascii ",                \"filetypes\": [", 34), (filetype, 34),
    (ascii "]        \t\x7d\t \x7d,        \"completer_target\": ", 34), (completer_target, 34)]

/-- The segments of `simple_request_expected` before its last segment. -/
def simple_request_pieces (line_num column_num filepath contents filetype : List Nat) :
    List (List Nat × Nat) :=
  [(ascii "\x7b        \"line_num\":", 32), (line_num, 44),
    (ascii "        \"column_num\":", 32), (column_num, 44),
    (ascii "        \"filepath\": ", 34), (filepath, 34),
    (ascii ",        \"file_data\": \x7b\t\t", 34), (filepath, 34),
    (ascii ": \x7b                \"contents\": ", 34), (contents, 34),
    (ascii ",                \"filetypes\": [", 34), (filetype, 34)]

/-- The text does not contain any of the words. -/
def FreeOf (words : List (List Nat)) (s : List Nat) : Prop :=
  ∀ f ∈ words, occurs_in s f = false

instance (words : List (List Nat)) (s : List Nat) : Decidable (FreeOf words s) := by
  unfold FreeOf; infer_instance

/-- The sample state after `ycmd_gen_extra_conf` has found files of the C
family under the working directory. -/
def sample_clang_world : World :=
  ycmd_gen_extra_conf 0 (ascii "a.py") (some (ascii "x")) sample_world

/-! ## Counting replacements -/

/-- The number of occurrences the reference replacement replaces; the first
argument is the number of bytes of an occurrence still to be passed over. -/
def replaced_count (find : List Nat) : Nat → List Nat → Nat
  | _, [] => 0
  | skip + 1, _ :: rest => replaced_count find skip rest
  | 0, c :: rest =>
    if starts_with (c :: rest) find then 1 + replaced_count find (find.length - 1) rest
    else replaced_count find 0 rest

/-! ## Accepting a completion: the effects expected -/

/-- The state after `n` calls of `do_backspace`. -/
def after_backspaces (n : Nat) (w : World) : World :=
  { w with trace := w.trace ++ List.replicate n Event.do_backspace }

/-- The number of `do_backspace` calls among the effects. -/
def backspaces : List Event → Nat
  | [] => 0
  | .do_backspace :: rest => backspaces rest + 1
  | _ :: rest => backspaces rest

/-- A state for the examples: the sample state with the cursor left of the
recorded start column. -/
def sample_left_world : World :=
  { sample_world with
    ycmd_globals := { sample_world.ycmd_globals with apply_column := 5 },
    current_x := 1 }

/-! ## Reading back the output of `escape_json` -/

/-- The value of a lowercase hexadecimal digit, 0 for any other byte. -/
def hex_digit_value (c : Nat) : Nat :=
  if 48 ≤ c ∧ c ≤ 57 then c - 48 else if 97 ≤ c ∧ c ≤ 102 then c - 87 else 0

/-- The byte a two-byte escape stands for, by its second byte. -/
def unescape_letter (e : Nat) : Nat :=
  if e = 98 then 0x08 else if e = 116 then 0x09 else if e = 110 then 0x0a
  else if e = 118 then 0x0b else if e = 102 then 0x0c else if e = 114 then 0x0d else e

/-- The inverse of the per-byte images of `escape_json`: a backslash followed
by `u00` and two hexadecimal digits gives the byte with that code, a
backslash followed by another byte gives the byte that escape stands for,
and any other byte is itself.  The first argument is the number of bytes of
an escape still to be passed over. -/
def unescape_json : Nat → List Nat → List Nat
  | _, [] => []
  | skip + 1, _ :: rest => unescape_json skip rest
  | 0, c :: rest =>
    if c = 0x5c then
      if rest.getD 0 0 = 117 then
        (16 * hex_digit_value (rest.getD 3 0) + hex_digit_value (rest.getD 4 0)) ::
          unescape_json 5 rest
      else unescape_letter (rest.getD 0 0) :: unescape_json 1 rest
    else c :: unescape_json 0 rest

/-- The bytes `escape_json` copies: every byte but the NUL, the bytes 0x01 to
0x1F, the double quote, the slash and the backslash. -/
def PlainByte (c : Nat) : Prop :=
  0x20 ≤ c ∧ c ≠ 0x22 ∧ c ≠ 0x2f ∧ c ≠ 0x5c

instance (c : Nat) : Decidable (PlainByte c) := by
  unfold PlainByte; infer_instance

/-! ## The objects `ycmd_stop_server` releases -/

/-- The allocation state of the two objects `ycmd_stop_server` releases:
whether the block `ycmd_globals.json` points to is allocated, and whether the
session `ycmd_globals.session` points to is alive.  The pointers themselves
are the fields of `YCMD_GLOBALS`; no statement of the source resets them. -/
structure Allocations where
  json_allocated : Bool
  session_alive : Bool
  deriving DecidableEq, Repr

/-- Modelled from the platform: `ne_close_connection(sess)` followed by
`ne_session_destroy(sess)`.  Both read the session object, and the second
frees it; `none` is their use of a session that is not alive. -/
def ne_session_release (session_alive : Bool) : Option Bool :=
  if session_alive then some false else none

/-- Modelled from the platform: `free(p)` for a pointer `p` that is not NULL.
The block is released; `none` is the release of a block that is not
allocated, which the C standard leaves undefined. -/
def free (allocated : Bool) : Option Bool :=
  if allocated then some false else none

/-- `ycmd_stop_server` with the allocation state followed: the two session
calls, `if (ycmd_globals.json) free(ycmd_globals.json);`, then the rest of the
function as in `ycmd_stop_server`. -/
def ycmd_stop_server_checked (s : World × Allocations) : Option (World × Allocations) :=
  match ne_session_release s.2.session_alive with
  | none => none
  | some session_alive =>
    match (if s.1.ycmd_globals.json ≠ none then free s.2.json_allocated
        else some s.2.json_allocated) with
    | none => none
    | some json_allocated =>
      some (ycmd_stop_server s.1,
        { json_allocated := json_allocated, session_alive := session_alive })

/-- `ycmd_start_server` with the allocation state followed: nothing is
allocated when no port is found; otherwise line 1139 allocates the block of
`json` and line 1217 creates the session, and the branch taken when `waitpid`
does not return 0 ends in a call of `ycmd_stop_server`, which releases both. -/
def ycmd_start_server_checked (E : Env) (o : StartOutcomes) (s : World × Allocations) :
    Option (World × Allocations) :=
  match ycmd_start_server E o s.1 with
  | none => none
  | some w1 =>
    if (find_unused_localhost_port o s.1).2 = -1 then some (w1, s.2)
    else if o.waitpid_ret = 0 then some (w1, { json_allocated := true, session_alive := true })
    else
      match ne_session_release true, free true with
      | some session_alive, some json_allocated =>
        some (w1, { json_allocated := json_allocated, session_alive := session_alive })
      | _, _ => none

/-- The session of the examples. -/
def sample_session : ne_session :=
  { scheme := ascii "http", hostname := ascii "127.0.0.1", port := 40000, read_timeout := 1 }

/-- A state with a running, connected server as `ycmd_start_server` leaves it:
the session and the startup JSON are set. -/
def sample_started_world : World :=
  { sample_world with
    ycmd_globals := { sample_world.ycmd_globals with
      session := some sample_session, json := some (ascii "\x7b\x7d") } }

/-- The readiness request in the words of the specification: a `GET` of
`/ready` whose body is `subserver=` followed by the filetype tag, with the
digest header of that method, path and body. -/
def readiness_request (E : Env) (g : YCMD_GLOBALS) (ft : List Nat) : Request :=
  { method := ascii "GET", path := ascii "/ready", idempotent := 1,
    headers := [(E.HTTP_HEADER_YCM_HMAC,
      cstr (ycmd_compute_request E.crypto E.ssl g.secret_key_raw (ascii "GET") (ascii "/ready")
        (ascii "subserver=" ++ ft)))],
    body := some (ascii "subserver=" ++ ft) }

/-- A response with status 503, an empty body and the digest header `AAAA`. -/
def unavailable_response : Response :=
  { begin_ret := 0, code := 503, klass := 5, reads := [], hmac_header := some (ascii "AAAA"),
    heap_after := [] }

/-- Answers of the environment in which every request is answered with
status 503. -/
def unavailable_outcomes : ParseOutcomes :=
  { ready := unavailable_response, find_ret := 1, load := unavailable_response,
    notify := unavailable_response, completions := unavailable_response,
    ignore := unavailable_response }

/-! ## Lemmas on C strings -/

theorem strlen_of_nulFree {s : List Nat} (h : NulFree s) : strlen s = s.length := by
  induction s with
  | nil => rfl
  | cons b rest ih =>
    have hb : b ≠ 0 := h b (List.mem_cons_self _ _)
    have hr : NulFree rest := fun c hc => h c (List.mem_cons_of_mem _ hc)
    simp [strlen, hb, ih hr]

theorem cstr_of_nulFree {s : List Nat} (h : NulFree s) : cstr s = s := by
  simp [cstr, strlen_of_nulFree h]

theorem take_strlen_of_nulFree {s : List Nat} (h : NulFree s) : s.take (strlen s) = s :=
  cstr_of_nulFree h

theorem strcmp_self (s : List Nat) : strcmp s s = 0 := by
  induction s with
  | nil => rfl
  | cons b rest ih => simp [strcmp, ih]

theorem strcmp_eq_zero_iff {a b : List Nat} (ha : NulFree a) (hb : NulFree b) :
    strcmp a b = 0 ↔ a = b := by
  constructor
  · intro h
    induction a generalizing b with
    | nil =>
      cases b with
      | nil => rfl
      | cons y ys =>
        have hy : y ≠ 0 := hb y (List.mem_cons_self _ _)
        simp [strcmp] at h
        omega
    | cons x xs ih =>
      have hx : x ≠ 0 := ha x (List.mem_cons_self _ _)
      cases b with
      | nil =>
        simp [strcmp] at h
        omega
      | cons y ys =>
        by_cases hxy : x = y
        · subst hxy
          simp [strcmp, hx] at h
          have hxs : NulFree xs := fun c hc => ha c (List.mem_cons_of_mem _ hc)
          have hys : NulFree ys := fun c hc => hb c (List.mem_cons_of_mem _ hc)
          rw [ih hxs hys h]
        · simp [strcmp, hxy] at h
          omega
  · intro h
    subst h
    exact strcmp_self a

/-! ## The crypto contract -/

theorem take_of_length_eq {α : Type} {l : List α} {n : Nat} (h : l.length = n) :
    l.take n = l := by
  subst h
  exact List.take_length l

theorem be32_length (x : Nat) : (be32 x).length = 4 := rfl

theorem ref_sha256_length (m : List Nat) : (ref_sha256 m).length = 32 := by
  simp [ref_sha256, be32_length]

theorem ref_hmac_sha256_length (k m : List Nat) : (ref_hmac_sha256 k m).length = 32 := by
  unfold ref_hmac_sha256
  exact ref_sha256_length _

theorem base64_char_ne_zero (n : Nat) : base64_char n ≠ 0 := by
  unfold base64_char
  split_ifs <;> omega

theorem ref_base64_nulFree : ∀ d : List Nat, NulFree (ref_base64 d)
  | [] => by simp [ref_base64, NulFree]
  | [a] => by
    intro b hb
    simp only [ref_base64, List.mem_cons, List.mem_singleton, List.not_mem_nil, or_false] at hb
    rcases hb with h | h | h | h <;> subst h <;> first | exact base64_char_ne_zero _ | decide
  | [a, b] => by
    intro c hc
    simp only [ref_base64, List.mem_cons, List.mem_singleton, List.not_mem_nil, or_false] at hc
    rcases hc with h | h | h | h <;> subst h <;> first | exact base64_char_ne_zero _ | decide
  | a :: b :: c :: rest => by
    intro x hx
    simp only [ref_base64, List.mem_append, List.mem_cons, List.mem_singleton,
      List.not_mem_nil, or_false] at hx
    rcases hx with (h | h | h | h) | h
    · subst h; exact base64_char_ne_zero _
    · subst h; exact base64_char_ne_zero _
    · subst h; exact base64_char_ne_zero _
    · subst h; exact base64_char_ne_zero _
    · exact ref_base64_nulFree rest x h

theorem refLib_wellFormed : refLib.WellFormed :=
  ⟨ref_hmac_sha256_length, ref_base64_nulFree⟩

theorem join_length (L : CryptoLib) (hL : L.WellFormed) (k a b c : List Nat) :
    (L.hmac_sha256 k a ++ L.hmac_sha256 k b ++ L.hmac_sha256 k c).length = 96 := by
  simp [hL.1]

/-! ## Request signing -/

theorem ycmd_compute_request_join (L : CryptoLib) (hL : L.WellFormed) (v : SslLib)
    (k method path body : List Nat) (hk : k.length = 16) (hm : NulFree method)
    (hp : NulFree path) (hb : NulFree body) :
    ycmd_compute_request L v k method path body =
      L.base64 (L.hmac_sha256 k
        (L.hmac_sha256 k method ++ L.hmac_sha256 k path ++ L.hmac_sha256 k body)) := by
  have hkey : k.take 16 = k := take_of_length_eq hk
  have hlen : ∀ m, (L.hmac_sha256 k m).take 32 = L.hmac_sha256 k m :=
    fun m => take_of_length_eq (hL.1 k m)
  have hjoin : (L.hmac_sha256 k method ++ L.hmac_sha256 k path ++ L.hmac_sha256 k body).take 96
      = L.hmac_sha256 k method ++ L.hmac_sha256 k path ++ L.hmac_sha256 k body :=
    take_of_length_eq (join_length L hL k method path body)
  have hjoin2 : (L.hmac_sha256 k method ++ (L.hmac_sha256 k path ++ L.hmac_sha256 k body)).take 96
      = L.hmac_sha256 k method ++ (L.hmac_sha256 k path ++ L.hmac_sha256 k body) := by
    rw [← List.append_assoc]; exact hjoin
  cases v
  · simp [ycmd_compute_request, ycmd_compute_request_nettle, hmac_sha256_set_key,
      hmac_sha256_update, hmac_sha256_digest, SECRET_KEY_LENGTH, HMAC_SIZE, hkey, hlen,
      hjoin2, take_strlen_of_nulFree hm, take_strlen_of_nulFree hp, take_strlen_of_nulFree hb]
  · simp [ycmd_compute_request, ycmd_compute_request_openssl, HMAC, SECRET_KEY_LENGTH,
      HMAC_SIZE, hkey, hlen, hjoin2, take_strlen_of_nulFree hm, take_strlen_of_nulFree hp,
      take_strlen_of_nulFree hb]
  · simp [ycmd_compute_request, ycmd_compute_request_libgcrypt, gcry_mac_open, gcry_mac_setkey,
      gcry_mac_write, gcry_mac_read, gcry_mac_reset, SECRET_KEY_LENGTH, HMAC_SIZE, hkey, hlen,
      hjoin2, take_strlen_of_nulFree hm, take_strlen_of_nulFree hp, take_strlen_of_nulFree hb,
      cstr_of_nulFree (hL.2 _)]

/-- C1. For a 16-byte secret and NUL-free method, path and body,
`ycmd_compute_request` returns base64 of the HMAC, under the secret, of the
three HMACs of method, path and body joined in that order, the joined input
having 96 bytes; the value depends on the secret, method, path and body
alone and is the same under nettle, openssl and libgcrypt. -/
theorem ycmd_compute_request_eq (L : CryptoLib) (hL : L.WellFormed) (v : SslLib)
    (k method path body : List Nat) (hk : k.length = 16) (hm : NulFree method)
    (hp : NulFree path) (hb : NulFree body) :
    ycmd_compute_request L v k method path body =
        L.base64 (L.hmac_sha256 k
          (L.hmac_sha256 k method ++ L.hmac_sha256 k path ++ L.hmac_sha256 k body)) ∧
      (L.hmac_sha256 k method ++ L.hmac_sha256 k path ++ L.hmac_sha256 k body).length = 96 ∧
      ∀ v1 : SslLib, ycmd_compute_request L v1 k method path body =
        ycmd_compute_request L v k method path body := by
  refine ⟨ycmd_compute_request_join L hL v k method path body hk hm hp hb,
    join_length L hL k method path body, ?_⟩
  intro v1
  rw [ycmd_compute_request_join L hL v k method path body hk hm hp hb,
    ycmd_compute_request_join L hL v1 k method path body hk hm hp hb]

/-- Witness of C1: the reference library, the secret 0..15, and the request
`POST /completions` with body `{}`. -/
theorem ycmd_compute_request_eq_witness :
    (List.range 16).length = 16 ∧
    ycmd_compute_request refLib .nettle (List.range 16) (ascii "POST") (ascii "/completions")
        (ascii "\x7b\x7d") =
      refLib.base64 (refLib.hmac_sha256 (List.range 16)
        (refLib.hmac_sha256 (List.range 16) (ascii "POST") ++
          refLib.hmac_sha256 (List.range 16) (ascii "/completions") ++
          refLib.hmac_sha256 (List.range 16) (ascii "\x7b\x7d"))) :=
  ⟨by decide,
    (ycmd_compute_request_eq refLib refLib_wellFormed .nettle (List.range 16) (ascii "POST")
      (ascii "/completions") (ascii "\x7b\x7d") (by decide) (by decide) (by decide)
      (by decide)).1⟩

/-! ## Response verification -/

theorem ycmd_compute_response_cstr (L : CryptoLib) (hL : L.WellFormed) (v : SslLib)
    (k body : List Nat) (hk : k.length = 16) :
    ycmd_compute_response L v k body = L.base64 (L.hmac_sha256 k (cstr body)) := by
  have hkey : k.take 16 = k := take_of_length_eq hk
  have hlen : ∀ m, (L.hmac_sha256 k m).take 32 = L.hmac_sha256 k m :=
    fun m => take_of_length_eq (hL.1 k m)
  cases v
  · simp [ycmd_compute_response, hmac_sha256_set_key, hmac_sha256_update, hmac_sha256_digest,
      SECRET_KEY_LENGTH, HMAC_SIZE, hkey, hlen, cstr]
  · simp [ycmd_compute_response, HMAC, SECRET_KEY_LENGTH, HMAC_SIZE, hkey, hlen, cstr]
  · simp [ycmd_compute_response, gcry_mac_open, gcry_mac_setkey, gcry_mac_write, gcry_mac_read,
      SECRET_KEY_LENGTH, HMAC_SIZE, hkey, hlen, cstr_of_nulFree (hL.2 _)]
    simp [cstr]

theorem ycmd_compute_response_nulFree (L : CryptoLib) (hL : L.WellFormed) (v : SslLib)
    (k body : List Nat) (hk : k.length = 16) : NulFree (ycmd_compute_response L v k body) := by
  rw [ycmd_compute_response_cstr L hL v k body hk]
  exact hL.2 _

/-! ## Golden vectors of the reference library -/

set_option maxRecDepth 100000 in
/-- SHA-256 of `abc` (FIPS 180-4, appendix B.1). -/
theorem ref_sha256_abc :
    ref_sha256 (ascii "abc") =
      [186, 120, 22, 191, 143, 1, 207, 234, 65, 65, 64, 222, 93, 174, 34, 35,
       176, 3, 97, 163, 150, 23, 122, 156, 180, 16, 255, 97, 242, 0, 21, 173] := by
  decide!

set_option maxRecDepth 100000 in
/-- The request digest for the secret 0..15, `POST`, `/completions` and the
body `{}`, under each build. -/
theorem ycmd_compute_request_golden (v : SslLib) :
    ycmd_compute_request refLib v (List.range 16) (ascii "POST") (ascii "/completions")
        (ascii "\x7b\x7d") = ascii "y/ptFKxdqvqaPkOkqK/9O0Nihp26jENXq1bCXgXDuMo=" := by
  rw [ycmd_compute_request_join refLib refLib_wellFormed v (List.range 16) (ascii "POST")
    (ascii "/completions") (ascii "\x7b\x7d") (by decide) (by decide) (by decide) (by decide)]
  decide!

set_option maxRecDepth 100000 in
/-- The response digest for the secret 0..15 and the body `true`, under each
build. -/
theorem ycmd_compute_response_golden (v : SslLib) :
    ycmd_compute_response refLib v (List.range 16) (ascii "true") =
      ascii "Tjk/55k66RZIILPuGzu1YfCYokfyR7MlfHGgMQHL7+g=" := by
  rw [ycmd_compute_response_cstr refLib refLib_wellFormed v (List.range 16) (ascii "true")
    (by decide)]
  decide!

theorem response_verified_eq (L : CryptoLib) (hL : L.WellFormed) (v : SslLib)
    (k body remote : List Nat) (hk : k.length = 16) (hr : NulFree remote) :
    response_verified L v k (some remote) body =
      some (if remote = L.base64 (L.hmac_sha256 k (cstr body)) then 1 else 0) := by
  have hloc := ycmd_compute_response_nulFree L hL v k body hk
  have hiff := strcmp_eq_zero_iff hr hloc
  rw [ycmd_compute_response_cstr L hL v k body hk] at hiff
  unfold response_verified ycmd_compare_hmac
  rw [ycmd_compute_response_cstr L hL v k body hk]
  by_cases h : remote = L.base64 (L.hmac_sha256 k (cstr body))
  · subst h
    simp [strcmp_self]
  · have h0 : ¬ strcmp remote (L.base64 (L.hmac_sha256 k (cstr body))) = 0 :=
      fun hz => h (hiff.mp hz)
    simp [h, h0]

/-- C3, as stated, fails: the body `A\0B` and the body `A\0C`, one bit apart,
verify against the same digest, whatever the library and the secret. -/
theorem bit_flip_after_nul_verifies :
    ¬ (∀ (L : CryptoLib) (v : SslLib) (k body digest : List Nat) (i bit : Nat),
        L.WellFormed → k.length = 16 → i < body.length → bit < 8 →
        response_verified L v k (some digest) body = some 1 →
        response_verified L v k (some digest) (flip_bit body i bit) = some 0) := by
  intro h
  have hk : (List.range 16).length = 16 := by decide
  have hd := ycmd_compute_response_nulFree refLib refLib_wellFormed .nettle (List.range 16)
    [65, 0, 66] hk
  have h1 := response_verified_eq refLib refLib_wellFormed .nettle (List.range 16) [65, 0, 66]
    (ycmd_compute_response refLib .nettle (List.range 16) [65, 0, 66]) hk hd
  have h2 := response_verified_eq refLib refLib_wellFormed .nettle (List.range 16)
    (flip_bit [65, 0, 66] 2 0)
    (ycmd_compute_response refLib .nettle (List.range 16) [65, 0, 66]) hk hd
  have hc : cstr (flip_bit [65, 0, 66] 2 0) = cstr [65, 0, 66] := by decide
  rw [hc] at h2
  rw [ycmd_compute_response_cstr refLib refLib_wellFormed .nettle (List.range 16) [65, 0, 66] hk]
    at h1 h2
  simp only [if_true] at h1 h2
  have h3 := h refLib .nettle (List.range 16) [65, 0, 66]
    (refLib.base64 (refLib.hmac_sha256 (List.range 16) (cstr [65, 0, 66]))) 2 0
    refLib_wellFormed hk (by decide) (by decide) h1
  rw [h2] at h3
  exact absurd h3 (by decide)

/-- C3, amended. When a digest verifies for a body, verification of another
body (a single-bit flip of it among them) against the same digest returns
0 exactly when base64 of the HMAC of that body cut at its first NUL byte
differs from that of the first body cut at its first NUL byte, and returns
1 otherwise. -/
theorem response_verified_tampered (L : CryptoLib) (hL : L.WellFormed) (v : SslLib)
    (k body body1 digest : List Nat) (hk : k.length = 16) (hd : NulFree digest)
    (hv : response_verified L v k (some digest) body = some 1) :
    response_verified L v k (some digest) body1 =
      some (if L.base64 (L.hmac_sha256 k (cstr body1)) = L.base64 (L.hmac_sha256 k (cstr body))
        then 1 else 0) := by
  have h1 := response_verified_eq L hL v k body digest hk hd
  rw [hv] at h1
  have hdig : digest = L.base64 (L.hmac_sha256 k (cstr body)) := by
    by_contra hne
    simp [hne] at h1
  rw [response_verified_eq L hL v k body1 digest hk hd, hdig]
  by_cases he : L.base64 (L.hmac_sha256 k (cstr body1)) = L.base64 (L.hmac_sha256 k (cstr body))
  · simp [he]
  · have he2 : ¬ L.base64 (L.hmac_sha256 k (cstr body)) = L.base64 (L.hmac_sha256 k (cstr body1)) :=
      fun h => he h.symm
    simp [he, he2]

/-- Witness of C3 amended: the digest of `A\0B` verifies, and the body
`A\0C` is accepted against it. -/
theorem response_verified_tampered_witness :
    response_verified refLib .nettle (List.range 16)
      (some (ycmd_compute_response refLib .nettle (List.range 16) [65, 0, 66])) [65, 0, 67] =
      some 1 := by
  have hk : (List.range 16).length = 16 := by decide
  have hd := ycmd_compute_response_nulFree refLib refLib_wellFormed .nettle (List.range 16)
    [65, 0, 66] hk
  have hv : response_verified refLib .nettle (List.range 16)
      (some (ycmd_compute_response refLib .nettle (List.range 16) [65, 0, 66])) [65, 0, 66] =
      some 1 := by
    rw [response_verified_eq refLib refLib_wellFormed .nettle (List.range 16) [65, 0, 66] _ hk hd,
      ycmd_compute_response_cstr refLib refLib_wellFormed .nettle (List.range 16) [65, 0, 66] hk]
    simp
  have h := response_verified_tampered refLib refLib_wellFormed .nettle (List.range 16)
    [65, 0, 66] [65, 0, 67] _ hk hd hv
  have hc : cstr [65, 0, 67] = cstr [65, 0, 66] := by decide
  rw [hc] at h
  simpa using h

/-! ## escape_json -/

theorem escape_json_loop_eq (s out : List Nat) :
    escape_json_loop s out = out ++ s.flatMap escape_json_case := by
  induction s generalizing out with
  | nil => simp [escape_json_loop]
  | cons c rest ih => simp [escape_json_loop, ih, List.flatMap_cons]

theorem escape_json_case_eq_image (c : Nat) : escape_json_case c = escape_image c := by
  by_cases h : c < 93
  · interval_cases c <;> rfl
  · have h1 : escape_json_case c = [c] := by
      unfold escape_json_case
      split <;> first | omega | rfl
    have h2 : escape_image c = [c] := by
      unfold escape_image
      have e1 : ¬ (c = 0x5c ∨ c = 0x22 ∨ c = 0x2f) := by omega
      have e2 : ¬ (0x01 ≤ c ∧ c ≤ 0x1f) := by omega
      have e3 : c ≠ 0x08 ∧ c ≠ 0x09 ∧ c ≠ 0x0a ∧ c ≠ 0x0b ∧ c ≠ 0x0c ∧ c ≠ 0x0d := by omega
      simp [e1, e2, e3]
    rw [h1, h2]

/-- C4. For NUL-free text, `escape_json` yields the in-order concatenation of
the per-byte images: backslash, double quote and forward slash take a
backslash in front; backspace, tab, newline, vertical tab, form feed and
carriage return become `\b \t \n \v \f \r`; any other byte of 0x01..0x1F
becomes `\u00XX` in lowercase hex; every other byte is copied. -/
theorem escape_json_eq_images (s : List Nat) (hs : NulFree s) :
    escape_json s = s.flatMap escape_image := by
  unfold escape_json
  rw [take_strlen_of_nulFree hs, escape_json_loop_eq]
  simp only [List.nil_append]
  congr 1
  funext c
  exact escape_json_case_eq_image c

/-- Witness of C4: a text with a quote, a backslash, a newline, a tab, the
byte 0x01, the byte 0x7F and the byte 0xE9. -/
theorem escape_json_eq_images_witness :
    escape_json [97, 34, 92, 10, 9, 1, 127, 233] =
      [97, 34, 92, 10, 9, 1, 127, 233].flatMap escape_image :=
  escape_json_eq_images [97, 34, 92, 10, 9, 1, 127, 233] (by decide)

theorem escape_json_case_length_pos (c : Nat) : 1 ≤ (escape_json_case c).length := by
  by_cases h : c < 93
  · interval_cases c <;> decide
  · have h1 : escape_json_case c = [c] := by
      unfold escape_json_case
      split <;> first | omega | rfl
    rw [h1]
    rfl

theorem length_le_flatMap_escape (s : List Nat) :
    s.length ≤ (s.flatMap escape_json_case).length := by
  induction s with
  | nil => simp
  | cons c rest ih =>
    have := escape_json_case_length_pos c
    simp only [List.flatMap_cons, List.length_cons, List.length_append]
    omega

theorem json_chars_decode_case (c : Nat) (h0 : c ≠ 0) (hv : c ≠ 0x0b) (rest : List Nat)
    (n : Nat) :
    json_chars_decode (n + 1) (escape_json_case c ++ rest) =
      (json_chars_decode n rest).map (fun t => c :: t) := by
  by_cases h : c < 93
  · interval_cases c <;> first | omega | rfl
  · have h1 : escape_json_case c = [c] := by
      unfold escape_json_case
      split <;> first | omega | rfl
    rw [h1]
    have e1 : c ≠ 0x22 := by omega
    have e2 : c ≠ 0x5c := by omega
    have e3 : ¬ c < 0x20 := by omega
    simp [json_chars_decode, e1, e2, e3]

theorem json_chars_decode_images (s : List Nat) (hs : NulFree s) (hv : ∀ b ∈ s, b ≠ 0x0b) :
    ∀ n, s.length < n →
      json_chars_decode n (s.flatMap escape_json_case ++ [0x22]) = some s := by
  induction s with
  | nil =>
    intro n hn
    cases n with
    | zero => omega
    | succ m => rfl
  | cons c rest ih =>
    intro n hn
    cases n with
    | zero => omega
    | succ m =>
      have hc0 : c ≠ 0 := hs c (List.mem_cons_self _ _)
      have hcv : c ≠ 0x0b := hv c (List.mem_cons_self _ _)
      rw [List.flatMap_cons, List.append_assoc, json_chars_decode_case c hc0 hcv,
        ih (fun b hb => hs b (List.mem_cons_of_mem _ hb))
          (fun b hb => hv b (List.mem_cons_of_mem _ hb)) m (by simpa using hn)]
      rfl

/-- The round trip holds away from the vertical tab: for NUL-free text
without the byte 0x0B, the quoted result of `escape_json` is a string of the
JSON grammar and decodes to the text. -/
theorem escape_json_round_trip_without_vertical_tab (s : List Nat) (hs : NulFree s)
    (hv : ∀ b ∈ s, b ≠ 0x0b) :
    json_string_decode (json_quote (escape_json s)) = some s := by
  unfold escape_json
  rw [take_strlen_of_nulFree hs, escape_json_loop_eq]
  simp only [List.nil_append, json_quote, json_string_decode, List.singleton_append,
    List.cons_append, if_true]
  apply json_chars_decode_images s hs hv
  have := length_le_flatMap_escape s
  simp only [List.length_append, List.length_cons, List.length_nil]
  omega

/-- C5 at the failing input: the text of one vertical tab is escaped to `\v`,
and the literal built from it is not a string of the JSON grammar. -/
theorem escape_json_vertical_tab_not_json :
    escape_json [0x0b] = ascii "\\v" ∧
      json_string_decode (json_quote (escape_json [0x0b])) = none := by
  decide

/-! ## Payload construction returns -/

theorem strcmp_eq_zero_iff_cstr (a b : List Nat) : strcmp a b = 0 ↔ cstr a = cstr b := by
  induction a generalizing b with
  | nil =>
    cases b with
    | nil => simp [strcmp, cstr]
    | cons y ys =>
      by_cases hy : y = 0
      · subst hy; simp [strcmp, cstr, strlen]
      · simp [strcmp, cstr, strlen, hy]
  | cons x xs ih =>
    cases b with
    | nil =>
      by_cases hx : x = 0
      · subst hx; simp [strcmp, cstr, strlen]
      · simp [strcmp, cstr, strlen, hx]
    | cons y ys =>
      by_cases hxy : x = y
      · subst hxy
        by_cases hx : x = 0
        · subst hx; simp [strcmp, cstr, strlen]
        · have h := ih ys
          simp only [cstr] at h
          simp [strcmp, cstr, strlen, hx, h]
      · by_cases hx : x = 0
        · subst hx
          have hy : y ≠ 0 := fun h => hxy h.symm
          simp [strcmp, cstr, strlen, hy]
          omega
        · by_cases hy : y = 0
          · subst hy
            simp [strcmp, cstr, strlen, hx]
          · simp [strcmp, cstr, strlen, hx, hy, hxy]
            omega

theorem string_replace_loop_isSome (p find replace : List Nat) (lenb lenf lenr : Nat)
    (hf : 0 < lenf) : ∀ (fuel i : Nat) (out : List Nat), lenb - i < fuel →
    (string_replace_loop p find replace lenb lenf lenr fuel i out).isSome = true := by
  intro fuel
  induction fuel with
  | zero => intro i out h; omega
  | succ n ih =>
    intro i out h
    unfold string_replace_loop
    by_cases hi : i < lenb
    · simp only [hi, if_true]
      split
      · exact ih _ _ (by omega)
      · exact ih _ _ (by omega)
    · simp [hi]

theorem string_replace_w_some (buffer find r : List Nat) (hf : 0 < strlen find) :
    ∃ out, string_replace_w buffer find (some r) = some out := by
  have h := string_replace_loop_isSome buffer find r (strlen buffer) (strlen find) (strlen r) hf
    (strlen buffer + 1) 0 [] (by omega)
  exact Option.isSome_iff_exists.mp h

theorem ite_some_exists {α : Type} (c : Prop) [Decidable c] (a b : Option α)
    (ha : ∃ y, a = some y) (hb : ∃ y, b = some y) :
    ∃ y, (if c then a else b) = some y := by
  by_cases hc : c
  · simpa [hc] using ha
  · simpa [hc] using hb

theorem _ycmd_get_filetype_some (filepath c : List Nat) :
    ∃ ft, _ycmd_get_filetype filepath (some c) = some ft := by
  unfold _ycmd_get_filetype
  repeat (first | apply ite_some_exists | exact ⟨_, rfl⟩ | simp only [])

theorem _ycmd_json_replace_file_data_some (cwd json filepath c : List Nat) :
    ∃ out, _ycmd_json_replace_file_data cwd json filepath (some c) = some out := by
  unfold _ycmd_json_replace_file_data
  obtain ⟨ft, hft⟩ := _ycmd_get_filetype_some filepath c
  obtain ⟨j1, h1⟩ := string_replace_w_some json (ascii "FILEPATH")
    (file_data_filepath cwd filepath) (by decide)
  obtain ⟨j2, h2⟩ := string_replace_w_some j1 (ascii "FILETYPES") ft (by decide)
  obtain ⟨j3, h3⟩ := string_replace_w_some j2 (ascii "CONTENTS") c (by decide)
  exact ⟨j3, by simp only [h1, hft, h2, h3, Option.bind_eq_bind, Option.some_bind]⟩

theorem completions_body_some (E : Env) (w : World) (linenum columnnum : Int)
    (filepath c completertarget : List Nat) :
    ∃ json, completions_body E w linenum columnnum filepath (some c) completertarget
      = some json := by
  unfold completions_body
  obtain ⟨j1, h1⟩ := string_replace_w_some (strdup completions_template) (ascii "LINE_NUM")
    (snprintf_d E.DIGITS_MAX linenum) (by decide)
  obtain ⟨j2, h2⟩ := string_replace_w_some j1 (ascii "COLUMN_NUM")
    (snprintf_d E.DIGITS_MAX (column_sent w.ycmd_globals columnnum)) (by decide)
  obtain ⟨j3, h3⟩ := string_replace_w_some j2 (ascii "COMPLETER_TARGET") completertarget
    (by decide)
  obtain ⟨j4, h4⟩ := _ycmd_json_replace_file_data_some w.cwd j3 filepath c
  exact ⟨j4, by simp only [h1, h2, h3, h4, Option.bind_eq_bind, Option.some_bind]⟩

/-! ## Completion suggestions -/

theorem ycmd_compare_hmac_some (remote loc : List Nat) :
    ycmd_compare_hmac (some remote) loc = some (if cstr remote = cstr loc then 1 else 0) := by
  unfold ycmd_compare_hmac
  by_cases h : cstr remote = cstr loc
  · simp [h, (strcmp_eq_zero_iff_cstr remote loc).mpr h]
  · have h0 : ¬ strcmp remote loc = 0 := fun hz => h ((strcmp_eq_zero_iff_cstr remote loc).mp hz)
    simp [h, h0]

theorem response_compare_eq (L : CryptoLib) (hL : L.WellFormed) (v : SslLib)
    (k body remote : List Nat) (hk : k.length = 16) :
    ycmd_compare_hmac (some remote) (ycmd_compute_response L v k body) =
      some (if cstr remote = L.base64 (L.hmac_sha256 k (cstr body)) then 1 else 0) := by
  rw [ycmd_compare_hmac_some, cstr_of_nulFree (ycmd_compute_response_nulFree L hL v k body hk),
    ycmd_compute_response_cstr L hL v k body hk]

set_option maxRecDepth 100000 in
theorem ref_digest_cut_ne :
    ref_base64 (ref_hmac_sha256 (List.range 16) [65]) ≠
      ref_base64 (ref_hmac_sha256 (List.range 16) [65, 0, 66]) := by
  decide!

/-- C2, as stated, fails: for the body `A\0B` the remote digest that is
base64 of the HMAC of `A` alone verifies, although it is not base64 of the
HMAC of the body. -/
theorem nul_body_verifies_cut_digest :
    ycmd_compare_hmac (some (refLib.base64 (refLib.hmac_sha256 (List.range 16) [65])))
        (ycmd_compute_response refLib .nettle (List.range 16) [65, 0, 66]) = some 1 ∧
      refLib.base64 (refLib.hmac_sha256 (List.range 16) [65]) ≠
        refLib.base64 (refLib.hmac_sha256 (List.range 16) [65, 0, 66]) := by
  constructor
  · rw [response_compare_eq refLib refLib_wellFormed .nettle (List.range 16) [65, 0, 66] _
      (by decide), cstr_of_nulFree (refLib_wellFormed.2 _)]
    have hc : cstr [65, 0, 66] = [65] := by decide
    rw [hc, if_pos rfl]
  · exact ref_digest_cut_ne

/-- C2, amended. For a 16-byte secret, every response body and every remote
digest string, the comparison of the remote header value with
`ycmd_compute_response` of the body returns 1 if the text of the remote
digest equals base64 of the HMAC of the body cut at its first NUL byte, and 0
otherwise; for a body and a remote digest without NUL byte that is: 1 if and
only if the remote digest equals base64 of the HMAC of the body over its full
length. -/
theorem response_verified_iff (L : CryptoLib) (hL : L.WellFormed) (v : SslLib)
    (k body remote : List Nat) (hk : k.length = 16) :
    (ycmd_compare_hmac (some remote) (ycmd_compute_response L v k body) = some 1 ↔
        cstr remote = L.base64 (L.hmac_sha256 k (cstr body))) ∧
      (ycmd_compare_hmac (some remote) (ycmd_compute_response L v k body) = some 0 ↔
        cstr remote ≠ L.base64 (L.hmac_sha256 k (cstr body))) ∧
      (NulFree body → NulFree remote →
        (ycmd_compare_hmac (some remote) (ycmd_compute_response L v k body) = some 1 ↔
          remote = L.base64 (L.hmac_sha256 k body))) := by
  have h := response_compare_eq L hL v k body remote hk
  refine ⟨?_, ?_, ?_⟩
  · rw [h]
    by_cases he : cstr remote = L.base64 (L.hmac_sha256 k (cstr body)) <;> simp [he]
  · rw [h]
    by_cases he : cstr remote = L.base64 (L.hmac_sha256 k (cstr body)) <;> simp [he]
  · intro hb hr
    rw [h, cstr_of_nulFree hb, cstr_of_nulFree hr]
    by_cases he : remote = L.base64 (L.hmac_sha256 k body) <;> simp [he]

/-- Witness of C2 amended: the reference library, the secret 0..15, the body
`true` and a remote digest that is not its HMAC. -/
theorem response_verified_iff_witness :
    ycmd_compare_hmac (some (ascii "AAAA"))
        (ycmd_compute_response refLib .openssl (List.range 16) (ascii "true")) = some 0 ↔
      cstr (ascii "AAAA") ≠
        refLib.base64 (refLib.hmac_sha256 (List.range 16) (cstr (ascii "true"))) :=
  (response_verified_iff refLib refLib_wellFormed .openssl (List.range 16) (ascii "true")
    (ascii "AAAA") (by decide)).2.1

theorem completions_tampered_aux (E : Env) (resp : Response) (linenum columnnum : Int)
    (filepath c completertarget : List Nat) (w : World) (remote : List Nat)
    (hret : resp.begin_ret ≥ 0) (hh : resp.hmac_header = some remote)
    (hne : cstr remote ≠ cstr (ycmd_compute_response E.crypto E.ssl
      w.ycmd_globals.secret_key_raw (response_body_memory resp))) :
    ∃ json, completions_body E w linenum columnnum filepath (some c) completertarget
        = some json ∧
      ycmd_req_completions_suggestions E resp linenum columnnum filepath (some c)
        completertarget w =
        some (w.emit (.request (post_request E w (ascii "POST") (ascii "/completions") json)),
          0) := by
  obtain ⟨json, hjson⟩ := completions_body_some E w linenum columnnum filepath c completertarget
  refine ⟨json, hjson, ?_⟩
  unfold ycmd_req_completions_suggestions
  simp only [hjson, Option.bind_eq_bind, Option.some_bind, hret, if_true, hh,
    ycmd_compare_hmac_some, World.emit, hne, if_false]
  rfl

theorem ref_base64_length : ∀ d : List Nat, (ref_base64 d).length = 4 * ((d.length + 2) / 3)
  | [] => rfl
  | [_] => by simp [ref_base64]
  | [_, _] => by simp [ref_base64]
  | _ :: _ :: _ :: rest => by
    simp only [ref_base64, List.length_append, List.length_cons, List.length_nil,
      ref_base64_length rest]
    omega

theorem sample_digest_length (v : SslLib) (k body : List Nat) (hk : k.length = 16) :
    (cstr (ycmd_compute_response refLib v k body)).length = 44 := by
  rw [cstr_of_nulFree (ycmd_compute_response_nulFree refLib refLib_wellFormed v k body hk),
    ycmd_compute_response_cstr refLib refLib_wellFormed v k body hk]
  show (ref_base64 (ref_hmac_sha256 k (cstr body))).length = 44
  rw [ref_base64_length, ref_hmac_sha256_length]

theorem sample_digest_ne (v : SslLib) (k body remote : List Nat) (hk : k.length = 16)
    (hr : (cstr remote).length ≠ 44) :
    cstr remote ≠ cstr (ycmd_compute_response refLib v k body) := by
  intro h
  rw [h, sample_digest_length v k body hk] at hr
  exact hr rfl

/-- C6, as stated, fails: after a completions response whose digest header is
`AAAA`, the first entry of the completion menu still holds the candidate
`old` it held before the call. -/
theorem completions_tampered_keeps_candidate :
    ∃ w1, ycmd_req_completions_suggestions sample_env (sample_response (ascii "AAAA")) 1 7
        (ascii "a.py") (some (ascii "x")) (ascii "filetype_default") sample_world = some (w1, 0) ∧
      w1.allfuncs.getD 1 { menus := 0, desc := none } =
        { menus := 16384, desc := some (ascii "old") } := by
  obtain ⟨json, _, h⟩ := completions_tampered_aux sample_env (sample_response (ascii "AAAA")) 1 7
    (ascii "a.py") (ascii "x") (ascii "filetype_default") sample_world (ascii "AAAA")
    (by decide) rfl (sample_digest_ne _ _ _ _ (by decide) (by decide))
  exact ⟨_, h, rfl⟩

/-- C6, amended. When the completions response carries a digest header that
differs from the locally computed digest of the body,
`ycmd_req_completions_suggestions` returns 0 and changes nothing but the
trace, which gains the request alone: every entry of the function list and
`apply_column` are as before the call, and the completion bar is not shown. -/
theorem completions_tampered_rejected (E : Env) (resp : Response) (linenum columnnum : Int)
    (filepath c completertarget : List Nat) (w : World) (remote : List Nat)
    (hret : resp.begin_ret ≥ 0) (hh : resp.hmac_header = some remote)
    (hne : cstr remote ≠ cstr (ycmd_compute_response E.crypto E.ssl
      w.ycmd_globals.secret_key_raw (response_body_memory resp))) :
    ∃ w1 req, ycmd_req_completions_suggestions E resp linenum columnnum filepath (some c)
        completertarget w = some (w1, 0) ∧
      w1 = { w with trace := w.trace ++ [.request req] } ∧
      w1.allfuncs = w.allfuncs ∧
      w1.ycmd_globals.apply_column = w.ycmd_globals.apply_column ∧
      (∀ menu, Event.bottombars menu ∈ w1.trace → Event.bottombars menu ∈ w.trace) := by
  obtain ⟨json, _, h⟩ := completions_tampered_aux E resp linenum columnnum filepath c
    completertarget w remote hret hh hne
  refine ⟨_, _, h, rfl, rfl, rfl, ?_⟩
  intro menu hm
  simpa [World.emit] using hm

/-- Witness of C6 amended: the sample state and the sample response with the
digest header `AAAA`. -/
theorem completions_tampered_rejected_witness :
    ∃ w1 req, ycmd_req_completions_suggestions sample_env (sample_response (ascii "AAAA")) 1 7
        (ascii "a.py") (some (ascii "x")) (ascii "filetype_default") sample_world = some (w1, 0) ∧
      w1 = { sample_world with trace := sample_world.trace ++ [.request req] } ∧
      w1.allfuncs = sample_world.allfuncs ∧
      w1.ycmd_globals.apply_column = sample_world.ycmd_globals.apply_column ∧
      (∀ menu, Event.bottombars menu ∈ w1.trace → Event.bottombars menu ∈ sample_world.trace) :=
  completions_tampered_rejected sample_env (sample_response (ascii "AAAA")) 1 7
    (ascii "a.py") (ascii "x") (ascii "filetype_default") sample_world (ascii "AAAA")
    (by decide) rfl (sample_digest_ne _ _ _ _ (by decide) (by decide))

theorem expected_slots_beyond (texts : List (List Nat)) (maxlist : Int) :
    ∀ (fs : List subnfunc) (j : Nat), ¬ ((j : Int) < maxlist ∧ j < 26) →
      expected_slots texts maxlist j fs = fs := by
  intro fs
  induction fs with
  | nil => intro j _; rfl
  | cons f fs ih =>
    intro j h
    have h1 : ¬ (j < texts.length ∧ (j : Int) < maxlist ∧ j < 26) := fun hc => h hc.2
    have h2 : ¬ (((j + 1 : Nat) : Int) < maxlist ∧ j + 1 < 26) := by
      intro hc; apply h; constructor <;> omega
    simp only [expected_slots]
    rw [if_neg h1, if_neg h, ih (j + 1) h2]

theorem clear_unused_eq_expected (texts : List (List Nat)) (maxlist : Int) :
    ∀ (fs : List subnfunc) (j : Nat), ¬ (j < texts.length ∧ (j : Int) < maxlist ∧ j < 26) →
      clear_unused maxlist j fs = expected_slots texts maxlist j fs := by
  intro fs
  induction fs with
  | nil => intro j _; rfl
  | cons f fs ih =>
    intro j h
    by_cases h2 : (j : Int) < maxlist ∧ j < 26
    · have hn : ¬ (j + 1 < texts.length ∧ ((j + 1 : Nat) : Int) < maxlist ∧ j + 1 < 26) := by
        intro hc; apply h; exact ⟨by omega, h2⟩
      simp only [clear_unused, expected_slots]
      rw [if_pos h2, if_neg h, if_pos h2, ih (j + 1) hn]
    · simp only [clear_unused, expected_slots]
      rw [if_neg h2, if_neg h, if_neg h2]
      have h3 : ¬ (((j + 1 : Nat) : Int) < maxlist ∧ j + 1 < 26) := by
        intro hc; apply h2; constructor <;> omega
      rw [expected_slots_beyond texts maxlist fs (j + 1) h3]

theorem fill_candidates_eq_expected (completions : NxJson) (texts : List (List Nat))
    (maxlist : Int) (hn : completions.length = (texts.length : Int))
    (htext : ∀ i, i < texts.length →
      (nx_json_get (some (nx_json_item completions i)) (ascii "insertion_text")).text_value
        = some (texts.getD i [])) :
    ∀ (func : List subnfunc) (j : Nat), ∃ j1 done rest,
      fill_candidates completions maxlist j func = some (j1, done, rest) ∧
      (0 < j1 ↔ 0 < j ∨ (func ≠ [] ∧ j < texts.length ∧ (j : Int) < maxlist ∧ j < 26)) ∧
      done ++ clear_unused maxlist j1 rest = expected_slots texts maxlist j func := by
  intro func
  induction func with
  | nil =>
    intro j
    exact ⟨j, [], [], rfl, by simp, rfl⟩
  | cons f fs ih =>
    intro j
    by_cases h : j < texts.length ∧ (j : Int) < maxlist ∧ j < 26
    · obtain ⟨j1, done, rest, hfill, hpos, heq⟩ := ih (j + 1)
      have hc : (j : Int) < completions.length ∧ (j : Int) < maxlist ∧ j < 26 := by
        rw [hn]; exact ⟨by exact_mod_cast h.1, h.2⟩
      refine ⟨j1, { f with desc := some (strdup (texts.getD j [])) } :: done, rest, ?_, ?_, ?_⟩
      · simp only [fill_candidates]
        rw [if_pos hc]
        simp only [htext j h.1, hfill]
      · have : 0 < j1 := hpos.mpr (Or.inl (by omega))
        simp [this, h]
      · simp only [expected_slots]
        rw [if_pos h, List.cons_append, heq]
    · have hc : ¬ ((j : Int) < completions.length ∧ (j : Int) < maxlist ∧ j < 26) := by
        rw [hn]; intro hc; exact h ⟨by exact_mod_cast hc.1, hc.2⟩
      refine ⟨j, [], f :: fs, ?_, ?_, ?_⟩
      · simp only [fill_candidates]
        rw [if_neg hc]
      · simp [h]
      · simp only [List.nil_append]
        exact clear_unused_eq_expected texts maxlist (f :: fs) j h

theorem completions_verified_success (E : Env) (resp : Response) (linenum columnnum : Int)
    (filepath c completertarget : List Nat) (w : World) (remote : List Nat)
    (texts : List (List Nat)) (s : Int)
    (hret : resp.begin_ret ≥ 0) (hcode : resp.code = 200)
    (hh : resp.hmac_header = some remote)
    (hsig : cstr remote = cstr (ycmd_compute_response E.crypto E.ssl
      w.ycmd_globals.secret_key_raw (response_body_memory resp)))
    (hkey : strstr (response_body_memory resp) (ascii "completion_start_column") = true)
    (hn : (nx_json_get (E.nx_json_parse_utf8 (cstr (response_body_memory resp)))
      (ascii "completions")).length = (texts.length : Int))
    (htext : ∀ i, i < texts.length →
      (nx_json_get (some (nx_json_item
        (nx_json_get (E.nx_json_parse_utf8 (cstr (response_body_memory resp)))
          (ascii "completions")) i)) (ascii "insertion_text")).text_value
        = some (texts.getD i []))
    (hs : (nx_json_get (E.nx_json_parse_utf8 (cstr (response_body_memory resp)))
      (ascii "completion_start_column")).int_value = s) :
    ∃ w1, ycmd_req_completions_suggestions E resp linenum columnnum filepath (some c)
        completertarget w = some (w1, 1) ∧
      w1.allfuncs = (find_menu_func E.MCODECOMPLETION w.allfuncs).1 ++
        expected_slots texts E.MAIN_VISIBLE 0 (find_menu_func E.MCODECOMPLETION w.allfuncs).2 ∧
      w1.ycmd_globals.apply_column = s := by
  obtain ⟨json, hjson⟩ := completions_body_some E w linenum columnnum filepath c completertarget
  obtain ⟨j1, done, rest, hfill, _, heq⟩ := fill_candidates_eq_expected _ texts E.MAIN_VISIBLE
    hn htext (find_menu_func E.MCODECOMPLETION w.allfuncs).2 0
  unfold ycmd_req_completions_suggestions
  simp only [hjson, Option.bind_eq_bind, Option.some_bind, hret, if_true, hh,
    ycmd_compare_hmac_some, World.emit, hsig, hkey, hfill, hcode]
  rw [if_neg (by decide)]
  refine ⟨_, rfl, ?_, ?_⟩
  · by_cases hj : 0 < j1 <;> simp [hj, List.append_assoc, heq]
  · by_cases hj : 0 < j1 <;> simp [hj, hs]

theorem sample_response_body (h : List Nat) :
    response_body_memory (sample_response h) = sample_body := by
  have e : _ne_read_response_body_full (sample_response h) = sample_body := by
    simp [_ne_read_response_body_full, sample_response, read_response_loop]
    decide
  unfold response_body_memory
  rw [e, if_pos (by decide)]

theorem response_body_memory_short (resp : Response)
    (h : (_ne_read_response_body_full resp).length < 512) :
    response_body_memory resp = _ne_read_response_body_full resp := by
  unfold response_body_memory
  rw [if_pos h]

theorem response_body_memory_long (resp : Response)
    (h : 512 ≤ (_ne_read_response_body_full resp).length) :
    response_body_memory resp = _ne_read_response_body_full resp ++ resp.heap_after := by
  unfold response_body_memory
  rw [if_neg (by omega)]

theorem read_one_block (b : List Nat) (h1 : 0 < b.length) (h2 : b.length ≤ 512) :
    read_response_loop 2 [.block b true] [] = b := by
  have ht : b.take 512 = b := List.take_of_length_le h2
  have hl : ¬ ((b.length : Int) ≤ 0) := by omega
  simp [read_response_loop, ht, hl]

theorem long_response_body (heap : List Nat) :
    _ne_read_response_body_full (long_signed_response heap) = List.replicate 512 65 :=
  read_one_block (List.replicate 512 65) (by rw [List.length_replicate]; decide)
    (by rw [List.length_replicate])

theorem nulFree_replicate (n c : Nat) (hc : c ≠ 0) : NulFree (List.replicate n c) := by
  intro b hb
  rw [List.eq_of_mem_replicate hb]
  exact hc

/-! ## The reference HMAC of a body of 512 bytes, block by block -/

theorem sha256_blocks_fold : ∀ (bs : List (List Nat)) (hv : Sha256State),
    (∀ b ∈ bs, b.length = 64) →
    sha256_blocks bs.length hv (bs.foldr (fun b acc => b ++ acc) []) =
      bs.foldl sha256_block hv := by
  intro bs
  induction bs with
  | nil => intro hv _; rfl
  | cons b rest ih =>
    intro hv h
    have hb : b.length = 64 := h b (List.mem_cons_self _ _)
    simp only [List.length_cons, List.foldr_cons, List.foldl_cons, sha256_blocks]
    rw [List.take_left' hb, List.drop_left' hb]
    exact ih _ (fun c hc => h c (List.mem_cons_of_mem _ hc))

theorem blocks_length : ∀ (bs : List (List Nat)), (∀ b ∈ bs, b.length = 64) →
    (bs.foldr (fun b acc => b ++ acc) []).length / 64 = bs.length := by
  intro bs h
  have hl : (bs.foldr (fun b acc => b ++ acc) []).length = 64 * bs.length := by
    induction bs with
    | nil => rfl
    | cons b rest ih =>
      simp only [List.foldr_cons, List.length_append, List.length_cons,
        h b (List.mem_cons_self _ _), ih (fun c hc => h c (List.mem_cons_of_mem _ hc))]
      omega
  rw [hl]
  omega

theorem ref_sha256_of_blocks (m : List Nat) (bs : List (List Nat)) (s : Sha256State)
    (hp : sha256_pad m = bs.foldr (fun b acc => b ++ acc) [])
    (h64 : ∀ b ∈ bs, b.length = 64) (hs : bs.foldl sha256_block sha256_init = s) :
    ref_sha256 m =
      be32 s.a ++ be32 s.b ++ be32 s.c ++ be32 s.d ++ be32 s.e ++ be32 s.f ++ be32 s.g
        ++ be32 s.h := by
  unfold ref_sha256
  simp only []
  rw [hp, blocks_length bs h64, sha256_blocks_fold bs _ h64, hs]

theorem ref_hmac_sha256_sample_key (m : List Nat) :
    ref_hmac_sha256 (List.range 16) m =
      ref_sha256 ([92, 93, 94, 95, 88, 89, 90, 91, 84, 85, 86, 87, 80, 81, 82, 83, 92, 92, 92, 92, 92, 92, 92,
      92, 92, 92, 92, 92, 92, 92, 92, 92, 92, 92, 92, 92, 92, 92, 92, 92, 92, 92, 92, 92, 92, 92,
      92, 92, 92, 92, 92, 92, 92, 92, 92, 92, 92, 92, 92, 92, 92, 92, 92, 92] ++
        ref_sha256 ([54, 55, 52, 53, 50, 51, 48, 49, 62, 63, 60, 61, 58, 59, 56, 57, 54, 54, 54, 54, 54, 54, 54,
      54, 54, 54, 54, 54, 54, 54, 54, 54, 54, 54, 54, 54, 54, 54, 54, 54, 54, 54, 54, 54, 54, 54,
      54, 54, 54, 54, 54, 54, 54, 54, 54, 54, 54, 54, 54, 54, 54, 54, 54, 54] ++ m)) := by
  have h1 : (if (List.range 16).length > 64 then ref_sha256 (List.range 16)
      else List.range 16) = List.range 16 := by decide
  have h2 : (List.range 16 ++ List.replicate (64 - (List.range 16).length) 0).map
      (fun b => b ^^^ 92) = [92, 93, 94, 95, 88, 89, 90, 91, 84, 85, 86, 87, 80, 81, 82, 83, 92, 92, 92, 92, 92, 92, 92,
      92, 92, 92, 92, 92, 92, 92, 92, 92, 92, 92, 92, 92, 92, 92, 92, 92, 92, 92, 92, 92, 92, 92,
      92, 92, 92, 92, 92, 92, 92, 92, 92, 92, 92, 92, 92, 92, 92, 92, 92, 92] := by
    decide
  have h3 : (List.range 16 ++ List.replicate (64 - (List.range 16).length) 0).map
      (fun b => b ^^^ 54) = [54, 55, 52, 53, 50, 51, 48, 49, 62, 63, 60, 61, 58, 59, 56, 57, 54, 54, 54, 54, 54, 54, 54,
      54, 54, 54, 54, 54, 54, 54, 54, 54, 54, 54, 54, 54, 54, 54, 54, 54, 54, 54, 54, 54, 54, 54,
      54, 54, 54, 54, 54, 54, 54, 54, 54, 54, 54, 54, 54, 54, 54, 54, 54, 54] := by
    decide
  unfold ref_hmac_sha256
  simp only []
  rw [h1, h2, h3]

set_option maxRecDepth 100000 in
theorem long_inner_block_0 :
    sha256_block sha256_init
      [54, 55, 52, 53, 50, 51, 48, 49, 62, 63, 60, 61, 58, 59, 56, 57, 54, 54, 54, 54, 54, 54, 54,
      54, 54, 54, 54, 54, 54, 54, 54, 54, 54, 54, 54, 54, 54, 54, 54, 54, 54, 54, 54, 54, 54, 54,
      54, 54, 54, 54, 54, 54, 54, 54, 54, 54, 54, 54, 54, 54, 54, 54, 54, 54] =
      { a := 2690043824, b := 946326953, c := 2701940328, d := 2696149613,
        e := 2031585509, f := 958541949, g := 3378079182, h := 1700649708 } := by
  decide!

set_option maxRecDepth 100000 in
theorem long_inner_block_1 :
    sha256_block 
      { a := 2690043824, b := 946326953, c := 2701940328, d := 2696149613,
        e := 2031585509, f := 958541949, g := 3378079182, h := 1700649708 }
      (List.replicate 64 65) =
      { a := 4192310320, b := 630456701, c := 2016036632, d := 3724880223,
        e := 2908691863, f := 2635832923, g := 2749395165, h := 2198225717 } := by
  decide!

set_option maxRecDepth 100000 in
theorem long_inner_block_2 :
    sha256_block 
      { a := 4192310320, b := 630456701, c := 2016036632, d := 3724880223,
        e := 2908691863, f := 2635832923, g := 2749395165, h := 2198225717 }
      (List.replicate 64 65) =
      { a := 3986606899, b := 162001630, c := 3914658543, d := 3581309054,
        e := 1386974247, f := 663889286, g := 1385906513, h := 3119932681 } := by
  decide!

set_option maxRecDepth 100000 in
theorem long_inner_block_3 :
    sha256_block 
      { a := 3986606899, b := 162001630, c := 3914658543, d := 3581309054,
        e := 1386974247, f := 663889286, g := 1385906513, h := 3119932681 }
      (List.replicate 64 65) =
      { a := 3317562878, b := 13617783, c := 1844042405, d := 658222820,
        e := 2273182198, f := 369563671, g := 2005091167, h := 3732564375 } := by
  decide!

set_option maxRecDepth 100000 in
theorem long_inner_block_4 :
    sha256_block 
      { a := 3317562878, b := 13617783, c := 1844042405, d := 658222820,
        e := 2273182198, f := 369563671, g := 2005091167, h := 3732564375 }
      (List.replicate 64 65) =
      { a := 4048702640, b := 4057888146, c := 3797346791, d := 1167420754,
        e := 574073805, f := 3502795835, g := 3169442482, h := 3042616861 } := by
  decide!

set_option maxRecDepth 100000 in
theorem long_inner_block_5 :
    sha256_block 
      { a := 4048702640, b := 4057888146, c := 3797346791, d := 1167420754,
        e := 574073805, f := 3502795835, g := 3169442482, h := 3042616861 }
      (List.replicate 64 65) =
      { a := 1224613619, b := 3605350777, c := 26605646, d := 2118467292,
        e := 2547066998, f := 537185973, g := 2118029700, h := 2377804087 } := by
  decide!

set_option maxRecDepth 100000 in
theorem long_inner_block_6 :
    sha256_block 
      { a := 1224613619, b := 3605350777, c := 26605646, d := 2118467292,
        e := 2547066998, f := 537185973, g := 2118029700, h := 2377804087 }
      (List.replicate 64 65) =
      { a := 2217427995, b := 3613201145, c := 1671356946, d := 745585160,
        e := 4129209786, f := 1411631887, g := 1749942260, h := 2054672947 } := by
  decide!

set_option maxRecDepth 100000 in
theorem long_inner_block_7 :
    sha256_block 
      { a := 2217427995, b := 3613201145, c := 1671356946, d := 745585160,
        e := 4129209786, f := 1411631887, g := 1749942260, h := 2054672947 }
      (List.replicate 64 65) =
      { a := 3720069725, b := 2737566908, c := 983355362, d := 203440684,
        e := 2038241354, f := 1312844438, g := 2666869931, h := 138649640 } := by
  decide!

set_option maxRecDepth 100000 in
theorem long_inner_block_8 :
    sha256_block 
      { a := 3720069725, b := 2737566908, c := 983355362, d := 203440684,
        e := 2038241354, f := 1312844438, g := 2666869931, h := 138649640 }
      (List.replicate 64 65) =
      { a := 617601181, b := 958395522, c := 1659847447, d := 740880144,
        e := 3073592910, f := 2544185153, g := 2979664847, h := 1680578135 } := by
  decide!

set_option maxRecDepth 100000 in
theorem long_inner_block_9 :
    sha256_block 
      { a := 617601181, b := 958395522, c := 1659847447, d := 740880144,
        e := 3073592910, f := 2544185153, g := 2979664847, h := 1680578135 }
      [128, 0, 0, 0, 0, 0, 0, 0, 0, 0, 0, 0, 0, 0, 0, 0, 0, 0, 0, 0, 0, 0, 0, 0, 0, 0, 0, 0, 0, 0,
      0, 0, 0, 0, 0, 0, 0, 0, 0, 0, 0, 0, 0, 0, 0, 0, 0, 0, 0, 0, 0, 0, 0, 0, 0, 0, 0, 0, 0, 0, 0,
      0, 18, 0] =
      { a := 3905925383, b := 2774055503, c := 1938616750, d := 3838529847,
        e := 2091771523, f := 969943005, g := 2759583133, h := 2983748087 } := by
  decide!

set_option maxRecDepth 100000 in
theorem long_inner_block_9_heap :
    sha256_block 
      { a := 617601181, b := 958395522, c := 1659847447, d := 740880144,
        e := 3073592910, f := 2544185153, g := 2979664847, h := 1680578135 }
      [66, 128, 0, 0, 0, 0, 0, 0, 0, 0, 0, 0, 0, 0, 0, 0, 0, 0, 0, 0, 0, 0, 0, 0, 0, 0, 0, 0, 0,
      0, 0, 0, 0, 0, 0, 0, 0, 0, 0, 0, 0, 0, 0, 0, 0, 0, 0, 0, 0, 0, 0, 0, 0, 0, 0, 0, 0, 0, 0, 0,
      0, 0, 18, 8] =
      { a := 3681898569, b := 2714680759, c := 3976526082, d := 297582017,
        e := 846311062, f := 3439501423, g := 2079053272, h := 1552044321 } := by
  decide!

set_option maxRecDepth 100000 in
theorem long_outer_block_0 :
    sha256_block sha256_init
      [92, 93, 94, 95, 88, 89, 90, 91, 84, 85, 86, 87, 80, 81, 82, 83, 92, 92, 92, 92, 92, 92, 92,
      92, 92, 92, 92, 92, 92, 92, 92, 92, 92, 92, 92, 92, 92, 92, 92, 92, 92, 92, 92, 92, 92, 92,
      92, 92, 92, 92, 92, 92, 92, 92, 92, 92, 92, 92, 92, 92, 92, 92, 92, 92] =
      { a := 670504455, b := 1577244816, c := 3107632823, d := 2553756875,
        e := 1488215857, f := 3634371310, g := 1962517703, h := 4229616238 } := by
  decide!

set_option maxRecDepth 100000 in
theorem long_outer_block_1 :
    sha256_block 
      { a := 670504455, b := 1577244816, c := 3107632823, d := 2553756875,
        e := 1488215857, f := 3634371310, g := 1962517703, h := 4229616238 }
      [232, 207, 177, 7, 165, 88, 186, 79, 115, 140, 241, 174, 228, 203, 81, 55, 124, 173, 230,
      131, 57, 208, 39, 221, 164, 123, 229, 157, 177, 216, 97, 247, 128, 0, 0, 0, 0, 0, 0, 0, 0,
      0, 0, 0, 0, 0, 0, 0, 0, 0, 0, 0, 0, 0, 0, 0, 0, 0, 0, 0, 0, 0, 3, 0] =
      { a := 3254380164, b := 2876022954, c := 406578222, d := 631344790,
        e := 119183199, f := 2874685789, g := 1126023577, h := 2121019007 } := by
  decide!

set_option maxRecDepth 100000 in
theorem long_outer_block_1_heap :
    sha256_block 
      { a := 670504455, b := 1577244816, c := 3107632823, d := 2553756875,
        e := 1488215857, f := 3634371310, g := 1962517703, h := 4229616238 }
      [219, 117, 80, 73, 161, 206, 189, 183, 237, 4, 249, 2, 17, 188, 189, 193, 50, 113, 174, 150,
      205, 2, 160, 111, 123, 235, 213, 216, 92, 130, 81, 33, 128, 0, 0, 0, 0, 0, 0, 0, 0, 0, 0, 0,
      0, 0, 0, 0, 0, 0, 0, 0, 0, 0, 0, 0, 0, 0, 0, 0, 0, 0, 3, 0] =
      { a := 3352954350, b := 1133778337, c := 1256867406, d := 3085404617,
        e := 4218644943, f := 4278163342, g := 1901878238, h := 3916238341 } := by
  decide!

set_option maxRecDepth 100000 in
theorem long_inner_pad :
    sha256_pad ([54, 55, 52, 53, 50, 51, 48, 49, 62, 63, 60, 61, 58, 59, 56, 57, 54, 54, 54, 54, 54, 54, 54,
      54, 54, 54, 54, 54, 54, 54, 54, 54, 54, 54, 54, 54, 54, 54, 54, 54, 54, 54, 54, 54, 54, 54,
      54, 54, 54, 54, 54, 54, 54, 54, 54, 54, 54, 54, 54, 54, 54, 54, 54, 54] ++
      List.replicate 512 65) =
    ([[54, 55, 52, 53, 50, 51, 48, 49, 62, 63, 60, 61, 58, 59, 56, 57, 54, 54, 54, 54, 54, 54, 54,
      54, 54, 54, 54, 54, 54, 54, 54, 54, 54, 54, 54, 54, 54, 54, 54, 54, 54, 54, 54, 54, 54, 54,
      54, 54, 54, 54, 54, 54, 54, 54, 54, 54, 54, 54, 54, 54, 54, 54, 54, 54],
      List.replicate 64 65, List.replicate 64 65, List.replicate 64 65, List.replicate 64 65, List.replicate 64 65, List.replicate 64 65, List.replicate 64 65, List.replicate 64 65,
      [128, 0, 0, 0, 0, 0, 0, 0, 0, 0, 0, 0, 0, 0, 0, 0, 0, 0, 0, 0, 0, 0, 0, 0, 0, 0, 0, 0, 0, 0,
      0, 0, 0, 0, 0, 0, 0, 0, 0, 0, 0, 0, 0, 0, 0, 0, 0, 0, 0, 0, 0, 0, 0, 0, 0, 0, 0, 0, 0, 0, 0,
      0, 18, 0]]).foldr (fun b acc => b ++ acc) [] := by
  decide!

set_option maxRecDepth 100000 in
theorem long_inner :
    ref_sha256 ([54, 55, 52, 53, 50, 51, 48, 49, 62, 63, 60, 61, 58, 59, 56, 57, 54, 54, 54, 54, 54, 54, 54,
      54, 54, 54, 54, 54, 54, 54, 54, 54, 54, 54, 54, 54, 54, 54, 54, 54, 54, 54, 54, 54, 54, 54,
      54, 54, 54, 54, 54, 54, 54, 54, 54, 54, 54, 54, 54, 54, 54, 54, 54, 54] ++
      List.replicate 512 65) =
      [232, 207, 177, 7, 165, 88, 186, 79, 115, 140, 241, 174, 228, 203, 81, 55, 124, 173, 230,
      131, 57, 208, 39, 221, 164, 123, 229, 157, 177, 216, 97, 247] := by
  rw [ref_sha256_of_blocks _ _ _ long_inner_pad (by decide)
    (by
      simp only [List.foldl_cons, List.foldl_nil]
      rw [long_inner_block_0, long_inner_block_1, long_inner_block_2, long_inner_block_3,
        long_inner_block_4, long_inner_block_5, long_inner_block_6, long_inner_block_7,
        long_inner_block_8, long_inner_block_9])]
  decide

set_option maxRecDepth 100000 in
theorem long_inner_heap_pad :
    sha256_pad ([54, 55, 52, 53, 50, 51, 48, 49, 62, 63, 60, 61, 58, 59, 56, 57, 54, 54, 54, 54, 54, 54, 54,
      54, 54, 54, 54, 54, 54, 54, 54, 54, 54, 54, 54, 54, 54, 54, 54, 54, 54, 54, 54, 54, 54, 54,
      54, 54, 54, 54, 54, 54, 54, 54, 54, 54, 54, 54, 54, 54, 54, 54, 54, 54] ++
      (List.replicate 512 65 ++ [66])) =
    ([[54, 55, 52, 53, 50, 51, 48, 49, 62, 63, 60, 61, 58, 59, 56, 57, 54, 54, 54, 54, 54, 54, 54,
      54, 54, 54, 54, 54, 54, 54, 54, 54, 54, 54, 54, 54, 54, 54, 54, 54, 54, 54, 54, 54, 54, 54,
      54, 54, 54, 54, 54, 54, 54, 54, 54, 54, 54, 54, 54, 54, 54, 54, 54, 54],
      List.replicate 64 65, List.replicate 64 65, List.replicate 64 65, List.replicate 64 65, List.replicate 64 65, List.replicate 64 65, List.replicate 64 65, List.replicate 64 65,
      [66, 128, 0, 0, 0, 0, 0, 0, 0, 0, 0, 0, 0, 0, 0, 0, 0, 0, 0, 0, 0, 0, 0, 0, 0, 0, 0, 0, 0,
      0, 0, 0, 0, 0, 0, 0, 0, 0, 0, 0, 0, 0, 0, 0, 0, 0, 0, 0, 0, 0, 0, 0, 0, 0, 0, 0, 0, 0, 0, 0,
      0, 0, 18, 8]]).foldr (fun b acc => b ++ acc) [] := by
  decide!

set_option maxRecDepth 100000 in
theorem long_inner_heap :
    ref_sha256 ([54, 55, 52, 53, 50, 51, 48, 49, 62, 63, 60, 61, 58, 59, 56, 57, 54, 54, 54, 54, 54, 54, 54,
      54, 54, 54, 54, 54, 54, 54, 54, 54, 54, 54, 54, 54, 54, 54, 54, 54, 54, 54, 54, 54, 54, 54,
      54, 54, 54, 54, 54, 54, 54, 54, 54, 54, 54, 54, 54, 54, 54, 54, 54, 54] ++
      (List.replicate 512 65 ++ [66])) =
      [219, 117, 80, 73, 161, 206, 189, 183, 237, 4, 249, 2, 17, 188, 189, 193, 50, 113, 174, 150,
      205, 2, 160, 111, 123, 235, 213, 216, 92, 130, 81, 33] := by
  rw [ref_sha256_of_blocks _ _ _ long_inner_heap_pad (by decide)
    (by
      simp only [List.foldl_cons, List.foldl_nil]
      rw [long_inner_block_0, long_inner_block_1, long_inner_block_2, long_inner_block_3,
        long_inner_block_4, long_inner_block_5, long_inner_block_6, long_inner_block_7,
        long_inner_block_8, long_inner_block_9_heap])]
  decide

set_option maxRecDepth 100000 in
theorem long_outer_pad :
    sha256_pad ([92, 93, 94, 95, 88, 89, 90, 91, 84, 85, 86, 87, 80, 81, 82, 83, 92, 92, 92, 92, 92, 92, 92,
      92, 92, 92, 92, 92, 92, 92, 92, 92, 92, 92, 92, 92, 92, 92, 92, 92, 92, 92, 92, 92, 92, 92,
      92, 92, 92, 92, 92, 92, 92, 92, 92, 92, 92, 92, 92, 92, 92, 92, 92, 92] ++
      [232, 207, 177, 7, 165, 88, 186, 79, 115, 140, 241, 174, 228, 203, 81, 55, 124, 173, 230,
      131, 57, 208, 39, 221, 164, 123, 229, 157, 177, 216, 97, 247]) =
    ([[92, 93, 94, 95, 88, 89, 90, 91, 84, 85, 86, 87, 80, 81, 82, 83, 92, 92, 92, 92, 92, 92, 92,
      92, 92, 92, 92, 92, 92, 92, 92, 92, 92, 92, 92, 92, 92, 92, 92, 92, 92, 92, 92, 92, 92, 92,
      92, 92, 92, 92, 92, 92, 92, 92, 92, 92, 92, 92, 92, 92, 92, 92, 92, 92],
      [232, 207, 177, 7, 165, 88, 186, 79, 115, 140, 241, 174, 228, 203, 81, 55, 124, 173, 230,
      131, 57, 208, 39, 221, 164, 123, 229, 157, 177, 216, 97, 247, 128, 0, 0, 0, 0, 0, 0, 0, 0,
      0, 0, 0, 0, 0, 0, 0, 0, 0, 0, 0, 0, 0, 0, 0, 0, 0, 0, 0, 0, 0, 3, 0]]).foldr (fun b acc => b ++ acc) [] := by
  decide!

set_option maxRecDepth 100000 in
theorem long_outer :
    ref_sha256 ([92, 93, 94, 95, 88, 89, 90, 91, 84, 85, 86, 87, 80, 81, 82, 83, 92, 92, 92, 92, 92, 92, 92,
      92, 92, 92, 92, 92, 92, 92, 92, 92, 92, 92, 92, 92, 92, 92, 92, 92, 92, 92, 92, 92, 92, 92,
      92, 92, 92, 92, 92, 92, 92, 92, 92, 92, 92, 92, 92, 92, 92, 92, 92, 92] ++
      [232, 207, 177, 7, 165, 88, 186, 79, 115, 140, 241, 174, 228, 203, 81, 55, 124, 173, 230,
      131, 57, 208, 39, 221, 164, 123, 229, 157, 177, 216, 97, 247]) =
      [193, 249, 230, 132, 171, 108, 160, 170, 24, 59, 228, 46, 37, 161, 142, 150, 7, 26, 151, 95,
      171, 88, 57, 93, 67, 29, 193, 153, 126, 108, 46, 127] := by
  rw [ref_sha256_of_blocks _ _ _ long_outer_pad (by decide)
    (by
      simp only [List.foldl_cons, List.foldl_nil]
      rw [long_outer_block_0, long_outer_block_1])]
  decide

set_option maxRecDepth 100000 in
theorem long_outer_heap_pad :
    sha256_pad ([92, 93, 94, 95, 88, 89, 90, 91, 84, 85, 86, 87, 80, 81, 82, 83, 92, 92, 92, 92, 92, 92, 92,
      92, 92, 92, 92, 92, 92, 92, 92, 92, 92, 92, 92, 92, 92, 92, 92, 92, 92, 92, 92, 92, 92, 92,
      92, 92, 92, 92, 92, 92, 92, 92, 92, 92, 92, 92, 92, 92, 92, 92, 92, 92] ++
      [219, 117, 80, 73, 161, 206, 189, 183, 237, 4, 249, 2, 17, 188, 189, 193, 50, 113, 174, 150,
      205, 2, 160, 111, 123, 235, 213, 216, 92, 130, 81, 33]) =
    ([[92, 93, 94, 95, 88, 89, 90, 91, 84, 85, 86, 87, 80, 81, 82, 83, 92, 92, 92, 92, 92, 92, 92,
      92, 92, 92, 92, 92, 92, 92, 92, 92, 92, 92, 92, 92, 92, 92, 92, 92, 92, 92, 92, 92, 92, 92,
      92, 92, 92, 92, 92, 92, 92, 92, 92, 92, 92, 92, 92, 92, 92, 92, 92, 92],
      [219, 117, 80, 73, 161, 206, 189, 183, 237, 4, 249, 2, 17, 188, 189, 193, 50, 113, 174, 150,
      205, 2, 160, 111, 123, 235, 213, 216, 92, 130, 81, 33, 128, 0, 0, 0, 0, 0, 0, 0, 0, 0, 0, 0,
      0, 0, 0, 0, 0, 0, 0, 0, 0, 0, 0, 0, 0, 0, 0, 0, 0, 0, 3, 0]]).foldr (fun b acc => b ++ acc) [] := by
  decide!

set_option maxRecDepth 100000 in
theorem long_outer_heap :
    ref_sha256 ([92, 93, 94, 95, 88, 89, 90, 91, 84, 85, 86, 87, 80, 81, 82, 83, 92, 92, 92, 92, 92, 92, 92,
      92, 92, 92, 92, 92, 92, 92, 92, 92, 92, 92, 92, 92, 92, 92, 92, 92, 92, 92, 92, 92, 92, 92,
      92, 92, 92, 92, 92, 92, 92, 92, 92, 92, 92, 92, 92, 92, 92, 92, 92, 92] ++
      [219, 117, 80, 73, 161, 206, 189, 183, 237, 4, 249, 2, 17, 188, 189, 193, 50, 113, 174, 150,
      205, 2, 160, 111, 123, 235, 213, 216, 92, 130, 81, 33]) =
      [199, 218, 5, 238, 67, 148, 21, 161, 74, 234, 70, 78, 183, 231, 137, 201, 251, 115, 105,
      207, 254, 255, 151, 142, 113, 92, 91, 222, 233, 109, 14, 5] := by
  rw [ref_sha256_of_blocks _ _ _ long_outer_heap_pad (by decide)
    (by
      simp only [List.foldl_cons, List.foldl_nil]
      rw [long_outer_block_0, long_outer_block_1_heap])]
  decide

theorem long_response_hmac :
    ref_hmac_sha256 (List.range 16) (List.replicate 512 65) =
      [193, 249, 230, 132, 171, 108, 160, 170, 24, 59, 228, 46, 37, 161, 142, 150, 7, 26, 151, 95,
      171, 88, 57, 93, 67, 29, 193, 153, 126, 108, 46, 127] := by
  rw [ref_hmac_sha256_sample_key, long_inner, long_outer]

theorem long_response_hmac_heap :
    ref_hmac_sha256 (List.range 16) (List.replicate 512 65 ++ [66]) =
      [199, 218, 5, 238, 67, 148, 21, 161, 74, 234, 70, 78, 183, 231, 137, 201, 251, 115, 105,
      207, 254, 255, 151, 142, 113, 92, 91, 222, 233, 109, 14, 5] := by
  rw [ref_hmac_sha256_sample_key, long_inner_heap, long_outer_heap]

theorem long_response_digest_ne :
    ref_base64 (ref_hmac_sha256 (List.range 16) (List.replicate 512 65 ++ [66])) ≠
      ref_base64 (ref_hmac_sha256 (List.range 16) (List.replicate 512 65)) := by
  rw [long_response_hmac, long_response_hmac_heap]
  decide

/-- C7 (what holds, and the failing input).  On a correctly signed response
with status 200 of fewer than 512 bytes whose JSON holds the key
`completion_start_column` with value `s` and `n` completions with insertion
texts `texts`, `ycmd_req_completions_suggestions` returns 1, leaves the
entries before the completion menu as they are, gives entry `i` of the menu
the text of candidate `i` for `i` below `n`, `MAIN_VISIBLE`, 26 and the number
of entries, gives every further entry with index below `MAIN_VISIBLE` and 26
the empty text, and sets `apply_column` to `s`.  On a correctly signed
response of 512 bytes or more the digest is computed over the body and the
bytes the heap holds after it, up to the first NUL: when that digest differs
from the digest of the body the call returns 0 and every entry and
`apply_column` are as before. -/
theorem completions_signed_response (E : Env) (resp : Response) (linenum columnnum : Int)
    (filepath c completertarget : List Nat) (w : World) (remote : List Nat)
    (texts : List (List Nat)) (s : Int)
    (hcode : resp.code = 200) (hh : resp.hmac_header = some remote)
    (hsig : cstr remote = cstr (ycmd_compute_response E.crypto E.ssl
      w.ycmd_globals.secret_key_raw (_ne_read_response_body_full resp))) :
    ((_ne_read_response_body_full resp).length < 512 →
      strstr (_ne_read_response_body_full resp) (ascii "completion_start_column") = true →
      (nx_json_get (E.nx_json_parse_utf8 (cstr (_ne_read_response_body_full resp)))
        (ascii "completions")).length = (texts.length : Int) →
      (∀ i, i < texts.length →
        (nx_json_get (some (nx_json_item
          (nx_json_get (E.nx_json_parse_utf8 (cstr (_ne_read_response_body_full resp)))
            (ascii "completions")) i)) (ascii "insertion_text")).text_value
          = some (texts.getD i [])) →
      (nx_json_get (E.nx_json_parse_utf8 (cstr (_ne_read_response_body_full resp)))
        (ascii "completion_start_column")).int_value = s →
      ∃ w1, ycmd_req_completions_suggestions E resp linenum columnnum filepath (some c)
          completertarget w = some (w1, 1) ∧
        w1.allfuncs = (find_menu_func E.MCODECOMPLETION w.allfuncs).1 ++
          expected_slots texts E.MAIN_VISIBLE 0
            (find_menu_func E.MCODECOMPLETION w.allfuncs).2 ∧
        w1.ycmd_globals.apply_column = s) ∧
    (512 ≤ (_ne_read_response_body_full resp).length →
      cstr (ycmd_compute_response E.crypto E.ssl w.ycmd_globals.secret_key_raw
        (_ne_read_response_body_full resp ++ resp.heap_after)) ≠
        cstr (ycmd_compute_response E.crypto E.ssl w.ycmd_globals.secret_key_raw
          (_ne_read_response_body_full resp)) →
      ∃ w1 req, ycmd_req_completions_suggestions E resp linenum columnnum filepath (some c)
          completertarget w = some (w1, 0) ∧
        w1 = { w with trace := w.trace ++ [.request req] } ∧
        w1.allfuncs = w.allfuncs ∧
        w1.ycmd_globals.apply_column = w.ycmd_globals.apply_column) := by
  constructor
  · intro hshort hkey hn htext hs
    have key := completions_verified_success E resp linenum columnnum filepath c
      completertarget w remote texts s (Nat.zero_le _) hcode hh
    rw [response_body_memory_short resp hshort] at key
    exact key hsig hkey hn htext hs
  · intro hlong hdiff
    have hne : cstr remote ≠ cstr (ycmd_compute_response E.crypto E.ssl
        w.ycmd_globals.secret_key_raw (response_body_memory resp)) := by
      rw [response_body_memory_long resp hlong, hsig]
      exact fun h => hdiff h.symm
    obtain ⟨json, _, h⟩ := completions_tampered_aux E resp linenum columnnum filepath c
      completertarget w remote (Nat.zero_le _) hh hne
    exact ⟨_, _, h, rfl, rfl, rfl⟩

/-- Witness of C7.  The sample body, signed with the digest of the reference
library, yields success, the candidate `foo` in the first entry of the
completion menu, the empty text in the other two, and `apply_column` 5.  A
correctly signed response of 512 bytes that the heap continues with the byte
`B` is rejected, the candidate `old` staying in the first entry. -/
theorem completions_signed_response_witness :
    (∃ w1, ycmd_req_completions_suggestions sample_env
        (sample_response (ycmd_compute_response refLib .nettle (List.range 16) sample_body))
        1 7 (ascii "a.py") (some (ascii "x")) (ascii "filetype_default") sample_world
        = some (w1, 1) ∧
      w1.allfuncs = [{ menus := 1, desc := some (ascii "Exit") },
        { menus := 16384, desc := some (ascii "foo") },
        { menus := 16384, desc := some [] },
        { menus := 16384, desc := some [] }] ∧
      w1.ycmd_globals.apply_column = 5) ∧
    (∃ w1, ycmd_req_completions_suggestions sample_env (long_signed_response [66])
        1 7 (ascii "a.py") (some (ascii "x")) (ascii "filetype_default") sample_world
        = some (w1, 0) ∧
      w1.allfuncs = sample_world.allfuncs) := by
  have hsample : _ne_read_response_body_full
      (sample_response (ycmd_compute_response refLib .nettle (List.range 16) sample_body))
      = sample_body := by
    simp [_ne_read_response_body_full, sample_response, read_response_loop]
    decide
  constructor
  · obtain ⟨w1, h1, h2, h3⟩ := (completions_signed_response sample_env
      (sample_response (ycmd_compute_response refLib .nettle (List.range 16) sample_body))
      1 7 (ascii "a.py") (ascii "x") (ascii "filetype_default") sample_world
      (ycmd_compute_response refLib .nettle (List.range 16) sample_body) [ascii "foo"] 5
      rfl rfl (by rw [hsample]; rfl)).1
      (by rw [hsample]; decide)
      (by rw [hsample]; decide)
      (by rw [hsample]; decide)
      (by
        intro i hi
        have hi0 : i = 0 := by simpa using hi
        subst hi0
        rw [hsample]
        decide)
      (by rw [hsample]; decide)
    refine ⟨w1, h1, ?_, h3⟩
    rw [h2]
    decide
  · have hk : (List.range 16).length = 16 := by decide
    obtain ⟨w1, req, h1, _, h3, _⟩ := (completions_signed_response sample_env
      (long_signed_response [66])
      1 7 (ascii "a.py") (ascii "x") (ascii "filetype_default") sample_world
      (ycmd_compute_response refLib .nettle (List.range 16) (List.replicate 512 65)) [] 0
      rfl rfl (by rw [long_response_body]; rfl)).2
      (by rw [long_response_body, List.length_replicate])
      (by
        rw [long_response_body]
        have hn2 : NulFree (List.replicate 512 65) := nulFree_replicate 512 65 (by decide)
        have hn1 : NulFree (List.replicate 512 65 ++ [66]) := by
          intro b hb
          rcases List.mem_append.mp hb with h | h
          · exact hn2 b h
          · rw [List.mem_singleton.mp h]; decide
        have hc1 : cstr (List.replicate 512 65 ++ [66]) = List.replicate 512 65 ++ [66] :=
          cstr_of_nulFree hn1
        have hc2 : cstr (List.replicate 512 65) = List.replicate 512 65 :=
          cstr_of_nulFree hn2
        have e1 := ycmd_compute_response_cstr refLib refLib_wellFormed .nettle (List.range 16)
          (List.replicate 512 65 ++ [66]) hk
        have e2 := ycmd_compute_response_cstr refLib refLib_wellFormed .nettle (List.range 16)
          (List.replicate 512 65) hk
        rw [hc1] at e1
        rw [hc2] at e2
        show cstr (ycmd_compute_response refLib .nettle (List.range 16)
            (List.replicate 512 65 ++ [66])) ≠
          cstr (ycmd_compute_response refLib .nettle (List.range 16) (List.replicate 512 65))
        rw [e1, e2, cstr_of_nulFree (refLib_wellFormed.2 _),
          cstr_of_nulFree (refLib_wellFormed.2 _)]
        exact long_response_digest_ne)
    exact ⟨w1, h1, h3⟩

/-! ## Events without a connection -/

/-- C8. When `connected` is 0, each of `ycmd_event_file_ready_to_parse`,
`ycmd_event_buffer_unload`, `ycmd_event_buffer_visit`,
`ycmd_event_current_identifier_finished` and `do_code_completion` returns
with the state as it was: no request is issued, nothing depends on the
document, and the globals, the function list and the cursor are unchanged. -/
theorem not_connected_noop (E : Env) (w : World) (hc : w.ycmd_globals.connected = 0)
    (o : ParseOutcomes) (ready notify : Response) (columnnum linenum : Int)
    (filepath : List Nat) (fileage : List (List Nat)) (fuel : Nat) (letter : Int) :
    ycmd_event_file_ready_to_parse E o columnnum linenum filepath fileage w = some w ∧
    ycmd_event_buffer_unload E ready notify columnnum linenum filepath fileage w = some w ∧
    ycmd_event_buffer_visit E ready notify columnnum linenum filepath fileage w = some w ∧
    ycmd_event_current_identifier_finished E ready notify columnnum linenum filepath fileage w
      = some w ∧
    do_code_completion E fuel letter w = some w := by
  refine ⟨?_, ?_, ?_, ?_, ?_⟩
  · simp only [ycmd_event_file_ready_to_parse, hc, if_true]
  · simp only [ycmd_event_buffer_unload, ycmd_event_notify, hc, if_true]
  · simp only [ycmd_event_buffer_visit, ycmd_event_notify, hc, if_true]
  · simp only [ycmd_event_current_identifier_finished, ycmd_event_notify, hc, if_true]
  · simp only [do_code_completion, hc, if_true]

/-- Witness of C8: the sample state before a server is started, a document
of two lines, and the letter `A`. -/
theorem not_connected_noop_witness :
    sample_idle_world.ycmd_globals.connected = 0 ∧
    ycmd_event_buffer_visit sample_env (sample_response []) (sample_response []) 7 1
      (ascii "a.py") [ascii "import os", ascii "os."] sample_idle_world = some sample_idle_world ∧
    do_code_completion sample_env 0 65 sample_idle_world = some sample_idle_world :=
  ⟨by decide,
    (not_connected_noop sample_env sample_idle_world (by decide)
      { ready := sample_response [], find_ret := 0, load := sample_response [],
        notify := sample_response [], completions := sample_response [],
        ignore := sample_response [] }
      (sample_response []) (sample_response []) 7 1 (ascii "a.py")
      [ascii "import os", ascii "os."] 0 65).2.2.1,
    (not_connected_noop sample_env sample_idle_world (by decide)
      { ready := sample_response [], find_ret := 0, load := sample_response [],
        notify := sample_response [], completions := sample_response [],
        ignore := sample_response [] }
      (sample_response []) (sample_response []) 7 1 (ascii "a.py")
      [ascii "import os", ascii "os."] 0 65).2.2.2.2⟩

/-! ## Stopping the server -/

theorem ycmd_stop_server_trace (w : World) :
    (ycmd_stop_server w).trace = w.trace ++ stop_effects w := by
  by_cases hf : (w.files.any fun f => decide (f.1 = cstr w.ycmd_globals.tmp_options_filename))
      = true <;>
    by_cases hp : w.ycmd_globals.child_pid = -1 <;>
    simp [ycmd_stop_server, stop_effects, World.emit, file_exists, unlink, hf, hp]

theorem ycmd_stop_server_globals (w : World) :
    (ycmd_stop_server w).ycmd_globals =
      { w.ycmd_globals with child_pid := -1, running := 0, connected := 0 } := by
  by_cases hf : (w.files.any fun f => decide (f.1 = cstr w.ycmd_globals.tmp_options_filename))
      = true <;>
    by_cases hp : w.ycmd_globals.child_pid = -1 <;>
    simp [ycmd_stop_server, World.emit, file_exists, unlink, hf, hp]

theorem ycmd_stop_server_files (w : World) :
    (ycmd_stop_server w).files =
      w.files.filter (fun f => decide (f.1 ≠ cstr w.ycmd_globals.tmp_options_filename)) := by
  by_cases hf : (w.files.any fun f => decide (f.1 = cstr w.ycmd_globals.tmp_options_filename))
      = true <;>
    by_cases hp : w.ycmd_globals.child_pid = -1 <;>
    simp [ycmd_stop_server, World.emit, file_exists, unlink, hf, hp]
  all_goals
    symm
    rw [List.filter_eq_self]
    intro f hfm
    simp only [Bool.not_eq_true', decide_eq_false_iff_not]
    intro heq
    obtain ⟨a, b⟩ := f
    simp only at heq
    subst heq
    have hf2 : ∀ x, (cstr w.ycmd_globals.tmp_options_filename, x) ∉ w.files := by
      simpa using hf
    exact hf2 b hfm

theorem ycmd_stop_server_post (w : World) :
    (ycmd_stop_server w).ycmd_globals.running = 0 ∧
    (ycmd_stop_server w).ycmd_globals.connected = 0 ∧
    (ycmd_stop_server w).ycmd_globals.child_pid = -1 ∧
    file_exists (ycmd_stop_server w) w.ycmd_globals.tmp_options_filename = false ∧
    (ycmd_stop_server w).files =
      w.files.filter (fun f => decide (f.1 ≠ cstr w.ycmd_globals.tmp_options_filename)) ∧
    ∃ added, (ycmd_stop_server w).trace = w.trace ++ added ∧
      (Event.kill w.ycmd_globals.child_pid SIGKILL ∈ added ↔ w.ycmd_globals.child_pid ≠ -1) ∧
      ∀ pid sig, Event.kill pid sig ∈ added →
        pid = w.ycmd_globals.child_pid ∧ sig = SIGKILL := by
  refine ⟨?_, ?_, ?_, ?_, ycmd_stop_server_files w, stop_effects w, ycmd_stop_server_trace w,
    ?_, ?_⟩
  · rw [ycmd_stop_server_globals]
  · rw [ycmd_stop_server_globals]
  · rw [ycmd_stop_server_globals]
  · simp [file_exists, ycmd_stop_server_files, List.any_eq_false]
  · by_cases hp : w.ycmd_globals.child_pid = -1 <;> simp [stop_effects, hp]
  · intro pid sig h
    by_cases hp : w.ycmd_globals.child_pid = -1 <;>
      by_cases hf : file_exists w w.ycmd_globals.tmp_options_filename = true <;>
      simp [stop_effects, hp, hf] at h
    all_goals exact h

/-! ## Restarting the server -/

theorem forked_pids_append (a b : List Event) :
    forked_pids (a ++ b) = forked_pids a ++ forked_pids b := by
  induction a with
  | nil => rfl
  | cons e rest ih =>
    cases e with
    | fork pid argv =>
      by_cases hp : 0 < pid <;> simp [forked_pids, hp, ih]
    | _ => simp [forked_pids, ih]

theorem killed_pids_append (a b : List Event) :
    killed_pids (a ++ b) = killed_pids a ++ killed_pids b := by
  induction a with
  | nil => rfl
  | cons e rest ih =>
    cases e with
    | kill pid sig =>
      by_cases hp : sig = SIGKILL <;> simp [killed_pids, hp, ih]
    | _ => simp [killed_pids, ih]

theorem live_children_append (a b : List Event) :
    live_children (a ++ b) = b.foldl live_step (live_children a) := by
  simp [live_children, List.foldl_append]

theorem forked_pids_pos (t : List Event) : ∀ p ∈ forked_pids t, 0 < p := by
  induction t with
  | nil => intro p hp; simp [forked_pids] at hp
  | cons e rest ih =>
    intro p hp
    cases e <;> simp only [forked_pids] at hp <;> try exact ih p hp
    split at hp
    · rcases List.mem_cons.mp hp with h | h
      · subst h; assumption
      · exact ih p h
    · exact ih p hp

theorem stop_effects_forked (w : World) : forked_pids (stop_effects w) = [] := by
  by_cases hf : file_exists w w.ycmd_globals.tmp_options_filename = true <;>
    by_cases hp : w.ycmd_globals.child_pid = -1 <;>
    simp [stop_effects, forked_pids, hf, hp]

theorem stop_effects_killed (w : World) :
    killed_pids (stop_effects w) =
      if w.ycmd_globals.child_pid ≠ -1 then [w.ycmd_globals.child_pid] else [] := by
  by_cases hf : file_exists w w.ycmd_globals.tmp_options_filename = true <;>
    by_cases hp : w.ycmd_globals.child_pid = -1 <;>
    simp [stop_effects, killed_pids, hf, hp]

theorem stop_effects_live (w : World) (live : List Int) :
    (stop_effects w).foldl live_step live =
      if w.ycmd_globals.child_pid ≠ -1 then
        live.filter (fun p => decide (p ≠ w.ycmd_globals.child_pid))
      else live := by
  by_cases hf : file_exists w w.ycmd_globals.tmp_options_filename = true <;>
    by_cases hp : w.ycmd_globals.child_pid = -1 <;>
    simp [stop_effects, live_step, hf, hp]

theorem ycmd_stop_server_allKilled (w : World)
    (hlive : live_children w.trace = [] ∨
      (live_children w.trace = [w.ycmd_globals.child_pid] ∧ 0 < w.ycmd_globals.child_pid))
    (hforked : ∀ p ∈ forked_pids w.trace,
      p = w.ycmd_globals.child_pid ∨ p ∈ killed_pids w.trace) :
    AllKilled (ycmd_stop_server w) := by
  constructor
  · rw [ycmd_stop_server_trace, live_children_append, stop_effects_live]
    rcases hlive with h | ⟨h, hpos⟩
    · rw [h]; split <;> rfl
    · have hne : w.ycmd_globals.child_pid ≠ -1 := by omega
      rw [h, if_pos hne]
      simp
  · intro p hp
    rw [ycmd_stop_server_trace, forked_pids_append, stop_effects_forked, List.append_nil] at hp
    rw [ycmd_stop_server_trace, killed_pids_append, stop_effects_killed]
    rcases hforked p hp with h | h
    · have hpos := forked_pids_pos _ p hp
      have hne : w.ycmd_globals.child_pid ≠ -1 := by omega
      rw [if_pos hne, h]
      simp
    · exact List.mem_append_left _ h

theorem Quiet.refl (w : World) : Quiet w w := ⟨rfl, rfl, rfl, rfl, rfl, rfl⟩

theorem Quiet.trans {a b c : World} (h1 : Quiet a b) (h2 : Quiet b c) : Quiet a c :=
  ⟨h2.1.trans h1.1, h2.2.1.trans h1.2.1, h2.2.2.1.trans h1.2.2.1, h2.2.2.2.1.trans h1.2.2.2.1,
    h2.2.2.2.2.1.trans h1.2.2.2.2.1, h2.2.2.2.2.2.trans h1.2.2.2.2.2⟩

theorem health_loop_quiet (E : Env) (health : Nat → Response) :
    ∀ (n i : Nat) (w : World), Quiet w (health_loop E health n i w) := by
  intro n
  induction n with
  | zero => intro i w; exact Quiet.refl w
  | succ n ih =>
    intro i w
    unfold health_loop
    by_cases hc : w.ycmd_globals.connected = 0
    · simp only [hc, if_true, ycmd_rsp_is_healthy_simple]
      by_cases hh : c_bool ((health i).code = 200) ≠ 0
      · rw [if_pos hh]
        refine Quiet.trans ?_ (ih _ _)
        simp [Quiet, World.emit, forked_pids_append,
          killed_pids_append, live_children_append, forked_pids, killed_pids, live_step]
      · rw [if_neg hh]
        refine Quiet.trans ?_ (ih _ _)
        simp [Quiet, World.emit, forked_pids_append,
          killed_pids_append, live_children_append, forked_pids, killed_pids, live_step]
    · simp only [hc, if_false]
      exact Quiet.refl w

theorem find_unused_localhost_port_quiet (o : StartOutcomes) (w : World) :
    Quiet w (find_unused_localhost_port o w).1 := by
  unfold find_unused_localhost_port
  simp only
  split_ifs <;>
    simp [Quiet, World.emit, forked_pids_append, killed_pids_append, live_children_append,
      forked_pids, killed_pids, live_step]

theorem supervisorInv_of_allKilled (w : World)
    (hs : w.ycmd_globals.secret_key_base64 ≠ none) (hk : AllKilled w) : SupervisorInv w :=
  ⟨hs, Or.inl hk.1, fun p hp => Or.inr (hk.2 p hp), fun _ => hk⟩

theorem options_file_json_some (E : Env) (secret : List Nat) :
    ∃ json, options_file_json E (some secret) = some json := by
  unfold options_file_json
  obtain ⟨j1, h1⟩ := string_replace_w_some (strdup default_json_template) (ascii "HMAC_SECRET")
    secret (by decide)
  obtain ⟨j2, h2⟩ := string_replace_w_some j1 (ascii "GOCODE_PATH") E.GOCODE_PATH (by decide)
  obtain ⟨j3, h3⟩ := string_replace_w_some j2 (ascii "GODEF_PATH") E.GODEF_PATH (by decide)
  obtain ⟨j4, h4⟩ := string_replace_w_some j3 (ascii "RUST_SRC_PATH") E.RUST_SRC_PATH (by decide)
  obtain ⟨j5, h5⟩ := string_replace_w_some j4 (ascii "RACERD_PATH") E.RACERD_PATH (by decide)
  obtain ⟨j6, h6⟩ := string_replace_w_some j5 (ascii "PYTHON_PATH") E.PYTHON_PATH (by decide)
  exact ⟨j6, by simp only [h1, h2, h3, h4, h5, h6, Option.bind_eq_bind, Option.some_bind]⟩

theorem supervisorInv_quiet {a b : World} (hq : Quiet a b) (ha : SupervisorInv a) :
    SupervisorInv b := by
  obtain ⟨q1, q2, q3, q4, q5, q6⟩ := hq
  obtain ⟨h1, h2, h3, h4⟩ := ha
  unfold SupervisorInv AllKilled
  rw [q1, q2, q3, q4, q5, q6]
  exact ⟨h1, h2, h3, h4⟩

theorem start_server_parent_inv (E : Env) (o : StartOutcomes) (pid : Int) (w : World)
    (hk : AllKilled w) (hs : w.ycmd_globals.secret_key_base64 ≠ none) :
    SupervisorInv (start_server_parent E o pid w) := by
  obtain ⟨hlive, hforked⟩ := hk
  unfold start_server_parent
  by_cases hw : o.waitpid_ret = 0
  · simp only [hw, if_true]
    refine supervisorInv_quiet (health_loop_quiet E o.health 5 0 _) ?_
    by_cases hp : 0 < pid
    · refine ⟨hs, Or.inr ?_, ?_, ?_⟩
      · simp [World.emit, live_children_append, live_step, hlive, hp]
      · intro p hpm
        simp only [World.emit, forked_pids_append, killed_pids_append, forked_pids, killed_pids,
          List.append_assoc, List.mem_append, hp, if_true, List.mem_singleton, List.append_nil,
          List.cons_append, List.nil_append, List.not_mem_nil, or_false] at hpm ⊢
        rcases hpm with h | h
        · exact Or.inr (hforked p h)
        · exact Or.inl h
      · intro hr
        simp [World.emit] at hr
    · refine ⟨hs, Or.inl ?_, ?_, ?_⟩
      · simp [World.emit, live_children_append, live_step, hlive, hp]
      · intro p hpm
        simp only [World.emit, forked_pids_append, killed_pids_append, forked_pids, killed_pids,
          List.append_assoc, List.mem_append, hp, if_false, List.append_nil,
          List.cons_append, List.nil_append, List.not_mem_nil, or_false] at hpm ⊢
        exact Or.inr (hforked p hpm)
      · intro hr
        simp [World.emit] at hr
  · simp only [hw, if_false]
    have hk2 := ycmd_stop_server_allKilled
      ({ ({ w.emit (.fork pid (server_argv E w)) with
          ycmd_globals := { (w.emit (.fork pid (server_argv E w))).ycmd_globals with
            child_pid := pid,
            session := some ⟨(w.emit (.fork pid (server_argv E w))).ycmd_globals.scheme,
              (w.emit (.fork pid (server_argv E w))).ycmd_globals.hostname,
              (w.emit (.fork pid (server_argv E w))).ycmd_globals.port, 1⟩ } } : World).emit
          (.statusline (ascii "Server didn't ran...")) with
        ycmd_globals := { (({ w.emit (.fork pid (server_argv E w)) with
          ycmd_globals := { (w.emit (.fork pid (server_argv E w))).ycmd_globals with
            child_pid := pid,
            session := some ⟨(w.emit (.fork pid (server_argv E w))).ycmd_globals.scheme,
              (w.emit (.fork pid (server_argv E w))).ycmd_globals.hostname,
              (w.emit (.fork pid (server_argv E w))).ycmd_globals.port, 1⟩ } } : World).emit
          (.statusline (ascii "Server didn't ran..."))).ycmd_globals with running := 0 } })
      (by
        by_cases hp : 0 < pid
        · right; simp [World.emit, live_children_append, live_step, hlive, hp]
        · left; simp [World.emit, live_children_append, live_step, hlive, hp])
      (by
        intro p hpm
        by_cases hp : 0 < pid
        · simp only [World.emit, forked_pids_append, killed_pids_append, forked_pids,
            killed_pids, List.append_assoc, List.mem_append, hp, if_true, List.mem_singleton,
            List.append_nil, List.cons_append, List.nil_append, List.not_mem_nil, or_false]
            at hpm ⊢
          rcases hpm with h | h
          · exact Or.inr (hforked p h)
          · exact Or.inl h
        · simp only [World.emit, forked_pids_append, killed_pids_append, forked_pids,
            killed_pids, List.append_assoc, List.mem_append, hp, if_false,
            List.append_nil, List.cons_append, List.nil_append, List.not_mem_nil, or_false]
            at hpm ⊢
          exact Or.inr (hforked p hpm))
    refine supervisorInv_of_allKilled _ ?_ hk2
    rw [ycmd_stop_server_globals]
    exact hs

theorem allKilled_quiet {a b : World} (hq : Quiet a b) (ha : AllKilled a) : AllKilled b := by
  obtain ⟨q1, q2, q3, _, _, _⟩ := hq
  unfold AllKilled
  rw [q1, q2, q3]
  exact ha

theorem ycmd_start_server_inv (E : Env) (o : StartOutcomes) (w : World)
    (hk : AllKilled w) (hs : w.ycmd_globals.secret_key_base64 ≠ none) (hf : o.fork_ret ≠ 0) :
    ∃ w1, ycmd_start_server E o w = some w1 ∧ SupervisorInv w1 := by
  have hq := find_unused_localhost_port_quiet o w
  rcases hP : find_unused_localhost_port o w with ⟨wp, port⟩
  rw [hP] at hq
  simp only at hq
  have hkp : AllKilled wp := allKilled_quiet hq hk
  have hsp : wp.ycmd_globals.secret_key_base64 ≠ none := by rw [hq.2.2.2.2.2]; exact hs
  unfold ycmd_start_server
  simp only [hP, Option.bind_eq_bind, Option.pure_def]
  by_cases hport : port = -1
  · simp only [hport, if_true]
    exact ⟨_, rfl, supervisorInv_of_allKilled _ hsp hkp⟩
  · simp only [hport, if_false]
    obtain ⟨sk, hsk⟩ := Option.ne_none_iff_exists'.mp hsp
    obtain ⟨json, hjson⟩ := options_file_json_some E sk
    simp only [hsk, hjson, Option.some_bind, hf, if_false]
    refine ⟨_, rfl, start_server_parent_inv E o o.fork_ret _ hkp ?_⟩
    simp [hsk]

theorem ycmd_restart_server_inv (E : Env) (o : StartOutcomes) (w : World)
    (hi : SupervisorInv w) (hf : o.fork_ret ≠ 0) :
    ∃ w1, ycmd_restart_server E o w = some w1 ∧ SupervisorInv w1 := by
  obtain ⟨h1, h2, h3, h4⟩ := hi
  unfold ycmd_restart_server
  by_cases hr : w.ycmd_globals.running = 0
  · simp only [hr, ne_eq, not_true_eq_false, if_false]
    exact ycmd_start_server_inv E o w (h4 hr) h1 hf
  · simp only [ne_eq, hr, not_false_eq_true, if_true]
    refine ycmd_start_server_inv E o _ (ycmd_stop_server_allKilled w h2 h3) ?_ hf
    rw [ycmd_stop_server_globals]
    exact h1

theorem ycmd_stop_server_inv (w : World) (hi : SupervisorInv w) :
    SupervisorInv (ycmd_stop_server w) := by
  obtain ⟨h1, h2, h3, _⟩ := hi
  refine supervisorInv_of_allKilled _ ?_ (ycmd_stop_server_allKilled w h2 h3)
  rw [ycmd_stop_server_globals]
  exact h1

theorem run_calls_inv (E : Env) : ∀ (calls : List SupervisorCall) (w : World),
    SupervisorInv w → ParentSide calls → ∃ w1, run_calls E calls w = some w1 ∧ SupervisorInv w1
  | [], w, hi, _ => ⟨w, rfl, hi⟩
  | .restart o :: rest, w, hi, hp => by
    obtain ⟨w1, hw1, hi1⟩ := ycmd_restart_server_inv E o w hi hp.1
    obtain ⟨w2, hw2, hi2⟩ := run_calls_inv E rest w1 hi1 hp.2
    exact ⟨w2, by simp only [run_calls, hw1, hw2], hi2⟩
  | .stop :: rest, w, hi, hp => by
    obtain ⟨w2, hw2, hi2⟩ := run_calls_inv E rest (ycmd_stop_server w) (ycmd_stop_server_inv w hi) hp
    exact ⟨w2, by simp only [run_calls, hw2], hi2⟩

theorem supervisorInv_initialised (w : World) (h : Initialised w) : SupervisorInv w := by
  obtain ⟨_, _, _, hs, ht⟩ := h
  refine supervisorInv_of_allKilled w hs ?_
  unfold AllKilled
  rw [ht]
  exact ⟨rfl, fun p hp => by simp [forked_pids] at hp⟩

/-- C10. After every sequence of `ycmd_restart_server` and `ycmd_stop_server`
calls from the initialised state, whatever the port allocation, `fork`
(in the parent), the liveness probe and the health checks give, the calls
return, every pid `fork` has returned other than the tracked `child_pid` has
been sent `SIGKILL`, and the spawned children not yet sent `SIGKILL` are
none or the tracked child alone. -/
theorem restart_at_most_one_child (E : Env) (calls : List SupervisorCall) (w0 : World)
    (h0 : Initialised w0) (hp : ParentSide calls) :
    ∃ w, run_calls E calls w0 = some w ∧
      (∀ p ∈ forked_pids w.trace, p ≠ w.ycmd_globals.child_pid → p ∈ killed_pids w.trace) ∧
      (live_children w.trace = [] ∨ live_children w.trace = [w.ycmd_globals.child_pid]) ∧
      (live_children w.trace).length ≤ 1 := by
  obtain ⟨w, hw, _, h2, h3, _⟩ := run_calls_inv E calls w0 (supervisorInv_initialised w0 h0) hp
  refine ⟨w, hw, ?_, ?_, ?_⟩
  · intro p hpm hne
    rcases h3 p hpm with h | h
    · exact absurd h hne
    · exact h
  · rcases h2 with h | ⟨h, _⟩
    · exact Or.inl h
    · exact Or.inr h
  · rcases h2 with h | ⟨h, _⟩ <;> simp [h]

/-- Witness of C10: from the sample state before a start, a restart whose
child 100 stays up, a restart whose child 101 is found dead, and a stop. -/
theorem restart_at_most_one_child_witness :
    Initialised sample_idle_world ∧
    ParentSide [.restart (sample_start 100 0), .restart (sample_start 101 101), .stop] ∧
    ∃ w, run_calls sample_env
        [.restart (sample_start 100 0), .restart (sample_start 101 101), .stop]
        sample_idle_world = some w ∧
      (∀ p ∈ forked_pids w.trace, p ≠ w.ycmd_globals.child_pid → p ∈ killed_pids w.trace) ∧
      (live_children w.trace = [] ∨ live_children w.trace = [w.ycmd_globals.child_pid]) ∧
      (live_children w.trace).length ≤ 1 :=
  ⟨⟨rfl, rfl, rfl, by decide, rfl⟩, ⟨by decide, by decide, trivial⟩,
    restart_at_most_one_child sample_env
      [.restart (sample_start 100 0), .restart (sample_start 101 101), .stop]
      sample_idle_world ⟨rfl, rfl, rfl, by decide, rfl⟩ ⟨by decide, by decide, trivial⟩⟩

/-! ## Reading a response body -/

theorem read_response_loop_not_2xx (klass : Int) (hk : klass ≠ 2) (reads : List ReadResult)
    (acc : List Nat) : read_response_loop klass reads acc = acc := by
  cases reads with
  | nil => rfl
  | cons r rest => simp [read_response_loop, hk]

theorem read_response_loop_eq (klass : Int) (reads : List ReadResult)
    (h : ReadsWithinChunk reads) (acc : List Nat) :
    read_response_loop klass reads acc = acc ++ reference_reader klass reads := by
  induction reads generalizing acc with
  | nil => simp [read_response_loop, reference_reader]
  | cons r rest ih =>
    have hrest : ReadsWithinChunk rest := fun b ok hm => h b ok (List.mem_cons_of_mem _ hm)
    by_cases hk : klass = 2
    · cases r with
      | error => simp [read_response_loop, reference_reader, hk, positive_read]
      | block bytes ok =>
        obtain ⟨hlen, hok⟩ := h bytes ok (List.mem_cons_self _ _)
        have htake : bytes.take 512 = bytes := List.take_of_length_le hlen
        by_cases hb : 0 < bytes.length
        · have h1 : ¬ ((bytes.length : Int) ≤ 0) := by omega
          have := ih hrest (acc ++ bytes)
          simp only [reference_reader, hk, if_true] at this
          simp [read_response_loop, reference_reader, hk, positive_read, htake, hb, h1, hok,
            read_bytes, this]
        · have h1 : ((bytes.length : Int) ≤ 0) := by omega
          simp [read_response_loop, reference_reader, hk, positive_read, htake, hb, h1]
    · simp [read_response_loop, reference_reader, hk]

/-- C13. `_ne_read_response_body_full` equals the reference reader: for a
status class other than 2 the body returned is empty whatever the reads
would give; otherwise, the reads storing at most 512 bytes each and no
allocation failing, it is the concatenation, in order, of the bytes of the
reads before the first one that did not return a positive count. -/
theorem _ne_read_response_body_full_eq_reference (resp : Response) :
    (resp.klass ≠ 2 → _ne_read_response_body_full resp = []) ∧
    (ReadsWithinChunk resp.reads →
      _ne_read_response_body_full resp = reference_reader resp.klass resp.reads ∧
      (resp.klass = 2 → _ne_read_response_body_full resp =
        (resp.reads.takeWhile positive_read).flatMap read_bytes)) := by
  refine ⟨?_, ?_⟩
  · intro hk
    exact read_response_loop_not_2xx resp.klass hk resp.reads []
  · intro h
    have h1 : _ne_read_response_body_full resp = reference_reader resp.klass resp.reads := by
      unfold _ne_read_response_body_full
      rw [read_response_loop_eq resp.klass resp.reads h []]
      simp
    refine ⟨h1, ?_⟩
    intro hk; rw [h1]; simp [reference_reader, hk]

/-- Witness of C13: two reads of data, an end of body, and a read that is
never made. -/
theorem _ne_read_response_body_full_eq_reference_witness :
    _ne_read_response_body_full sample_chunked_response = [116, 114, 117, 101] := by
  have h := ((_ne_read_response_body_full_eq_reference sample_chunked_response).2
    (by
      intro bytes ok hm
      simp only [sample_chunked_response, List.mem_cons, ReadResult.block.injEq,
        List.mem_singleton, List.not_mem_nil, or_false] at hm
      rcases hm with ⟨h1, h2⟩ | ⟨h1, h2⟩ | ⟨h1, h2⟩ | ⟨h1, h2⟩ <;> subst h1 <;> subst h2 <;>
        decide)).1
  rw [h]
  decide

/-! ## The port probe -/

theorem find_unused_localhost_port_ret (o : StartOutcomes) (w : World) :
    (o.socket_ret ≠ -1 → o.bind_ret = 0 → o.getsockname_ret ≠ -1 →
      (find_unused_localhost_port o w).2 = o.sin_port) ∧
    (o.socket_ret = -1 → (find_unused_localhost_port o w).2 = -1) ∧
    (o.bind_ret ≠ 0 → (find_unused_localhost_port o w).2 = -1) ∧
    (o.getsockname_ret = -1 → (find_unused_localhost_port o w).2 = -1) := by
  unfold find_unused_localhost_port
  refine ⟨?_, ?_, ?_, ?_⟩
  · intro h1 h2 h3; simp [h1, h2, h3]
  · intro h1; simp [h1]
  · intro h2; by_cases h1 : o.socket_ret = -1 <;> simp [h1, h2]
  · intro h3
    by_cases h1 : o.socket_ret = -1 <;> by_cases h2 : o.bind_ret = 0 <;> simp [h1, h2, h3]

theorem sin_port_read_big_endian (port : Nat) (h : port < 65536) :
    sin_port_read false port = port := by
  simp [sin_port_read, Nat.mod_eq_of_lt h]

/-- C20. On a little-endian host whose system assigns port 40000 to the
probe socket, the three calls succeeding, `find_unused_localhost_port`
returns 16540, the two bytes of the port swapped, and not 40000: the field
`sin_port` is returned as read, without a conversion from network byte
order. -/
theorem find_unused_localhost_port_byte_order :
    (probe_assigns true 40000).socket_ret ≠ -1 ∧ (probe_assigns true 40000).bind_ret = 0 ∧
    (probe_assigns true 40000).getsockname_ret ≠ -1 ∧
    (find_unused_localhost_port (probe_assigns true 40000) sample_idle_world).2 = 16540 ∧
    (find_unused_localhost_port (probe_assigns true 40000) sample_idle_world).2 ≠ 40000 := by
  refine ⟨by decide, by decide, by decide, ?_, ?_⟩
  · rw [(find_unused_localhost_port_ret _ _).1 (by decide) (by decide) (by decide)]
    decide
  · rw [(find_unused_localhost_port_ret _ _).1 (by decide) (by decide) (by decide)]
    decide

/-- The port probe on a host that reads the field `sin_port` in its own byte
order, and on every host when a call fails: with ports below 65536 a
big-endian host is given the port the system assigned, a little-endian host
the port with its two bytes swapped, and a failure of `socket`, `bind` or
`getsockname` gives -1. -/
theorem find_unused_localhost_port_spec (port : Nat) (w : World)
    (o : StartOutcomes) (hport : port < 65536) :
    (find_unused_localhost_port (probe_assigns false port) w).2 = port ∧
    (find_unused_localhost_port (probe_assigns true port) w).2 =
      ((port % 256) * 256 + port / 256 : Nat) ∧
    ((o.socket_ret = -1 ∨ o.bind_ret ≠ 0 ∨ o.getsockname_ret = -1) →
      (find_unused_localhost_port o w).2 = -1) := by
  refine ⟨?_, ?_, ?_⟩
  · rw [(find_unused_localhost_port_ret _ _).1 (by simp [probe_assigns, sample_start])
      (by simp [probe_assigns, sample_start]) (by simp [probe_assigns, sample_start])]
    exact sin_port_read_big_endian port hport
  · rw [(find_unused_localhost_port_ret _ _).1 (by simp [probe_assigns, sample_start])
      (by simp [probe_assigns, sample_start]) (by simp [probe_assigns, sample_start])]
    have : port / 256 % 256 = port / 256 := Nat.mod_eq_of_lt (by omega)
    simp [probe_assigns, sin_port_read, this]
  · rintro (h | h | h)
    · exact (find_unused_localhost_port_ret o w).2.1 h
    · exact (find_unused_localhost_port_ret o w).2.2.1 h
    · exact (find_unused_localhost_port_ret o w).2.2.2 h

/-- On a big-endian host port 40000 is returned as assigned; on a
little-endian host 16540 is. -/
theorem find_unused_localhost_port_spec_witness :
    (find_unused_localhost_port (probe_assigns false 40000) sample_idle_world).2 = (40000 : Nat) ∧
    (find_unused_localhost_port (probe_assigns true 40000) sample_idle_world).2 =
      ((40000 % 256) * 256 + 40000 / 256 : Nat) :=
  ⟨(find_unused_localhost_port_spec 40000 sample_idle_world (sample_start 100 0)
      (by decide)).1,
    (find_unused_localhost_port_spec 40000 sample_idle_world (sample_start 100 0)
      (by decide)).2.1⟩

/-! ## The health poll and the flags -/

theorem healthy_requests_append (a b : List Event) :
    healthy_requests (a ++ b) = healthy_requests a + healthy_requests b := by
  induction a with
  | nil => simp [healthy_requests]
  | cons e rest ih =>
    cases e <;> simp [healthy_requests, ih]
    omega

theorem still_refl (w : World) : Still w w := ⟨Quiet.refl w, rfl, rfl⟩

theorem still_trans {a b c : World} (h1 : Still a b) (h2 : Still b c) : Still a c :=
  ⟨Quiet.trans h1.1 h2.1, h2.2.1.trans h1.2.1, h2.2.2.trans h1.2.2⟩

theorem tries_used_le (health : Nat → Response) : ∀ n i, tries_used health n i ≤ n := by
  intro n
  induction n with
  | zero => intro i; simp [tries_used]
  | succ n ih =>
    intro i
    unfold tries_used
    split
    · omega
    · have := ih (i + 1); omega

theorem tries_used_earlier (health : Nat → Response) :
    ∀ n i k, i ≤ k → k + 1 < i + tries_used health n i → (health k).code ≠ 200 := by
  intro n
  induction n with
  | zero => intro i k _ h2; simp [tries_used] at h2; omega
  | succ n ih =>
    intro i k h1 h2
    unfold tries_used at h2
    by_cases hc : (health i).code = 200
    · rw [if_pos hc] at h2; omega
    · rw [if_neg hc] at h2
      by_cases hk : k = i
      · rw [hk]; exact hc
      · exact ih (i + 1) k (by omega) (by omega)

theorem tries_used_last (health : Nat → Response) :
    ∀ n i k, i ≤ k → k < i + n → (health k).code = 200 →
      0 < tries_used health n i ∧ (health (i + tries_used health n i - 1)).code = 200 := by
  intro n
  induction n with
  | zero => intro i k h1 h2; omega
  | succ n ih =>
    intro i k h1 h2 h3
    unfold tries_used
    by_cases hc : (health i).code = 200
    · rw [if_pos hc]; exact ⟨by omega, by simpa using hc⟩
    · rw [if_neg hc]
      have hk : k ≠ i := fun h => hc (h ▸ h3)
      obtain ⟨h4, h5⟩ := ih (i + 1) k (by omega) (by omega) h3
      refine ⟨by omega, ?_⟩
      have : i + (1 + tries_used health n (i + 1)) - 1 =
          i + 1 + tries_used health n (i + 1) - 1 := by omega
      rw [this]; exact h5

theorem tries_used_all (health : Nat → Response) :
    ∀ n i, (∀ k, i ≤ k → k < i + n → (health k).code ≠ 200) → tries_used health n i = n := by
  intro n
  induction n with
  | zero => intro i _; rfl
  | succ n ih =>
    intro i h
    unfold tries_used
    rw [if_neg (h i (le_refl i) (by omega)), ih (i + 1) (fun k h1 h2 => h k (by omega) (by omega))]
    omega

theorem health_loop_connected (E : Env) (health : Nat → Response) (w : World)
    (hc : w.ycmd_globals.connected ≠ 0) (n i : Nat) : health_loop E health n i w = w := by
  cases n with
  | zero => rfl
  | succ n => simp [health_loop, hc]

theorem health_loop_poll (E : Env) (health : Nat → Response) :
    ∀ (n i : Nat) (w : World), w.ycmd_globals.connected = 0 →
      healthy_requests (health_loop E health n i w).trace =
        healthy_requests w.trace + tries_used health n i ∧
      ((∃ k, i ≤ k ∧ k < i + n ∧ (health k).code = 200) →
        (health_loop E health n i w).ycmd_globals.connected = 1) ∧
      ((∀ k, i ≤ k → k < i + n → (health k).code ≠ 200) →
        (health_loop E health n i w).ycmd_globals.connected = 0) := by
  intro n
  induction n with
  | zero =>
    intro i w hc
    refine ⟨by simp [health_loop, tries_used], ?_, fun _ => hc⟩
    rintro ⟨k, h1, h2, _⟩
    omega
  | succ n ih =>
    intro i w hc
    unfold health_loop tries_used
    simp only [hc, if_true, ycmd_rsp_is_healthy_simple]
    by_cases hh : (health i).code = 200
    · have hb : c_bool ((health i).code = 200) ≠ 0 := by simp [c_bool, hh]
      rw [if_pos hb, if_pos hh, health_loop_connected E health _ (by simp) n (i + 1)]
      refine ⟨?_, fun _ => rfl, ?_⟩
      · simp [World.emit, healthy_requests_append, healthy_requests]
      · intro hall
        exact absurd hh (hall i (le_refl i) (by omega))
    · have hb : ¬ c_bool ((health i).code = 200) ≠ 0 := by simp [c_bool, hh]
      rw [if_neg hb, if_neg hh]
      have key : ∀ W : World, W.ycmd_globals.connected = 0 →
          healthy_requests W.trace = healthy_requests w.trace + 1 →
          healthy_requests (health_loop E health n (i + 1) W).trace =
            healthy_requests w.trace + (1 + tries_used health n (i + 1)) ∧
          ((∃ k, i ≤ k ∧ k < i + (n + 1) ∧ (health k).code = 200) →
            (health_loop E health n (i + 1) W).ycmd_globals.connected = 1) ∧
          ((∀ k, i ≤ k → k < i + (n + 1) → (health k).code ≠ 200) →
            (health_loop E health n (i + 1) W).ycmd_globals.connected = 0) := by
        intro W hW hreq
        obtain ⟨h1, h2, h3⟩ := ih (i + 1) W hW
        refine ⟨?_, ?_, ?_⟩
        · rw [h1, hreq]
          omega
        · rintro ⟨k, k1, k2, k3⟩
          have hk : k ≠ i := fun h => hh (h ▸ k3)
          exact h2 ⟨k, by omega, by omega, k3⟩
        · intro hall
          exact h3 (fun k k1 k2 => hall k (by omega) (by omega))
      refine key _ rfl ?_
      simp [World.emit, healthy_requests_append, healthy_requests]

theorem stop_effects_healthy (w : World) : healthy_requests (stop_effects w) = 0 := by
  by_cases hf : file_exists w w.ycmd_globals.tmp_options_filename = true <;>
    by_cases hp : w.ycmd_globals.child_pid = -1 <;>
    simp [stop_effects, healthy_requests, hf, hp]

theorem find_unused_localhost_port_still (o : StartOutcomes) (w : World) :
    Still w (find_unused_localhost_port o w).1 := by
  refine ⟨find_unused_localhost_port_quiet o w, ?_, ?_⟩
  · unfold find_unused_localhost_port
    simp only
    split_ifs <;> simp [World.emit]
  · unfold find_unused_localhost_port
    simp only
    split_ifs <;> simp [World.emit, healthy_requests_append, healthy_requests]

theorem start_server_parent_dead (E : Env) (o : StartOutcomes) (pid : Int) (w : World)
    (hw : o.waitpid_ret ≠ 0) :
    (start_server_parent E o pid w).ycmd_globals.running = 0 ∧
    (start_server_parent E o pid w).ycmd_globals.connected = 0 ∧
    (start_server_parent E o pid w).ycmd_globals.child_pid = -1 ∧
    (start_server_parent E o pid w).ycmd_globals.secret_key_base64 =
      w.ycmd_globals.secret_key_base64 ∧
    healthy_requests (start_server_parent E o pid w).trace = healthy_requests w.trace := by
  unfold start_server_parent
  simp only [hw, if_false]
  refine ⟨?_, ?_, ?_, ?_, ?_⟩
  · rw [ycmd_stop_server_globals]
  · rw [ycmd_stop_server_globals]
  · rw [ycmd_stop_server_globals]
  · rw [ycmd_stop_server_globals]; rfl
  · rw [ycmd_stop_server_trace, healthy_requests_append, stop_effects_healthy]
    simp [World.emit, healthy_requests_append, healthy_requests]

theorem start_server_parent_alive (E : Env) (o : StartOutcomes) (pid : Int) (w : World)
    (hw : o.waitpid_ret = 0) (hc : w.ycmd_globals.connected = 0) :
    (start_server_parent E o pid w).ycmd_globals.running = 1 ∧
    (start_server_parent E o pid w).ycmd_globals.child_pid = pid ∧
    (start_server_parent E o pid w).ycmd_globals.secret_key_base64 =
      w.ycmd_globals.secret_key_base64 ∧
    forked_pids (start_server_parent E o pid w).trace =
      forked_pids w.trace ++ (if 0 < pid then [pid] else []) ∧
    healthy_requests (start_server_parent E o pid w).trace =
      healthy_requests w.trace + tries_used o.health 5 0 ∧
    ((∃ k, k < 5 ∧ (o.health k).code = 200) →
      (start_server_parent E o pid w).ycmd_globals.connected = 1) ∧
    ((∀ k, k < 5 → (o.health k).code ≠ 200) →
      (start_server_parent E o pid w).ycmd_globals.connected = 0) := by
  unfold start_server_parent
  simp only [hw, if_true]
  have key : ∀ W : World, W.ycmd_globals.connected = 0 → W.ycmd_globals.running = 1 →
      W.ycmd_globals.child_pid = pid →
      W.ycmd_globals.secret_key_base64 = w.ycmd_globals.secret_key_base64 →
      forked_pids W.trace = forked_pids w.trace ++ (if 0 < pid then [pid] else []) →
      healthy_requests W.trace = healthy_requests w.trace →
      (health_loop E o.health 5 0 W).ycmd_globals.running = 1 ∧
      (health_loop E o.health 5 0 W).ycmd_globals.child_pid = pid ∧
      (health_loop E o.health 5 0 W).ycmd_globals.secret_key_base64 =
        w.ycmd_globals.secret_key_base64 ∧
      forked_pids (health_loop E o.health 5 0 W).trace =
        forked_pids w.trace ++ (if 0 < pid then [pid] else []) ∧
      healthy_requests (health_loop E o.health 5 0 W).trace =
        healthy_requests w.trace + tries_used o.health 5 0 ∧
      ((∃ k, k < 5 ∧ (o.health k).code = 200) →
        (health_loop E o.health 5 0 W).ycmd_globals.connected = 1) ∧
      ((∀ k, k < 5 → (o.health k).code ≠ 200) →
        (health_loop E o.health 5 0 W).ycmd_globals.connected = 0) := by
    intro W h1 h2 h3 h4 h5 h6
    obtain ⟨q1, _, _, q4, q5, q6⟩ := health_loop_quiet E o.health 5 0 W
    obtain ⟨p1, p2, p3⟩ := health_loop_poll E o.health 5 0 W h1
    refine ⟨by rw [q5, h2], by rw [q4, h3], by rw [q6, h4], by rw [q1, h5], by rw [p1, h6],
      ?_, ?_⟩
    · rintro ⟨k, k1, k2⟩
      exact p2 ⟨k, by omega, by omega, k2⟩
    · intro hall
      exact p3 (fun k _ k2 => hall k (by omega))
  refine key _ ?_ rfl rfl rfl ?_ ?_
  · simpa [World.emit] using hc
  · by_cases hp : 0 < pid <;>
      simp [World.emit, forked_pids_append, forked_pids, hp]
  · simp [World.emit, healthy_requests_append, healthy_requests]

theorem ycmd_start_server_flags (E : Env) (o : StartOutcomes) (w : World)
    (hs : w.ycmd_globals.secret_key_base64 ≠ none) (hf : o.fork_ret ≠ 0)
    (hc : w.ycmd_globals.connected = 0) :
    ∃ w1, ycmd_start_server E o w = some w1 ∧
      w1.ycmd_globals.secret_key_base64 = w.ycmd_globals.secret_key_base64 ∧
      ((find_unused_localhost_port o w).2 = -1 → Still w w1) ∧
      ((find_unused_localhost_port o w).2 ≠ -1 → o.waitpid_ret ≠ 0 →
        w1.ycmd_globals.running = 0 ∧ w1.ycmd_globals.connected = 0 ∧
        w1.ycmd_globals.child_pid = -1 ∧
        healthy_requests w1.trace = healthy_requests w.trace) ∧
      ((find_unused_localhost_port o w).2 ≠ -1 → o.waitpid_ret = 0 →
        w1.ycmd_globals.running = 1 ∧ w1.ycmd_globals.child_pid = o.fork_ret ∧
        forked_pids w1.trace = forked_pids w.trace ++ (if 0 < o.fork_ret then [o.fork_ret] else []) ∧
        healthy_requests w1.trace = healthy_requests w.trace + tries_used o.health 5 0 ∧
        ((∃ k, k < 5 ∧ (o.health k).code = 200) → w1.ycmd_globals.connected = 1) ∧
        ((∀ k, k < 5 → (o.health k).code ≠ 200) → w1.ycmd_globals.connected = 0)) := by
  have hq := find_unused_localhost_port_still o w
  rcases hP : find_unused_localhost_port o w with ⟨wp, port⟩
  rw [hP] at hq
  simp only at hq
  obtain ⟨⟨q1, q2, q3, q4, q5, q6⟩, q7, q8⟩ := hq
  have hsp : wp.ycmd_globals.secret_key_base64 ≠ none := by rw [q6]; exact hs
  unfold ycmd_start_server
  simp only [hP, Option.bind_eq_bind, Option.pure_def]
  by_cases hport : port = -1
  · rw [if_pos hport]
    exact ⟨_, rfl, q6, fun _ => ⟨⟨q1, q2, q3, q4, q5, q6⟩, q7, q8⟩, fun h => absurd hport h,
      fun h => absurd hport h⟩
  · rw [if_neg hport]
    obtain ⟨sk, hsk⟩ := Option.ne_none_iff_exists'.mp hsp
    obtain ⟨json, hjson⟩ := options_file_json_some E sk
    have hj : options_file_json E wp.ycmd_globals.secret_key_base64 = some json := by
      rw [hsk]; exact hjson
    simp only [hj, Option.some_bind, hf, if_false]
    have key : ∀ W : World,
        W.ycmd_globals.secret_key_base64 = w.ycmd_globals.secret_key_base64 →
        W.ycmd_globals.connected = 0 → forked_pids W.trace = forked_pids w.trace →
        healthy_requests W.trace = healthy_requests w.trace →
        (start_server_parent E o o.fork_ret W).ycmd_globals.secret_key_base64 =
          w.ycmd_globals.secret_key_base64 ∧
        (o.waitpid_ret ≠ 0 →
          (start_server_parent E o o.fork_ret W).ycmd_globals.running = 0 ∧
          (start_server_parent E o o.fork_ret W).ycmd_globals.connected = 0 ∧
          (start_server_parent E o o.fork_ret W).ycmd_globals.child_pid = -1 ∧
          healthy_requests (start_server_parent E o o.fork_ret W).trace =
            healthy_requests w.trace) ∧
        (o.waitpid_ret = 0 →
          (start_server_parent E o o.fork_ret W).ycmd_globals.running = 1 ∧
          (start_server_parent E o o.fork_ret W).ycmd_globals.child_pid = o.fork_ret ∧
          forked_pids (start_server_parent E o o.fork_ret W).trace =
            forked_pids w.trace ++ (if 0 < o.fork_ret then [o.fork_ret] else []) ∧
          healthy_requests (start_server_parent E o o.fork_ret W).trace =
            healthy_requests w.trace + tries_used o.health 5 0 ∧
          ((∃ k, k < 5 ∧ (o.health k).code = 200) →
            (start_server_parent E o o.fork_ret W).ycmd_globals.connected = 1) ∧
          ((∀ k, k < 5 → (o.health k).code ≠ 200) →
            (start_server_parent E o o.fork_ret W).ycmd_globals.connected = 0)) := by
      intro W w1 w2 w3 w4
      refine ⟨?_, ?_, ?_⟩
      · by_cases hw : o.waitpid_ret = 0
        · rw [(start_server_parent_alive E o o.fork_ret W hw w2).2.2.1, w1]
        · rw [(start_server_parent_dead E o o.fork_ret W hw).2.2.2.1, w1]
      · intro hw
        obtain ⟨d1, d2, d3, _, d5⟩ := start_server_parent_dead E o o.fork_ret W hw
        exact ⟨d1, d2, d3, d5.trans w4⟩
      · intro hw
        obtain ⟨a1, a2, _, a4, a5, a6, a7⟩ := start_server_parent_alive E o o.fork_ret W hw w2
        refine ⟨a1, a2, ?_, ?_, a6, a7⟩
        · rw [← w3]; exact a4
        · rw [← w4]; exact a5
    refine ⟨_, rfl, ?_⟩
    obtain ⟨k1, k2, k3⟩ := key
      { wp with
        ycmd_globals := { ({ wp with ycmd_globals := { wp.ycmd_globals with port := port } } :
          World).ycmd_globals with json := some json, tmp_options_filename := o.mkstemp_name },
        files := (cstr o.mkstemp_name, cstr json) :: wp.files } q6 (q7.trans hc) q1 q8
    exact ⟨k1, fun h => absurd h hport, fun _ => k2, fun _ => k3⟩

theorem healthyAnswer_iff (o : StartOutcomes) :
    HealthyAnswer o ↔ ∃ k, k < 5 ∧ (o.health k).code = 200 := by
  constructor
  · rintro ⟨k, h1, h2⟩
    exact ⟨k, lt_of_lt_of_le h1 (tries_used_le o.health 5 0), h2⟩
  · rintro ⟨k, h1, h2⟩
    obtain ⟨h3, h4⟩ := tries_used_last o.health 5 0 k (Nat.zero_le k) (by omega) h2
    exact ⟨0 + tries_used o.health 5 0 - 1, by omega, h4⟩

theorem ycmd_restart_server_flags (E : Env) (o : StartOutcomes) (w : World)
    (hi : FlagsInv w) (hf : o.fork_ret ≠ 0) :
    ∃ w1, ycmd_restart_server E o w = some w1 ∧ FlagsInv w1 ∧
      (w1.ycmd_globals.connected ≠ 0 → HealthyAnswer o) ∧
      (w1.ycmd_globals.running ≠ 0 →
        w1.ycmd_globals.child_pid = o.fork_ret ∧
        (0 < o.fork_ret → o.fork_ret ∈ forked_pids w1.trace)) := by
  obtain ⟨hs, hrc⟩ := hi
  have key : ∀ W : World, W.ycmd_globals.secret_key_base64 ≠ none →
      W.ycmd_globals.running = 0 → W.ycmd_globals.connected = 0 →
      ∃ w1, ycmd_start_server E o W = some w1 ∧ FlagsInv w1 ∧
        (w1.ycmd_globals.connected ≠ 0 → HealthyAnswer o) ∧
        (w1.ycmd_globals.running ≠ 0 →
          w1.ycmd_globals.child_pid = o.fork_ret ∧
          (0 < o.fork_ret → o.fork_ret ∈ forked_pids w1.trace)) := by
    intro W hW hr hc
    obtain ⟨w1, h1, h2, h3, h4, h5⟩ := ycmd_start_server_flags E o W hW hf hc
    refine ⟨w1, h1, ?_⟩
    by_cases hport : (find_unused_localhost_port o W).2 = -1
    · obtain ⟨⟨_, _, _, _, q5, _⟩, q7, _⟩ := h3 hport
      refine ⟨⟨by rw [h2]; exact hW, fun _ => by rw [q7, hc]⟩, ?_, ?_⟩
      · intro hne; exact absurd (q7.trans hc) hne
      · intro hne; exact absurd (q5.trans hr) hne
    · by_cases hw : o.waitpid_ret = 0
      · obtain ⟨a1, a2, a3, _, a5, a6⟩ := h5 hport hw
        refine ⟨⟨by rw [h2]; exact hW, fun h0 => by rw [a1] at h0; exact absurd h0 (by decide)⟩,
          ?_, ?_⟩
        · intro hne
          by_cases hex : ∃ k, k < 5 ∧ (o.health k).code = 200
          · exact (healthyAnswer_iff o).mpr hex
          · exact absurd (a6 (fun k hk hcode => hex ⟨k, hk, hcode⟩)) hne
        · intro _
          refine ⟨a2, fun hpos => ?_⟩
          rw [a3, if_pos hpos]
          simp
      · obtain ⟨d1, d2, _, _⟩ := h4 hport hw
        refine ⟨⟨by rw [h2]; exact hW, fun _ => d2⟩, ?_, ?_⟩
        · intro hne; exact absurd d2 hne
        · intro hne; exact absurd d1 hne
  unfold ycmd_restart_server
  by_cases hr : w.ycmd_globals.running = 0
  · simp only [hr, ne_eq, not_true_eq_false, if_false]
    exact key w hs hr (hrc hr)
  · simp only [ne_eq, hr, not_false_eq_true, if_true]
    refine key _ ?_ ?_ ?_
    · rw [ycmd_stop_server_globals]; exact hs
    · rw [ycmd_stop_server_globals]
    · rw [ycmd_stop_server_globals]

theorem ycmd_stop_server_flags (w : World) (hi : FlagsInv w) :
    FlagsInv (ycmd_stop_server w) ∧ (ycmd_stop_server w).ycmd_globals.connected = 0 ∧
    (ycmd_stop_server w).ycmd_globals.running = 0 := by
  refine ⟨⟨?_, fun _ => ?_⟩, ?_, ?_⟩
  · rw [ycmd_stop_server_globals]; exact hi.1
  · rw [ycmd_stop_server_globals]
  · rw [ycmd_stop_server_globals]
  · rw [ycmd_stop_server_globals]

theorem run_calls_connected (E : Env) : ∀ (calls : List SupervisorCall) (w : World),
    FlagsInv w → ParentSide calls →
    ∃ w1, run_calls E calls w = some w1 ∧ FlagsInv w1 ∧
      (w1.ycmd_globals.connected ≠ 0 →
        (calls = [] ∧ w1 = w) ∨
        ∃ pre o, calls = pre ++ [SupervisorCall.restart o] ∧ HealthyAnswer o)
  | [], w, hi, _ => ⟨w, rfl, hi, fun _ => Or.inl ⟨rfl, rfl⟩⟩
  | .restart o :: rest, w, hi, hp => by
    obtain ⟨w1, hw1, hi1, hc1, _⟩ := ycmd_restart_server_flags E o w hi hp.1
    obtain ⟨w2, hw2, hi2, hc2⟩ := run_calls_connected E rest w1 hi1 hp.2
    refine ⟨w2, by simp only [run_calls, hw1, hw2], hi2, fun hne => Or.inr ?_⟩
    rcases hc2 hne with ⟨h1, h2⟩ | ⟨pre, o2, h1, h2⟩
    · subst h1
      subst h2
      exact ⟨[], o, rfl, hc1 hne⟩
    · exact ⟨.restart o :: pre, o2, by rw [h1]; rfl, h2⟩
  | .stop :: rest, w, hi, hp => by
    obtain ⟨hi1, hc1, _⟩ := ycmd_stop_server_flags w hi
    obtain ⟨w2, hw2, hi2, hc2⟩ := run_calls_connected E rest (ycmd_stop_server w) hi1 hp
    refine ⟨w2, by simp only [run_calls, hw2], hi2, fun hne => Or.inr ?_⟩
    rcases hc2 hne with ⟨h1, h2⟩ | ⟨pre, o2, h1, h2⟩
    · subst h1
      subst h2
      exact absurd hc1 hne
    · exact ⟨.stop :: pre, o2, by rw [h1]; rfl, h2⟩

theorem forksSucceed_parentSide : ∀ calls : List SupervisorCall,
    ForksSucceed calls → ParentSide calls
  | [], _ => trivial
  | .restart o :: rest, h => ⟨by have := h.1; omega, forksSucceed_parentSide rest h.2⟩
  | .stop :: rest, h => forksSucceed_parentSide rest h

theorem run_calls_running (E : Env) : ∀ (calls : List SupervisorCall) (w : World),
    FlagsInv w → RunningHasChild w → ForksSucceed calls →
    ∃ w1, run_calls E calls w = some w1 ∧ FlagsInv w1 ∧ RunningHasChild w1
  | [], w, hi, hr, _ => ⟨w, rfl, hi, hr⟩
  | .restart o :: rest, w, hi, _, hp => by
    obtain ⟨w1, hw1, hi1, _, hr1⟩ :=
      ycmd_restart_server_flags E o w hi (by have := hp.1; omega)
    obtain ⟨w2, hw2, hi2, hr2⟩ := run_calls_running E rest w1 hi1
      (fun hne => by
        obtain ⟨h1, h2⟩ := hr1 hne
        rw [h1]
        exact ⟨hp.1, h2 hp.1⟩) hp.2
    exact ⟨w2, by simp only [run_calls, hw1, hw2], hi2, hr2⟩
  | .stop :: rest, w, hi, _, hp => by
    obtain ⟨hi1, _, hr1⟩ := ycmd_stop_server_flags w hi
    obtain ⟨w2, hw2, hi2, hr2⟩ := run_calls_running E rest (ycmd_stop_server w) hi1
      (fun hne => absurd hr1 hne) hp
    exact ⟨w2, by simp only [run_calls, hw2], hi2, hr2⟩

theorem sample_port_found (pid waitpid_ret : Int) (w : World) :
    (find_unused_localhost_port (sample_start pid waitpid_ret) w).2 ≠ -1 := by
  simp [find_unused_localhost_port, sample_start]

theorem run_calls_single (E : Env) (o : StartOutcomes) (w : World) :
    run_calls E [.restart o] w = ycmd_restart_server E o w := by
  unfold run_calls
  cases ycmd_restart_server E o w <;> rfl

theorem flagsInv_initialised (w : World) (h : Initialised w) : FlagsInv w :=
  ⟨h.2.2.2.1, fun _ => h.2.2.1⟩

/-- C11. From the initialised sample state, a start in which `fork` fails
(returns -1) while the liveness probe `waitpid(-1, 0, WNOHANG)` returns 0
returns with `running` = 1 and `child_pid` = -1, no pid of a created child
having been returned; the same state is reached by `ycmd_restart_server`. -/
theorem ycmd_start_server_running_without_child :
    Initialised sample_idle_world ∧
    ∃ w, ycmd_start_server sample_env (sample_start (-1) 0) sample_idle_world = some w ∧
      run_calls sample_env [.restart (sample_start (-1) 0)] sample_idle_world = some w ∧
      w.ycmd_globals.running = 1 ∧ w.ycmd_globals.child_pid = -1 ∧
      forked_pids w.trace = [] := by
  have hinit : Initialised sample_idle_world := ⟨rfl, rfl, rfl, by decide, rfl⟩
  obtain ⟨w, h1, _, _, _, h5⟩ := ycmd_start_server_flags sample_env (sample_start (-1) 0)
    sample_idle_world (by decide) (by decide) rfl
  obtain ⟨a1, a2, a3, _⟩ := h5 (sample_port_found (-1) 0 sample_idle_world) rfl
  refine ⟨hinit, w, h1, ?_, a1, a2, ?_⟩
  · have hrun : ¬ (sample_idle_world.ycmd_globals.running ≠ 0) := by decide
    rw [run_calls_single, ← h1]
    unfold ycmd_restart_server
    rw [if_neg hrun]
  · rw [a3]
    simp [sample_idle_world, sample_world, forked_pids, sample_start]

/-- In every state reached from the initialised state through calls of
`ycmd_restart_server` and `ycmd_stop_server` in which every `fork` creates a
child, whatever the port probe, the liveness probe and the health checks
give, `running` set implies that `child_pid` is above 0 (so not -1) and is a
pid `fork` returned for a child it created. -/
theorem running_has_child_when_forks_succeed (E : Env) (calls : List SupervisorCall)
    (w0 : World) (h0 : Initialised w0) (hf : ForksSucceed calls) :
    ∃ w, run_calls E calls w0 = some w ∧
      (w.ycmd_globals.running ≠ 0 →
        0 < w.ycmd_globals.child_pid ∧ w.ycmd_globals.child_pid ≠ -1 ∧
        w.ycmd_globals.child_pid ∈ forked_pids w.trace) := by
  obtain ⟨w, h1, _, h3⟩ := run_calls_running E calls w0 (flagsInv_initialised w0 h0)
    (fun hne => absurd h0.2.1 hne) hf
  refine ⟨w, h1, fun hne => ?_⟩
  obtain ⟨h4, h5⟩ := h3 hne
  exact ⟨h4, by omega, h5⟩

/-- A restart whose child 100 stays up, a stop, and a restart whose child
101 stays up. -/
theorem running_has_child_when_forks_succeed_witness :
    Initialised sample_idle_world ∧
    ForksSucceed [.restart (sample_start 100 0), .stop, .restart (sample_start 101 0)] ∧
    ∃ w, run_calls sample_env
        [.restart (sample_start 100 0), .stop, .restart (sample_start 101 0)]
        sample_idle_world = some w ∧
      (w.ycmd_globals.running ≠ 0 →
        0 < w.ycmd_globals.child_pid ∧ w.ycmd_globals.child_pid ≠ -1 ∧
        w.ycmd_globals.child_pid ∈ forked_pids w.trace) :=
  ⟨⟨rfl, rfl, rfl, by decide, rfl⟩, ⟨by decide, by decide, trivial⟩,
    running_has_child_when_forks_succeed sample_env
      [.restart (sample_start 100 0), .stop, .restart (sample_start 101 0)]
      sample_idle_world ⟨rfl, rfl, rfl, by decide, rfl⟩ ⟨by decide, by decide, trivial⟩⟩

/-- C12. A call of `ycmd_start_server` entered with `connected` = 0 that
reaches the health poll (the secret text set, the port probe passed, in the
parent, the liveness probe returning 0) returns; the requests for `/healthy`
it makes are `tries_used`, at most 5; every check before the last one made was
not answered with status 200; and on return `connected` is 1 exactly when a
check made was answered with status 200, and 0 otherwise.  After every
sequence of restarts and stops from the initialised state, `connected` set
implies that the last call was a restart one of whose health checks was made
and answered with status 200. -/
theorem health_poll_connected (E : Env) :
    (∀ (o : StartOutcomes) (w : World), w.ycmd_globals.connected = 0 →
      w.ycmd_globals.secret_key_base64 ≠ none →
      (find_unused_localhost_port o w).2 ≠ -1 → o.fork_ret ≠ 0 → o.waitpid_ret = 0 →
      ∃ w1, ycmd_start_server E o w = some w1 ∧
        healthy_requests w1.trace = healthy_requests w.trace + tries_used o.health 5 0 ∧
        tries_used o.health 5 0 ≤ 5 ∧
        (∀ k, k + 1 < tries_used o.health 5 0 → (o.health k).code ≠ 200) ∧
        (w1.ycmd_globals.connected = 1 ↔
          ∃ k, k < tries_used o.health 5 0 ∧ (o.health k).code = 200) ∧
        (w1.ycmd_globals.connected = 0 ∨ w1.ycmd_globals.connected = 1)) ∧
    (∀ (calls : List SupervisorCall) (w0 : World), Initialised w0 → ParentSide calls →
      ∃ w, run_calls E calls w0 = some w ∧
        (w.ycmd_globals.connected ≠ 0 →
          ∃ pre o, calls = pre ++ [SupervisorCall.restart o] ∧
            ∃ k, k < tries_used o.health 5 0 ∧ (o.health k).code = 200)) := by
  constructor
  · intro o w hc hs hport hf hw
    obtain ⟨w1, h1, _, _, _, h5⟩ := ycmd_start_server_flags E o w hs hf hc
    obtain ⟨_, _, _, a4, a5, a6⟩ := h5 hport hw
    refine ⟨w1, h1, a4, tries_used_le o.health 5 0,
      fun k hk => tries_used_earlier o.health 5 0 k (Nat.zero_le k) (by omega), ?_, ?_⟩
    · constructor
      · intro h1c
        by_cases hex : ∃ k, k < 5 ∧ (o.health k).code = 200
        · exact (healthyAnswer_iff o).mpr hex
        · have := a6 (fun k hk hcode => hex ⟨k, hk, hcode⟩)
          omega
      · intro hex
        exact a5 ((healthyAnswer_iff o).mp hex)
    · by_cases hex : ∃ k, k < 5 ∧ (o.health k).code = 200
      · exact Or.inr (a5 hex)
      · exact Or.inl (a6 (fun k hk hcode => hex ⟨k, hk, hcode⟩))
  · intro calls w0 h0 hp
    obtain ⟨w, h1, _, h3⟩ := run_calls_connected E calls w0 (flagsInv_initialised w0 h0) hp
    refine ⟨w, h1, fun hne => ?_⟩
    rcases h3 hne with ⟨_, h5⟩ | h4
    · subst h5
      exact absurd h0.2.2.1 hne
    · exact h4

/-- Witness of C12: from the initialised sample state, a start whose third
health check is the first answered with status 200 makes three requests for
`/healthy` and returns connected. -/
theorem health_poll_connected_witness :
    (∃ w1, ycmd_start_server sample_env sample_healthy_start sample_idle_world = some w1 ∧
      healthy_requests w1.trace = 3 ∧ w1.ycmd_globals.connected = 1) ∧
    (∃ w, run_calls sample_env [.restart sample_healthy_start] sample_idle_world = some w ∧
      (w.ycmd_globals.connected ≠ 0 →
        ∃ pre o, [SupervisorCall.restart sample_healthy_start] =
            pre ++ [SupervisorCall.restart o] ∧
          ∃ k, k < tries_used o.health 5 0 ∧ (o.health k).code = 200)) := by
  constructor
  · obtain ⟨w1, h1, h2, _, _, h5, _⟩ := (health_poll_connected sample_env).1
      sample_healthy_start sample_idle_world rfl (by decide)
      (by simp [find_unused_localhost_port, sample_healthy_start, sample_start])
      (by decide) rfl
    refine ⟨w1, h1, ?_, h5.mpr ⟨2, by decide, by decide⟩⟩
    rw [h2]
    decide
  · exact (health_poll_connected sample_env).2 [.restart sample_healthy_start]
      sample_idle_world ⟨rfl, rfl, rfl, by decide, rfl⟩ ⟨by decide, trivial⟩

/-! ## The readiness check -/

theorem ycmd_rsp_is_server_ready_begun (E : Env) (resp : Response) (filetype : List Nat)
    (w : World) (hb : resp.begin_ret ≥ 0) :
    ∃ w1, ycmd_rsp_is_server_ready E resp filetype w =
      (ycmd_compare_hmac resp.hmac_header
        (ycmd_compute_response E.crypto E.ssl w.ycmd_globals.secret_key_raw
          (response_body_memory resp))).map
        (fun nc => (w1, c_bool (resp.code = 200 ∧ nc ≠ 0))) := by
  unfold ycmd_rsp_is_server_ready
  obtain ⟨body, hbody⟩ := string_replace_w_some (strdup (ascii "subserver=FILE_TYPE"))
    (ascii "FILE_TYPE") filetype (by decide)
  simp only [hbody, Option.bind_eq_bind, Option.some_bind, hb, if_true]
  cases hh : ycmd_compare_hmac resp.hmac_header
      (ycmd_compute_response E.crypto E.ssl w.ycmd_globals.secret_key_raw
        (response_body_memory resp)) with
  | none => exact ⟨w, by simp [World.emit, hh]⟩
  | some nc => exact ⟨_, by simp only [World.emit, hh, Option.some_bind, Option.map_some']; rfl⟩

/-- C15. `ycmd_rsp_is_server_ready` trusts the response only after the
digest comparison, for every answer of the request (`ne_begin_request`
returns 0 or a positive error code, so the test `ret >= 0` always passes):
when the digest header is present the call returns, with success exactly when
the status is 200 and the header equals, as a C string, the locally computed
base64 HMAC of the response body; when the header is absent the comparison
faults and the call does not return; so a success result implies status 200
and that the comparison was made and matched. -/
theorem ycmd_rsp_is_server_ready_trust (E : Env) (resp : Response) (filetype : List Nat)
    (w : World) :
    (∀ h, resp.hmac_header = some h →
      ∃ w1, ycmd_rsp_is_server_ready E resp filetype w =
        some (w1, c_bool (resp.code = 200 ∧
          cstr h = cstr (ycmd_compute_response E.crypto E.ssl w.ycmd_globals.secret_key_raw
            (response_body_memory resp))))) ∧
    (resp.hmac_header = none → ycmd_rsp_is_server_ready E resp filetype w = none) ∧
    (∀ w1 r, ycmd_rsp_is_server_ready E resp filetype w = some (w1, r) → r ≠ 0 →
      resp.code = 200 ∧
      ∃ h, resp.hmac_header = some h ∧
        cstr h = cstr (ycmd_compute_response E.crypto E.ssl w.ycmd_globals.secret_key_raw
          (response_body_memory resp))) := by
  have hb : resp.begin_ret ≥ 0 := Nat.zero_le _
  refine ⟨?_, ?_, ?_⟩
  · intro h hh
    obtain ⟨w1, h1⟩ := ycmd_rsp_is_server_ready_begun E resp filetype w hb
    refine ⟨w1, ?_⟩
    rw [h1, hh, ycmd_compare_hmac_some]
    by_cases hc : cstr h = cstr (ycmd_compute_response E.crypto E.ssl
        w.ycmd_globals.secret_key_raw (response_body_memory resp))
    · simp [hc]
    · simp [hc, c_bool]
  · intro hh
    obtain ⟨w1, h1⟩ := ycmd_rsp_is_server_ready_begun E resp filetype w hb
    rw [h1, hh]
    rfl
  · intro w1 r hr hne
    obtain ⟨w2, h1⟩ := ycmd_rsp_is_server_ready_begun E resp filetype w hb
    rw [h1] at hr
    cases hh : resp.hmac_header with
    | none =>
      rw [hh] at hr
      simp [ycmd_compare_hmac] at hr
    | some h =>
      rw [hh, ycmd_compare_hmac_some] at hr
      simp only [Option.map_some', Option.some.injEq, Prod.mk.injEq] at hr
      obtain ⟨_, hr2⟩ := hr
      by_cases hc : cstr h = cstr (ycmd_compute_response E.crypto E.ssl
          w.ycmd_globals.secret_key_raw (response_body_memory resp))
      · by_cases h200 : resp.code = 200
        · exact ⟨h200, h, rfl, hc⟩
        · exfalso; apply hne; rw [← hr2]; simp [c_bool, h200]
      · exfalso; apply hne; rw [← hr2]; simp [c_bool, hc]

/-- Witness of C15: the sample response signed with the digest of its body is
accepted, the same response with the digest header `AAAA` is refused, and a
response without digest header makes the call fault. -/
theorem ycmd_rsp_is_server_ready_trust_witness :
    (∃ w1, ycmd_rsp_is_server_ready sample_env
      (sample_response (ycmd_compute_response refLib .nettle (List.range 16) sample_body))
      (ascii "python") sample_world = some (w1, 1)) ∧
    (∃ w1, ycmd_rsp_is_server_ready sample_env (sample_response (ascii "AAAA"))
      (ascii "python") sample_world = some (w1, 0)) ∧
    ycmd_rsp_is_server_ready sample_env headerless_response (ascii "python") sample_world
      = none := by
  refine ⟨?_, ?_, ?_⟩
  · obtain ⟨w1, h⟩ := (ycmd_rsp_is_server_ready_trust sample_env
      (sample_response (ycmd_compute_response refLib .nettle (List.range 16) sample_body))
      (ascii "python") sample_world).1 _ rfl
    refine ⟨w1, ?_⟩
    rw [h, sample_response_body]
    have hc : c_bool ((sample_response (ycmd_compute_response refLib .nettle (List.range 16)
        sample_body)).code = 200 ∧
        cstr (ycmd_compute_response refLib .nettle (List.range 16) sample_body) =
          cstr (ycmd_compute_response sample_env.crypto sample_env.ssl
            sample_world.ycmd_globals.secret_key_raw sample_body)) = 1 := by
      unfold c_bool
      rw [if_pos ⟨rfl, rfl⟩]
    rw [hc]
  · obtain ⟨w1, h⟩ := (ycmd_rsp_is_server_ready_trust sample_env (sample_response (ascii "AAAA"))
      (ascii "python") sample_world).1 (ascii "AAAA") rfl
    refine ⟨w1, ?_⟩
    rw [h]
    have hne := sample_digest_ne sample_env.ssl sample_world.ycmd_globals.secret_key_raw
      (response_body_memory (sample_response (ascii "AAAA"))) (ascii "AAAA")
      (by decide) (by decide)
    have hc : c_bool ((sample_response (ascii "AAAA")).code = 200 ∧
        cstr (ascii "AAAA") = cstr (ycmd_compute_response sample_env.crypto sample_env.ssl
          sample_world.ycmd_globals.secret_key_raw
          (response_body_memory (sample_response (ascii "AAAA"))))) = 0 := by
      unfold c_bool
      rw [if_neg]
      exact fun h2 => hne h2.2
    rw [hc]
  · exact (ycmd_rsp_is_server_ready_trust sample_env headerless_response
      (ascii "python") sample_world).2.1 rfl

/-! ## Signed requests -/

theorem strlen_le (s : List Nat) : strlen s ≤ s.length := by
  induction s with
  | nil => simp [strlen]
  | cons b rest ih =>
    by_cases hb : b = 0 <;> simp [strlen, hb]
    omega

theorem cstr_nulFree (s : List Nat) : NulFree (cstr s) := by
  induction s with
  | nil => intro b hb; simp [cstr, strlen] at hb
  | cons x rest ih =>
    by_cases hx : x = 0
    · intro b hb; simp [cstr, strlen, hx] at hb
    · intro b hb
      simp only [cstr, strlen, hx, if_false, List.take_succ_cons, List.mem_cons] at hb
      rcases hb with h | h
      · rw [h]; exact hx
      · exact ih b h

theorem cstr_cstr (s : List Nat) : cstr (cstr s) = cstr s := cstr_of_nulFree (cstr_nulFree s)

theorem take_strlen_cstr (s : List Nat) : (cstr s).take (strlen (cstr s)) = s.take (strlen s) :=
  cstr_cstr s

theorem ycmd_compute_request_cstr_args (L : CryptoLib) (v : SslLib)
    (k method path body : List Nat) :
    ycmd_compute_request L v k method path body =
      ycmd_compute_request L v k (cstr method) (cstr path) (cstr body) := by
  cases v
  · simp only [ycmd_compute_request, ycmd_compute_request_nettle, hmac_sha256_set_key,
      hmac_sha256_update, hmac_sha256_digest, take_strlen_cstr]
  · simp only [ycmd_compute_request, ycmd_compute_request_openssl, HMAC, take_strlen_cstr]
  · simp only [ycmd_compute_request, ycmd_compute_request_libgcrypt, gcry_mac_open,
      gcry_mac_setkey, gcry_mac_write, gcry_mac_read, gcry_mac_reset, take_strlen_cstr]

theorem post_request_signed (E : Env) (w : World) (path json : List Nat) :
    SignedPost E w.ycmd_globals.secret_key_raw (post_request E w (ascii "POST") path json) ∧
    (post_request E w (ascii "POST") path json).path = cstr path ∧
    (post_request E w (ascii "POST") path json).body = some (cstr json) := by
  have hm : cstr (ascii "POST") = ascii "POST" := by decide
  refine ⟨⟨hm, by simp [post_request], cstr json, rfl, ?_⟩, rfl, rfl⟩
  have h := ycmd_compute_request_cstr_args E.crypto E.ssl w.ycmd_globals.secret_key_raw
    (ascii "POST") path json
  rw [hm] at h
  refine List.mem_cons_of_mem _ (List.mem_singleton.mpr ?_)
  show (E.HTTP_HEADER_YCM_HMAC, cstr (ycmd_compute_request E.crypto E.ssl
      w.ycmd_globals.secret_key_raw (ascii "POST") (cstr path) (cstr json))) =
    (E.HTTP_HEADER_YCM_HMAC, cstr (ycmd_compute_request E.crypto E.ssl
      w.ycmd_globals.secret_key_raw (ascii "POST") path json))
  rw [← h]

theorem event_notification_body_some (E : Env) (w : World) (columnnum linenum : Int)
    (filepath eventname c : List Nat) :
    ∃ json, event_notification_body E w columnnum linenum filepath eventname (some c)
      = some json := by
  unfold event_notification_body
  obtain ⟨j1, h1⟩ := string_replace_w_some (strdup event_notification_template)
    (ascii "COLUMN_NUM") (snprintf_d E.DIGITS_MAX (column_sent w.ycmd_globals columnnum))
    (by decide)
  obtain ⟨j2, h2⟩ := string_replace_w_some j1 (ascii "EVENT_NAME") eventname (by decide)
  obtain ⟨j3, h3⟩ := string_replace_w_some j2 (ascii "LINE_NUM")
    (snprintf_d E.DIGITS_MAX linenum) (by decide)
  obtain ⟨j4, h4⟩ := _ycmd_json_replace_file_data_some w.cwd j3 filepath c
  exact ⟨j4, by simp only [h1, h2, h3, h4, Option.bind_eq_bind, Option.some_bind]⟩

theorem simple_request_body_some (E : Env) (w : World) (linenum columnnum : Int)
    (filepath c : List Nat) :
    ∃ json, simple_request_body E w linenum columnnum filepath (some c) = some json := by
  unfold simple_request_body
  obtain ⟨j1, h1⟩ := string_replace_w_some (strdup simple_request_template)
    (ascii "LINE_NUM") (snprintf_d E.DIGITS_MAX linenum) (by decide)
  obtain ⟨j2, h2⟩ := string_replace_w_some j1 (ascii "COLUMN_NUM")
    (snprintf_d E.DIGITS_MAX (column_sent w.ycmd_globals columnnum)) (by decide)
  obtain ⟨j3, h3⟩ := _ycmd_json_replace_file_data_some w.cwd j2 filepath c
  exact ⟨j3, by simp only [h1, h2, h3, Option.bind_eq_bind, Option.some_bind]⟩

theorem ycmd_json_event_notification_eq (E : Env) (resp : Response) (columnnum linenum : Int)
    (filepath eventname : List Nat) (content : Option (List Nat)) (w : World)
    (json : List Nat)
    (hjson : event_notification_body E w columnnum linenum filepath eventname content
      = some json) :
    ycmd_json_event_notification E resp columnnum linenum filepath eventname content w =
      some (w.emit (.request (post_request E w (ascii "POST") (ascii "/event_notification")
        json)), c_bool (resp.code = 200)) := by
  unfold ycmd_json_event_notification
  simp only [hjson, Option.bind_eq_bind, Option.some_bind]

theorem _ycmd_req_simple_request_post (E : Env) (resp : Response) (path : List Nat)
    (linenum columnnum : Int) (filepath : List Nat) (content : Option (List Nat)) (w : World)
    (json : List Nat)
    (hjson : simple_request_body E w linenum columnnum filepath content = some json) :
    _ycmd_req_simple_request E resp (ascii "POST") path linenum columnnum filepath content w =
      some (w.emit (.request (post_request E w (ascii "POST") path json)),
        c_bool (resp.code = 200)) := by
  unfold _ycmd_req_simple_request
  have hm : strcmp (ascii "POST") (ascii "POST") = 0 := strcmp_self _
  simp only [hjson, Option.bind_eq_bind, Option.some_bind, hm, if_true]

theorem ycmd_req_completions_suggestions_trace (E : Env) (resp : Response)
    (linenum columnnum : Int) (filepath : List Nat) (content : Option (List Nat))
    (completertarget : List Nat) (w w1 : World) (ret : Int)
    (h : ycmd_req_completions_suggestions E resp linenum columnnum filepath content
      completertarget w = some (w1, ret)) :
    ∃ json rest,
      completions_body E w linenum columnnum filepath content completertarget = some json ∧
      w1.trace = w.trace ++
        Event.request (post_request E w (ascii "POST") (ascii "/completions") json) :: rest ∧
      NoRequest rest := by
  unfold ycmd_req_completions_suggestions at h
  cases hjson : completions_body E w linenum columnnum filepath content completertarget with
  | none => simp [hjson] at h
  | some json =>
    refine ⟨json, ?_⟩
    simp only [hjson, Option.bind_eq_bind, Option.some_bind] at h
    have hnil : NoRequest [] := fun r hr => by simp at hr
    by_cases hb : resp.begin_ret ≥ 0
    · simp only [hb, if_true] at h
      cases hv : ycmd_compare_hmac resp.hmac_header
          (ycmd_compute_response E.crypto E.ssl (w.emit (.request (post_request E w
            (ascii "POST") (ascii "/completions") json))).ycmd_globals.secret_key_raw
            (response_body_memory resp)) with
      | none => simp [hv] at h
      | some verified =>
        simp only [hv, Option.some_bind] at h
        by_cases h0 : verified = 0
        · simp only [h0, if_true, Option.some.injEq, Prod.mk.injEq] at h
          exact ⟨[], rfl, by rw [← h.1]; simp [World.emit], hnil⟩
        · simp only [h0, if_false] at h
          by_cases hs : strstr (response_body_memory resp)
              (ascii "completion_start_column") = true
          · simp only [hs, if_true] at h
            cases hf : fill_candidates
                (nx_json_get (E.nx_json_parse_utf8 (cstr (response_body_memory resp)))
                  (ascii "completions")) E.MAIN_VISIBLE 0
                (find_menu_func E.MCODECOMPLETION w.allfuncs).2 with
            | none => simp [hf] at h
            | some res =>
              obtain ⟨j, done, rest⟩ := res
              simp only [hf, Option.some_bind, Option.some.injEq, Prod.mk.injEq] at h
              by_cases hj : 0 < j
              · refine ⟨[.bottombars E.MCODECOMPLETION,
                  .statusline (ascii "Code completion triggered")], rfl, ?_, ?_⟩
                · rw [← h.1]; simp [World.emit, hj]
                · intro r hr; simp at hr
              · exact ⟨[], rfl, by rw [← h.1]; simp [World.emit, hj], hnil⟩
          · simp only [hs, Bool.false_eq_true, if_false, Option.some.injEq, Prod.mk.injEq] at h
            exact ⟨[], rfl, by rw [← h.1]; simp [World.emit], hnil⟩
    · simp only [hb, if_false, Option.some_bind, one_ne_zero, Option.some.injEq,
        Prod.mk.injEq] at h
      exact ⟨[], rfl, by rw [← h.1]; simp [World.emit], hnil⟩

/-- C14. The requests built by `ycmd_json_event_notification`,
`_ycmd_req_simple_request` called with the method `POST`, and
`ycmd_req_completions_suggestions` are signed POST requests: each has the
method `POST`, the header `content-type: application/json`, and the digest
header whose value is the text of `ycmd_compute_request` of `POST`, the path
of the request and the body of the request, the body being the text of the
payload built.  The first two return with that request as their one effect;
the payload of the third is built whatever the response, and whenever the
call returns the request is the first effect it added and the only request. -/
theorem post_requests_signed (E : Env) (w : World) (resp : Response) (c : List Nat) :
    (∀ (columnnum linenum : Int) (filepath eventname : List Nat),
      ∃ json r,
        event_notification_body E w columnnum linenum filepath eventname (some c)
          = some json ∧
        ycmd_json_event_notification E resp columnnum linenum filepath eventname (some c) w =
          some (w.emit (.request r), c_bool (resp.code = 200)) ∧
        SignedPost E w.ycmd_globals.secret_key_raw r ∧
        r.path = ascii "/event_notification" ∧ r.body = some (cstr json)) ∧
    (∀ (path : List Nat) (linenum columnnum : Int) (filepath : List Nat),
      ∃ json r,
        simple_request_body E w linenum columnnum filepath (some c) = some json ∧
        _ycmd_req_simple_request E resp (ascii "POST") path linenum columnnum filepath
          (some c) w = some (w.emit (.request r), c_bool (resp.code = 200)) ∧
        SignedPost E w.ycmd_globals.secret_key_raw r ∧
        r.path = cstr path ∧ r.body = some (cstr json)) ∧
    (∀ (linenum columnnum : Int) (filepath completertarget : List Nat),
      ∃ json r,
        completions_body E w linenum columnnum filepath (some c) completertarget
          = some json ∧
        SignedPost E w.ycmd_globals.secret_key_raw r ∧
        r.path = ascii "/completions" ∧ r.body = some (cstr json) ∧
        ∀ w1 ret, ycmd_req_completions_suggestions E resp linenum columnnum filepath (some c)
            completertarget w = some (w1, ret) →
          ∃ rest, w1.trace = w.trace ++ Event.request r :: rest ∧ NoRequest rest) := by
  refine ⟨?_, ?_, ?_⟩
  · intro columnnum linenum filepath eventname
    obtain ⟨json, hjson⟩ :=
      event_notification_body_some E w columnnum linenum filepath eventname c
    obtain ⟨s1, s2, s3⟩ := post_request_signed E w (ascii "/event_notification") json
    exact ⟨json, _, hjson,
      ycmd_json_event_notification_eq E resp columnnum linenum filepath eventname (some c) w
        json hjson, s1, s2, s3⟩
  · intro path linenum columnnum filepath
    obtain ⟨json, hjson⟩ := simple_request_body_some E w linenum columnnum filepath c
    obtain ⟨s1, s2, s3⟩ := post_request_signed E w path json
    exact ⟨json, _, hjson,
      _ycmd_req_simple_request_post E resp path linenum columnnum filepath (some c) w json
        hjson, s1, s2, s3⟩
  · intro linenum columnnum filepath completertarget
    obtain ⟨json, hjson⟩ :=
      completions_body_some E w linenum columnnum filepath c completertarget
    obtain ⟨s1, s2, s3⟩ := post_request_signed E w (ascii "/completions") json
    refine ⟨json, _, hjson, s1, s2, s3, ?_⟩
    intro w1 ret h
    obtain ⟨json2, rest, h1, h2, h3⟩ := ycmd_req_completions_suggestions_trace E resp linenum
      columnnum filepath (some c) completertarget w w1 ret h
    rw [hjson] at h1
    cases h1
    exact ⟨rest, h2, h3⟩

/-- Witness of C14: an event notification from the sample state is one
signed POST to `/event_notification`, and a completions call that returns has
added one request, a signed POST to `/completions`. -/
theorem post_requests_signed_witness :
    (∃ json r,
      event_notification_body sample_env sample_world 7 1 (ascii "a.py")
        (ascii "BufferVisit") (some (ascii "x")) = some json ∧
      ycmd_json_event_notification sample_env headerless_response 7 1 (ascii "a.py")
        (ascii "BufferVisit") (some (ascii "x")) sample_world =
        some (sample_world.emit (.request r), c_bool (headerless_response.code = 200)) ∧
      SignedPost sample_env sample_world.ycmd_globals.secret_key_raw r ∧
      r.path = ascii "/event_notification" ∧ r.body = some (cstr json)) ∧
    (∃ w1 ret r rest,
      ycmd_req_completions_suggestions sample_env (sample_response (ascii "AAAA")) 1 7
        (ascii "a.py") (some (ascii "x")) (ascii "filetype_default") sample_world
        = some (w1, ret) ∧
      SignedPost sample_env sample_world.ycmd_globals.secret_key_raw r ∧
      w1.trace = sample_world.trace ++ Event.request r :: rest ∧ NoRequest rest) := by
  constructor
  · exact (post_requests_signed sample_env sample_world headerless_response (ascii "x")).1
      7 1 (ascii "a.py") (ascii "BufferVisit")
  · obtain ⟨json, r, h1, h2, _, _, h5⟩ :=
      (post_requests_signed sample_env sample_world (sample_response (ascii "AAAA"))
        (ascii "x")).2.2 1 7 (ascii "a.py") (ascii "filetype_default")
    obtain ⟨_, _, hret⟩ := completions_tampered_aux sample_env (sample_response (ascii "AAAA"))
      1 7 (ascii "a.py") (ascii "x") (ascii "filetype_default") sample_world (ascii "AAAA")
      (by decide) rfl (sample_digest_ne _ _ _ _ (by decide) (by decide))
    obtain ⟨rest, h6, h7⟩ := h5 _ _ hret
    exact ⟨_, _, r, rest, hret, h2, h6, h7⟩

/-! ## Completions responses with missing fields -/

theorem completions_verified_unparsed (E : Env) (resp : Response) (linenum columnnum : Int)
    (filepath c completertarget : List Nat) (w : World) (remote : List Nat)
    (hret : resp.begin_ret ≥ 0) (hh : resp.hmac_header = some remote)
    (hsig : cstr remote = cstr (ycmd_compute_response E.crypto E.ssl
      w.ycmd_globals.secret_key_raw (response_body_memory resp)))
    (hkey : strstr (response_body_memory resp) (ascii "completion_start_column") = false) :
    ∃ json, completions_body E w linenum columnnum filepath (some c) completertarget
        = some json ∧
      ycmd_req_completions_suggestions E resp linenum columnnum filepath (some c)
        completertarget w =
        some (w.emit (.request (post_request E w (ascii "POST") (ascii "/completions") json)),
          c_bool (resp.code = 200)) := by
  obtain ⟨json, hjson⟩ := completions_body_some E w linenum columnnum filepath c completertarget
  refine ⟨json, hjson, ?_⟩
  unfold ycmd_req_completions_suggestions
  simp only [hjson, Option.bind_eq_bind, Option.some_bind, hret, if_true, hh,
    ycmd_compare_hmac_some, World.emit, hsig, hkey]
  rw [if_neg (by decide)]
  simp

theorem fill_candidates_none_left (completions : NxJson) (maxlist : Int)
    (hlen : completions.length ≤ 0) (func : List subnfunc) :
    fill_candidates completions maxlist 0 func = some (0, [], func) := by
  cases func with
  | nil => rfl
  | cons f fs =>
    unfold fill_candidates
    rw [if_neg]
    intro h
    have := h.1
    simp only [Nat.cast_zero] at this
    omega

theorem completions_verified_no_candidates (E : Env) (resp : Response)
    (linenum columnnum : Int) (filepath c completertarget : List Nat) (w : World)
    (remote : List Nat)
    (hret : resp.begin_ret ≥ 0) (hh : resp.hmac_header = some remote)
    (hsig : cstr remote = cstr (ycmd_compute_response E.crypto E.ssl
      w.ycmd_globals.secret_key_raw (response_body_memory resp)))
    (hkey : strstr (response_body_memory resp) (ascii "completion_start_column") = true)
    (hlen : (nx_json_get (E.nx_json_parse_utf8 (cstr (response_body_memory resp)))
      (ascii "completions")).length ≤ 0) :
    ∃ w1, ycmd_req_completions_suggestions E resp linenum columnnum filepath (some c)
        completertarget w = some (w1, c_bool (resp.code = 200)) ∧
      w1.allfuncs = (find_menu_func E.MCODECOMPLETION w.allfuncs).1 ++
        clear_unused E.MAIN_VISIBLE 0 (find_menu_func E.MCODECOMPLETION w.allfuncs).2 ∧
      w1.ycmd_globals.apply_column =
        (nx_json_get (E.nx_json_parse_utf8 (cstr (response_body_memory resp)))
          (ascii "completion_start_column")).int_value ∧
      (∀ menu, Event.bottombars menu ∈ w1.trace → Event.bottombars menu ∈ w.trace) := by
  obtain ⟨json, hjson⟩ := completions_body_some E w linenum columnnum filepath c completertarget
  have hfill := fill_candidates_none_left _ E.MAIN_VISIBLE hlen
    (find_menu_func E.MCODECOMPLETION w.allfuncs).2
  unfold ycmd_req_completions_suggestions
  simp only [hjson, Option.bind_eq_bind, Option.some_bind, hret, if_true, hh,
    ycmd_compare_hmac_some, World.emit, hsig, hkey, hfill]
  rw [if_neg (by decide)]
  refine ⟨_, rfl, ?_, ?_, ?_⟩
  · simp
  · simp
  · intro menu hm
    simpa using hm

theorem completions_verified_fault (E : Env) (resp : Response)
    (linenum columnnum : Int) (filepath c completertarget : List Nat) (w : World)
    (remote : List Nat)
    (hret : resp.begin_ret ≥ 0) (hh : resp.hmac_header = some remote)
    (hsig : cstr remote = cstr (ycmd_compute_response E.crypto E.ssl
      w.ycmd_globals.secret_key_raw (response_body_memory resp)))
    (hkey : strstr (response_body_memory resp) (ascii "completion_start_column") = true)
    (hlen : 0 < (nx_json_get (E.nx_json_parse_utf8 (cstr (response_body_memory resp)))
      (ascii "completions")).length)
    (hmax : 0 < E.MAIN_VISIBLE)
    (hfunc : (find_menu_func E.MCODECOMPLETION w.allfuncs).2 ≠ [])
    (htext : (nx_json_get (some (nx_json_item
      (nx_json_get (E.nx_json_parse_utf8 (cstr (response_body_memory resp)))
        (ascii "completions")) 0)) (ascii "insertion_text")).text_value = none) :
    ycmd_req_completions_suggestions E resp linenum columnnum filepath (some c)
      completertarget w = none := by
  obtain ⟨json, hjson⟩ := completions_body_some E w linenum columnnum filepath c completertarget
  have hfill : fill_candidates
      (nx_json_get (E.nx_json_parse_utf8 (cstr (response_body_memory resp)))
        (ascii "completions")) E.MAIN_VISIBLE 0
      (find_menu_func E.MCODECOMPLETION w.allfuncs).2 = none := by
    cases hf : (find_menu_func E.MCODECOMPLETION w.allfuncs).2 with
    | nil => exact absurd hf hfunc
    | cons f fs =>
      unfold fill_candidates
      rw [if_pos ⟨by simpa using hlen, by simpa using hmax, by decide⟩, htext]
  unfold ycmd_req_completions_suggestions
  simp only [hjson, Option.bind_eq_bind, Option.some_bind, hret, if_true, hh,
    ycmd_compare_hmac_some, World.emit, hsig, hkey, hfill]
  rw [if_neg (by decide)]
  simp

theorem signed_response_read (b : List Nat) (h1 : 0 < b.length) (h2 : b.length ≤ 512) :
    _ne_read_response_body_full (signed_response b) = b := by
  have ht : b.take 512 = b := List.take_of_length_le h2
  have hl : ¬ ((b.length : Int) ≤ 0) := by omega
  simp [_ne_read_response_body_full, signed_response, read_response_loop, ht, hl]

theorem signed_response_body (b : List Nat) (h1 : 0 < b.length) (h2 : b.length ≤ 512) :
    response_body_memory (signed_response b) = b := by
  have e := signed_response_read b h1 h2
  have hh : (signed_response b).heap_after = [] := rfl
  unfold response_body_memory
  rw [e, hh, List.append_nil, ite_self]

/-- C19, as stated, fails: a correctly signed response with status 200 whose
body has a start column and no completions array makes
`ycmd_req_completions_suggestions` return success, empty the first entry of
the completion menu, which held the candidate `old`, and set `apply_column`
from 3 to 5. -/
theorem completions_missing_array_clears_slots :
    sample_world.allfuncs.getD 1 { menus := 0, desc := none } =
      { menus := 16384, desc := some (ascii "old") } ∧
    sample_world.ycmd_globals.apply_column = 3 ∧
    ∃ w1, ycmd_req_completions_suggestions sample_env (signed_response body_without_completions)
        1 7 (ascii "a.py") (some (ascii "x")) (ascii "filetype_default") sample_world
        = some (w1, 1) ∧
      w1.allfuncs.getD 1 { menus := 0, desc := none } = { menus := 16384, desc := some [] } ∧
      w1.ycmd_globals.apply_column = 5 := by
  have hbody := signed_response_body body_without_completions (by decide) (by decide)
  obtain ⟨w1, h1, h2, h3, _⟩ := completions_verified_no_candidates sample_env
    (signed_response body_without_completions) 1 7 (ascii "a.py") (ascii "x")
    (ascii "filetype_default") sample_world
    (ycmd_compute_response refLib .nettle (List.range 16) body_without_completions)
    (by decide) rfl
    (by rw [hbody]; rfl)
    (by rw [hbody]; decide)
    (by rw [hbody]; decide)
  refine ⟨rfl, rfl, w1, h1, ?_, ?_⟩
  · rw [h2]
    decide
  · rw [h3, hbody]
    decide

/-- A correctly signed response with status 200 one of whose candidates has
no `insertion_text` makes `ycmd_req_completions_suggestions` fault: the call
does not return. -/
theorem completions_missing_insertion_text_faults :
    ycmd_req_completions_suggestions sample_env (signed_response body_without_insertion_text)
      1 7 (ascii "a.py") (some (ascii "x")) (ascii "filetype_default") sample_world = none := by
  have hbody := signed_response_body body_without_insertion_text (by decide) (by decide)
  exact completions_verified_fault sample_env
    (signed_response body_without_insertion_text) 1 7 (ascii "a.py") (ascii "x")
    (ascii "filetype_default") sample_world
    (ycmd_compute_response refLib .nettle (List.range 16) body_without_insertion_text)
    (by decide) rfl
    (by rw [hbody]; rfl)
    (by rw [hbody]; decide)
    (by rw [hbody]; decide)
    (by decide) (by decide)
    (by rw [hbody]; decide)

/-- C19, amended. For a correctly signed completions response of fewer than
512 bytes: when the body does not contain the text `completion_start_column`,
the body is not parsed, the call returns with the function list and
`apply_column` as they were, and the result is success exactly when the
status is 200; when the body contains that text and has no completions array,
or an empty one, the call returns with the empty text in every entry of the
completion menu with index below `MAIN_VISIBLE` and 26, `apply_column` set to
the number parsed for `completion_start_column`, no completion bar shown, and
the result is success exactly when the status is 200. -/
theorem completions_missing_fields (E : Env) (resp : Response) (linenum columnnum : Int)
    (filepath c completertarget : List Nat) (w : World) (remote : List Nat)
    (hshort : (_ne_read_response_body_full resp).length < 512)
    (hh : resp.hmac_header = some remote)
    (hsig : cstr remote = cstr (ycmd_compute_response E.crypto E.ssl
      w.ycmd_globals.secret_key_raw (_ne_read_response_body_full resp))) :
    (strstr (_ne_read_response_body_full resp) (ascii "completion_start_column") = false →
      ∃ w1, ycmd_req_completions_suggestions E resp linenum columnnum filepath (some c)
          completertarget w = some (w1, c_bool (resp.code = 200)) ∧
        w1.allfuncs = w.allfuncs ∧
        w1.ycmd_globals.apply_column = w.ycmd_globals.apply_column ∧
        (∀ menu, Event.bottombars menu ∈ w1.trace → Event.bottombars menu ∈ w.trace)) ∧
    (strstr (_ne_read_response_body_full resp) (ascii "completion_start_column") = true →
      (nx_json_get (E.nx_json_parse_utf8 (cstr (_ne_read_response_body_full resp)))
        (ascii "completions")).length ≤ 0 →
      ∃ w1, ycmd_req_completions_suggestions E resp linenum columnnum filepath (some c)
          completertarget w = some (w1, c_bool (resp.code = 200)) ∧
        w1.allfuncs = (find_menu_func E.MCODECOMPLETION w.allfuncs).1 ++
          clear_unused E.MAIN_VISIBLE 0 (find_menu_func E.MCODECOMPLETION w.allfuncs).2 ∧
        w1.ycmd_globals.apply_column =
          (nx_json_get (E.nx_json_parse_utf8 (cstr (_ne_read_response_body_full resp)))
            (ascii "completion_start_column")).int_value ∧
        (∀ menu, Event.bottombars menu ∈ w1.trace → Event.bottombars menu ∈ w.trace)) := by
  have hm := response_body_memory_short resp hshort
  constructor
  · intro hkey
    have key := completions_verified_unparsed E resp linenum columnnum filepath c
      completertarget w remote (Nat.zero_le _) hh
    rw [hm] at key
    obtain ⟨json, _, h⟩ := key hsig hkey
    refine ⟨_, h, rfl, rfl, ?_⟩
    intro menu hm
    simpa [World.emit] using hm
  · intro hkey hlen
    have key := completions_verified_no_candidates E resp linenum columnnum filepath c
      completertarget w remote (Nat.zero_le _) hh
    rw [hm] at key
    exact key hsig hkey hlen

/-- Witness of C19: the signed sample response without a start column leaves
the candidate `old` in place and returns success. -/
theorem completions_missing_fields_witness :
    ∃ w1, ycmd_req_completions_suggestions sample_env
        (signed_response body_without_start_column) 1 7 (ascii "a.py") (some (ascii "x"))
        (ascii "filetype_default") sample_world = some (w1, 1) ∧
      w1.allfuncs = sample_world.allfuncs ∧
      w1.ycmd_globals.apply_column = 3 := by
  have hbody := signed_response_read body_without_start_column (by decide) (by decide)
  obtain ⟨w1, h1, h2, h3, _⟩ := (completions_missing_fields sample_env
    (signed_response body_without_start_column) 1 7 (ascii "a.py") (ascii "x")
    (ascii "filetype_default") sample_world
    (ycmd_compute_response refLib .nettle (List.range 16) body_without_start_column)
    (by rw [hbody]; decide) rfl (by rw [hbody]; rfl)).1 (by rw [hbody]; decide)
  exact ⟨w1, h1, h2, h3⟩

/-! ## The replacement of placeholders -/

theorem starts_with_iff (a b : List Nat) :
    starts_with a b = true ↔ ∃ t, a = b ++ t := by
  induction b generalizing a with
  | nil => cases a <;> simp [starts_with]
  | cons y ys ih =>
    cases a with
    | nil => simp [starts_with]
    | cons x xs =>
      simp only [starts_with, Bool.and_eq_true, beq_iff_eq, ih, List.cons_append,
        List.cons.injEq]
      constructor
      · rintro ⟨h1, t, h2⟩; exact ⟨t, h1, h2⟩
      · rintro ⟨t, h1, h2⟩; exact ⟨h1, t, h2⟩

theorem starts_with_append (b t : List Nat) : starts_with (b ++ t) b = true :=
  (starts_with_iff _ _).mpr ⟨t, rfl⟩

theorem starts_with_getD (a b : List Nat) :
    starts_with a b = true ↔ ∀ t, t < b.length → t < a.length ∧ a.getD t 0 = b.getD t 0 := by
  induction b generalizing a with
  | nil => cases a <;> simp [starts_with]
  | cons y ys ih =>
    cases a with
    | nil =>
      simp only [starts_with, Bool.false_eq_true, List.length_cons, List.length_nil,
        false_iff, not_forall]
      exact ⟨0, by omega, by simp⟩
    | cons x xs =>
      simp only [starts_with, Bool.and_eq_true, beq_iff_eq, ih, List.length_cons]
      constructor
      · rintro ⟨h1, h2⟩ t ht
        cases t with
        | zero => exact ⟨by omega, by simpa using h1⟩
        | succ t =>
          obtain ⟨h3, h4⟩ := h2 t (by omega)
          exact ⟨by omega, by simpa using h4⟩
      · intro h
        refine ⟨by simpa using (h 0 (by omega)).2, fun t ht => ?_⟩
        obtain ⟨h3, h4⟩ := h (t + 1) (by omega)
        exact ⟨by omega, by simpa using h4⟩

theorem count_cf_le (p find : List Nat) (lenb lenf i : Nat) :
    ∀ n j cf, count_cf p find lenb lenf i n j cf ≤ cf + n := by
  intro n
  induction n with
  | zero => intro j cf; simp [count_cf]
  | succ n ih =>
    intro j cf
    unfold count_cf
    split
    · split
      · have := ih (j + 1) (cf + 1); omega
      · have := ih (j + 1) cf; omega
    · omega

theorem count_cf_eq_iff (p find : List Nat) (lenb lenf i : Nat) :
    ∀ n j cf, count_cf p find lenb lenf i n j cf = cf + n ↔
      ∀ t, t < n → j + t < lenf ∧ i + (j + t) < lenb ∧
        p.getD (i + (j + t)) 0 = find.getD (j + t) 0 := by
  intro n
  induction n with
  | zero => intro j cf; simp [count_cf]
  | succ n ih =>
    intro j cf
    unfold count_cf
    by_cases hc : j < lenf ∧ i + j < lenb
    · rw [if_pos hc]
      by_cases hm : p.getD (i + j) 0 = find.getD j 0
      · rw [if_pos hm]
        have h1 : cf + (n + 1) = cf + 1 + n := by omega
        rw [h1, ih (j + 1) (cf + 1)]
        constructor
        · intro h t ht
          cases t with
          | zero => exact ⟨hc.1, hc.2, hm⟩
          | succ t =>
            have := h t (by omega)
            have e : j + (t + 1) = j + 1 + t := by omega
            rw [e]; exact this
        · intro h t ht
          have := h (t + 1) (by omega)
          have e : j + (t + 1) = j + 1 + t := by omega
          rw [e] at this; exact this
      · rw [if_neg hm]
        constructor
        · intro h
          have := count_cf_le p find lenb lenf i n (j + 1) cf
          omega
        · intro h
          exact absurd (h 0 (by omega)).2.2 hm
    · rw [if_neg hc]
      constructor
      · intro h; omega
      · intro h
        have := h 0 (by omega)
        exact absurd ⟨this.1, this.2.1⟩ hc

theorem cstr_length (s : List Nat) : (cstr s).length = strlen s := by
  have := strlen_le s
  simp [cstr, this]

theorem cstr_getD (s : List Nat) (t : Nat) (h : t < strlen s) :
    (cstr s).getD t 0 = s.getD t 0 := by
  simp [cstr, List.getD_eq_getElem?_getD, List.getElem?_take, h]

theorem count_cf_starts_with (p find : List Nat) (i : Nat) :
    count_cf p find (strlen p) (strlen find) i (strlen find) 0 0 = strlen find ↔
      starts_with ((cstr p).drop i) (cstr find) = true := by
  have h := count_cf_eq_iff p find (strlen p) (strlen find) i (strlen find) 0 0
  simp only [Nat.zero_add] at h
  rw [h, starts_with_getD]
  simp only [cstr_length, List.length_drop]
  constructor
  · intro hh t ht
    obtain ⟨_, h2, h3⟩ := hh t ht
    refine ⟨by omega, ?_⟩
    rw [cstr_getD find t ht, ← h3, ← cstr_getD p (i + t) h2]
    simp [List.getD_eq_getElem?_getD]
  · intro hh t ht
    obtain ⟨h2, h3⟩ := hh t ht
    refine ⟨ht, by omega, ?_⟩
    rw [← cstr_getD find t ht, ← h3, ← cstr_getD p (i + t) (by omega)]
    simp [List.getD_eq_getElem?_getD]

theorem replace_from_skip (find repl : List Nat) :
    ∀ (s : List Nat) (k : Nat), replace_from find repl k s = replace_from find repl 0 (s.drop k) := by
  intro s
  induction s with
  | nil => intro k; cases k <;> simp [replace_from]
  | cons c rest ih =>
    intro k
    cases k with
    | zero => simp
    | succ k => simp [replace_from, ih k]

theorem drop_cstr_cons (p : List Nat) (i : Nat) (h : i < strlen p) :
    (cstr p).drop i = p.getD i 0 :: (cstr p).drop (i + 1) := by
  have hl : i < (cstr p).length := by rw [cstr_length]; exact h
  rw [List.drop_eq_getElem_cons hl]
  congr 1
  rw [← cstr_getD p i h, List.getD_eq_getElem?_getD, List.getElem?_eq_getElem hl]
  rfl

theorem string_replace_loop_eq (p find repl : List Nat) (hf : 0 < strlen find) :
    ∀ (fuel i : Nat) (out : List Nat), i ≤ strlen p → strlen p - i < fuel →
      string_replace_loop p find repl (strlen p) (strlen find) (strlen repl) fuel i out =
        some (out ++ replace_from (cstr find) (cstr repl) 0 ((cstr p).drop i)) := by
  intro fuel
  induction fuel with
  | zero => intro i out _ h; omega
  | succ n ih =>
    intro i out hi h
    unfold string_replace_loop
    by_cases hlt : i < strlen p
    · rw [if_pos hlt, drop_cstr_cons p i hlt]
      by_cases hm : count_cf p find (strlen p) (strlen find) i (strlen find) 0 0 = strlen find
      · rw [if_pos hm]
        have hs := (count_cf_starts_with p find i).mp hm
        have hlen : strlen find ≤ strlen p - i := by
          obtain ⟨t, ht⟩ := (starts_with_iff _ _).mp hs
          have := congrArg List.length ht
          simp only [List.length_drop, cstr_length, List.length_append] at this
          omega
        rw [drop_cstr_cons p i hlt] at hs
        have hrhs : replace_from (cstr find) (cstr repl) 0
            (p.getD i 0 :: (cstr p).drop (i + 1)) =
            cstr repl ++ replace_from (cstr find) (cstr repl) 0
              ((cstr p).drop (i + strlen find)) := by
          have e : i + 1 + (strlen find - 1) = i + strlen find := by omega
          rw [replace_from, if_pos hs, replace_from_skip, cstr_length, List.drop_drop, e]
        rw [ih (i + strlen find) _ (by omega) (by omega), hrhs, List.append_assoc]
        rfl
      · rw [if_neg hm]
        have hs : ¬ starts_with ((cstr p).drop i) (cstr find) = true :=
          fun h2 => hm ((count_cf_starts_with p find i).mpr h2)
        rw [drop_cstr_cons p i hlt] at hs
        have hrhs : replace_from (cstr find) (cstr repl) 0
            (p.getD i 0 :: (cstr p).drop (i + 1)) =
            p.getD i 0 :: replace_from (cstr find) (cstr repl) 0 ((cstr p).drop (i + 1)) := by
          rw [replace_from, if_neg hs]
        rw [ih (i + 1) _ (by omega) (by omega), hrhs]
        simp
    · rw [if_neg hlt]
      have hd : (cstr p).drop i = [] := by
        apply List.drop_eq_nil_of_le
        rw [cstr_length]; omega
      rw [hd]
      simp [replace_from]

theorem string_replace_w_eq (buffer find r : List Nat) (hf : 0 < strlen find) :
    string_replace_w buffer find (some r) =
      some (replace_all (cstr find) (cstr r) (cstr buffer)) := by
  have h := string_replace_loop_eq buffer find r hf (strlen buffer + 1) 0 []
    (Nat.zero_le _) (by omega)
  simpa [string_replace_w, string_replace_gpl3, string_replace_gpl3_fuel, replace_all] using h

theorem replace_all_nil (find repl : List Nat) : replace_all find repl [] = [] := rfl

theorem occurs_in_nil (find : List Nat) (hf : find ≠ []) : occurs_in [] find = false := by
  cases find with
  | nil => exact absurd rfl hf
  | cons a as => rfl

theorem replace_all_clean (find repl : List Nat) :
    ∀ s : List Nat, occurs_in s find = false → replace_all find repl s = s := by
  intro s
  induction s with
  | nil => intro _; rfl
  | cons c rest ih =>
    intro h
    simp only [occurs_in, Bool.or_eq_false_iff] at h
    unfold replace_all replace_from
    rw [if_neg (by simp [h.1])]
    congr 1
    exact ih h.2

theorem replace_all_exact (find repl s : List Nat) (hf : find ≠ []) :
    replace_all find repl (find ++ s) = repl ++ replace_all find repl s := by
  cases find with
  | nil => exact absurd rfl hf
  | cons a as =>
    have hs := starts_with_append (a :: as) s
    unfold replace_all
    simp only [List.cons_append] at hs ⊢
    simp only [replace_from, hs, if_true]
    rw [replace_from_skip]
    simp

theorem replace_all_self (find repl : List Nat) (hf : find ≠ []) :
    replace_all find repl find = repl := by
  have h := replace_all_exact find repl [] hf
  simpa [replace_all_nil] using h

theorem starts_with_delim (find : List Nat) (d : Nat) (hd : d ∉ find) :
    ∀ (A B : List Nat), starts_with (A ++ d :: B) find = starts_with A find := by
  induction find with
  | nil => intro A B; cases A <;> simp [starts_with]
  | cons y ys ih =>
    intro A B
    have hy : d ≠ y := fun h => hd (h ▸ List.mem_cons_self _ _)
    have hys : d ∉ ys := fun h => hd (List.mem_cons_of_mem _ h)
    cases A with
    | nil => simp [starts_with, hy]
    | cons x xs =>
      have e : (x :: xs) ++ d :: B = x :: (xs ++ d :: B) := rfl
      rw [e]
      simp only [starts_with]
      rw [ih hys xs B]

theorem replace_from_delim (find repl : List Nat) (d : Nat) (hf : find ≠ []) (hd : d ∉ find)
    (B : List Nat) :
    ∀ (A : List Nat) (k : Nat), k ≤ A.length →
      replace_from find repl k (A ++ d :: B) =
        replace_from find repl k A ++ d :: replace_from find repl 0 B := by
  intro A
  induction A with
  | nil =>
    intro k hk
    have hk0 : k = 0 := by simpa using hk
    subst hk0
    have hs : starts_with (d :: B) find = false := by
      have := starts_with_delim find d hd [] B
      simp only [List.nil_append] at this
      rw [this]
      cases find with
      | nil => exact absurd rfl hf
      | cons a as => rfl
    simp [replace_from, hs]
  | cons c rest ih =>
    intro k hk
    cases k with
    | succ k =>
      simp only [List.cons_append, replace_from]
      exact ih k (by simpa using hk)
    | zero =>
      have hsw := starts_with_delim find d hd (c :: rest) B
      have e : (c :: rest) ++ d :: B = c :: (rest ++ d :: B) := rfl
      rw [e] at hsw ⊢
      by_cases hs : starts_with (c :: rest) find = true
      · obtain ⟨t, ht⟩ := (starts_with_iff _ _).mp hs
        have hlen : find.length - 1 ≤ rest.length := by
          have := congrArg List.length ht
          simp only [List.length_cons, List.length_append] at this
          omega
        rw [replace_from, if_pos (hsw.trans hs), ih (find.length - 1) hlen,
          replace_from, if_pos hs, List.append_assoc]
      · rw [replace_from, if_neg (by rw [hsw]; exact hs), ih 0 (Nat.zero_le _),
          replace_from, if_neg hs]
        rfl

theorem replace_all_delim (find repl : List Nat) (d : Nat) (hf : find ≠ []) (hd : d ∉ find)
    (A B : List Nat) :
    replace_all find repl (A ++ d :: B) =
      replace_all find repl A ++ d :: replace_all find repl B :=
  replace_from_delim find repl d hf hd B A 0 (Nat.zero_le _)

theorem replace_all_pieces (find repl : List Nat) (hf : find ≠ []) (last : List Nat) :
    ∀ ps : List (List Nat × Nat), (∀ p ∈ ps, p.2 ∉ find) →
      replace_all find repl (pieces_join ps last) =
        pieces_join (ps.map (fun p => (replace_all find repl p.1, p.2)))
          (replace_all find repl last) := by
  intro ps
  induction ps with
  | nil => intro _; rfl
  | cons p rest ih =>
    intro h
    obtain ⟨s, d⟩ := p
    simp only [pieces_join, List.map_cons]
    rw [replace_all_delim find repl d hf (h (s, d) (List.mem_cons_self _ _)),
      ih (fun q hq => h q (List.mem_cons_of_mem _ hq))]

/-! ## Sequences of replacements -/

theorem replace_all_nulFree (find repl : List Nat) (hr : NulFree repl) :
    ∀ (s : List Nat) (k : Nat), NulFree s → NulFree (replace_from find repl k s) := by
  intro s
  induction s with
  | nil => intro k _ b hb; cases k <;> simp [replace_from] at hb
  | cons c rest ih =>
    intro k hs
    have hc : c ≠ 0 := hs c (List.mem_cons_self _ _)
    have hrest : NulFree rest := fun b hb => hs b (List.mem_cons_of_mem _ hb)
    cases k with
    | succ k => rw [replace_from]; exact ih k hrest
    | zero =>
      rw [replace_from]
      split
      · intro b hb
        rcases List.mem_append.mp hb with h | h
        · exact hr b h
        · exact ih _ hrest b h
      · intro b hb
        rcases List.mem_cons.mp hb with h | h
        · rw [h]; exact hc
        · exact ih _ hrest b h

theorem string_replace_w_nulFree (buffer find r out : List Nat) (hf : 0 < strlen find)
    (h : string_replace_w buffer find (some r) = some out) : NulFree out := by
  rw [string_replace_w_eq buffer find r hf] at h
  cases h
  exact replace_all_nulFree _ _ (cstr_nulFree r) _ 0 (cstr_nulFree buffer)

theorem substitute_pieces (ps : List (List Nat × Nat)) :
    ∀ (finds repls : List (List Nat)) (s : List (List Nat × Nat)) (l : List Nat),
      (∀ f ∈ finds, f ≠ [] ∧ ∀ p ∈ ps, p.2 ∉ f) → s.map Prod.snd = ps.map Prod.snd →
      substitute finds repls (pieces_join s l) =
        pieces_join (s.map (fun p => (substitute finds repls p.1, p.2)))
          (substitute finds repls l) := by
  intro finds
  induction finds with
  | nil =>
    intro repls s l _ _
    have : ∀ t : List Nat, substitute [] repls t = t := fun t => by simp [substitute]
    simp [this]
  | cons f fs ih =>
    intro repls s l h hs
    cases repls with
    | nil =>
      have : ∀ t : List Nat, substitute (f :: fs) [] t = t := fun t => by simp [substitute]
      simp [this]
    | cons r rs =>
      have hd : ∀ p ∈ s, p.2 ∉ f := by
        intro p hp
        have hmem : p.2 ∈ ps.map Prod.snd := by
          rw [← hs]; exact List.mem_map_of_mem _ hp
        obtain ⟨q, hq, hq2⟩ := List.mem_map.mp hmem
        rw [← hq2]
        exact (h f (List.mem_cons_self _ _)).2 q hq
      simp only [substitute]
      rw [replace_all_pieces f r (h f (List.mem_cons_self _ _)).1 l s hd,
        ih rs _ _ (fun g hg => h g (List.mem_cons_of_mem _ hg))
          (by simpa [List.map_map, Function.comp] using hs), List.map_map]
      rfl

theorem substitute_clean : ∀ (finds repls : List (List Nat)) (s : List Nat),
    (∀ f ∈ finds, occurs_in s f = false) → substitute finds repls s = s := by
  intro finds
  induction finds with
  | nil => intro repls s _; simp [substitute]
  | cons f fs ih =>
    intro repls s h
    cases repls with
    | nil => simp [substitute]
    | cons r rs =>
      simp only [substitute]
      rw [replace_all_clean f r s (h f (List.mem_cons_self _ _))]
      exact ih rs s (fun g hg => h g (List.mem_cons_of_mem _ hg))

theorem occurs_in_of_head_not_mem (a : Nat) (as : List Nat) :
    ∀ s : List Nat, a ∉ s → occurs_in s (a :: as) = false := by
  intro s
  induction s with
  | nil => intro _; rfl
  | cons c rest ih =>
    intro h
    have hc : c ≠ a := fun e => h (e ▸ List.mem_cons_self _ _)
    have hr : a ∉ rest := fun e => h (List.mem_cons_of_mem _ e)
    simp [occurs_in, starts_with, hc, ih hr]

theorem decimalText_clean (s : List Nat) (hs : DecimalText s) (a : Nat) (as : List Nat)
    (ha : 58 ≤ a) : occurs_in s (a :: as) = false := by
  apply occurs_in_of_head_not_mem
  intro hmem
  rcases hs a hmem with h | h <;> omega

theorem decimalText_nulFree (s : List Nat) (hs : DecimalText s) : NulFree s := by
  intro b hb
  rcases hs b hb with h | h <;> omega

theorem digitChar_digit (m : Nat) (h : m < 10) :
    48 ≤ (Nat.digitChar m).toNat ∧ (Nat.digitChar m).toNat ≤ 57 := by
  interval_cases m <;> decide

theorem toDigitsCore_digits : ∀ (fuel n : Nat) (ds : List Char),
    (∀ c ∈ ds, 48 ≤ c.toNat ∧ c.toNat ≤ 57) →
    ∀ c ∈ Nat.toDigitsCore 10 fuel n ds, 48 ≤ c.toNat ∧ c.toNat ≤ 57 := by
  intro fuel
  induction fuel with
  | zero => intro n ds h; simpa [Nat.toDigitsCore] using h
  | succ fuel ih =>
    intro n ds h
    have hd := digitChar_digit (n % 10) (Nat.mod_lt _ (by decide))
    have hds : ∀ c ∈ (n % 10).digitChar :: ds, 48 ≤ c.toNat ∧ c.toNat ≤ 57 := by
      intro c hc
      rcases List.mem_cons.mp hc with e | e
      · rw [e]; exact hd
      · exact h c e
    simp only [Nat.toDigitsCore]
    split
    · exact hds
    · exact ih _ _ hds

theorem nat_repr_digits (m : Nat) :
    ∀ c ∈ (Nat.repr m).toList, 48 ≤ c.toNat ∧ c.toNat ≤ 57 := by
  intro c hc
  have : (Nat.repr m).toList = Nat.toDigits 10 m := rfl
  rw [this] at hc
  exact toDigitsCore_digits _ _ [] (fun c hc => by simp at hc) c hc

theorem snprintf_d_decimal (size : Nat) (n : Int) : DecimalText (snprintf_d size n) := by
  intro b hb
  have hb2 : b ∈ ascii (toString n) := List.mem_of_mem_take hb
  simp only [ascii, List.mem_map] at hb2
  obtain ⟨c, hc, hcb⟩ := hb2
  rw [← hcb]
  have hrepr : toString n = Int.repr n := rfl
  rw [hrepr] at hc
  cases n with
  | ofNat m =>
    right
    exact nat_repr_digits m c hc
  | negSucc m =>
    have : (Int.repr (Int.negSucc m)).toList = '-' :: (Nat.repr (m + 1)).toList := rfl
    rw [this] at hc
    rcases List.mem_cons.mp hc with e | e
    · left; rw [e]; rfl
    · right; exact nat_repr_digits (m + 1) c e

theorem event_notification_expected_pieces (a b c d e f : List Nat) :
    event_notification_expected a b c d e f =
      pieces_join (event_notification_pieces a b c d e f) [] := by
  have h0 : ascii "\x7b        \"column_num\": " = ascii "\x7b        \"column_num\":" ++ [32] := by
    decide
  have h1 : ascii ",        \"event_name\": \"" = 44 :: ascii "        \"event_name\": " ++ [34] := by
    decide
  have h2 : ascii "\",        \"file_data\": \x7b\t\t\"" =
      34 :: ascii ",        \"file_data\": \x7b\t\t" ++ [34] := by decide
  have h3 : ascii "\": \x7b                \"contents\": \"" =
      34 :: ascii ": \x7b                \"contents\": " ++ [34] := by decide
  have h4 : ascii "\",                \"filetypes\": [\"" =
      34 :: ascii ",                \"filetypes\": [" ++ [34] := by decide
  have h5 : ascii "\"]        \t\x7d\t \x7d,        \"filepath\": \"" =
      34 :: ascii "]        \t\x7d\t \x7d,        \"filepath\": " ++ [34] := by decide
  have h6 : ascii "\",        \"line_num\": " = 34 :: ascii ",        \"line_num\":" ++ [32] := by
    decide
  have h7 : ascii "\x7d" = [125] := by decide
  simp only [event_notification_expected, event_notification_pieces, pieces_join, h0, h1, h2,
    h3, h4, h5, h6, h7, List.append_assoc, List.cons_append, List.nil_append, List.append_nil]

theorem completions_expected_pieces (a b c d e f : List Nat) :
    completions_expected a b c d e f =
      pieces_join (completions_pieces a b c d e f) (ascii "\x7d") := by
  have h0 : ascii "\x7b        \"line_num\": " = ascii "\x7b        \"line_num\":" ++ [32] := by
    decide
  have h1 : ascii ",        \"column_num\": " = 44 :: ascii "        \"column_num\":" ++ [32] := by
    decide
  have h2 : ascii ",        \"filepath\": \"" = 44 :: ascii "        \"filepath\": " ++ [34] := by
    decide
  have h3 : ascii "\",        \"file_data\": \x7b\t\t\"" =
      34 :: ascii ",        \"file_data\": \x7b\t\t" ++ [34] := by decide
  have h4 : ascii "\": \x7b                \"contents\": \"" =
      34 :: ascii ": \x7b                \"contents\": " ++ [34] := by decide
  have h5 : ascii "\",                \"filetypes\": [\"" =
      34 :: ascii ",                \"filetypes\": [" ++ [34] := by decide
  have h6 : ascii "\"]        \t\x7d\t \x7d,        \"completer_target\": \"" =
      34 :: ascii "]        \t\x7d\t \x7d,        \"completer_target\": " ++ [34] := by decide
  have h7 : ascii "\"\x7d" = 34 :: ascii "\x7d" := by decide
  simp only [completions_expected, completions_pieces, pieces_join, h0, h1, h2,
    h3, h4, h5, h6, h7, List.append_assoc, List.cons_append, List.nil_append, List.append_nil]

theorem simple_request_expected_pieces (a b c d e : List Nat) :
    simple_request_expected a b c d e =
      pieces_join (simple_request_pieces a b c d e) (ascii "]        \t\x7d\t \x7d\x7d") := by
  have h0 : ascii "\x7b        \"line_num\": " = ascii "\x7b        \"line_num\":" ++ [32] := by
    decide
  have h1 : ascii ",        \"column_num\": " = 44 :: ascii "        \"column_num\":" ++ [32] := by
    decide
  have h2 : ascii ",        \"filepath\": \"" = 44 :: ascii "        \"filepath\": " ++ [34] := by
    decide
  have h3 : ascii "\",        \"file_data\": \x7b\t\t\"" =
      34 :: ascii ",        \"file_data\": \x7b\t\t" ++ [34] := by decide
  have h4 : ascii "\": \x7b                \"contents\": \"" =
      34 :: ascii ": \x7b                \"contents\": " ++ [34] := by decide
  have h5 : ascii "\",                \"filetypes\": [\"" =
      34 :: ascii ",                \"filetypes\": [" ++ [34] := by decide
  have h6 : ascii "\"]        \t\x7d\t \x7d\x7d" = 34 :: ascii "]        \t\x7d\t \x7d\x7d" := by
    decide
  simp only [simple_request_expected, simple_request_pieces, pieces_join, h0, h1, h2,
    h3, h4, h5, h6, List.append_assoc, List.cons_append, List.nil_append, List.append_nil]

set_option maxRecDepth 100000 in
theorem event_notification_template_eq :
    strdup event_notification_template =
      event_notification_expected (ascii "COLUMN_NUM") (ascii "EVENT_NAME") (ascii "FILEPATH")
        (ascii "CONTENTS") (ascii "FILETYPES") (ascii "LINE_NUM") := by
  decide

set_option maxRecDepth 100000 in
theorem completions_template_eq :
    strdup completions_template =
      completions_expected (ascii "LINE_NUM") (ascii "COLUMN_NUM") (ascii "FILEPATH")
        (ascii "CONTENTS") (ascii "FILETYPES") (ascii "COMPLETER_TARGET") := by
  decide

set_option maxRecDepth 100000 in
theorem simple_request_template_eq :
    strdup simple_request_template =
      simple_request_expected (ascii "LINE_NUM") (ascii "COLUMN_NUM") (ascii "FILEPATH")
        (ascii "CONTENTS") (ascii "FILETYPES") := by
  decide

theorem string_replace_w_step (buffer find r : List Nat) (hf : 0 < strlen find)
    (hfc : cstr find = find) (hb : NulFree buffer) :
    string_replace_w buffer find (some r) = some (replace_all find (cstr r) buffer) ∧
    NulFree (replace_all find (cstr r) buffer) := by
  constructor
  · rw [string_replace_w_eq buffer find r hf, hfc, cstr_of_nulFree hb]
  · exact replace_all_nulFree _ _ (cstr_nulFree r) _ 0 hb

theorem ite_tag (c : Prop) [Decidable c] (a b : Option (List Nat))
    (ha : ∀ ft, a = some ft → ft ∈ filetype_tags) (hb : ∀ ft, b = some ft → ft ∈ filetype_tags) :
    ∀ ft, (if c then a else b) = some ft → ft ∈ filetype_tags := by
  by_cases hc : c
  · simpa [hc] using ha
  · simpa [hc] using hb

theorem some_tag (t : List Nat) (h : t ∈ filetype_tags) :
    ∀ ft, some t = some ft → ft ∈ filetype_tags := by
  intro ft hft
  cases hft
  exact h

theorem _ycmd_get_filetype_tag (filepath : List Nat) (content : Option (List Nat)) :
    ∀ ft, _ycmd_get_filetype filepath content = some ft → ft ∈ filetype_tags := by
  unfold _ycmd_get_filetype
  cases content with
  | none =>
    repeat (first
      | apply ite_tag
      | exact some_tag _ (by decide)
      | (intro ft h; cases h))
  | some c =>
    repeat (first
      | apply ite_tag
      | exact some_tag _ (by decide))

theorem filetype_tags_cstr : ∀ ft ∈ filetype_tags, cstr ft = ft := by decide

theorem _ycmd_json_replace_file_data_eq (cwd json filepath c : List Nat) (hj : NulFree json) :
    ∃ ft, _ycmd_get_filetype filepath (some c) = some ft ∧ ft ∈ filetype_tags ∧
      _ycmd_json_replace_file_data cwd json filepath (some c) =
        some (substitute [ascii "FILEPATH", ascii "FILETYPES", ascii "CONTENTS"]
          [cstr (file_data_filepath cwd filepath), ft, cstr c] json) := by
  obtain ⟨ft, hft⟩ := _ycmd_get_filetype_some filepath c
  have htag := _ycmd_get_filetype_tag filepath (some c) ft hft
  refine ⟨ft, hft, htag, ?_⟩
  obtain ⟨h1, n1⟩ := string_replace_w_step json (ascii "FILEPATH")
    (file_data_filepath cwd filepath) (by decide) (by decide) hj
  obtain ⟨h2, n2⟩ := string_replace_w_step _ (ascii "FILETYPES") ft (by decide) (by decide) n1
  rw [filetype_tags_cstr ft htag] at h2 n2
  obtain ⟨h3, _⟩ := string_replace_w_step _ (ascii "CONTENTS") c (by decide) (by decide) n2
  unfold _ycmd_json_replace_file_data
  simp only [h1, hft, h2, h3, Option.bind_eq_bind, Option.some_bind, substitute]

theorem strdup_nulFree (s : List Nat) : NulFree (strdup s) := cstr_nulFree s

theorem substitute_empty : ∀ (finds repls : List (List Nat)), substitute finds repls [] = [] := by
  intro finds
  induction finds with
  | nil => intro repls; simp [substitute]
  | cons f fs ih =>
    intro repls
    cases repls with
    | nil => simp [substitute]
    | cons r rs => simpa [substitute, replace_all_nil] using ih rs

theorem substitute_decimal (finds repls : List (List Nat)) (s : List Nat) (hs : DecimalText s)
    (h : ∀ f ∈ finds, 58 ≤ f.headD 0) : substitute finds repls s = s := by
  apply substitute_clean
  intro f hf
  have h58 := h f hf
  cases f with
  | nil => simp at h58
  | cons a as => exact decimalText_clean s hs a as (by simpa using h58)

theorem substitute_hit (f r : List Nat) (fs rs : List (List Nat)) (hf : f ≠ []) :
    substitute (f :: fs) (r :: rs) f = substitute fs rs r := by
  rw [substitute, replace_all_self f r hf]

theorem substitute_miss (f r : List Nat) (fs rs : List (List Nat)) (s : List Nat)
    (h : occurs_in s f = false) :
    substitute (f :: fs) (r :: rs) s = substitute fs rs s := by
  rw [substitute, replace_all_clean f r s h]

theorem filetype_tags_lower : ∀ ft ∈ filetype_tags, ∀ b ∈ ft, 97 ≤ b := by decide

theorem substitute_tag (finds repls : List (List Nat)) (ft : List Nat)
    (htag : ft ∈ filetype_tags) (h : ∀ f ∈ finds, f ≠ [] ∧ f.headD 0 ≤ 96) :
    substitute finds repls ft = ft := by
  apply substitute_clean
  intro f hf
  obtain ⟨h1, h2⟩ := h f hf
  cases f with
  | nil => exact absurd rfl h1
  | cons a as =>
    apply occurs_in_of_head_not_mem
    intro hmem
    have := filetype_tags_lower ft htag a hmem
    simp only [List.headD_cons] at h2
    omega

theorem event_notification_substitute (col ev line path ft c : List Nat)
    (hcol : DecimalText col) (hline : DecimalText line) (htag : ft ∈ filetype_tags) :
    substitute [ascii "COLUMN_NUM", ascii "EVENT_NAME", ascii "LINE_NUM",
        ascii "FILEPATH", ascii "FILETYPES", ascii "CONTENTS"]
      [col, ev, line, path, ft, c] (strdup event_notification_template) =
      event_notification_expected
        col
        (substitute [ascii "LINE_NUM", ascii "FILEPATH", ascii "FILETYPES", ascii "CONTENTS"]
          [line, path, ft, c] ev)
        (substitute [ascii "FILETYPES", ascii "CONTENTS"]
          [ft, c] path)
        c
        ft
        line := by
  rw [event_notification_template_eq, event_notification_expected_pieces,
    substitute_pieces (event_notification_pieces
      (ascii "COLUMN_NUM") (ascii "EVENT_NAME") (ascii "FILEPATH")
      (ascii "CONTENTS") (ascii "FILETYPES") (ascii "LINE_NUM")) _ _ _ _
      (by decide) rfl,
    event_notification_expected_pieces]
  simp only [event_notification_pieces, List.map]
  have lit : ∀ S : List Nat,
      (∀ f ∈ [ascii "COLUMN_NUM", ascii "EVENT_NAME", ascii "LINE_NUM",
          ascii "FILEPATH", ascii "FILETYPES", ascii "CONTENTS"],
        occurs_in S f = false) →
      substitute [ascii "COLUMN_NUM", ascii "EVENT_NAME", ascii "LINE_NUM",
          ascii "FILEPATH", ascii "FILETYPES", ascii "CONTENTS"]
        [col, ev, line, path, ft, c] S = S := fun S h => substitute_clean _ _ S h
  have ecol : substitute [ascii "COLUMN_NUM", ascii "EVENT_NAME", ascii "LINE_NUM",
        ascii "FILEPATH", ascii "FILETYPES", ascii "CONTENTS"]
      [col, ev, line, path, ft, c] (ascii "COLUMN_NUM") =
      col := by
    rw [substitute_hit (ascii "COLUMN_NUM") _ _ _ (by decide)]
    exact substitute_decimal _ _ _ hcol (by decide)
  have eev : substitute [ascii "COLUMN_NUM", ascii "EVENT_NAME", ascii "LINE_NUM",
        ascii "FILEPATH", ascii "FILETYPES", ascii "CONTENTS"]
      [col, ev, line, path, ft, c] (ascii "EVENT_NAME") =
      (substitute [ascii "LINE_NUM", ascii "FILEPATH", ascii "FILETYPES", ascii "CONTENTS"]
          [line, path, ft, c] ev) := by
    rw [substitute_miss (ascii "COLUMN_NUM") _ _ _ (ascii "EVENT_NAME") (by decide),
      substitute_hit (ascii "EVENT_NAME") _ _ _ (by decide)]
  have eline : substitute [ascii "COLUMN_NUM", ascii "EVENT_NAME", ascii "LINE_NUM",
        ascii "FILEPATH", ascii "FILETYPES", ascii "CONTENTS"]
      [col, ev, line, path, ft, c] (ascii "LINE_NUM") =
      line := by
    rw [substitute_miss (ascii "COLUMN_NUM") _ _ _ (ascii "LINE_NUM") (by decide),
      substitute_miss (ascii "EVENT_NAME") _ _ _ (ascii "LINE_NUM") (by decide),
      substitute_hit (ascii "LINE_NUM") _ _ _ (by decide)]
    exact substitute_decimal _ _ _ hline (by decide)
  have epath : substitute [ascii "COLUMN_NUM", ascii "EVENT_NAME", ascii "LINE_NUM",
        ascii "FILEPATH", ascii "FILETYPES", ascii "CONTENTS"]
      [col, ev, line, path, ft, c] (ascii "FILEPATH") =
      (substitute [ascii "FILETYPES", ascii "CONTENTS"]
          [ft, c] path) := by
    rw [substitute_miss (ascii "COLUMN_NUM") _ _ _ (ascii "FILEPATH") (by decide),
      substitute_miss (ascii "EVENT_NAME") _ _ _ (ascii "FILEPATH") (by decide),
      substitute_miss (ascii "LINE_NUM") _ _ _ (ascii "FILEPATH") (by decide),
      substitute_hit (ascii "FILEPATH") _ _ _ (by decide)]
  have eft : substitute [ascii "COLUMN_NUM", ascii "EVENT_NAME", ascii "LINE_NUM",
        ascii "FILEPATH", ascii "FILETYPES", ascii "CONTENTS"]
      [col, ev, line, path, ft, c] (ascii "FILETYPES") =
      ft := by
    rw [substitute_miss (ascii "COLUMN_NUM") _ _ _ (ascii "FILETYPES") (by decide),
      substitute_miss (ascii "EVENT_NAME") _ _ _ (ascii "FILETYPES") (by decide),
      substitute_miss (ascii "LINE_NUM") _ _ _ (ascii "FILETYPES") (by decide),
      substitute_miss (ascii "FILEPATH") _ _ _ (ascii "FILETYPES") (by decide),
      substitute_hit (ascii "FILETYPES") _ _ _ (by decide)]
    exact substitute_tag _ _ _ htag (by decide)
  have ec : substitute [ascii "COLUMN_NUM", ascii "EVENT_NAME", ascii "LINE_NUM",
        ascii "FILEPATH", ascii "FILETYPES", ascii "CONTENTS"]
      [col, ev, line, path, ft, c] (ascii "CONTENTS") =
      c := by
    rw [substitute_miss (ascii "COLUMN_NUM") _ _ _ (ascii "CONTENTS") (by decide),
      substitute_miss (ascii "EVENT_NAME") _ _ _ (ascii "CONTENTS") (by decide),
      substitute_miss (ascii "LINE_NUM") _ _ _ (ascii "CONTENTS") (by decide),
      substitute_miss (ascii "FILEPATH") _ _ _ (ascii "CONTENTS") (by decide),
      substitute_miss (ascii "FILETYPES") _ _ _ (ascii "CONTENTS") (by decide),
      substitute_hit (ascii "CONTENTS") _ _ _ (by decide)]
    rfl
  rw [lit (ascii "\x7b        \"column_num\":") (by decide),
    lit (ascii "        \"event_name\": ") (by decide),
    lit (ascii ",        \"file_data\": \x7b\t\t") (by decide),
    lit (ascii ": \x7b                \"contents\": ") (by decide),
    lit (ascii ",                \"filetypes\": [") (by decide),
    lit (ascii "]        \t\x7d\t \x7d,        \"filepath\": ") (by decide),
    lit (ascii ",        \"line_num\":") (by decide),
    ecol,
    eev,
    eline,
    epath,
    eft,
    ec,
    substitute_empty]

theorem event_notification_body_eq (E : Env) (w : World) (columnnum linenum : Int)
    (filepath eventname c : List Nat) :
    ∃ ft, _ycmd_get_filetype filepath (some c) = some ft ∧ ft ∈ filetype_tags ∧
      event_notification_body E w columnnum linenum filepath eventname (some c) =
        some (event_notification_expected
          (snprintf_d E.DIGITS_MAX (column_sent w.ycmd_globals columnnum))
          (substitute [ascii "LINE_NUM", ascii "FILEPATH", ascii "FILETYPES", ascii "CONTENTS"]
            [(snprintf_d E.DIGITS_MAX linenum), (cstr (file_data_filepath w.cwd filepath)),
              ft, (cstr c)]
            (cstr eventname))
          (substitute [ascii "FILETYPES", ascii "CONTENTS"]
            [ft, (cstr c)]
            (cstr (file_data_filepath w.cwd filepath)))
          (cstr c)
          ft
          (snprintf_d E.DIGITS_MAX linenum)) := by
  have hcol := snprintf_d_decimal E.DIGITS_MAX (column_sent w.ycmd_globals columnnum)
  have hline := snprintf_d_decimal E.DIGITS_MAX linenum
  obtain ⟨h1, n1⟩ := string_replace_w_step (strdup event_notification_template) (ascii "COLUMN_NUM")
    (snprintf_d E.DIGITS_MAX (column_sent w.ycmd_globals columnnum)) (by decide) (by decide) (strdup_nulFree _)
  rw [cstr_of_nulFree (decimalText_nulFree _ hcol)] at h1 n1
  obtain ⟨h2, n2⟩ := string_replace_w_step _ (ascii "EVENT_NAME")
    eventname (by decide) (by decide) n1
  obtain ⟨h3, n3⟩ := string_replace_w_step _ (ascii "LINE_NUM")
    (snprintf_d E.DIGITS_MAX linenum) (by decide) (by decide) n2
  rw [cstr_of_nulFree (decimalText_nulFree _ hline)] at h3 n3
  obtain ⟨ft, hft, htag, h4⟩ :=
    _ycmd_json_replace_file_data_eq w.cwd _ filepath c n3
  refine ⟨ft, hft, htag, ?_⟩
  unfold event_notification_body
  simp only [h1, h2, h3, h4, Option.bind_eq_bind, Option.some_bind,
    Option.some.injEq]
  exact event_notification_substitute
    (snprintf_d E.DIGITS_MAX (column_sent w.ycmd_globals columnnum)) (cstr eventname)
    (snprintf_d E.DIGITS_MAX linenum) (cstr (file_data_filepath w.cwd filepath)) ft (cstr c)
    hcol hline htag

theorem completions_substitute (line col target path ft c : List Nat)
    (hline : DecimalText line) (hcol : DecimalText col) (htag : ft ∈ filetype_tags) :
    substitute [ascii "LINE_NUM", ascii "COLUMN_NUM", ascii "COMPLETER_TARGET",
        ascii "FILEPATH", ascii "FILETYPES", ascii "CONTENTS"]
      [line, col, target, path, ft, c] (strdup completions_template) =
      completions_expected
        line
        col
        (substitute [ascii "FILETYPES", ascii "CONTENTS"]
          [ft, c] path)
        c
        ft
        (substitute [ascii "FILEPATH", ascii "FILETYPES", ascii "CONTENTS"]
          [path, ft, c] target) := by
  rw [completions_template_eq, completions_expected_pieces,
    substitute_pieces (completions_pieces
      (ascii "LINE_NUM") (ascii "COLUMN_NUM") (ascii "FILEPATH")
      (ascii "CONTENTS") (ascii "FILETYPES") (ascii "COMPLETER_TARGET")) _ _ _ _
      (by decide) rfl,
    completions_expected_pieces]
  simp only [completions_pieces, List.map]
  have lit : ∀ S : List Nat,
      (∀ f ∈ [ascii "LINE_NUM", ascii "COLUMN_NUM", ascii "COMPLETER_TARGET",
          ascii "FILEPATH", ascii "FILETYPES", ascii "CONTENTS"],
        occurs_in S f = false) →
      substitute [ascii "LINE_NUM", ascii "COLUMN_NUM", ascii "COMPLETER_TARGET",
          ascii "FILEPATH", ascii "FILETYPES", ascii "CONTENTS"]
        [line, col, target, path, ft, c] S = S := fun S h => substitute_clean _ _ S h
  have eline : substitute [ascii "LINE_NUM", ascii "COLUMN_NUM", ascii "COMPLETER_TARGET",
        ascii "FILEPATH", ascii "FILETYPES", ascii "CONTENTS"]
      [line, col, target, path, ft, c] (ascii "LINE_NUM") =
      line := by
    rw [substitute_hit (ascii "LINE_NUM") _ _ _ (by decide)]
    exact substitute_decimal _ _ _ hline (by decide)
  have ecol : substitute [ascii "LINE_NUM", ascii "COLUMN_NUM", ascii "COMPLETER_TARGET",
        ascii "FILEPATH", ascii "FILETYPES", ascii "CONTENTS"]
      [line, col, target, path, ft, c] (ascii "COLUMN_NUM") =
      col := by
    rw [substitute_miss (ascii "LINE_NUM") _ _ _ (ascii "COLUMN_NUM") (by decide),
      substitute_hit (ascii "COLUMN_NUM") _ _ _ (by decide)]
    exact substitute_decimal _ _ _ hcol (by decide)
  have etarget : substitute [ascii "LINE_NUM", ascii "COLUMN_NUM", ascii "COMPLETER_TARGET",
        ascii "FILEPATH", ascii "FILETYPES", ascii "CONTENTS"]
      [line, col, target, path, ft, c] (ascii "COMPLETER_TARGET") =
      (substitute [ascii "FILEPATH", ascii "FILETYPES", ascii "CONTENTS"]
          [path, ft, c] target) := by
    rw [substitute_miss (ascii "LINE_NUM") _ _ _ (ascii "COMPLETER_TARGET") (by decide),
      substitute_miss (ascii "COLUMN_NUM") _ _ _ (ascii "COMPLETER_TARGET") (by decide),
      substitute_hit (ascii "COMPLETER_TARGET") _ _ _ (by decide)]
  have epath : substitute [ascii "LINE_NUM", ascii "COLUMN_NUM", ascii "COMPLETER_TARGET",
        ascii "FILEPATH", ascii "FILETYPES", ascii "CONTENTS"]
      [line, col, target, path, ft, c] (ascii "FILEPATH") =
      (substitute [ascii "FILETYPES", ascii "CONTENTS"]
          [ft, c] path) := by
    rw [substitute_miss (ascii "LINE_NUM") _ _ _ (ascii "FILEPATH") (by decide),
      substitute_miss (ascii "COLUMN_NUM") _ _ _ (ascii "FILEPATH") (by decide),
      substitute_miss (ascii "COMPLETER_TARGET") _ _ _ (ascii "FILEPATH") (by decide),
      substitute_hit (ascii "FILEPATH") _ _ _ (by decide)]
  have eft : substitute [ascii "LINE_NUM", ascii "COLUMN_NUM", ascii "COMPLETER_TARGET",
        ascii "FILEPATH", ascii "FILETYPES", ascii "CONTENTS"]
      [line, col, target, path, ft, c] (ascii "FILETYPES") =
      ft := by
    rw [substitute_miss (ascii "LINE_NUM") _ _ _ (ascii "FILETYPES") (by decide),
      substitute_miss (ascii "COLUMN_NUM") _ _ _ (ascii "FILETYPES") (by decide),
      substitute_miss (ascii "COMPLETER_TARGET") _ _ _ (ascii "FILETYPES") (by decide),
      substitute_miss (ascii "FILEPATH") _ _ _ (ascii "FILETYPES") (by decide),
      substitute_hit (ascii "FILETYPES") _ _ _ (by decide)]
    exact substitute_tag _ _ _ htag (by decide)
  have ec : substitute [ascii "LINE_NUM", ascii "COLUMN_NUM", ascii "COMPLETER_TARGET",
        ascii "FILEPATH", ascii "FILETYPES", ascii "CONTENTS"]
      [line, col, target, path, ft, c] (ascii "CONTENTS") =
      c := by
    rw [substitute_miss (ascii "LINE_NUM") _ _ _ (ascii "CONTENTS") (by decide),
      substitute_miss (ascii "COLUMN_NUM") _ _ _ (ascii "CONTENTS") (by decide),
      substitute_miss (ascii "COMPLETER_TARGET") _ _ _ (ascii "CONTENTS") (by decide),
      substitute_miss (ascii "FILEPATH") _ _ _ (ascii "CONTENTS") (by decide),
      substitute_miss (ascii "FILETYPES") _ _ _ (ascii "CONTENTS") (by decide),
      substitute_hit (ascii "CONTENTS") _ _ _ (by decide)]
    rfl
  rw [lit (ascii "\x7b        \"line_num\":") (by decide),
    lit (ascii "        \"column_num\":") (by decide),
    lit (ascii "        \"filepath\": ") (by decide),
    lit (ascii ",        \"file_data\": \x7b\t\t") (by decide),
    lit (ascii ": \x7b                \"contents\": ") (by decide),
    lit (ascii ",                \"filetypes\": [") (by decide),
    lit (ascii "]        \t\x7d\t \x7d,        \"completer_target\": ") (by decide),
    lit (ascii "\x7d") (by decide),
    eline,
    ecol,
    etarget,
    epath,
    eft,
    ec]

theorem completions_body_eq (E : Env) (w : World) (linenum columnnum : Int)
    (filepath c completertarget : List Nat) :
    ∃ ft, _ycmd_get_filetype filepath (some c) = some ft ∧ ft ∈ filetype_tags ∧
      completions_body E w linenum columnnum filepath (some c) completertarget =
        some (completions_expected
          (snprintf_d E.DIGITS_MAX linenum)
          (snprintf_d E.DIGITS_MAX (column_sent w.ycmd_globals columnnum))
          (substitute [ascii "FILETYPES", ascii "CONTENTS"]
            [ft, (cstr c)]
            (cstr (file_data_filepath w.cwd filepath)))
          (cstr c)
          ft
          (substitute [ascii "FILEPATH", ascii "FILETYPES", ascii "CONTENTS"]
            [(cstr (file_data_filepath w.cwd filepath)), ft,
              (cstr c)]
            (cstr completertarget))) := by
  have hcol := snprintf_d_decimal E.DIGITS_MAX (column_sent w.ycmd_globals columnnum)
  have hline := snprintf_d_decimal E.DIGITS_MAX linenum
  obtain ⟨h1, n1⟩ := string_replace_w_step (strdup completions_template) (ascii "LINE_NUM")
    (snprintf_d E.DIGITS_MAX linenum) (by decide) (by decide) (strdup_nulFree _)
  rw [cstr_of_nulFree (decimalText_nulFree _ hline)] at h1 n1
  obtain ⟨h2, n2⟩ := string_replace_w_step _ (ascii "COLUMN_NUM")
    (snprintf_d E.DIGITS_MAX (column_sent w.ycmd_globals columnnum)) (by decide) (by decide) n1
  rw [cstr_of_nulFree (decimalText_nulFree _ hcol)] at h2 n2
  obtain ⟨h3, n3⟩ := string_replace_w_step _ (ascii "COMPLETER_TARGET")
    completertarget (by decide) (by decide) n2
  obtain ⟨ft, hft, htag, h4⟩ :=
    _ycmd_json_replace_file_data_eq w.cwd _ filepath c n3
  refine ⟨ft, hft, htag, ?_⟩
  unfold completions_body
  simp only [h1, h2, h3, h4, Option.bind_eq_bind, Option.some_bind,
    Option.some.injEq]
  exact completions_substitute
    (snprintf_d E.DIGITS_MAX linenum) (snprintf_d E.DIGITS_MAX (column_sent w.ycmd_globals columnnum))
    (cstr completertarget) (cstr (file_data_filepath w.cwd filepath)) ft (cstr c)
    hline hcol htag

theorem simple_request_substitute (line col path ft c : List Nat)
    (hline : DecimalText line) (hcol : DecimalText col) (htag : ft ∈ filetype_tags) :
    substitute [ascii "LINE_NUM", ascii "COLUMN_NUM", ascii "FILEPATH",
        ascii "FILETYPES", ascii "CONTENTS"]
      [line, col, path, ft, c] (strdup simple_request_template) =
      simple_request_expected
        line
        col
        (substitute [ascii "FILETYPES", ascii "CONTENTS"]
          [ft, c] path)
        c
        ft := by
  rw [simple_request_template_eq, simple_request_expected_pieces,
    substitute_pieces (simple_request_pieces
      (ascii "LINE_NUM") (ascii "COLUMN_NUM") (ascii "FILEPATH")
      (ascii "CONTENTS") (ascii "FILETYPES")) _ _ _ _
      (by decide) rfl,
    simple_request_expected_pieces]
  simp only [simple_request_pieces, List.map]
  have lit : ∀ S : List Nat,
      (∀ f ∈ [ascii "LINE_NUM", ascii "COLUMN_NUM", ascii "FILEPATH",
          ascii "FILETYPES", ascii "CONTENTS"],
        occurs_in S f = false) →
      substitute [ascii "LINE_NUM", ascii "COLUMN_NUM", ascii "FILEPATH",
          ascii "FILETYPES", ascii "CONTENTS"]
        [line, col, path, ft, c] S = S := fun S h => substitute_clean _ _ S h
  have eline : substitute [ascii "LINE_NUM", ascii "COLUMN_NUM", ascii "FILEPATH",
        ascii "FILETYPES", ascii "CONTENTS"]
      [line, col, path, ft, c] (ascii "LINE_NUM") =
      line := by
    rw [substitute_hit (ascii "LINE_NUM") _ _ _ (by decide)]
    exact substitute_decimal _ _ _ hline (by decide)
  have ecol : substitute [ascii "LINE_NUM", ascii "COLUMN_NUM", ascii "FILEPATH",
        ascii "FILETYPES", ascii "CONTENTS"]
      [line, col, path, ft, c] (ascii "COLUMN_NUM") =
      col := by
    rw [substitute_miss (ascii "LINE_NUM") _ _ _ (ascii "COLUMN_NUM") (by decide),
      substitute_hit (ascii "COLUMN_NUM") _ _ _ (by decide)]
    exact substitute_decimal _ _ _ hcol (by decide)
  have epath : substitute [ascii "LINE_NUM", ascii "COLUMN_NUM", ascii "FILEPATH",
        ascii "FILETYPES", ascii "CONTENTS"]
      [line, col, path, ft, c] (ascii "FILEPATH") =
      (substitute [ascii "FILETYPES", ascii "CONTENTS"]
          [ft, c] path) := by
    rw [substitute_miss (ascii "LINE_NUM") _ _ _ (ascii "FILEPATH") (by decide),
      substitute_miss (ascii "COLUMN_NUM") _ _ _ (ascii "FILEPATH") (by decide),
      substitute_hit (ascii "FILEPATH") _ _ _ (by decide)]
  have eft : substitute [ascii "LINE_NUM", ascii "COLUMN_NUM", ascii "FILEPATH",
        ascii "FILETYPES", ascii "CONTENTS"]
      [line, col, path, ft, c] (ascii "FILETYPES") =
      ft := by
    rw [substitute_miss (ascii "LINE_NUM") _ _ _ (ascii "FILETYPES") (by decide),
      substitute_miss (ascii "COLUMN_NUM") _ _ _ (ascii "FILETYPES") (by decide),
      substitute_miss (ascii "FILEPATH") _ _ _ (ascii "FILETYPES") (by decide),
      substitute_hit (ascii "FILETYPES") _ _ _ (by decide)]
    exact substitute_tag _ _ _ htag (by decide)
  have ec : substitute [ascii "LINE_NUM", ascii "COLUMN_NUM", ascii "FILEPATH",
        ascii "FILETYPES", ascii "CONTENTS"]
      [line, col, path, ft, c] (ascii "CONTENTS") =
      c := by
    rw [substitute_miss (ascii "LINE_NUM") _ _ _ (ascii "CONTENTS") (by decide),
      substitute_miss (ascii "COLUMN_NUM") _ _ _ (ascii "CONTENTS") (by decide),
      substitute_miss (ascii "FILEPATH") _ _ _ (ascii "CONTENTS") (by decide),
      substitute_miss (ascii "FILETYPES") _ _ _ (ascii "CONTENTS") (by decide),
      substitute_hit (ascii "CONTENTS") _ _ _ (by decide)]
    rfl
  rw [lit (ascii "\x7b        \"line_num\":") (by decide),
    lit (ascii "        \"column_num\":") (by decide),
    lit (ascii "        \"filepath\": ") (by decide),
    lit (ascii ",        \"file_data\": \x7b\t\t") (by decide),
    lit (ascii ": \x7b                \"contents\": ") (by decide),
    lit (ascii ",                \"filetypes\": [") (by decide),
    lit (ascii "]        \t\x7d\t \x7d\x7d") (by decide),
    eline,
    ecol,
    epath,
    eft,
    ec]

theorem simple_request_body_eq (E : Env) (w : World) (linenum columnnum : Int)
    (filepath c : List Nat) :
    ∃ ft, _ycmd_get_filetype filepath (some c) = some ft ∧ ft ∈ filetype_tags ∧
      simple_request_body E w linenum columnnum filepath (some c) =
        some (simple_request_expected
          (snprintf_d E.DIGITS_MAX linenum)
          (snprintf_d E.DIGITS_MAX (column_sent w.ycmd_globals columnnum))
          (substitute [ascii "FILETYPES", ascii "CONTENTS"]
            [ft, (cstr c)]
            (cstr (file_data_filepath w.cwd filepath)))
          (cstr c)
          ft) := by
  have hcol := snprintf_d_decimal E.DIGITS_MAX (column_sent w.ycmd_globals columnnum)
  have hline := snprintf_d_decimal E.DIGITS_MAX linenum
  obtain ⟨h1, n1⟩ := string_replace_w_step (strdup simple_request_template) (ascii "LINE_NUM")
    (snprintf_d E.DIGITS_MAX linenum) (by decide) (by decide) (strdup_nulFree _)
  rw [cstr_of_nulFree (decimalText_nulFree _ hline)] at h1 n1
  obtain ⟨h2, n2⟩ := string_replace_w_step _ (ascii "COLUMN_NUM")
    (snprintf_d E.DIGITS_MAX (column_sent w.ycmd_globals columnnum)) (by decide) (by decide) n1
  rw [cstr_of_nulFree (decimalText_nulFree _ hcol)] at h2 n2
  obtain ⟨ft, hft, htag, h3⟩ :=
    _ycmd_json_replace_file_data_eq w.cwd _ filepath c n2
  refine ⟨ft, hft, htag, ?_⟩
  unfold simple_request_body
  simp only [h1, h2, h3, Option.bind_eq_bind, Option.some_bind,
    Option.some.injEq]
  exact simple_request_substitute
    (snprintf_d E.DIGITS_MAX linenum) (snprintf_d E.DIGITS_MAX (column_sent w.ycmd_globals columnnum))
    (cstr (file_data_filepath w.cwd filepath)) ft (cstr c)
    hline hcol htag

/-! ## The payloads built -/

theorem nulFree_append {a b : List Nat} (ha : NulFree a) (hb : NulFree b) : NulFree (a ++ b) := by
  intro x hx
  rcases List.mem_append.mp hx with h | h
  · exact ha x h
  · exact hb x h

theorem filetype_tags_nulFree (ft : List Nat) (h : ft ∈ filetype_tags) : NulFree ft := by
  intro b hb
  have := filetype_tags_lower ft h b hb
  omega

theorem event_notification_expected_nulFree (a b c d e f : List Nat) (ha : NulFree a)
    (hb : NulFree b) (hc : NulFree c) (hd : NulFree d) (he : NulFree e) (hf : NulFree f) :
    NulFree (event_notification_expected a b c d e f) := by
  unfold event_notification_expected
  repeat (first
    | apply nulFree_append
    | assumption
    | (show NulFree (ascii _); decide))

theorem simple_request_expected_nulFree (a b c d e : List Nat) (ha : NulFree a)
    (hb : NulFree b) (hc : NulFree c) (hd : NulFree d) (he : NulFree e) :
    NulFree (simple_request_expected a b c d e) := by
  unfold simple_request_expected
  repeat (first
    | apply nulFree_append
    | assumption
    | (show NulFree (ascii _); decide))

theorem file_data_filepath_cases (cwd filepath : List Nat) :
    (filepath.getD 0 0 = 47 → file_data_filepath cwd filepath = filepath) ∧
    (filepath.getD 0 0 ≠ 47 →
      file_data_filepath cwd filepath = cstr cwd ++ ascii "/" ++ cstr filepath) := by
  unfold file_data_filepath
  constructor
  · intro h; rw [if_neg (not_not.mpr h)]
  · intro h; rw [if_pos h]

theorem event_notification_body_clean (E : Env) (w : World) (columnnum linenum : Int)
    (filepath eventname c : List Nat)
    (hev : FreeOf [ascii "LINE_NUM", ascii "FILEPATH", ascii "FILETYPES", ascii "CONTENTS"]
      (cstr eventname))
    (hpath : FreeOf [ascii "FILETYPES", ascii "CONTENTS"]
      (cstr (file_data_filepath w.cwd filepath))) :
    ∃ ft, _ycmd_get_filetype filepath (some c) = some ft ∧ ft ∈ filetype_tags ∧
      event_notification_body E w columnnum linenum filepath eventname (some c) =
        some (event_notification_expected
          (snprintf_d E.DIGITS_MAX (column_sent w.ycmd_globals columnnum))
          (cstr eventname) (cstr (file_data_filepath w.cwd filepath)) (cstr c) ft
          (snprintf_d E.DIGITS_MAX linenum)) := by
  obtain ⟨ft, hft, htag, h⟩ :=
    event_notification_body_eq E w columnnum linenum filepath eventname c
  refine ⟨ft, hft, htag, ?_⟩
  rw [h, substitute_clean _ _ _ hev, substitute_clean _ _ _ hpath]

theorem snprintf_d_zero (size : Nat) (h : 2 ≤ size) : snprintf_d size 0 = ascii "0" := by
  have h0 : ascii (toString (0 : Int)) = ascii "0" := by decide
  unfold snprintf_d
  rw [h0]
  exact List.take_of_length_le (by simp [ascii]; omega)

theorem snprintf_d_one (size : Nat) (h : 2 ≤ size) : snprintf_d size 1 = ascii "1" := by
  have h1 : ascii (toString (1 : Int)) = ascii "1" := by decide
  unfold snprintf_d
  rw [h1]
  exact List.take_of_length_le (by simp [ascii]; omega)

theorem post_request_body (E : Env) (w : World) (method path json : List Nat)
    (hj : NulFree json) : (post_request E w method path json).body = some json := by
  simp [post_request, take_strlen_of_nulFree hj]

/-- C16, as stated, fails: for the file `/CONTENTS.py` with the content `x`,
the payload of the event notification has `/x.py` as the key of `file_data`
and as the `filepath` field, the word `CONTENTS` of the path having been
replaced by the content. -/
theorem event_notification_filepath_rewritten :
    event_notification_body sample_env sample_world 7 1 (ascii "/CONTENTS.py")
      (ascii "BufferVisit") (some (ascii "x")) =
      some (event_notification_expected (ascii "8") (ascii "BufferVisit") (ascii "/x.py")
        (ascii "x") (ascii "python") (ascii "1")) ∧
    ascii "/x.py" ≠ ascii "/CONTENTS.py" := by
  refine ⟨?_, by decide⟩
  obtain ⟨ft, hft, _, h⟩ := event_notification_body_eq sample_env sample_world 7 1
    (ascii "/CONTENTS.py") (ascii "BufferVisit") (ascii "x")
  have h2 : _ycmd_get_filetype (ascii "/CONTENTS.py") (some (ascii "x")) = some (ascii "python") := by
    decide
  rw [h2] at hft
  cases hft
  rw [h]
  have e1 : snprintf_d sample_env.DIGITS_MAX (column_sent sample_world.ycmd_globals 7) =
      ascii "8" := by decide
  have e2 : snprintf_d sample_env.DIGITS_MAX 1 = ascii "1" := by decide
  have e3 : cstr (file_data_filepath sample_world.cwd (ascii "/CONTENTS.py")) =
      ascii "/CONTENTS.py" := by decide
  have e4 : cstr (ascii "x") = ascii "x" := by decide
  have e5 : cstr (ascii "BufferVisit") = ascii "BufferVisit" := by decide
  rw [e1, e2, e3, e4, e5]
  have e6 : substitute [ascii "LINE_NUM", ascii "FILEPATH", ascii "FILETYPES", ascii "CONTENTS"]
      [ascii "1", ascii "/CONTENTS.py", ascii "python", ascii "x"] (ascii "BufferVisit") =
      ascii "BufferVisit" := by decide
  have e7 : substitute [ascii "FILETYPES", ascii "CONTENTS"] [ascii "python", ascii "x"]
      (ascii "/CONTENTS.py") = ascii "/x.py" := by decide
  rw [e6, e7]

/-- C16, amended. When the text of the event name contains none of the words
`LINE_NUM`, `FILEPATH`, `FILETYPES`, `CONTENTS` and the absolute filepath
contains none of the words `FILETYPES`, `CONTENTS`, whatever the content
contains, `ycmd_json_event_notification` returns having sent one request
whose body is the fixed text with the column sent, the text of the event
name, the absolute filepath as the key of `file_data` and as `filepath`, the
text of the content as `contents`, the tag of `_ycmd_get_filetype` as the
one filetype, and the line; the absolute filepath is the filepath when that
starts with `/`, and the working directory, `/` and the filepath otherwise. -/
theorem event_notification_payload (E : Env) (resp : Response) (w : World)
    (columnnum linenum : Int) (filepath eventname c : List Nat)
    (hev : FreeOf [ascii "LINE_NUM", ascii "FILEPATH", ascii "FILETYPES", ascii "CONTENTS"]
      (cstr eventname))
    (hpath : FreeOf [ascii "FILETYPES", ascii "CONTENTS"]
      (cstr (file_data_filepath w.cwd filepath))) :
    ∃ ft r, _ycmd_get_filetype filepath (some c) = some ft ∧
      ycmd_json_event_notification E resp columnnum linenum filepath eventname (some c) w =
        some (w.emit (.request r), c_bool (resp.code = 200)) ∧
      r.body = some (event_notification_expected
        (snprintf_d E.DIGITS_MAX (column_sent w.ycmd_globals columnnum))
        (cstr eventname) (cstr (file_data_filepath w.cwd filepath)) (cstr c) ft
        (snprintf_d E.DIGITS_MAX linenum)) ∧
      (filepath.getD 0 0 = 47 → file_data_filepath w.cwd filepath = filepath) ∧
      (filepath.getD 0 0 ≠ 47 →
        file_data_filepath w.cwd filepath = cstr w.cwd ++ ascii "/" ++ cstr filepath) := by
  obtain ⟨ft, hft, htag, h⟩ :=
    event_notification_body_clean E w columnnum linenum filepath eventname c hev hpath
  refine ⟨ft, _, hft,
    ycmd_json_event_notification_eq E resp columnnum linenum filepath eventname (some c) w _ h,
    ?_, (file_data_filepath_cases w.cwd filepath).1, (file_data_filepath_cases w.cwd filepath).2⟩
  apply post_request_body
  exact event_notification_expected_nulFree _ _ _ _ _ _
    (decimalText_nulFree _ (snprintf_d_decimal _ _)) (cstr_nulFree _) (cstr_nulFree _)
    (cstr_nulFree _) (filetype_tags_nulFree ft htag)
    (decimalText_nulFree _ (snprintf_d_decimal _ _))

/-- Witness of C16: a relative path with the word `FILEPATH` in it and a
content with the words `CONTENTS` and `FILETYPES` in it are sent as they
are. -/
theorem event_notification_payload_witness :
    ∃ r, ycmd_json_event_notification sample_env headerless_response 7 1 (ascii "FILEPATH.py")
        (ascii "BufferVisit") (some (ascii "CONTENTS FILETYPES")) sample_world =
        some (sample_world.emit (.request r), 1) ∧
      r.body = some (event_notification_expected (ascii "8") (ascii "BufferVisit")
        (ascii "/home/user/FILEPATH.py") (ascii "CONTENTS FILETYPES") (ascii "python")
        (ascii "1")) := by
  obtain ⟨ft, r, h1, h2, h3, _, _⟩ := event_notification_payload sample_env headerless_response
    sample_world 7 1 (ascii "FILEPATH.py") (ascii "BufferVisit") (ascii "CONTENTS FILETYPES")
    (by decide) (by decide)
  have hft : _ycmd_get_filetype (ascii "FILEPATH.py") (some (ascii "CONTENTS FILETYPES")) =
      some (ascii "python") := by decide
  rw [hft] at h1
  cases h1
  refine ⟨r, h2, ?_⟩
  rw [h3]
  have e1 : snprintf_d sample_env.DIGITS_MAX (column_sent sample_world.ycmd_globals 7) =
      ascii "8" := by decide
  have e2 : snprintf_d sample_env.DIGITS_MAX 1 = ascii "1" := by decide
  have e3 : cstr (file_data_filepath sample_world.cwd (ascii "FILEPATH.py")) =
      ascii "/home/user/FILEPATH.py" := by decide
  have e4 : cstr (ascii "CONTENTS FILETYPES") = ascii "CONTENTS FILETYPES" := by decide
  have e5 : cstr (ascii "BufferVisit") = ascii "BufferVisit" := by decide
  rw [e1, e2, e3, e4, e5]

theorem simple_request_body_clean (E : Env) (w : World) (linenum columnnum : Int)
    (filepath c : List Nat)
    (hpath : FreeOf [ascii "FILETYPES", ascii "CONTENTS"]
      (cstr (file_data_filepath w.cwd filepath))) :
    ∃ ft, _ycmd_get_filetype filepath (some c) = some ft ∧ ft ∈ filetype_tags ∧
      simple_request_body E w linenum columnnum filepath (some c) =
        some (simple_request_expected (snprintf_d E.DIGITS_MAX linenum)
          (snprintf_d E.DIGITS_MAX (column_sent w.ycmd_globals columnnum))
          (cstr (file_data_filepath w.cwd filepath)) (cstr c) ft) := by
  obtain ⟨ft, hft, htag, h⟩ := simple_request_body_eq E w linenum columnnum filepath c
  refine ⟨ft, hft, htag, ?_⟩
  rw [h, substitute_clean _ _ _ hpath]

theorem column_sent_cases (g : YCMD_GLOBALS) (columnnum : Int) :
    (g.clang_completer = 0 → column_sent g columnnum = columnnum + 1) ∧
    (g.clang_completer ≠ 0 → column_sent g columnnum = columnnum) := by
  unfold column_sent
  constructor
  · intro h; simp [h]
  · intro h; simp [h]

theorem ycmd_gen_extra_conf_flag (find_ret : Int) (filepath : List Nat)
    (content : Option (List Nat)) (w : World) :
    (ycmd_gen_extra_conf find_ret filepath content w).ycmd_globals.clang_completer =
      if find_ret = 0 then 1 else 0 := by
  unfold ycmd_gen_extra_conf
  by_cases h : find_ret = 0 <;> simp [h]

/-- C17, as stated, fails: in the sample state, where `clang_completer` is 0,
the file `a.c`, whose tag is `c`, is sent with column 8 for the column 7 of
the host; and after `ycmd_gen_extra_conf` has found files of the C family
under the working directory the file `a.py`, whose tag is `python`, is sent
with column 7. -/
theorem column_sent_ignores_filetype :
    event_notification_body sample_env sample_world 7 1 (ascii "a.c")
      (ascii "BufferVisit") (some (ascii "x")) =
      some (event_notification_expected (ascii "8") (ascii "BufferVisit")
        (ascii "/home/user/a.c") (ascii "x") (ascii "c") (ascii "1")) ∧
    event_notification_body sample_env sample_clang_world 7 1 (ascii "a.py")
      (ascii "BufferVisit") (some (ascii "x")) =
      some (event_notification_expected (ascii "7") (ascii "BufferVisit")
        (ascii "/home/user/a.py") (ascii "x") (ascii "python") (ascii "1")) := by
  constructor
  · obtain ⟨ft, hft, _, h⟩ := event_notification_body_clean sample_env sample_world 7 1
      (ascii "a.c") (ascii "BufferVisit") (ascii "x") (by decide) (by decide)
    have h2 : _ycmd_get_filetype (ascii "a.c") (some (ascii "x")) = some (ascii "c") := by decide
    rw [h2] at hft
    cases hft
    rw [h]
    have e1 : snprintf_d sample_env.DIGITS_MAX (column_sent sample_world.ycmd_globals 7) =
        ascii "8" := by decide
    have e2 : snprintf_d sample_env.DIGITS_MAX 1 = ascii "1" := by decide
    have e3 : cstr (file_data_filepath sample_world.cwd (ascii "a.c")) =
        ascii "/home/user/a.c" := by decide
    have e4 : cstr (ascii "x") = ascii "x" := by decide
    have e5 : cstr (ascii "BufferVisit") = ascii "BufferVisit" := by decide
    rw [e1, e2, e3, e4, e5]
  · obtain ⟨ft, hft, _, h⟩ := event_notification_body_clean sample_env sample_clang_world 7 1
      (ascii "a.py") (ascii "BufferVisit") (ascii "x") (by decide) (by decide)
    have h2 : _ycmd_get_filetype (ascii "a.py") (some (ascii "x")) = some (ascii "python") := by
      decide
    rw [h2] at hft
    cases hft
    rw [h]
    have e1 : snprintf_d sample_env.DIGITS_MAX (column_sent sample_clang_world.ycmd_globals 7) =
        ascii "7" := by decide
    have e2 : snprintf_d sample_env.DIGITS_MAX 1 = ascii "1" := by decide
    have e3 : cstr (file_data_filepath sample_clang_world.cwd (ascii "a.py")) =
        ascii "/home/user/a.py" := by decide
    have e4 : cstr (ascii "x") = ascii "x" := by decide
    have e5 : cstr (ascii "BufferVisit") = ascii "BufferVisit" := by decide
    rw [e1, e2, e3, e4, e5]

/-- C17, amended. In the payloads built by `ycmd_json_event_notification`,
`ycmd_req_completions_suggestions` and `_ycmd_req_simple_request`, whatever
the tag of the file, `line_num` is the decimal text of the host's line and
`column_num` is the decimal text of the host's column plus one when
`ycmd_globals.clang_completer` is 0, and of the host's column when it is not
0; `ycmd_gen_extra_conf` sets `clang_completer` to 1 when the `find` command
over the working directory returns 0, and to 0 otherwise. -/
theorem column_sent_by_flag (E : Env) (w : World) (columnnum linenum : Int)
    (filepath eventname completertarget c : List Nat) :
    (∃ ev path ft, event_notification_body E w columnnum linenum filepath eventname (some c) =
      some (event_notification_expected
        (snprintf_d E.DIGITS_MAX (column_sent w.ycmd_globals columnnum)) ev path (cstr c) ft
        (snprintf_d E.DIGITS_MAX linenum))) ∧
    (∃ path ft target,
      completions_body E w linenum columnnum filepath (some c) completertarget =
        some (completions_expected (snprintf_d E.DIGITS_MAX linenum)
          (snprintf_d E.DIGITS_MAX (column_sent w.ycmd_globals columnnum)) path (cstr c) ft
          target)) ∧
    (∃ path ft, simple_request_body E w linenum columnnum filepath (some c) =
      some (simple_request_expected (snprintf_d E.DIGITS_MAX linenum)
        (snprintf_d E.DIGITS_MAX (column_sent w.ycmd_globals columnnum)) path (cstr c) ft)) ∧
    (w.ycmd_globals.clang_completer = 0 →
      column_sent w.ycmd_globals columnnum = columnnum + 1) ∧
    (w.ycmd_globals.clang_completer ≠ 0 → column_sent w.ycmd_globals columnnum = columnnum) ∧
    (∀ (find_ret : Int) (content : Option (List Nat)),
      (ycmd_gen_extra_conf find_ret filepath content w).ycmd_globals.clang_completer =
        if find_ret = 0 then 1 else 0) := by
  obtain ⟨ft1, _, _, h1⟩ := event_notification_body_eq E w columnnum linenum filepath eventname c
  obtain ⟨ft2, _, _, h2⟩ := completions_body_eq E w linenum columnnum filepath c completertarget
  obtain ⟨ft3, _, _, h3⟩ := simple_request_body_eq E w linenum columnnum filepath c
  exact ⟨⟨_, _, _, h1⟩, ⟨_, _, _, h2⟩, ⟨_, _, h3⟩, (column_sent_cases _ _).1,
    (column_sent_cases _ _).2, fun find_ret content =>
      ycmd_gen_extra_conf_flag find_ret filepath content w⟩

/-- Witness of C17: in the sample state `clang_completer` is 0 and column 7
is sent as 8. -/
theorem column_sent_by_flag_witness :
    column_sent sample_world.ycmd_globals 7 = 8 ∧
    ∃ ev path ft, event_notification_body sample_env sample_world 7 1 (ascii "a.c")
      (ascii "BufferVisit") (some (ascii "x")) =
      some (event_notification_expected (ascii "8") ev path (ascii "x") ft (ascii "1")) := by
  have h := column_sent_by_flag sample_env sample_world 7 1 (ascii "a.c") (ascii "BufferVisit")
    (ascii "filetype_default") (ascii "x")
  refine ⟨h.2.2.2.1 rfl, ?_⟩
  obtain ⟨ev, path, ft, h1⟩ := h.1
  have e1 : snprintf_d sample_env.DIGITS_MAX (column_sent sample_world.ycmd_globals 7) =
      ascii "8" := by decide
  have e2 : snprintf_d sample_env.DIGITS_MAX 1 = ascii "1" := by decide
  have e4 : cstr (ascii "x") = ascii "x" := by decide
  rw [e1, e2, e4] at h1
  exact ⟨ev, path, ft, h1⟩

theorem extra_conf_request (E : Env) (resp : Response) (path filepath : List Nat) (w : World)
    (hd : 2 ≤ E.DIGITS_MAX)
    (hpath : FreeOf [ascii "FILETYPES", ascii "CONTENTS"]
      (cstr (file_data_filepath w.cwd filepath))) :
    ∃ ft r, _ycmd_get_filetype filepath (some []) = some ft ∧
      _ycmd_req_simple_request E resp (ascii "POST") path 0 0 filepath (some []) w =
        some (w.emit (.request r), c_bool (resp.code = 200)) ∧
      r.method = ascii "POST" ∧ r.path = cstr path ∧
      r.body = some (simple_request_expected (ascii "0")
        (if w.ycmd_globals.clang_completer ≠ 0 then ascii "0" else ascii "1")
        (cstr (file_data_filepath w.cwd filepath)) [] ft) := by
  obtain ⟨ft, hft, htag, h⟩ := simple_request_body_clean E w 0 0 filepath [] hpath
  have hline : snprintf_d E.DIGITS_MAX 0 = ascii "0" := snprintf_d_zero _ hd
  have hcol : snprintf_d E.DIGITS_MAX (column_sent w.ycmd_globals 0) =
      if w.ycmd_globals.clang_completer ≠ 0 then ascii "0" else ascii "1" := by
    by_cases hc : w.ycmd_globals.clang_completer = 0
    · rw [(column_sent_cases _ 0).1 hc, if_neg (not_not.mpr hc)]
      exact snprintf_d_one _ hd
    · rw [(column_sent_cases _ 0).2 hc, if_pos hc]
      exact hline
  have hc0 : cstr ([] : List Nat) = [] := rfl
  rw [hline, hcol, hc0] at h
  refine ⟨ft, _, hft,
    _ycmd_req_simple_request_post E resp path 0 0 filepath (some []) w _ h,
    (post_request_signed E w path _).1.1, rfl, ?_⟩
  apply post_request_body
  apply simple_request_expected_nulFree
  · decide
  · by_cases hc : w.ycmd_globals.clang_completer = 0
    · rw [if_neg (not_not.mpr hc)]; decide
    · rw [if_pos hc]; decide
  · exact cstr_nulFree _
  · intro b hb; simp at hb
  · exact filetype_tags_nulFree ft htag

/-- C18, as stated, fails: in the sample state, where `clang_completer` is 0,
the body sent by `ycmd_req_load_extra_conf_file` has `column_num` 1. -/
theorem load_extra_conf_column_one :
    ∃ r, ycmd_req_load_extra_conf_file sample_env headerless_response
        (ascii "/home/user/.ycm_extra_conf.py") sample_world =
        some (sample_world.emit (.request r)) ∧
      r.body = some (simple_request_expected (ascii "0") (ascii "1")
        (ascii "/home/user/.ycm_extra_conf.py") [] (ascii "python")) := by
  obtain ⟨ft, r, h1, h2, _, _, h5⟩ := extra_conf_request sample_env headerless_response
    (ascii "/load_extra_conf_file") (ascii "/home/user/.ycm_extra_conf.py") sample_world
    (by decide) (by decide)
  have hft : _ycmd_get_filetype (ascii "/home/user/.ycm_extra_conf.py") (some []) =
      some (ascii "python") := by decide
  rw [hft] at h1
  cases h1
  refine ⟨r, ?_, ?_⟩
  · unfold ycmd_req_load_extra_conf_file
    rw [h2]
    rfl
  · rw [h5]
    have e3 : cstr (file_data_filepath sample_world.cwd (ascii "/home/user/.ycm_extra_conf.py")) =
        ascii "/home/user/.ycm_extra_conf.py" := by decide
    rw [e3, if_neg (by decide)]

/-- C18, amended. With `DIGITS_MAX` at least 2, for every filepath whose
absolute form contains neither of the words `FILETYPES` and `CONTENTS`,
`ycmd_req_load_extra_conf_file` and `ycmd_req_ignore_extra_conf_file` return
having sent one `POST` request, to `/load_extra_conf_file` and
`/ignore_extra_conf_file`, whose body has `line_num` 0, empty contents, the
absolute filepath and the tag of the file, and has `column_num` 0 when
`ycmd_globals.clang_completer` is not 0 and `column_num` 1 when it is 0. -/
theorem extra_conf_payload (E : Env) (resp : Response) (filepath : List Nat) (w : World)
    (hd : 2 ≤ E.DIGITS_MAX)
    (hpath : FreeOf [ascii "FILETYPES", ascii "CONTENTS"]
      (cstr (file_data_filepath w.cwd filepath))) :
    ∃ ft load ignore, _ycmd_get_filetype filepath (some []) = some ft ∧
      ycmd_req_load_extra_conf_file E resp filepath w = some (w.emit (.request load)) ∧
      ycmd_req_ignore_extra_conf_file E resp filepath w = some (w.emit (.request ignore)) ∧
      load.method = ascii "POST" ∧ load.path = ascii "/load_extra_conf_file" ∧
      ignore.method = ascii "POST" ∧ ignore.path = ascii "/ignore_extra_conf_file" ∧
      load.body = some (simple_request_expected (ascii "0")
        (if w.ycmd_globals.clang_completer ≠ 0 then ascii "0" else ascii "1")
        (cstr (file_data_filepath w.cwd filepath)) [] ft) ∧
      ignore.body = load.body := by
  obtain ⟨ft, r1, h1, h2, h3, h4, h5⟩ := extra_conf_request E resp
    (ascii "/load_extra_conf_file") filepath w hd hpath
  obtain ⟨ft2, r2, g1, g2, g3, g4, g5⟩ := extra_conf_request E resp
    (ascii "/ignore_extra_conf_file") filepath w hd hpath
  rw [h1] at g1
  cases g1
  refine ⟨ft, r1, r2, h1, ?_, ?_, h3, ?_, g3, ?_, h5, ?_⟩
  · unfold ycmd_req_load_extra_conf_file
    rw [h2]; rfl
  · unfold ycmd_req_ignore_extra_conf_file
    rw [g2]; rfl
  · rw [h4]; decide
  · rw [g4]; decide
  · rw [g5, h5]

/-- Witness of C18: after `ycmd_gen_extra_conf` has found files of the C
family, the body sent by `ycmd_req_load_extra_conf_file` has `column_num` 0. -/
theorem extra_conf_payload_witness :
    ∃ load, ycmd_req_load_extra_conf_file sample_env headerless_response
        (ascii "/home/user/.ycm_extra_conf.py") sample_clang_world =
        some (sample_clang_world.emit (.request load)) ∧
      load.path = ascii "/load_extra_conf_file" ∧
      load.body = some (simple_request_expected (ascii "0") (ascii "0")
        (ascii "/home/user/.ycm_extra_conf.py") [] (ascii "python")) := by
  obtain ⟨ft, load, ignore, h1, h2, _, _, h5, _, _, h8, _⟩ := extra_conf_payload sample_env
    headerless_response (ascii "/home/user/.ycm_extra_conf.py") sample_clang_world
    (by decide) (by decide)
  have hft : _ycmd_get_filetype (ascii "/home/user/.ycm_extra_conf.py") (some []) =
      some (ascii "python") := by decide
  rw [hft] at h1
  cases h1
  refine ⟨load, h2, h5, ?_⟩
  rw [h8]
  have e3 : cstr (file_data_filepath sample_clang_world.cwd
      (ascii "/home/user/.ycm_extra_conf.py")) = ascii "/home/user/.ycm_extra_conf.py" := by
    decide
  rw [e3, if_pos (by decide)]

/-! ## `string_replace_gpl3` and its reference -/

theorem replace_from_length (find repl : List Nat) (hf : find ≠ []) :
    ∀ (s : List Nat) (k : Nat), k ≤ s.length →
      (replace_from find repl k s).length + replaced_count find k s * find.length + k =
        s.length + replaced_count find k s * repl.length := by
  have hpos : 1 ≤ find.length := by
    cases find with
    | nil => exact absurd rfl hf
    | cons a as => simp
  intro s
  induction s with
  | nil =>
    intro k hk
    have hk0 : k = 0 := by simpa using hk
    subst hk0
    simp [replace_from, replaced_count]
  | cons c rest ih =>
    intro k hk
    cases k with
    | succ k =>
      have := ih k (by simpa using hk)
      simp only [replace_from, replaced_count, List.length_cons]
      omega
    | zero =>
      by_cases hs : starts_with (c :: rest) find = true
      · obtain ⟨t, ht⟩ := (starts_with_iff _ _).mp hs
        have hlen : find.length - 1 ≤ rest.length := by
          have := congrArg List.length ht
          simp only [List.length_cons, List.length_append] at this
          omega
        have := ih (find.length - 1) hlen
        rw [replace_from, replaced_count, if_pos hs, if_pos hs]
        simp only [List.length_append, List.length_cons]
        rw [Nat.add_mul, Nat.add_mul]
        omega
      · have := ih 0 (Nat.zero_le _)
        rw [replace_from, replaced_count, if_neg hs, if_neg hs]
        simp only [List.length_cons]
        omega

theorem cstr_ne_nil_of_strlen_pos (s : List Nat) (h : 0 < strlen s) : cstr s ≠ [] := by
  intro he
  have := cstr_length s
  rw [he] at this
  simp at this
  omega

theorem string_replace_gpl3_fuel_eq (buffer find replace : List Nat) (hf : 0 < strlen find)
    (fuel : Nat) (h : strlen buffer < fuel) :
    string_replace_gpl3_fuel fuel buffer find replace =
      some (replace_all (cstr find) (cstr replace) (cstr buffer)) := by
  have := string_replace_loop_eq buffer find replace hf fuel 0 [] (Nat.zero_le _) (by omega)
  simpa [string_replace_gpl3_fuel, replace_all] using this

/-- C25. For every buffer and replacement and every non-empty `find`,
`string_replace_gpl3` returns the reference replacement of the text of the
buffer: scanning from the left, each occurrence of `find` at the scan
position is replaced by the text of `replace`, the scan going on after the
occurrence, and every other byte is copied; the result is the text of the
buffer when `find` does not occur in it, and its length is the length of the
buffer plus, for each of the `k` occurrences replaced, the length of
`replace` minus the length of `find`. -/
theorem string_replace_gpl3_eq_reference (buffer find replace : List Nat)
    (hf : 0 < strlen find) :
    string_replace_gpl3 buffer find replace =
      some (replace_all (cstr find) (cstr replace) (cstr buffer)) ∧
    (occurs_in (cstr buffer) (cstr find) = false →
      string_replace_gpl3 buffer find replace = some (cstr buffer)) ∧
    ((replace_all (cstr find) (cstr replace) (cstr buffer)).length : Int) =
      (strlen buffer : Int) + (replaced_count (cstr find) 0 (cstr buffer) : Int) *
        ((strlen replace : Int) - (strlen find : Int)) := by
  have h1 := string_replace_gpl3_fuel_eq buffer find replace hf (strlen buffer + 1) (by omega)
  refine ⟨h1, ?_, ?_⟩
  · intro hc
    rw [show string_replace_gpl3 buffer find replace =
      string_replace_gpl3_fuel (strlen buffer + 1) buffer find replace from rfl, h1,
      replace_all_clean _ _ _ hc]
  · have h := replace_from_length (cstr find) (cstr replace)
      (cstr_ne_nil_of_strlen_pos find hf) (cstr buffer) 0 (Nat.zero_le _)
    simp only [cstr_length, Nat.add_zero] at h
    unfold replace_all
    have h2 : ((replace_from (cstr find) (cstr replace) 0 (cstr buffer)).length : Int) +
        (replaced_count (cstr find) 0 (cstr buffer) : Int) * (strlen find : Int) =
        (strlen buffer : Int) +
          (replaced_count (cstr find) 0 (cstr buffer) : Int) * (strlen replace : Int) := by
      exact_mod_cast h
    rw [mul_sub]
    omega

/-- Witness of C25: in `aaaaa` the two leftmost occurrences of `aa` that do
not overlap are replaced by `b`, the inserted text is not scanned again when
`a` is replaced by `aa`, and a buffer without the text is returned as it is. -/
theorem string_replace_gpl3_eq_reference_witness :
    string_replace_gpl3 (ascii "aaaaa") (ascii "aa") (ascii "b") = some (ascii "bba") ∧
    string_replace_gpl3 (ascii "xay") (ascii "a") (ascii "aa") = some (ascii "xaay") ∧
    string_replace_gpl3 (ascii "xyz") (ascii "a") (ascii "b") = some (ascii "xyz") := by
  refine ⟨?_, ?_, ?_⟩
  · rw [(string_replace_gpl3_eq_reference (ascii "aaaaa") (ascii "aa") (ascii "b")
      (by decide)).1]
    decide
  · rw [(string_replace_gpl3_eq_reference (ascii "xay") (ascii "a") (ascii "aa")
      (by decide)).1]
    decide
  · exact (string_replace_gpl3_eq_reference (ascii "xyz") (ascii "a") (ascii "b")
      (by decide)).2.1 (by decide)

theorem string_replace_loop_empty_find (p find replace : List Nat) (lenb lenr : Nat) :
    ∀ (fuel i : Nat) (out : List Nat), i < lenb →
      string_replace_loop p find replace lenb 0 lenr fuel i out = none := by
  intro fuel
  induction fuel with
  | zero => intro i out _; rfl
  | succ n ih =>
    intro i out hi
    unfold string_replace_loop
    rw [if_pos hi]
    have hc : count_cf p find lenb 0 i 0 0 0 = 0 := rfl
    rw [if_pos hc]
    exact ih (i + 0) _ hi

theorem string_replace_loop_step (p find replace : List Nat) (lenb lenf lenr : Nat)
    (fuel i : Nat) (out : List Nat) (hi : i < lenb) :
    ∃ d out1, ((d = lenf ∧ count_cf p find lenb lenf i lenf 0 0 = lenf) ∨
        (d = 1 ∧ count_cf p find lenb lenf i lenf 0 0 ≠ lenf)) ∧
      string_replace_loop p find replace lenb lenf lenr (fuel + 1) i out =
        string_replace_loop p find replace lenb lenf lenr fuel (i + d) out1 := by
  by_cases hc : count_cf p find lenb lenf i lenf 0 0 = lenf
  · refine ⟨lenf, out ++ replace.take lenr, Or.inl ⟨rfl, hc⟩, ?_⟩
    rw [string_replace_loop, if_pos hi, if_pos hc]
  · refine ⟨1, out ++ [p.getD i 0], Or.inr ⟨rfl, hc⟩, ?_⟩
    rw [string_replace_loop, if_pos hi, if_neg hc]

/-- C28. `string_replace_gpl3` ends exactly when `find` is not empty or the
buffer is empty.  With a `find` that is not empty, every iteration of the
outer loop below the end of the buffer moves the scan index forward, by the
length of `find` on a match and by 1 otherwise, and the call returns the same
result for every bound above the length of the buffer on the number of loop
tests, so the loop makes at most as many iterations as the buffer has bytes;
an empty buffer is returned at the first test.  With an empty `find` and a
buffer that is not empty every position is a match that moves the index by
0, and the loop does not end within any number of iterations. -/
theorem string_replace_gpl3_terminates_iff (buffer find replace : List Nat) :
    (0 < strlen find →
      (∀ fuel, strlen buffer < fuel → string_replace_gpl3_fuel fuel buffer find replace =
        some (replace_all (cstr find) (cstr replace) (cstr buffer))) ∧
      (∀ (fuel i : Nat) (out : List Nat), i < strlen buffer →
        ∃ d out1, 0 < d ∧ (d = strlen find ∨ d = 1) ∧
          string_replace_loop buffer find replace (strlen buffer) (strlen find)
            (strlen replace) (fuel + 1) i out =
          string_replace_loop buffer find replace (strlen buffer) (strlen find)
            (strlen replace) fuel (i + d) out1)) ∧
    (strlen buffer = 0 →
      ∀ fuel, 0 < fuel → string_replace_gpl3_fuel fuel buffer find replace = some []) ∧
    (strlen find = 0 → 0 < strlen buffer →
      ∀ fuel, string_replace_gpl3_fuel fuel buffer find replace = none) ∧
    ((∃ out, ∃ fuel, string_replace_gpl3_fuel fuel buffer find replace = some out) ↔
      (0 < strlen find ∨ strlen buffer = 0)) := by
  have hA : 0 < strlen find → ∀ fuel, strlen buffer < fuel →
      string_replace_gpl3_fuel fuel buffer find replace =
        some (replace_all (cstr find) (cstr replace) (cstr buffer)) :=
    fun hf fuel h => string_replace_gpl3_fuel_eq buffer find replace hf fuel h
  have hB : strlen buffer = 0 →
      ∀ fuel, 0 < fuel → string_replace_gpl3_fuel fuel buffer find replace = some [] := by
    intro hb fuel hfuel
    cases fuel with
    | zero => omega
    | succ n =>
      unfold string_replace_gpl3_fuel string_replace_loop
      rw [if_neg (by omega)]
  have hC : strlen find = 0 → 0 < strlen buffer →
      ∀ fuel, string_replace_gpl3_fuel fuel buffer find replace = none := by
    intro hf hb fuel
    unfold string_replace_gpl3_fuel
    rw [hf]
    exact string_replace_loop_empty_find buffer find replace _ _ fuel 0 [] hb
  refine ⟨fun hf => ⟨hA hf, ?_⟩, hB, hC, ?_⟩
  · intro fuel i out hi
    obtain ⟨d, out1, hd, h⟩ := string_replace_loop_step buffer find replace (strlen buffer)
      (strlen find) (strlen replace) fuel i out hi
    refine ⟨d, out1, ?_, ?_, h⟩
    · rcases hd with ⟨h1, _⟩ | ⟨h1, _⟩ <;> omega
    · rcases hd with ⟨h1, _⟩ | ⟨h1, _⟩
      · exact Or.inl h1
      · exact Or.inr h1
  · constructor
    · rintro ⟨out, fuel, h⟩
      by_contra hn
      have h1 : strlen find = 0 := by omega
      have h2 : 0 < strlen buffer := by omega
      rw [hC h1 h2 fuel] at h
      cases h
    · rintro (hf | hb)
      · exact ⟨_, strlen buffer + 1, hA hf _ (by omega)⟩
      · exact ⟨_, 1, hB hb 1 (by omega)⟩

/-- Witness of C28: with the empty `find` the scan of `ab` has not ended
after 1000 iterations, and with `find` = `a` it ends within three loop
tests. -/
theorem string_replace_gpl3_terminates_iff_witness :
    string_replace_gpl3_fuel 1000 (ascii "ab") [] (ascii "x") = none ∧
    string_replace_gpl3_fuel 3 (ascii "ab") (ascii "a") (ascii "x") = some (ascii "xb") := by
  constructor
  · exact (string_replace_gpl3_terminates_iff (ascii "ab") [] (ascii "x")).2.2.1 rfl
      (by decide) 1000
  · rw [((string_replace_gpl3_terminates_iff (ascii "ab") (ascii "a") (ascii "x")).1
      (by decide)).1 3 (by decide)]
    decide

/-! ## Accepting a completion -/

theorem after_backspaces_succ (n : Nat) (w : World) :
    after_backspaces n (w.emit .do_backspace) = after_backspaces (n + 1) w := by
  simp [after_backspaces, World.emit, List.replicate_succ]

theorem int_decrement_of_gt (m : Int) (h : -2147483648 < m) : int_decrement m = m - 1 := by
  unfold int_decrement
  rw [if_neg (by omega)]

theorem int_decrement_min : int_decrement (-2147483648) = 2147483647 := by decide

theorem after_backspaces_add (a b : Nat) (w : World) :
    after_backspaces a (after_backspaces b w) = after_backspaces (b + a) w := by
  simp only [after_backspaces, List.append_assoc, List.replicate_add]

theorem backspace_loop_nonneg : ∀ (n fuel : Nat) (w : World), n < fuel →
    backspace_loop fuel (n : Int) w = some (after_backspaces n w) := by
  intro n
  induction n with
  | zero =>
    intro fuel w h
    cases fuel with
    | zero => omega
    | succ m => simp [backspace_loop, after_backspaces]
  | succ n ih =>
    intro fuel w h
    cases fuel with
    | zero => omega
    | succ m =>
      have hne : ((n + 1 : Nat) : Int) ≠ 0 := by omega
      rw [backspace_loop, if_pos hne]
      have e : int_decrement ((n + 1 : Nat) : Int) = (n : Int) := by
        rw [int_decrement_of_gt _ (by omega)]; omega
      rw [e, ih m _ (by omega), after_backspaces_succ]

theorem backspace_loop_short : ∀ (fuel n : Nat) (w : World), fuel ≤ n →
    backspace_loop fuel (n : Int) w = none := by
  intro fuel
  induction fuel with
  | zero => intro n w _; rfl
  | succ m ih =>
    intro n w h
    cases n with
    | zero => omega
    | succ k =>
      have hne : ((k + 1 : Nat) : Int) ≠ 0 := by omega
      rw [backspace_loop, if_pos hne]
      have e : int_decrement ((k + 1 : Nat) : Int) = (k : Int) := by
        rw [int_decrement_of_gt _ (by omega)]; omega
      rw [e]
      exact ih k _ (by omega)

theorem backspace_loop_to_min : ∀ (d fuel : Nat) (w : World), d < 2147483648 →
    backspace_loop (fuel + (d + 1)) (-2147483648 + (d : Int)) w =
      backspace_loop fuel ((2147483647 : Nat) : Int) (after_backspaces (d + 1) w) := by
  intro d
  induction d with
  | zero =>
    intro fuel w _
    have hne : (-2147483648 + ((0 : Nat) : Int)) ≠ 0 := by omega
    have e : int_decrement (-2147483648 + ((0 : Nat) : Int)) = ((2147483647 : Nat) : Int) := by
      have e0 : (-2147483648 + ((0 : Nat) : Int)) = -2147483648 := by omega
      rw [e0, int_decrement_min]; rfl
    have ef : fuel + (0 + 1) = fuel + 1 := rfl
    rw [ef, backspace_loop, if_pos hne, e]
    congr 1
  | succ d ih =>
    intro fuel w h
    have hne : (-2147483648 + ((d + 1 : Nat) : Int)) ≠ 0 := by omega
    have e : int_decrement (-2147483648 + ((d + 1 : Nat) : Int)) = -2147483648 + (d : Int) := by
      rw [int_decrement_of_gt _ (by omega)]; omega
    have ef : fuel + (d + 1 + 1) = (fuel + (d + 1)) + 1 := rfl
    rw [ef, backspace_loop, if_pos hne, e, ih fuel _ (by omega), after_backspaces_succ]

theorem backspace_loop_short_of_min : ∀ (fuel d : Nat) (w : World), d < 2147483648 →
    fuel ≤ d + 1 → backspace_loop fuel (-2147483648 + (d : Int)) w = none := by
  intro fuel
  induction fuel with
  | zero => intro d w _ _; rfl
  | succ f ih =>
    intro d w hd h
    have hne : (-2147483648 + (d : Int)) ≠ 0 := by omega
    rw [backspace_loop, if_pos hne]
    cases d with
    | zero =>
      have hf : f = 0 := by omega
      subst hf
      rfl
    | succ k =>
      have e : int_decrement (-2147483648 + ((k + 1 : Nat) : Int)) = -2147483648 + (k : Int) := by
        rw [int_decrement_of_gt _ (by omega)]; omega
      rw [e]
      exact ih k _ (by omega) (by omega)

theorem backspace_loop_negative (m : Int) (w : World) (hlo : -2147483648 ≤ m) (hneg : m < 0) :
    (∀ fuel, (m + 4294967296).toNat < fuel →
      backspace_loop fuel m w = some (after_backspaces (m + 4294967296).toNat w)) ∧
    (∀ fuel, fuel ≤ (m + 4294967296).toNat → backspace_loop fuel m w = none) := by
  obtain ⟨d, hd⟩ : ∃ d : Nat, m = -2147483648 + (d : Int) :=
    ⟨(m + 2147483648).toNat, by omega⟩
  have hdlt : d < 2147483648 := by omega
  have hN : (m + 4294967296).toNat = (d + 1) + 2147483647 := by omega
  rw [hN, hd]
  constructor
  · intro fuel hf
    obtain ⟨f, rfl⟩ : ∃ f, fuel = f + (d + 1) := ⟨fuel - (d + 1), by omega⟩
    rw [backspace_loop_to_min d f w hdlt, backspace_loop_nonneg 2147483647 f _ (by omega),
      after_backspaces_add]
  · intro fuel hf
    by_cases h1 : fuel ≤ d + 1
    · exact backspace_loop_short_of_min fuel d w hdlt h1
    · obtain ⟨f, rfl⟩ : ∃ f, fuel = f + (d + 1) := ⟨fuel - (d + 1), by omega⟩
      rw [backspace_loop_to_min d f w hdlt]
      exact backspace_loop_short f 2147483647 _ (by omega)

theorem backspaces_append (a b : List Event) :
    backspaces (a ++ b) = backspaces a + backspaces b := by
  induction a with
  | nil => simp [backspaces]
  | cons e rest ih =>
    cases e <;> simp [backspaces, ih]
    omega

theorem backspaces_replicate (n : Nat) :
    backspaces (List.replicate n Event.do_backspace) = n := by
  induction n with
  | zero => rfl
  | succ n ih => simp [List.replicate_succ, backspaces, ih]

theorem code_completion_loop_at (E : Env) (fuel : Nat) (letter n : Int) :
    ∀ (k : Nat) (fs : List subnfunc) (j : Nat) (w : World) (f : subnfunc),
      fs[k]? = some f → ((j + k : Nat) : Int) < E.MAIN_VISIBLE → j + k < 26 →
      letter = 65 + ((j + k : Nat) : Int) →
      code_completion_loop E fuel letter n j fs w =
        match f.desc with
        | none => none
        | some desc =>
          if strcmp desc [] = 0 then some (fs, w)
          else
            match backspace_loop fuel n w with
            | none => none
            | some wb =>
              some (fs.set k { f with desc := some (strdup []) },
                (({ wb with current_x := wb.ycmd_globals.apply_column - 1 }).emit
                  (.do_output (cstr desc) (strlen desc))).emit .blank_statusbar) := by
  intro k
  induction k with
  | zero =>
    intro fs j w f hf hmax h26 hl
    cases fs with
    | nil => simp at hf
    | cons g rest =>
      simp only [List.getElem?_cons_zero, Option.some.injEq] at hf
      subst hf
      simp only [Nat.add_zero] at hmax h26 hl
      have hcond : (j : Int) < E.MAIN_VISIBLE ∧ 65 + (j : Int) ≤ 90 := ⟨hmax, by omega⟩
      rw [code_completion_loop, if_pos hcond, if_pos hl.symm]
      cases hd : g.desc with
      | none => rfl
      | some desc =>
        simp only []
        by_cases hs : strcmp desc [] = 0
        · rw [if_pos hs, if_pos hs]
        · rw [if_neg hs, if_neg hs]
          cases backspace_loop fuel n w <;> rfl
  | succ k ih =>
    intro fs j w f hf hmax h26 hl
    cases fs with
    | nil => simp at hf
    | cons g rest =>
      simp only [List.getElem?_cons_succ] at hf
      have hcond : (j : Int) < E.MAIN_VISIBLE ∧ 65 + (j : Int) ≤ 90 :=
        ⟨by omega, by omega⟩
      have hne : ¬ (65 + (j : Int) = letter) := by omega
      have e : j + 1 + k = j + (k + 1) := by omega
      rw [code_completion_loop, if_pos hcond, if_neg hne,
        ih rest (j + 1) w f hf (by rw [e]; exact hmax) (by omega) (by rw [e]; exact hl)]
      cases hd : f.desc with
      | none => rfl
      | some desc =>
        simp only []
        by_cases hs : strcmp desc [] = 0
        · simp only [if_pos hs]
        · simp only [if_neg hs]
          cases backspace_loop fuel n w <;> rfl

theorem code_completion_loop_miss (E : Env) (fuel : Nat) (letter n : Int) :
    ∀ (fs : List subnfunc) (j : Nat) (w : World),
      (∀ i, i < fs.length → ((j + i : Nat) : Int) < E.MAIN_VISIBLE → j + i < 26 →
        letter ≠ 65 + ((j + i : Nat) : Int)) →
      code_completion_loop E fuel letter n j fs w = some (fs, w) := by
  intro fs
  induction fs with
  | nil => intro j w _; rfl
  | cons g rest ih =>
    intro j w h
    rw [code_completion_loop]
    by_cases hcond : (j : Int) < E.MAIN_VISIBLE ∧ 65 + (j : Int) ≤ 90
    · have hne : ¬ (65 + (j : Int) = letter) := by
        have := h 0 (by simp) (by simpa using hcond.1) (by omega)
        simp only [Nat.add_zero] at this
        exact fun e => this e.symm
      rw [if_pos hcond, if_neg hne, ih (j + 1) w (fun i hi h1 h2 => by
        have e : j + 1 + i = j + (i + 1) := by omega
        rw [e] at h1 h2 ⊢
        exact h (i + 1) (by simpa using hi) h1 h2)]
    · rw [if_neg hcond]

theorem do_code_completion_eq (E : Env) (fuel : Nat) (letter : Int) (w : World)
    (hc : w.ycmd_globals.connected ≠ 0) :
    do_code_completion E fuel letter w =
      (code_completion_loop E fuel letter (w.current_x - (w.ycmd_globals.apply_column - 1)) 0
        (find_menu_func E.MCODECOMPLETION w.allfuncs).2 w).map
        (fun r => ({ r.2 with
          allfuncs := (find_menu_func E.MCODECOMPLETION w.allfuncs).1 ++ r.1 }).emit
          (.bottombars E.MMAIN)) := by
  unfold do_code_completion
  rw [if_neg hc]
  simp only []
  cases code_completion_loop E fuel letter (w.current_x - (w.ycmd_globals.apply_column - 1)) 0
    (find_menu_func E.MCODECOMPLETION w.allfuncs).2 w with
  | none => rfl
  | some r => rfl

theorem do_code_completion_unchanged_of (E : Env) (fuel : Nat) (letter : Int) (w : World)
    (hc : w.ycmd_globals.connected ≠ 0)
    (h : code_completion_loop E fuel letter (w.current_x - (w.ycmd_globals.apply_column - 1)) 0
      (find_menu_func E.MCODECOMPLETION w.allfuncs).2 w =
      some ((find_menu_func E.MCODECOMPLETION w.allfuncs).2, w))
    (hsplit : (find_menu_func E.MCODECOMPLETION w.allfuncs).1 ++
      (find_menu_func E.MCODECOMPLETION w.allfuncs).2 = w.allfuncs) :
    do_code_completion E fuel letter w = some (w.emit (.bottombars E.MMAIN)) := by
  rw [do_code_completion_eq E fuel letter w hc, h]
  simp only [Option.map_some', hsplit]

theorem find_menu_func_append (mask : Nat) : ∀ fs : List subnfunc,
    (find_menu_func mask fs).1 ++ (find_menu_func mask fs).2 = fs := by
  intro fs
  induction fs with
  | nil => rfl
  | cons f rest ih =>
    unfold find_menu_func
    by_cases h : f.menus &&& mask ≠ 0
    · rw [if_pos h]; rfl
    · rw [if_neg h]
      simp only [List.cons_append, ih]

/-- C22. When connected, with the letter `'A' + k` of an entry `k` below
`MAIN_VISIBLE` and 26 counted from the first entry of the completion menu,
that entry holding a candidate `t` that is not empty, and the cursor column
not left of `apply_column - 1`, `do_code_completion` returns having done, in
this order, exactly `current_x - (apply_column - 1)` backspaces, set the cursor
column to `apply_column - 1`, output the text of `t`, blanked the status bar
and shown the main menu, with the entry `k` given the empty text and nothing
else changed.  When the entry holds the empty text, or no entry below
`MAIN_VISIBLE` and 26 has the letter, it returns having shown the main menu
only: no backspace, no output, the cursor and the entries as they were. -/
theorem do_code_completion_accepts (E : Env) (fuel : Nat) (w : World) (k : Nat) (f : subnfunc)
    (t : List Nat) (letter : Int)
    (hc : w.ycmd_globals.connected ≠ 0) :
    ((find_menu_func E.MCODECOMPLETION w.allfuncs).2[k]? = some f →
      (k : Int) < E.MAIN_VISIBLE → k < 26 → f.desc = some t → cstr t ≠ [] →
      w.ycmd_globals.apply_column - 1 ≤ w.current_x →
      (w.current_x - (w.ycmd_globals.apply_column - 1)).toNat < fuel →
      ∃ w1, do_code_completion E fuel (65 + (k : Int)) w = some w1 ∧
        w1.trace = w.trace ++
          List.replicate (w.current_x - (w.ycmd_globals.apply_column - 1)).toNat
            Event.do_backspace ++
          [.do_output (cstr t) (strlen t), .blank_statusbar, .bottombars E.MMAIN] ∧
        ((backspaces w1.trace : Int) =
          backspaces w.trace + (w.current_x - (w.ycmd_globals.apply_column - 1))) ∧
        w1.current_x = w.ycmd_globals.apply_column - 1 ∧
        w1.allfuncs = (find_menu_func E.MCODECOMPLETION w.allfuncs).1 ++
          (find_menu_func E.MCODECOMPLETION w.allfuncs).2.set k { f with desc := some [] } ∧
        w1.ycmd_globals = w.ycmd_globals ∧ w1.files = w.files) ∧
    ((find_menu_func E.MCODECOMPLETION w.allfuncs).2[k]? = some f →
      (k : Int) < E.MAIN_VISIBLE → k < 26 → f.desc = some t → cstr t = [] →
      do_code_completion E fuel (65 + (k : Int)) w = some (w.emit (.bottombars E.MMAIN))) ∧
    ((∀ i, i < (find_menu_func E.MCODECOMPLETION w.allfuncs).2.length →
        (i : Int) < E.MAIN_VISIBLE → i < 26 → letter ≠ 65 + (i : Int)) →
      do_code_completion E fuel letter w = some (w.emit (.bottombars E.MMAIN))) := by
  have hsplit := find_menu_func_append E.MCODECOMPLETION w.allfuncs
  refine ⟨?_, ?_, ?_⟩
  · intro hk hmax h26 ht hne hx hfuel
    have hloop := code_completion_loop_at E fuel (65 + (k : Int))
      (w.current_x - (w.ycmd_globals.apply_column - 1)) k
      (find_menu_func E.MCODECOMPLETION w.allfuncs).2 0 w f hk (by simpa using hmax)
      (by omega) (by simp)
    have hs : ¬ strcmp t [] = 0 := by
      intro h0
      exact hne ((strcmp_eq_zero_iff_cstr t []).mp h0)
    have hn : w.current_x - (w.ycmd_globals.apply_column - 1) =
        (((w.current_x - (w.ycmd_globals.apply_column - 1)).toNat : Nat) : Int) := by
      omega
    have hb := backspace_loop_nonneg (w.current_x - (w.ycmd_globals.apply_column - 1)).toNat
      fuel w hfuel
    rw [← hn] at hb
    rw [ht] at hloop
    simp only [if_neg hs, hb] at hloop
    rw [do_code_completion_eq E fuel _ w hc, hloop]
    refine ⟨_, rfl, ?_, ?_, rfl, rfl, rfl, rfl⟩
    · simp [World.emit, after_backspaces]
    · simp only [World.emit, after_backspaces, backspaces_append, backspaces_replicate,
        backspaces]
      omega
  · intro hk hmax h26 ht he
    have hloop := code_completion_loop_at E fuel (65 + (k : Int))
      (w.current_x - (w.ycmd_globals.apply_column - 1)) k
      (find_menu_func E.MCODECOMPLETION w.allfuncs).2 0 w f hk (by simpa using hmax)
      (by omega) (by simp)
    have hs : strcmp t [] = 0 := (strcmp_eq_zero_iff_cstr t []).mpr (by rw [he]; rfl)
    rw [ht] at hloop
    simp only [if_pos hs] at hloop
    exact do_code_completion_unchanged_of E fuel _ w hc hloop hsplit
  · intro h
    have hloop := code_completion_loop_miss E fuel letter
      (w.current_x - (w.ycmd_globals.apply_column - 1))
      (find_menu_func E.MCODECOMPLETION w.allfuncs).2 0 w
      (fun i hi h1 h2 => by
        have := h i hi (by simpa using h1) (by omega)
        simpa using this)
    exact do_code_completion_unchanged_of E fuel letter w hc hloop hsplit

/-- Witness of C22: in the sample state, with the cursor in column 7 and the
start column 3, the letter `A` does five backspaces, moves the cursor to
column 2 and puts in `old`. -/
theorem do_code_completion_accepts_witness :
    ∃ w1, do_code_completion sample_env 6 65 sample_world = some w1 ∧
      w1.trace = [.do_backspace, .do_backspace, .do_backspace, .do_backspace, .do_backspace,
        .do_output (ascii "old") 3, .blank_statusbar, .bottombars 1] ∧
      w1.current_x = 2 := by
  obtain ⟨w1, h1, h2, _, h4, _⟩ := (do_code_completion_accepts sample_env 6 sample_world 0
    { menus := 16384, desc := some (ascii "old") } (ascii "old") 65 (by decide)).1
    (by decide) (by decide) (by decide) rfl (by decide) (by decide) (by decide)
  refine ⟨w1, h1, ?_, h4⟩
  rw [h2]
  decide

theorem do_code_completion_negative (E : Env) (w : World) (k : Nat) (f : subnfunc)
    (t : List Nat) (hc : w.ycmd_globals.connected ≠ 0)
    (hk : (find_menu_func E.MCODECOMPLETION w.allfuncs).2[k]? = some f)
    (hmax : (k : Int) < E.MAIN_VISIBLE) (h26 : k < 26) (ht : f.desc = some t)
    (hne : cstr t ≠ []) (hx : w.current_x < w.ycmd_globals.apply_column - 1)
    (hlo : -2147483648 ≤ w.current_x - (w.ycmd_globals.apply_column - 1)) (fuel : Nat)
    (hfuel : (w.current_x - (w.ycmd_globals.apply_column - 1) + 4294967296).toNat < fuel) :
    ∃ w1, do_code_completion E fuel (65 + (k : Int)) w = some w1 ∧
      w1.trace = w.trace ++
        List.replicate (w.current_x - (w.ycmd_globals.apply_column - 1) + 4294967296).toNat
          Event.do_backspace ++
        [.do_output (cstr t) (strlen t), .blank_statusbar, .bottombars E.MMAIN] := by
  have hloop := code_completion_loop_at E fuel (65 + (k : Int))
    (w.current_x - (w.ycmd_globals.apply_column - 1)) k
    (find_menu_func E.MCODECOMPLETION w.allfuncs).2 0 w f hk (by simpa using hmax)
    (by omega) (by simp)
  have hs : ¬ strcmp t [] = 0 := by
    intro h0
    exact hne ((strcmp_eq_zero_iff_cstr t []).mp h0)
  have hb := (backspace_loop_negative (w.current_x - (w.ycmd_globals.apply_column - 1)) w hlo
    (by omega)).1 fuel hfuel
  rw [ht] at hloop
  simp only [if_neg hs, hb] at hloop
  rw [do_code_completion_eq E fuel _ w hc, hloop]
  refine ⟨_, rfl, ?_⟩
  simp [World.emit, after_backspaces]

/-- C29, as stated, fails for the second half: with the 32-bit counter of the
source a loop started at -3 returns, after 4294967293 backspaces, and so does
`do_code_completion` in the sample state with the cursor in column 1 and the
start column 5, where the counter starts at -3. -/
theorem backspace_loop_negative_returns :
    backspace_loop 4294967294 (-3) sample_world =
      some (after_backspaces 4294967293 sample_world) ∧
    sample_left_world.current_x - (sample_left_world.ycmd_globals.apply_column - 1) = -3 ∧
    ∃ w1, do_code_completion sample_env 4294967294 65 sample_left_world = some w1 ∧
      w1.trace = sample_left_world.trace ++ List.replicate 4294967293 Event.do_backspace ++
        [.do_output (ascii "old") 3, .blank_statusbar, .bottombars 1] := by
  have e3 : sample_left_world.current_x - (sample_left_world.ycmd_globals.apply_column - 1)
      = -3 := by decide
  have eN : ((-3 : Int) + 4294967296).toNat = 4294967293 := by decide
  refine ⟨?_, e3, ?_⟩
  · have h := (backspace_loop_negative (-3) sample_world (by decide) (by decide)).1 4294967294
      (by decide)
    rw [eN] at h
    exact h
  · obtain ⟨w1, h1, h2⟩ := do_code_completion_negative sample_env sample_left_world 0
      { menus := 16384, desc := some (ascii "old") } (ascii "old") (by decide) (by decide)
      (by decide) (by decide) rfl (by decide) (by decide) (by decide) 4294967294
      (by rw [e3]; decide)
    rw [e3, eN] at h2
    exact ⟨w1, h1, h2⟩

/-- C29, amended. The backspace loop started with a counter `n` that is not
negative ends after exactly `n` iterations: it returns within any bound above
`n` on the number of loop tests, having done `n` backspaces, and does not
return within a bound of `n` or less.  Started with a negative counter `m` of
the range of `int` it ends too, the counter wrapping from `INT_MIN` to
`INT_MAX`: after exactly `m + 2^32` iterations.  So `do_code_completion`,
connected and given the letter of an entry holding a candidate that is not
empty while the cursor is left of `apply_column - 1`, returns after that many
backspaces, followed by the output of the candidate. -/
theorem backspace_loop_terminates (E : Env) (w : World) (n : Nat) (m : Int) :
    (∀ fuel, n < fuel → backspace_loop fuel (n : Int) w = some (after_backspaces n w)) ∧
    (∀ fuel, fuel ≤ n → backspace_loop fuel (n : Int) w = none) ∧
    (-2147483648 ≤ m → m < 0 →
      (∀ fuel, (m + 4294967296).toNat < fuel →
        backspace_loop fuel m w = some (after_backspaces (m + 4294967296).toNat w)) ∧
      (∀ fuel, fuel ≤ (m + 4294967296).toNat → backspace_loop fuel m w = none)) ∧
    (∀ (k : Nat) (f : subnfunc) (t : List Nat), w.ycmd_globals.connected ≠ 0 →
      (find_menu_func E.MCODECOMPLETION w.allfuncs).2[k]? = some f →
      (k : Int) < E.MAIN_VISIBLE → k < 26 → f.desc = some t → cstr t ≠ [] →
      w.current_x < w.ycmd_globals.apply_column - 1 →
      -2147483648 ≤ w.current_x - (w.ycmd_globals.apply_column - 1) →
      ∀ fuel, (w.current_x - (w.ycmd_globals.apply_column - 1) + 4294967296).toNat < fuel →
        ∃ w1, do_code_completion E fuel (65 + (k : Int)) w = some w1 ∧
          w1.trace = w.trace ++
            List.replicate (w.current_x - (w.ycmd_globals.apply_column - 1) + 4294967296).toNat
              Event.do_backspace ++
            [.do_output (cstr t) (strlen t), .blank_statusbar, .bottombars E.MMAIN]) :=
  ⟨fun fuel h => backspace_loop_nonneg n fuel w h,
    fun fuel h => backspace_loop_short fuel n w h,
    fun hlo hneg => backspace_loop_negative m w hlo hneg,
    fun k f t hc hk hmax h26 ht hne hx hlo fuel hfuel =>
      do_code_completion_negative E w k f t hc hk hmax h26 ht hne hx hlo fuel hfuel⟩

/-- Witness of C29 amended: three backspaces need four loop tests, and a loop
started at -1 returns after 4294967295 backspaces and not before. -/
theorem backspace_loop_terminates_witness :
    backspace_loop 4 3 sample_world = some (after_backspaces 3 sample_world) ∧
    backspace_loop 3 3 sample_world = none ∧
    backspace_loop 4294967296 (-1) sample_world =
      some (after_backspaces 4294967295 sample_world) ∧
    backspace_loop 4294967295 (-1) sample_world = none := by
  have h := backspace_loop_terminates sample_env sample_world 3 (-1)
  have eN : ((-1 : Int) + 4294967296).toNat = 4294967295 := by decide
  have h1 := (h.2.2.1 (by decide) (by decide)).1 4294967296 (by decide)
  have h2 := (h.2.2.1 (by decide) (by decide)).2 4294967295 (by decide)
  rw [eN] at h1
  exact ⟨h.1 4 (by decide), h.2.1 3 (by decide), h1, h2⟩

/-! ## `escape_json` as a code -/

theorem escape_json_case_plain (c : Nat) (h : 93 ≤ c) : escape_json_case c = [c] := by
  unfold escape_json_case
  split <;> first | omega | rfl

theorem unescape_json_skip : ∀ (s : List Nat) (k : Nat),
    unescape_json k s = unescape_json 0 (s.drop k) := by
  intro s
  induction s with
  | nil => intro k; cases k <;> simp [unescape_json]
  | cons c rest ih =>
    intro k
    cases k with
    | zero => simp
    | succ k => simp [unescape_json, ih k]

theorem unescape_json_case (c : Nat) (rest : List Nat) :
    unescape_json 0 (escape_json_case c ++ rest) = c :: unescape_json 0 rest := by
  by_cases h : c < 93
  · interval_cases c <;>
      simp [escape_json_case, ascii, unescape_json, unescape_letter, hex_digit_value,
        unescape_json_skip]
  · rw [escape_json_case_plain c (by omega)]
    have hc : c ≠ 0x5c := by omega
    simp [unescape_json, hc]

theorem unescape_json_images (s : List Nat) :
    unescape_json 0 (s.flatMap escape_json_case) = s := by
  induction s with
  | nil => rfl
  | cons c rest ih =>
    rw [List.flatMap_cons, unescape_json_case, ih]

theorem escape_json_eq_flatMap (s : List Nat) :
    escape_json s = (cstr s).flatMap escape_json_case := by
  unfold escape_json
  rw [escape_json_loop_eq]
  rfl

/-- C26. `escape_json` is injective on the texts of its arguments: two
buffers with the same output have the same text, and so two NUL-free texts
with the same output are equal; the text is read back from the output by
`unescape_json`. -/
theorem escape_json_injective (s1 s2 : List Nat) :
    unescape_json 0 (escape_json s1) = cstr s1 ∧
    (escape_json s1 = escape_json s2 → cstr s1 = cstr s2) ∧
    (NulFree s1 → NulFree s2 → escape_json s1 = escape_json s2 → s1 = s2) := by
  have hinv : ∀ s, unescape_json 0 (escape_json s) = cstr s := fun s => by
    rw [escape_json_eq_flatMap, unescape_json_images]
  refine ⟨hinv s1, ?_, ?_⟩
  · intro h
    rw [← hinv s1, ← hinv s2, h]
  · intro h1 h2 h
    have := congrArg (unescape_json 0) h
    rw [hinv s1, hinv s2, cstr_of_nulFree h1, cstr_of_nulFree h2] at this
    exact this

/-- Witness of C26: the output for a text with a backslash, a quote, a tab,
a vertical tab and the byte 0x1F is read back to the text, and differs from
the output for the text with the two letters `\t` in place of the tab. -/
theorem escape_json_injective_witness :
    unescape_json 0 (escape_json [92, 34, 9, 11, 31, 97]) = [92, 34, 9, 11, 31, 97] ∧
    escape_json [9] ≠ escape_json [92, 116] := by
  refine ⟨(escape_json_injective [92, 34, 9, 11, 31, 97] []).1, ?_⟩
  intro h
  have := (escape_json_injective [9] [92, 116]).2.2 (by decide) (by decide) h
  exact absurd this (by decide)

theorem escape_json_case_of_plain (c : Nat) (h : PlainByte c) : escape_json_case c = [c] := by
  by_cases hc : c < 93
  · obtain ⟨h1, h2, h3, h4⟩ := h
    interval_cases c <;> first | omega | rfl
  · exact escape_json_case_plain c (by omega)

theorem escape_json_case_not_plain (c : Nat) (h0 : c ≠ 0) (h : ¬ PlainByte c) :
    2 ≤ (escape_json_case c).length ∧ 0x5c ∈ escape_json_case c := by
  by_cases hc : c < 93
  · interval_cases c <;> first | exact absurd rfl h0 | exact absurd (by decide) h | decide
  · exact absurd ⟨by omega, by omega, by omega, by omega⟩ h

theorem flatMap_escape_fixed (s : List Nat) (hs : NulFree s) :
    (s.flatMap escape_json_case).length = s.length → ∀ c ∈ s, PlainByte c := by
  induction s with
  | nil => intro _ c hc; simp at hc
  | cons a rest ih =>
    intro h c hc
    have ha0 : a ≠ 0 := hs a (List.mem_cons_self _ _)
    have hrest : NulFree rest := fun b hb => hs b (List.mem_cons_of_mem _ hb)
    have hle := length_le_flatMap_escape rest
    have hpos := escape_json_case_length_pos a
    simp only [List.flatMap_cons, List.length_append, List.length_cons] at h
    have hap : PlainByte a := by
      by_contra hn
      have := (escape_json_case_not_plain a ha0 hn).1
      omega
    rcases List.mem_cons.mp hc with e | e
    · rw [e]; exact hap
    · rw [escape_json_case_of_plain a hap] at h
      simp only [List.length_cons, List.length_nil] at h
      exact ih hrest (by omega) c e

theorem flatMap_escape_plain (s : List Nat) (h : ∀ c ∈ s, PlainByte c) :
    s.flatMap escape_json_case = s := by
  induction s with
  | nil => rfl
  | cons a rest ih =>
    rw [List.flatMap_cons, escape_json_case_of_plain a (h a (List.mem_cons_self _ _)),
      ih (fun c hc => h c (List.mem_cons_of_mem _ hc))]
    rfl

theorem escape_json_fixed (t : List Nat) :
    escape_json t = cstr t ↔ ∀ b ∈ cstr t, PlainByte b := by
  rw [escape_json_eq_flatMap]
  constructor
  · intro h
    exact flatMap_escape_fixed (cstr t) (cstr_nulFree t) (congrArg List.length h)
  · exact flatMap_escape_plain (cstr t)

theorem escape_json_case_nulFree (c : Nat) (h0 : c ≠ 0) : NulFree (escape_json_case c) := by
  by_cases hc : c < 93
  · interval_cases c <;> first | exact absurd rfl h0 | decide
  · rw [escape_json_case_plain c (by omega)]
    intro b hb
    simp only [List.mem_singleton] at hb
    omega

theorem escape_json_nulFree (s : List Nat) : NulFree (escape_json s) := by
  rw [escape_json_eq_flatMap]
  intro b hb
  obtain ⟨c, hc, hbc⟩ := List.mem_flatMap.mp hb
  exact escape_json_case_nulFree c (cstr_nulFree s c hc) b hbc

/-- C24, as stated, fails: the output of `escape_json` for the text of one
double quote is the two ASCII bytes backslash and quote, neither a control
character, and `escape_json` applied to it gives four bytes. -/
theorem escape_json_not_idempotent :
    escape_json (ascii "\"") = [92, 34] ∧
    escape_json (escape_json (ascii "\"")) = [92, 92, 92, 34] ∧
    escape_json (escape_json (ascii "\"")) ≠ escape_json (ascii "\"") := by
  decide

/-- C24, amended. `escape_json` returns the text of its argument unchanged
exactly when that text has none of the bytes 0x01 to 0x1F, double quote,
slash and backslash; an output of `escape_json` is returned unchanged by a
second pass exactly when the text it was made from has none of those bytes,
in which case the output is that text, and otherwise the output has a
backslash, which the second pass doubles. -/
theorem escape_json_idempotent_iff (s : List Nat) :
    (escape_json s = cstr s ↔ ∀ b ∈ cstr s, PlainByte b) ∧
    (escape_json (escape_json s) = escape_json s ↔ ∀ b ∈ cstr s, PlainByte b) ∧
    ((∀ b ∈ cstr s, PlainByte b) → escape_json s = cstr s) ∧
    (¬ (∀ b ∈ cstr s, PlainByte b) → 0x5c ∈ escape_json s ∧
      (escape_json s).length < (escape_json (escape_json s)).length) := by
  have hfix := escape_json_fixed s
  have hout : cstr (escape_json s) = escape_json s := cstr_of_nulFree (escape_json_nulFree s)
  have hbs : ¬ (∀ b ∈ cstr s, PlainByte b) → 0x5c ∈ escape_json s := by
    intro hn
    simp only [not_forall] at hn
    obtain ⟨b, hb, hnp⟩ := hn
    rw [escape_json_eq_flatMap]
    exact List.mem_flatMap.mpr
      ⟨b, hb, (escape_json_case_not_plain b (cstr_nulFree s b hb) hnp).2⟩
  have h2 : escape_json (escape_json s) = escape_json s ↔ ∀ b ∈ cstr s, PlainByte b := by
    constructor
    · intro h
      by_contra hn
      have hmem := hbs hn
      have hplain := (escape_json_fixed (escape_json s)).mp (by rw [hout]; exact h)
      rw [hout] at hplain
      exact absurd (hplain _ hmem) (by decide)
    · intro h
      have e := hfix.mpr h
      have hc : cstr (cstr s) = cstr s := cstr_cstr s
      rw [e]
      have := (escape_json_fixed (cstr s)).mpr (by rw [hc]; exact h)
      rw [this, hc]
  refine ⟨hfix, h2, hfix.mpr, fun hn => ⟨hbs hn, ?_⟩⟩
  have hle : (escape_json s).length ≤ (escape_json (escape_json s)).length := by
    have := length_le_flatMap_escape (cstr (escape_json s))
    rw [← escape_json_eq_flatMap, hout] at this
    exact this
  rcases Nat.lt_or_ge (escape_json s).length (escape_json (escape_json s)).length with h | h
  · exact h
  · exfalso
    have heq : (escape_json (escape_json s)).length = (escape_json s).length := by omega
    have hplain := flatMap_escape_fixed (cstr (escape_json s)) (cstr_nulFree _)
      (by rw [← escape_json_eq_flatMap, hout]; exact heq)
    rw [hout] at hplain
    exact absurd (hplain _ (hbs hn)) (by decide)

/-- Witness of C24: a text of letters and spaces is returned as it is, by
the first pass and by the second. -/
theorem escape_json_idempotent_iff_witness :
    escape_json (ascii "int x = 1;") = ascii "int x = 1;" ∧
    escape_json (escape_json (ascii "int x = 1;")) = escape_json (ascii "int x = 1;") := by
  have h := escape_json_idempotent_iff (ascii "int x = 1;")
  exact ⟨h.2.2.1 (by decide), h.2.1.mpr (by decide)⟩

/-! ## The file type and the path -/

theorem starts_with_head_ne (d c : Nat) (p rest : List Nat) (h : c ≠ d) :
    starts_with (c :: rest) (d :: p) = false := by
  simp [starts_with, h]

theorem occurs_in_stem (d : Nat) (p ext : List Nat) :
    ∀ stem : List Nat, d ∉ stem →
      occurs_in (stem ++ ext) (d :: p) = occurs_in ext (d :: p) := by
  intro stem
  induction stem with
  | nil => intro _; rfl
  | cons c rest ih =>
    intro h
    have hc : c ≠ d := fun e => h (e ▸ List.mem_cons_self _ _)
    have hr : d ∉ rest := fun e => h (List.mem_cons_of_mem _ e)
    have e : (c :: rest) ++ ext = c :: (rest ++ ext) := rfl
    rw [e, occurs_in, starts_with_head_ne d c p _ hc, ih hr]
    rfl

theorem cstr_stem_append (ext : List Nat) :
    ∀ stem : List Nat, NulFree stem → cstr (stem ++ ext) = stem ++ cstr ext := by
  intro stem
  induction stem with
  | nil => intro _; rfl
  | cons c rest ih =>
    intro h
    have hc : c ≠ 0 := h c (List.mem_cons_self _ _)
    have hr : NulFree rest := fun b hb => h b (List.mem_cons_of_mem _ hb)
    have ih1 := ih hr
    unfold cstr at ih1 ⊢
    have e : (c :: rest) ++ ext = c :: (rest ++ ext) := rfl
    rw [e]
    simp only [strlen, if_neg hc, List.take_succ_cons, ih1]
    rfl

theorem strstr_stem (stem ext pat p : List Nat) (hs : ∀ b ∈ stem, b ≠ 46 ∧ b ≠ 0)
    (hp : cstr pat = 46 :: p) : strstr (stem ++ ext) pat = strstr ext pat := by
  unfold strstr
  rw [cstr_stem_append ext stem (fun b hb => (hs b hb).2), hp]
  exact occurs_in_stem 46 p (cstr ext) stem (fun h => (hs 46 h).1 rfl)

theorem _ycmd_get_filetype_stem (stem ext : List Nat) (content : Option (List Nat))
    (hs : ∀ b ∈ stem, b ≠ 46 ∧ b ≠ 0) :
    _ycmd_get_filetype (stem ++ ext) content = _ycmd_get_filetype ext content := by
  unfold _ycmd_get_filetype
  rw [strstr_stem stem ext (ascii ".cs") _ hs rfl, strstr_stem stem ext (ascii ".go") _ hs rfl,
    strstr_stem stem ext (ascii ".rs") _ hs rfl, strstr_stem stem ext (ascii ".mm") _ hs rfl,
    strstr_stem stem ext (ascii ".m") _ hs rfl, strstr_stem stem ext (ascii ".cpp") _ hs rfl,
    strstr_stem stem ext (ascii ".C") _ hs rfl, strstr_stem stem ext (ascii ".cxx") _ hs rfl,
    strstr_stem stem ext (ascii ".c") _ hs rfl, strstr_stem stem ext (ascii ".hpp") _ hs rfl,
    strstr_stem stem ext (ascii ".h") _ hs rfl, strstr_stem stem ext (ascii ".js") _ hs rfl,
    strstr_stem stem ext (ascii ".py") _ hs rfl, strstr_stem stem ext (ascii ".ts") _ hs rfl]

theorem _ycmd_get_filetype_table (content : Option (List Nat)) :
    _ycmd_get_filetype (ascii ".py") content = some (ascii "python") ∧
    _ycmd_get_filetype (ascii ".js") content = some (ascii "javascript") ∧
    _ycmd_get_filetype (ascii ".ts") content = some (ascii "typescript") ∧
    _ycmd_get_filetype (ascii ".go") content = some (ascii "go") ∧
    _ycmd_get_filetype (ascii ".rs") content = some (ascii "rust") ∧
    _ycmd_get_filetype (ascii ".cs") content = some (ascii "cs") ∧
    _ycmd_get_filetype (ascii ".c") content = some (ascii "c") ∧
    _ycmd_get_filetype (ascii ".cpp") content = some (ascii "cpp") ∧
    _ycmd_get_filetype (ascii ".cxx") content = some (ascii "cpp") ∧
    _ycmd_get_filetype (ascii ".C") content = some (ascii "cpp") ∧
    _ycmd_get_filetype (ascii ".hpp") content = some (ascii "cpp") ∧
    _ycmd_get_filetype (ascii ".m") content = some (ascii "objc") ∧
    _ycmd_get_filetype (ascii ".mm") content = some (ascii "objcpp") := by
  refine ⟨?_, ?_, ?_, ?_, ?_, ?_, ?_, ?_, ?_, ?_, ?_, ?_, ?_⟩ <;> rfl

/-- C21 (counterexample): the same file name `a.py` is tagged `python` under
`/home/user/` and `c` under `/home/user/.config/`, where `.c` occurs in a
directory name; and `a.min.js`, a JavaScript file, is tagged `objc` because
`.m` occurs earlier in the file name. -/
theorem _ycmd_get_filetype_reads_whole_path :
    _ycmd_get_filetype (ascii "/home/user/a.py") (some (ascii "x")) = some (ascii "python") ∧
    _ycmd_get_filetype (ascii "/home/user/.config/a.py") (some (ascii "x")) = some (ascii "c") ∧
    _ycmd_get_filetype (ascii "/home/user/a.js") (some (ascii "x")) =
      some (ascii "javascript") ∧
    _ycmd_get_filetype (ascii "/home/user/a.min.js") (some (ascii "x")) =
      some (ascii "objc") := by
  decide

/-- C21 (amended): for a path `stem ++ ext` whose part `stem` before the
extension holds no dot (and no NUL), the tag of `_ycmd_get_filetype` is the
tag of the extension alone, whatever the directory and file names are: `.py`
python, `.js` javascript, `.ts` typescript, `.go` go, `.rs` rust, `.cs` cs,
`.c` c, `.cpp`, `.cxx`, `.C` and `.hpp` cpp, `.m` objc, `.mm` objcpp, and `.h`
gives cpp when the content holds one of the seven marker texts and c
otherwise (with a NULL content the search of the content faults). -/
theorem _ycmd_get_filetype_by_extension (stem ext : List Nat) (content : Option (List Nat))
    (hs : ∀ b ∈ stem, b ≠ 46 ∧ b ≠ 0) :
    _ycmd_get_filetype (stem ++ ext) content = _ycmd_get_filetype ext content ∧
    _ycmd_get_filetype (stem ++ ascii ".py") content = some (ascii "python") ∧
    _ycmd_get_filetype (stem ++ ascii ".js") content = some (ascii "javascript") ∧
    _ycmd_get_filetype (stem ++ ascii ".ts") content = some (ascii "typescript") ∧
    _ycmd_get_filetype (stem ++ ascii ".go") content = some (ascii "go") ∧
    _ycmd_get_filetype (stem ++ ascii ".rs") content = some (ascii "rust") ∧
    _ycmd_get_filetype (stem ++ ascii ".cs") content = some (ascii "cs") ∧
    _ycmd_get_filetype (stem ++ ascii ".c") content = some (ascii "c") ∧
    _ycmd_get_filetype (stem ++ ascii ".cpp") content = some (ascii "cpp") ∧
    _ycmd_get_filetype (stem ++ ascii ".cxx") content = some (ascii "cpp") ∧
    _ycmd_get_filetype (stem ++ ascii ".C") content = some (ascii "cpp") ∧
    _ycmd_get_filetype (stem ++ ascii ".hpp") content = some (ascii "cpp") ∧
    _ycmd_get_filetype (stem ++ ascii ".m") content = some (ascii "objc") ∧
    _ycmd_get_filetype (stem ++ ascii ".mm") content = some (ascii "objcpp") ∧
    (∀ c : List Nat, _ycmd_get_filetype (stem ++ ascii ".h") (some c) =
      some (if strstr c (ascii "using namespace") || strstr c (ascii "iostream")
          || strstr c (ascii "\tclass ") || strstr c (ascii " class ")
          || strstr c (ascii "private:") || strstr c (ascii "public:")
          || strstr c (ascii "protected:") then ascii "cpp" else ascii "c")) ∧
    _ycmd_get_filetype (stem ++ ascii ".h") none = none := by
  have t := _ycmd_get_filetype_table content
  have st := fun e => _ycmd_get_filetype_stem stem e content hs
  refine ⟨st ext, (st _).trans t.1, (st _).trans t.2.1, (st _).trans t.2.2.1,
    (st _).trans t.2.2.2.1, (st _).trans t.2.2.2.2.1, (st _).trans t.2.2.2.2.2.1,
    (st _).trans t.2.2.2.2.2.2.1, (st _).trans t.2.2.2.2.2.2.2.1,
    (st _).trans t.2.2.2.2.2.2.2.2.1, (st _).trans t.2.2.2.2.2.2.2.2.2.1,
    (st _).trans t.2.2.2.2.2.2.2.2.2.2.1, (st _).trans t.2.2.2.2.2.2.2.2.2.2.2.1,
    (st _).trans t.2.2.2.2.2.2.2.2.2.2.2.2, ?_, ?_⟩
  · intro c
    rw [_ycmd_get_filetype_stem stem (ascii ".h") (some c) hs]
    have e : _ycmd_get_filetype (ascii ".h") (some c) =
        (if strstr c (ascii "using namespace") || strstr c (ascii "iostream")
          || strstr c (ascii "\tclass ") || strstr c (ascii " class ")
          || strstr c (ascii "private:") || strstr c (ascii "public:")
          || strstr c (ascii "protected:") then some (ascii "cpp") else some (ascii "c")) := rfl
    rw [e]
    split <;> rfl
  · rw [_ycmd_get_filetype_stem stem (ascii ".h") none hs]
    rfl

theorem _ycmd_get_filetype_by_extension_witness :
    (∀ b ∈ ascii "/home/user/main", b ≠ 46 ∧ b ≠ 0) ∧
    _ycmd_get_filetype (ascii "/home/user/main" ++ ascii ".py") (some (ascii "x")) =
      some (ascii "python") ∧
    _ycmd_get_filetype (ascii "/home/user/main" ++ ascii ".h") (some (ascii "x")) =
      _ycmd_get_filetype (ascii ".h") (some (ascii "x")) :=
  ⟨by decide,
    (_ycmd_get_filetype_by_extension (ascii "/home/user/main") (ascii ".h")
      (some (ascii "x")) (by decide)).2.1,
    (_ycmd_get_filetype_by_extension (ascii "/home/user/main") (ascii ".h")
      (some (ascii "x")) (by decide)).1⟩

/-! ## Stopping twice -/

theorem ycmd_stop_server_json (w : World) :
    (ycmd_stop_server w).ycmd_globals.json = w.ycmd_globals.json := by
  rw [ycmd_stop_server_globals]

theorem ycmd_stop_server_again (w : World) :
    (ycmd_stop_server (ycmd_stop_server w)).ycmd_globals = (ycmd_stop_server w).ycmd_globals ∧
    (ycmd_stop_server (ycmd_stop_server w)).files = (ycmd_stop_server w).files ∧
    (ycmd_stop_server (ycmd_stop_server w)).trace = (ycmd_stop_server w).trace ++
      [.ne_close_connection, .ne_session_destroy, .close w.ycmd_globals.tcp_socket] := by
  have hp := ycmd_stop_server_post w
  refine ⟨?_, ?_, ?_⟩
  · rw [ycmd_stop_server_globals (ycmd_stop_server w), ycmd_stop_server_globals w]
  · rw [ycmd_stop_server_files (ycmd_stop_server w), ycmd_stop_server_files w,
      ycmd_stop_server_globals w]
    simp
  · have hf : file_exists (ycmd_stop_server w)
        (ycmd_stop_server w).ycmd_globals.tmp_options_filename = false := by
      have e : (ycmd_stop_server w).ycmd_globals.tmp_options_filename =
          w.ycmd_globals.tmp_options_filename := by rw [ycmd_stop_server_globals]
      rw [e]; exact hp.2.2.2.1
    have hs : (ycmd_stop_server w).ycmd_globals.tcp_socket = w.ycmd_globals.tcp_socket := by
      rw [ycmd_stop_server_globals]
    rw [ycmd_stop_server_trace (ycmd_stop_server w)]
    simp [stop_effects, hf, hp.2.2.1, hs]

theorem ycmd_stop_server_checked_some (s s1 : World × Allocations)
    (h : ycmd_stop_server_checked s = some s1) :
    s1.1 = ycmd_stop_server s.1 ∧ s1.2.session_alive = false ∧
      (s.1.ycmd_globals.json ≠ none → s1.2.json_allocated = false) := by
  unfold ycmd_stop_server_checked ne_session_release at h
  by_cases ha : s.2.session_alive = true
  · rw [if_pos ha] at h
    by_cases hj : s.1.ycmd_globals.json ≠ none
    · rw [if_pos hj] at h
      unfold free at h
      by_cases hb : s.2.json_allocated = true
      · rw [if_pos hb] at h
        simp only [Option.some.injEq] at h
        subst h
        exact ⟨rfl, rfl, fun _ => rfl⟩
      · rw [if_neg hb] at h
        cases h
    · rw [if_neg hj] at h
      simp only [Option.some.injEq] at h
      subst h
      exact ⟨rfl, rfl, fun hj2 => absurd hj2 hj⟩
  · rw [if_neg ha] at h
    cases h

theorem ycmd_stop_server_checked_dead (w : World) (a : Allocations)
    (h : a.session_alive = false) : ycmd_stop_server_checked (w, a) = none := by
  simp [ycmd_stop_server_checked, ne_session_release, h]

theorem ycmd_stop_server_checked_freed (w : World) (a : Allocations)
    (hj : w.ycmd_globals.json ≠ none) (h : a.json_allocated = false) :
    ycmd_stop_server_checked (w, a) = none := by
  unfold ycmd_stop_server_checked
  cases hs : ne_session_release a.session_alive with
  | none => simp [hs]
  | some b => simp [hs, hj, free, h]
theorem ycmd_stop_server_checked_alive (w : World) (a : Allocations)
    (hs : a.session_alive = true)
    (hj : w.ycmd_globals.json = none ∨ a.json_allocated = true) :
    ycmd_stop_server_checked (w, a) = some (ycmd_stop_server w,
      { json_allocated := if w.ycmd_globals.json ≠ none then false else a.json_allocated,
        session_alive := false }) := by
  unfold ycmd_stop_server_checked ne_session_release
  simp only [hs, if_true]
  by_cases hn : w.ycmd_globals.json ≠ none
  · have ha : a.json_allocated = true := by
      rcases hj with h | h
      · exact absurd h hn
      · exact h
    simp only [if_pos hn, free, ha, if_true]
  · simp only [if_neg hn]

/-- C9 (failing input, and what holds): `ycmd_stop_server` does not return
from every state.  From a state whose session is not alive, as `ycmd_init`
leaves it before any start has created one, or as a previous stop leaves it,
the session calls fault; and where `json` is not NULL while its block has
been freed, `free` faults.  From every other state the call returns, leaving
`running` 0, `connected` 0 and `child_pid` -1, the session destroyed and the
block of `json` freed; the recorded temp config file does not exist
afterwards while every other file is kept, and among the effects added a
`kill` appears exactly when `child_pid` was not -1 on entry, being `SIGKILL`
sent to that pid. -/
theorem ycmd_stop_server_from_state (w : World) (a : Allocations) :
    (a.session_alive = false → ycmd_stop_server_checked (w, a) = none) ∧
    (w.ycmd_globals.json ≠ none → a.json_allocated = false →
      ycmd_stop_server_checked (w, a) = none) ∧
    (a.session_alive = true → (w.ycmd_globals.json = none ∨ a.json_allocated = true) →
      ∃ w1 a1, ycmd_stop_server_checked (w, a) = some (w1, a1) ∧
        a1.session_alive = false ∧
        (w.ycmd_globals.json ≠ none → a1.json_allocated = false) ∧
        w1.ycmd_globals.running = 0 ∧ w1.ycmd_globals.connected = 0 ∧
        w1.ycmd_globals.child_pid = -1 ∧
        file_exists w1 w.ycmd_globals.tmp_options_filename = false ∧
        w1.files =
          w.files.filter (fun f => decide (f.1 ≠ cstr w.ycmd_globals.tmp_options_filename)) ∧
        ∃ added, w1.trace = w.trace ++ added ∧
          (Event.kill w.ycmd_globals.child_pid SIGKILL ∈ added ↔
            w.ycmd_globals.child_pid ≠ -1) ∧
          ∀ pid sig, Event.kill pid sig ∈ added →
            pid = w.ycmd_globals.child_pid ∧ sig = SIGKILL) := by
  refine ⟨ycmd_stop_server_checked_dead w a, ycmd_stop_server_checked_freed w a, ?_⟩
  intro hs hj
  obtain ⟨p1, p2, p3, p4, p5, p6⟩ := ycmd_stop_server_post w
  refine ⟨_, _, ycmd_stop_server_checked_alive w a hs hj, rfl, ?_, p1, p2, p3, p4, p5, p6⟩
  intro hn
  simp only [if_pos hn]

/-- Witness of C9: from the state `ycmd_init` leaves, with no session, the
call does not return; from the sample state with a server started it returns
with `running` 0 and `child_pid` -1. -/
theorem ycmd_stop_server_from_state_witness :
    ycmd_stop_server_checked (sample_idle_world, ⟨false, false⟩) = none ∧
    ∃ w1 a1, ycmd_stop_server_checked (sample_started_world, ⟨true, true⟩) = some (w1, a1) ∧
      w1.ycmd_globals.running = 0 ∧ w1.ycmd_globals.child_pid = -1 := by
  refine ⟨(ycmd_stop_server_from_state sample_idle_world ⟨false, false⟩).1 rfl, ?_⟩
  obtain ⟨w1, a1, h, _, _, h1, _, h3, _⟩ :=
    (ycmd_stop_server_from_state sample_started_world ⟨true, true⟩).2.2 rfl (Or.inr rfl)
  exact ⟨w1, a1, h, h1, h3⟩

theorem start_server_parent_json (E : Env) (o : StartOutcomes) (pid : Int) (w : World)
    (hw : o.waitpid_ret ≠ 0) :
    (start_server_parent E o pid w).ycmd_globals.json = w.ycmd_globals.json := by
  unfold start_server_parent
  simp only [hw, if_false]
  rw [ycmd_stop_server_globals]
  rfl

theorem ycmd_start_server_json (E : Env) (o : StartOutcomes) (w : World)
    (hs : w.ycmd_globals.secret_key_base64 ≠ none) (hf : o.fork_ret ≠ 0)
    (hport : (find_unused_localhost_port o w).2 ≠ -1) (hw : o.waitpid_ret ≠ 0) :
    ∃ w1, ycmd_start_server E o w = some w1 ∧ w1.ycmd_globals.json ≠ none ∧
      w1.ycmd_globals.running = 0 := by
  have hq := find_unused_localhost_port_quiet o w
  rcases hP : find_unused_localhost_port o w with ⟨wp, port⟩
  rw [hP] at hq hport
  simp only at hq hport
  have hsp : wp.ycmd_globals.secret_key_base64 ≠ none := by rw [hq.2.2.2.2.2]; exact hs
  unfold ycmd_start_server
  simp only [hP, Option.bind_eq_bind, Option.pure_def]
  rw [if_neg hport]
  obtain ⟨sk, hsk⟩ := Option.ne_none_iff_exists'.mp hsp
  obtain ⟨json, hjson⟩ := options_file_json_some E sk
  have hj : options_file_json E wp.ycmd_globals.secret_key_base64 = some json := by
    rw [hsk]; exact hjson
  simp only [hj, Option.some_bind, hf, if_false]
  refine ⟨_, rfl, ?_, (start_server_parent_dead E o o.fork_ret _ hw).1⟩
  rw [start_server_parent_json E o o.fork_ret _ hw]
  simp

/-- C23 (failing input): whenever a call of `ycmd_stop_server` returns, a
second call right after it does not: the session it closes and destroys has
been destroyed by the first call, and, the session calls apart, the block of
`ycmd_globals.json` it frees (the pointer is not NULL and is never reset) has
been freed by the first call.  Memory apart, the second call is as claimed:
the globals, among them `running`, `connected` and `child_pid`, and the files
are those after the first call, and the effects added are the two session
calls and `close`, so no `kill` and no `unlink`. -/
theorem ycmd_stop_server_twice_faults (s s1 : World × Allocations)
    (h : ycmd_stop_server_checked s = some s1) :
    ycmd_stop_server_checked s1 = none ∧
    (s.1.ycmd_globals.json ≠ none →
      ycmd_stop_server_checked (s1.1, { s1.2 with session_alive := true }) = none) ∧
    (ycmd_stop_server s1.1).ycmd_globals = s1.1.ycmd_globals ∧
    (ycmd_stop_server s1.1).files = s1.1.files ∧
    (ycmd_stop_server s1.1).trace = s1.1.trace ++
      [.ne_close_connection, .ne_session_destroy, .close s.1.ycmd_globals.tcp_socket] := by
  obtain ⟨h1, h2, h3⟩ := ycmd_stop_server_checked_some s s1 h
  have ha := ycmd_stop_server_again s.1
  refine ⟨ycmd_stop_server_checked_dead s1.1 s1.2 h2, ?_, ?_, ?_, ?_⟩
  · intro hj
    apply ycmd_stop_server_checked_freed
    · rw [h1, ycmd_stop_server_json]; exact hj
    · exact h3 hj
  · rw [h1]; exact ha.1
  · rw [h1]; exact ha.2.1
  · rw [h1]; exact ha.2.2

theorem ycmd_stop_server_twice_faults_witness :
    ycmd_stop_server_checked (sample_started_world, ⟨true, true⟩) =
      some (ycmd_stop_server sample_started_world, ⟨false, false⟩) ∧
    ycmd_stop_server_checked (ycmd_stop_server sample_started_world, ⟨false, false⟩) = none ∧
    ycmd_stop_server_checked (ycmd_stop_server sample_started_world, ⟨false, true⟩) = none :=
  ⟨rfl,
    (ycmd_stop_server_twice_faults (sample_started_world, ⟨true, true⟩)
      (ycmd_stop_server sample_started_world, ⟨false, false⟩) rfl).1,
    (ycmd_stop_server_twice_faults (sample_started_world, ⟨true, true⟩)
      (ycmd_stop_server sample_started_world, ⟨false, false⟩) rfl).2.1 (by decide)⟩

/-- A start of the server in which `waitpid` does not return 0 calls
`ycmd_stop_server` itself; the call of `ycmd_stop_server` that
`ycmd_destroy` makes afterwards, with no start in between, is then a second
stop and does not return. -/
theorem ycmd_stop_server_after_failed_start (E : Env) (o : StartOutcomes) (w : World)
    (a : Allocations) (hs : w.ycmd_globals.secret_key_base64 ≠ none) (hf : o.fork_ret ≠ 0)
    (hport : (find_unused_localhost_port o w).2 ≠ -1) (hw : o.waitpid_ret ≠ 0) :
    ∃ s1, ycmd_start_server_checked E o (w, a) = some s1 ∧
      s1.1.ycmd_globals.running = 0 ∧ ycmd_stop_server_checked s1 = none := by
  obtain ⟨w1, h1, _, h3⟩ := ycmd_start_server_json E o w hs hf hport hw
  refine ⟨(w1, ⟨false, false⟩), ?_, h3, ycmd_stop_server_checked_dead _ _ rfl⟩
  unfold ycmd_start_server_checked
  simp only [h1]
  rw [if_neg hport, if_neg hw]
  rfl

theorem ycmd_stop_server_after_failed_start_witness :
    sample_idle_world.ycmd_globals.secret_key_base64 ≠ none ∧
    (sample_start 100 1).fork_ret ≠ 0 ∧ (sample_start 100 1).waitpid_ret ≠ 0 ∧
    ∃ s1, ycmd_start_server_checked sample_env (sample_start 100 1)
        (sample_idle_world, ⟨false, false⟩) = some s1 ∧
      s1.1.ycmd_globals.running = 0 ∧ ycmd_stop_server_checked s1 = none :=
  ⟨by decide, by decide, by decide,
    ycmd_stop_server_after_failed_start sample_env (sample_start 100 1) sample_idle_world
      ⟨false, false⟩ (by decide) (by decide) (by decide) (by decide)⟩

/-! ## What is sent before the server is ready -/

theorem readiness_body (ft : List Nat) :
    string_replace_w (strdup (ascii "subserver=FILE_TYPE")) (ascii "FILE_TYPE") (some ft) =
      some (ascii "subserver=" ++ cstr ft) := by
  rw [string_replace_w_eq _ _ _ (by decide)]
  have e1 : cstr (ascii "FILE_TYPE") = ascii "FILE_TYPE" := by decide
  have e2 : cstr (strdup (ascii "subserver=FILE_TYPE")) =
      ascii "subserver" ++ 61 :: ascii "FILE_TYPE" := by decide
  rw [e1, e2, replace_all_delim _ _ 61 (by decide) (by decide),
    replace_all_clean _ _ _ (by decide), replace_all_self _ _ (by decide)]
  rfl

theorem ycmd_rsp_is_server_ready_sent (E : Env) (resp : Response) (ft : List Nat) (w wr : World)
    (r : Int) (hft : NulFree ft) (h : ycmd_rsp_is_server_ready E resp ft w = some (wr, r)) :
    wr = w.emit (.request (readiness_request E w.ycmd_globals ft)) := by
  unfold ycmd_rsp_is_server_ready at h
  have hb := readiness_body ft
  rw [cstr_of_nulFree hft] at hb
  have hn : NulFree (ascii "subserver=" ++ ft) := nulFree_append (by decide) hft
  have ht : (ascii "subserver=" ++ ft).take (strlen (ascii "subserver=" ++ ft)) =
      ascii "subserver=" ++ ft := cstr_of_nulFree hn
  have hp : strdup (ascii "/ready") = ascii "/ready" := by decide
  simp only [hb, Option.bind_eq_bind, Option.some_bind, ht, hp] at h
  by_cases hbeg : resp.begin_ret ≥ 0
  · rw [if_pos hbeg] at h
    cases hnc : ycmd_compare_hmac resp.hmac_header
        (ycmd_compute_response E.crypto E.ssl
          (w.emit (.request
            { method := ascii "GET", path := ascii "/ready", idempotent := 1,
              headers := [(E.HTTP_HEADER_YCM_HMAC,
                cstr (ycmd_compute_request E.crypto E.ssl w.ycmd_globals.secret_key_raw
                  (ascii "GET") (ascii "/ready") (ascii "subserver=" ++ ft)))],
              body := some (ascii "subserver=" ++ ft) })).ycmd_globals.secret_key_raw
          (response_body_memory resp)) with
    | none =>
      rw [hnc] at h
      cases h
    | some nc =>
      rw [hnc] at h
      simp only [Option.some_bind, Option.some.injEq, Prod.mk.injEq] at h
      rw [← h.1]
      rfl
  · rw [if_neg hbeg] at h
    simp only [Option.some.injEq, Prod.mk.injEq] at h
    rw [← h.1]
    rfl
theorem ycmd_json_event_notification_extends (E : Env) (resp : Response)
    (columnnum linenum : Int) (filepath eventname : List Nat) (content : Option (List Nat))
    (w w1 : World) (ret : Int)
    (h : ycmd_json_event_notification E resp columnnum linenum filepath eventname content w =
      some (w1, ret)) : ∃ more, w1.trace = w.trace ++ more := by
  cases hj : event_notification_body E w columnnum linenum filepath eventname content with
  | none => simp [ycmd_json_event_notification, hj] at h
  | some json =>
    rw [ycmd_json_event_notification_eq E resp columnnum linenum filepath eventname content w
      json hj] at h
    simp only [Option.some.injEq, Prod.mk.injEq] at h
    exact ⟨_, by rw [← h.1]; rfl⟩

theorem _ycmd_req_simple_request_extends (E : Env) (resp : Response) (path : List Nat)
    (linenum columnnum : Int) (filepath : List Nat) (content : Option (List Nat))
    (w w1 : World)
    (h : (_ycmd_req_simple_request E resp (ascii "POST") path linenum columnnum filepath
      content w).map Prod.fst = some w1) : ∃ more, w1.trace = w.trace ++ more := by
  cases hj : simple_request_body E w linenum columnnum filepath content with
  | none => simp [_ycmd_req_simple_request, hj] at h
  | some json =>
    rw [_ycmd_req_simple_request_post E resp path linenum columnnum filepath content w
      json hj] at h
    simp only [Option.map_some', Option.some.injEq] at h
    exact ⟨_, by rw [← h]; rfl⟩

theorem ycmd_gen_extra_conf_extends (find_ret : Int) (filepath : List Nat)
    (content : Option (List Nat)) (w : World) :
    ∃ more, (ycmd_gen_extra_conf find_ret filepath content w).trace = w.trace ++ more ∧
      more ≠ [] := by
  unfold ycmd_gen_extra_conf
  by_cases hf : find_ret = 0
  · simp only [hf, if_true, World.emit, List.append_assoc]
    exact ⟨_, rfl, by simp⟩
  · simp only [hf, if_false, World.emit]
    exact ⟨_, rfl, by simp⟩

theorem ycmd_event_notify_sent (E : Env) (ready notify : Response) (eventname : List Nat)
    (columnnum linenum : Int) (filepath : List Nat) (fileage : List (List Nat)) (w w1 : World)
    (hc : w.ycmd_globals.connected ≠ 0)
    (h : ycmd_event_notify E ready notify eventname columnnum linenum filepath fileage w =
      some w1) :
    ∃ ft r more, _ycmd_get_filetype filepath (get_all_content fileage) = some ft ∧
      ft ∈ filetype_tags ∧
      ycmd_rsp_is_server_ready E ready ft w =
        some (w.emit (.request (readiness_request E w.ycmd_globals ft)), r) ∧
      w1.trace = w.trace ++ .request (readiness_request E w.ycmd_globals ft) :: more ∧
      (more ≠ [] → w.ycmd_globals.running ≠ 0 ∧ r ≠ 0) := by
  unfold ycmd_event_notify at h
  rw [if_neg hc] at h
  cases hft : _ycmd_get_filetype filepath (get_all_content fileage) with
  | none => simp [hft] at h
  | some ft =>
    have htag := _ycmd_get_filetype_tag _ _ ft hft
    cases hr : ycmd_rsp_is_server_ready E ready ft w with
    | none => simp [hft, hr] at h
    | some p =>
      obtain ⟨wr, r⟩ := p
      have hwr := ycmd_rsp_is_server_ready_sent E ready ft w wr r
        (filetype_tags_nulFree ft htag) hr
      simp only [hft, hr, Option.bind_eq_bind, Option.some_bind] at h
      refine ⟨ft, r, ?_⟩
      by_cases hcond : wr.ycmd_globals.running ≠ 0 ∧ r ≠ 0
      · rw [if_pos hcond] at h
        cases hn : ycmd_json_event_notification E notify columnnum linenum filepath eventname
            (get_all_content fileage) wr with
        | none => simp [hn] at h
        | some q =>
          obtain ⟨w2, ret⟩ := q
          obtain ⟨more, hm⟩ := ycmd_json_event_notification_extends E notify columnnum linenum
            filepath eventname (get_all_content fileage) wr w2 ret hn
          simp only [hn, Option.some_bind, Option.some.injEq] at h
          subst h
          refine ⟨more, rfl, htag, by rw [hr, hwr], ?_, fun _ => ?_⟩
          · rw [hm, hwr]; simp [World.emit]
          · rw [hwr] at hcond; exact hcond
      · rw [if_neg hcond] at h
        simp only [Option.some.injEq] at h
        subst h
        refine ⟨[], rfl, htag, by rw [hr, hwr], ?_, fun hne => absurd rfl hne⟩
        rw [hwr]; rfl

theorem ycmd_event_file_ready_to_parse_sent (E : Env) (o : ParseOutcomes)
    (columnnum linenum : Int) (filepath : List Nat) (fileage : List (List Nat)) (w w1 : World)
    (hc : w.ycmd_globals.connected ≠ 0)
    (h : ycmd_event_file_ready_to_parse E o columnnum linenum filepath fileage w = some w1) :
    ∃ ft r more, _ycmd_get_filetype filepath (get_all_content fileage) = some ft ∧
      ft ∈ filetype_tags ∧
      ycmd_rsp_is_server_ready E o.ready ft w =
        some (w.emit (.request (readiness_request E w.ycmd_globals ft)), r) ∧
      w1.trace = w.trace ++ .request (readiness_request E w.ycmd_globals ft) :: more ∧
      (more ≠ [] → w.ycmd_globals.running ≠ 0 ∧ r ≠ 0) := by
  unfold ycmd_event_file_ready_to_parse at h
  rw [if_neg hc] at h
  cases hft : _ycmd_get_filetype filepath (get_all_content fileage) with
  | none => simp [hft] at h
  | some ft =>
    have htag := _ycmd_get_filetype_tag _ _ ft hft
    cases hr : ycmd_rsp_is_server_ready E o.ready ft w with
    | none => simp [hft, hr] at h
    | some p =>
      obtain ⟨wr, r⟩ := p
      have hwr := ycmd_rsp_is_server_ready_sent E o.ready ft w wr r
        (filetype_tags_nulFree ft htag) hr
      simp only [hft, hr, Option.bind_eq_bind, Option.some_bind] at h
      refine ⟨ft, r, ?_⟩
      by_cases hcond : wr.ycmd_globals.running ≠ 0 ∧ r ≠ 0
      · rw [if_pos hcond] at h
        obtain ⟨m1, hm1, _⟩ := ycmd_gen_extra_conf_extends o.find_ret filepath
          (get_all_content fileage) wr
        obtain ⟨w2, h2, h⟩ := Option.bind_eq_some.mp h
        obtain ⟨m2, hm2⟩ := _ycmd_req_simple_request_extends E o.load
          (ascii "/load_extra_conf_file") 0 0 filepath (some []) _ w2 h2
        obtain ⟨q3, h3, h⟩ := Option.bind_eq_some.mp h
        obtain ⟨w3, r3⟩ := q3
        obtain ⟨m3, hm3⟩ := ycmd_json_event_notification_extends E o.notify columnnum
          linenum filepath (ascii "FileReadyToParse") (get_all_content fileage) w2 w3 r3 h3
        obtain ⟨q4, h4, h⟩ := Option.bind_eq_some.mp h
        obtain ⟨w4, r4⟩ := q4
        obtain ⟨m4, hm4⟩ : ∃ m, w4.trace = w3.trace ++ m := by
          obtain ⟨_, m, _, hm, _⟩ := ycmd_req_completions_suggestions_trace E
            o.completions linenum columnnum filepath (get_all_content fileage)
            (ascii "filetype_default") w3 w4 r4 h4
          exact ⟨_, hm⟩
        obtain ⟨m5, hm5⟩ := _ycmd_req_simple_request_extends E o.ignore
          (ascii "/ignore_extra_conf_file") 0 0 filepath (some []) w4 w1 h
        have ht : wr.trace =
            w.trace ++ [.request (readiness_request E w.ycmd_globals ft)] := by
          rw [hwr]; rfl
        refine ⟨m1 ++ m2 ++ m3 ++ m4 ++ m5, rfl, htag, by rw [hr, hwr], ?_, fun _ => ?_⟩
        · rw [hm5, hm4, hm3, hm2, hm1, ht]
          simp only [List.append_assoc, List.singleton_append, List.cons_append,
            List.nil_append]
        · rw [hwr] at hcond; exact hcond
      · rw [if_neg hcond] at h
        simp only [Option.some.injEq] at h
        subst h
        refine ⟨[], rfl, htag, by rw [hr, hwr], ?_, fun hne => absurd rfl hne⟩
        rw [hwr]; rfl
theorem ycmd_event_notify_not_ready (E : Env) (ready notify : Response) (eventname : List Nat)
    (columnnum linenum : Int) (filepath : List Nat) (fileage : List (List Nat)) (w wr : World)
    (ft : List Nat) (r : Int) (hc : w.ycmd_globals.connected ≠ 0)
    (hft : _ycmd_get_filetype filepath (get_all_content fileage) = some ft)
    (hr : ycmd_rsp_is_server_ready E ready ft w = some (wr, r))
    (hn : w.ycmd_globals.running = 0 ∨ r = 0) :
    ycmd_event_notify E ready notify eventname columnnum linenum filepath fileage w = some wr ∧
      wr.trace = w.trace ++ [.request (readiness_request E w.ycmd_globals ft)] := by
  have htag := _ycmd_get_filetype_tag _ _ ft hft
  have hwr := ycmd_rsp_is_server_ready_sent E ready ft w wr r (filetype_tags_nulFree ft htag) hr
  have hrun : wr.ycmd_globals.running = w.ycmd_globals.running := by rw [hwr]; rfl
  have hcond : ¬ (wr.ycmd_globals.running ≠ 0 ∧ r ≠ 0) := by
    rw [hrun]
    rcases hn with h | h
    · exact fun hh => hh.1 h
    · exact fun hh => hh.2 h
  refine ⟨?_, by rw [hwr]; rfl⟩
  unfold ycmd_event_notify
  rw [if_neg hc]
  simp only [hft, hr, Option.bind_eq_bind, Option.some_bind]
  rw [if_neg hcond]

theorem ycmd_event_file_ready_to_parse_not_ready (E : Env) (o : ParseOutcomes)
    (columnnum linenum : Int) (filepath : List Nat) (fileage : List (List Nat)) (w wr : World)
    (ft : List Nat) (r : Int) (hc : w.ycmd_globals.connected ≠ 0)
    (hft : _ycmd_get_filetype filepath (get_all_content fileage) = some ft)
    (hr : ycmd_rsp_is_server_ready E o.ready ft w = some (wr, r))
    (hn : w.ycmd_globals.running = 0 ∨ r = 0) :
    ycmd_event_file_ready_to_parse E o columnnum linenum filepath fileage w = some wr ∧
      wr.trace = w.trace ++ [.request (readiness_request E w.ycmd_globals ft)] := by
  have htag := _ycmd_get_filetype_tag _ _ ft hft
  have hwr := ycmd_rsp_is_server_ready_sent E o.ready ft w wr r
    (filetype_tags_nulFree ft htag) hr
  have hrun : wr.ycmd_globals.running = w.ycmd_globals.running := by rw [hwr]; rfl
  have hcond : ¬ (wr.ycmd_globals.running ≠ 0 ∧ r ≠ 0) := by
    rw [hrun]
    rcases hn with h | h
    · exact fun hh => hh.1 h
    · exact fun hh => hh.2 h
  refine ⟨?_, by rw [hwr]; rfl⟩
  unfold ycmd_event_file_ready_to_parse
  rw [if_neg hc]
  simp only [hft, hr, Option.bind_eq_bind, Option.some_bind]
  rw [if_neg hcond]

theorem ycmd_event_notify_idle (E : Env) (ready notify : Response) (eventname : List Nat)
    (columnnum linenum : Int) (filepath : List Nat) (fileage : List (List Nat)) (w : World)
    (hc : w.ycmd_globals.connected = 0) :
    ycmd_event_notify E ready notify eventname columnnum linenum filepath fileage w = some w := by
  unfold ycmd_event_notify
  rw [if_pos hc]

theorem ycmd_event_file_ready_to_parse_idle (E : Env) (o : ParseOutcomes)
    (columnnum linenum : Int) (filepath : List Nat) (fileage : List (List Nat)) (w : World)
    (hc : w.ycmd_globals.connected = 0) :
    ycmd_event_file_ready_to_parse E o columnnum linenum filepath fileage w = some w := by
  unfold ycmd_event_file_ready_to_parse
  rw [if_pos hc]

/-- C27. In each of `ycmd_event_file_ready_to_parse`, `ycmd_event_buffer_unload`,
`ycmd_event_buffer_visit` and `ycmd_event_current_identifier_finished`: with
`connected` 0 the call returns with nothing sent; otherwise, whenever the call
returns, the first effect it added is the readiness request, a `GET` of
`/ready` whose body is `subserver=` followed by one of the fixed filetype tags,
and any effect after it, so any request that carries the document, was added
only if `running` is set and `ycmd_rsp_is_server_ready` returned a value other
than 0 before it; and when `running` is 0 or the readiness check returns 0 the
call does return, with the readiness request as its one effect. -/
theorem content_sent_only_after_ready (E : Env) (o : ParseOutcomes) (columnnum linenum : Int)
    (filepath : List Nat) (fileage : List (List Nat)) (w : World) :
    ∀ f ∈ [ycmd_event_file_ready_to_parse E o, ycmd_event_buffer_unload E o.ready o.notify,
        ycmd_event_buffer_visit E o.ready o.notify,
        ycmd_event_current_identifier_finished E o.ready o.notify],
      (w.ycmd_globals.connected = 0 → f columnnum linenum filepath fileage w = some w) ∧
      (w.ycmd_globals.connected ≠ 0 →
        (∀ w1, f columnnum linenum filepath fileage w = some w1 →
          ∃ ft r more, _ycmd_get_filetype filepath (get_all_content fileage) = some ft ∧
            ft ∈ filetype_tags ∧
            ycmd_rsp_is_server_ready E o.ready ft w =
              some (w.emit (.request (readiness_request E w.ycmd_globals ft)), r) ∧
            w1.trace = w.trace ++ .request (readiness_request E w.ycmd_globals ft) :: more ∧
            (more ≠ [] → w.ycmd_globals.running ≠ 0 ∧ r ≠ 0)) ∧
        (∀ ft wr r, _ycmd_get_filetype filepath (get_all_content fileage) = some ft →
          ycmd_rsp_is_server_ready E o.ready ft w = some (wr, r) →
          (w.ycmd_globals.running = 0 ∨ r = 0) →
          f columnnum linenum filepath fileage w = some wr ∧
            wr.trace = w.trace ++ [.request (readiness_request E w.ycmd_globals ft)])) := by
  intro f hf
  simp only [List.mem_cons, List.mem_singleton, List.not_mem_nil, or_false] at hf
  rcases hf with rfl | rfl | rfl | rfl
  · exact ⟨ycmd_event_file_ready_to_parse_idle E o columnnum linenum filepath fileage w,
      fun hc => ⟨fun w1 h =>
        ycmd_event_file_ready_to_parse_sent E o columnnum linenum filepath fileage w w1 hc h,
      fun ft wr r hft hr hn => ycmd_event_file_ready_to_parse_not_ready E o columnnum linenum
        filepath fileage w wr ft r hc hft hr hn⟩⟩
  · exact ⟨ycmd_event_notify_idle E o.ready o.notify _ columnnum linenum filepath fileage w,
      fun hc => ⟨fun w1 h =>
        ycmd_event_notify_sent E o.ready o.notify _ columnnum linenum filepath fileage w w1 hc h,
      fun ft wr r hft hr hn => ycmd_event_notify_not_ready E o.ready o.notify _ columnnum
        linenum filepath fileage w wr ft r hc hft hr hn⟩⟩
  · exact ⟨ycmd_event_notify_idle E o.ready o.notify _ columnnum linenum filepath fileage w,
      fun hc => ⟨fun w1 h =>
        ycmd_event_notify_sent E o.ready o.notify _ columnnum linenum filepath fileage w w1 hc h,
      fun ft wr r hft hr hn => ycmd_event_notify_not_ready E o.ready o.notify _ columnnum
        linenum filepath fileage w wr ft r hc hft hr hn⟩⟩
  · exact ⟨ycmd_event_notify_idle E o.ready o.notify _ columnnum linenum filepath fileage w,
      fun hc => ⟨fun w1 h =>
        ycmd_event_notify_sent E o.ready o.notify _ columnnum linenum filepath fileage w w1 hc h,
      fun ft wr r hft hr hn => ycmd_event_notify_not_ready E o.ready o.notify _ columnnum
        linenum filepath fileage w wr ft r hc hft hr hn⟩⟩

theorem ycmd_rsp_is_server_ready_refused (E : Env) (resp : Response) (filetype : List Nat)
    (w : World) (h : List Nat) (hh : resp.hmac_header = some h) (hc : resp.code ≠ 200) :
    ∃ w1, ycmd_rsp_is_server_ready E resp filetype w = some (w1, 0) := by
  obtain ⟨w1, h1⟩ := ycmd_rsp_is_server_ready_begun E resp filetype w (Nat.zero_le _)
  refine ⟨w1, ?_⟩
  rw [h1, hh, ycmd_compare_hmac_some]
  simp [c_bool, hc]

/-- Witness of C27: from the sample state, with a server that answers every
request with status 503, `ycmd_event_buffer_visit` on `a.py` returns having
sent the readiness request for `python` and nothing else. -/
theorem content_sent_only_after_ready_witness :
    sample_world.ycmd_globals.connected ≠ 0 ∧
    _ycmd_get_filetype (ascii "a.py") (get_all_content [ascii "x = 1"]) =
      some (ascii "python") ∧
    ∃ wr, ycmd_rsp_is_server_ready sample_env unavailable_outcomes.ready (ascii "python")
        sample_world = some (wr, 0) ∧
      ycmd_event_buffer_visit sample_env unavailable_outcomes.ready unavailable_outcomes.notify
        7 1 (ascii "a.py") [ascii "x = 1"] sample_world = some wr ∧
      wr.trace = sample_world.trace ++
        [.request (readiness_request sample_env sample_world.ycmd_globals (ascii "python"))] := by
  have hc : sample_world.ycmd_globals.connected ≠ 0 := by decide
  have hft : _ycmd_get_filetype (ascii "a.py") (get_all_content [ascii "x = 1"]) =
      some (ascii "python") := by decide
  obtain ⟨wr, hwr⟩ := ycmd_rsp_is_server_ready_refused sample_env unavailable_outcomes.ready
    (ascii "python") sample_world (ascii "AAAA") rfl (by decide)
  exact ⟨hc, hft, wr, hwr,
    ((content_sent_only_after_ready sample_env unavailable_outcomes 7 1 (ascii "a.py")
      [ascii "x = 1"] sample_world _ (by simp)).2 hc).2 (ascii "python") wr 0 hft hwr
      (Or.inr rfl)⟩

end Ycmd
